import Mathlib

/-!
# A verification development for the SDL shader compiler

The development embeds the lexer (`src/lexer/lexer.cpp`), the recursive-descent
parser (`src/parser/parser.cpp`), the two code generators
(`src/codegen/glsl_generator.cpp`, `src/codegen/cuda_generator.cpp`) and the
orchestration of `Compiler::Impl::compile` (`src/compiler/compiler.cpp`) as
executable Lean definitions, and proves properties of them.

Conventions of the embedding.

* A `std::string` that is scanned character by character (the lexer's
  `source_`) is a `List Char`, one element per `char`.  Token texts, AST names
  and generated output are `String`s.
* `size_t` counters (`position_`, `line_`, `column_`, `current_`) are natural
  numbers.  The only place where wrap-around could matter, the decrement
  `current_--` of `parseForStatement`, has a distinct outcome (`Res.oob`) for a
  zero cursor, which is proved not to happen.
* A C++ `while` loop becomes a recursive function on an explicit iteration
  budget.  For the lexer the budget is the number of unread characters; for the
  parser it is a fuel argument and running out of it is a distinct outcome
  (`Res.fuel`) that is proved not to happen for sufficient fuel.
* A thrown `std::runtime_error` is the outcome `Res.err`, which keeps the cursor
  position reached when the exception was thrown.
-/

namespace sdl

/-! ## Tokens (`include/lexer/lexer.h`) -/

/-- The enumeration `TokenType`. -/
inductive TokenType
  | IDENTIFIER | INTEGER_LITERAL | FLOAT_LITERAL | STRING_LITERAL
  | SHADER | VERTEX | FRAGMENT | COMPUTE | IN | OUT | UNIFORM | CONST | STRUCT
  | IF | ELSE | FOR | WHILE | RETURN | VOID
  | BOOL | INT | FLOAT | VEC2 | VEC3 | VEC4 | MAT2 | MAT3 | MAT4
  | SAMPLER2D | SAMPLER3D | SAMPLERCUBE
  | ASSIGN | PLUS | MINUS | MULTIPLY | DIVIDE | MODULO
  | EQUAL | NOT_EQUAL | LESS_THAN | LESS_EQUAL | GREATER_THAN | GREATER_EQUAL
  | LOGICAL_AND | LOGICAL_OR | LOGICAL_NOT
  | SEMICOLON | COLON | COMMA | DOT
  | LEFT_PAREN | RIGHT_PAREN | LEFT_BRACE | RIGHT_BRACE | LEFT_BRACKET | RIGHT_BRACKET
  | NEWLINE | WHITESPACE | COMMENT | END_OF_FILE | UNKNOWN
  deriving DecidableEq, Repr

/-- The record `Token`: kind, text, 1-based line and column. -/
structure Token where
  type : TokenType
  value : String
  line : Nat
  column : Nat
  deriving DecidableEq, Repr

/-! ## Lexer (`src/lexer/lexer.cpp`) -/

/-- The table `keywords` together with `Lexer::getKeywordType`: the kind of a
reserved word, `IDENTIFIER` for every other text. -/
def getKeywordType (identifier : String) : TokenType :=
  if identifier = "shader" then .SHADER
  else if identifier = "vertex" then .VERTEX
  else if identifier = "fragment" then .FRAGMENT
  else if identifier = "compute" then .COMPUTE
  else if identifier = "in" then .IN
  else if identifier = "out" then .OUT
  else if identifier = "uniform" then .UNIFORM
  else if identifier = "const" then .CONST
  else if identifier = "struct" then .STRUCT
  else if identifier = "if" then .IF
  else if identifier = "else" then .ELSE
  else if identifier = "for" then .FOR
  else if identifier = "while" then .WHILE
  else if identifier = "return" then .RETURN
  else if identifier = "void" then .VOID
  else if identifier = "bool" then .BOOL
  else if identifier = "int" then .INT
  else if identifier = "float" then .FLOAT
  else if identifier = "vec2" then .VEC2
  else if identifier = "vec3" then .VEC3
  else if identifier = "vec4" then .VEC4
  else if identifier = "mat2" then .MAT2
  else if identifier = "mat3" then .MAT3
  else if identifier = "mat4" then .MAT4
  else if identifier = "sampler2D" then .SAMPLER2D
  else if identifier = "sampler3D" then .SAMPLER3D
  else if identifier = "samplerCube" then .SAMPLERCUBE
  else .IDENTIFIER

/-- The C library predicate `std::isspace` in the "C" locale. -/
def isSpace (c : Char) : Bool :=
  c = ' ' || c = '\t' || c = '\n' || c = Char.ofNat 11 || c = Char.ofNat 12 || c = '\r'

/-- The predicate `Lexer::isDigit`, that is `std::isdigit`. -/
def isDigit (c : Char) : Bool :=
  decide ('0' ≤ c) && decide (c ≤ '9')

/-- The predicate `Lexer::isAlpha`: `std::isalpha` in the "C" locale, or an underscore. -/
def isAlpha (c : Char) : Bool :=
  (decide ('a' ≤ c) && decide (c ≤ 'z')) || (decide ('A' ≤ c) && decide (c ≤ 'Z')) || c = '_'

/-- The predicate `Lexer::isAlphaNumeric`. -/
def isAlphaNumeric (c : Char) : Bool :=
  isAlpha c || isDigit c

/-- The call `source_.substr(pos, len)` converted to a token text. -/
def substr (source : List Char) (pos len : Nat) : String :=
  String.mk ((source.drop pos).take len)

/-- The mutable fields of the class `Lexer`. -/
structure Lexer where
  source : List Char
  position : Nat
  line : Nat
  column : Nat
  deriving DecidableEq, Repr

namespace Lexer

/-- The constructor `Lexer::Lexer`. -/
def new (source : List Char) : Lexer :=
  { source := source, position := 0, line := 1, column := 1 }

/-- The method `Lexer::isAtEnd`. -/
def isAtEnd (lx : Lexer) : Bool :=
  decide (lx.position ≥ lx.source.length)

/-- The method `Lexer::currentChar`: the NUL character at end of input. -/
def currentChar (lx : Lexer) : Char :=
  if lx.isAtEnd then Char.ofNat 0 else lx.source.getD lx.position (Char.ofNat 0)

/-- The method `Lexer::peekChar` with its default offset 1. -/
def peekChar (lx : Lexer) : Char :=
  let pos := lx.position + 1
  if pos ≥ lx.source.length then Char.ofNat 0 else lx.source.getD pos (Char.ofNat 0)

/-- The method `Lexer::advance`: nothing at end of input, otherwise one
character forward with the line and column bookkeeping. -/
def advance (lx : Lexer) : Lexer :=
  if lx.isAtEnd then lx
  else if lx.source.getD lx.position (Char.ofNat 0) = '\n' then
    { lx with line := lx.line + 1, column := 1, position := lx.position + 1 }
  else
    { lx with column := lx.column + 1, position := lx.position + 1 }

/-- The number of characters not yet read; every loop of the lexer advances on
each iteration, so this bounds its number of iterations. -/
def remaining (lx : Lexer) : Nat :=
  lx.source.length - lx.position

/-- The loop of `Lexer::skipWhitespace`. -/
def skipWhitespaceLoop : Nat → Lexer → Lexer
  | 0, lx => lx
  | n + 1, lx =>
    if !lx.isAtEnd && isSpace lx.currentChar then skipWhitespaceLoop n lx.advance else lx

/-- The method `Lexer::skipWhitespace`. -/
def skipWhitespace (lx : Lexer) : Lexer :=
  skipWhitespaceLoop lx.remaining lx

/-- The loop of `Lexer::skipComment`. -/
def skipCommentLoop : Nat → Lexer → Lexer
  | 0, lx => lx
  | n + 1, lx =>
    if !lx.isAtEnd && lx.currentChar ≠ '\n' then skipCommentLoop n lx.advance else lx

/-- The method `Lexer::skipComment`. -/
def skipComment (lx : Lexer) : Lexer :=
  skipCommentLoop lx.remaining lx

/-- The loop `while (!isAtEnd() && isAlphaNumeric(currentChar())) advance();`. -/
def alnumLoop : Nat → Lexer → Lexer
  | 0, lx => lx
  | n + 1, lx =>
    if !lx.isAtEnd && isAlphaNumeric lx.currentChar then alnumLoop n lx.advance else lx

/-- The loop `while (!isAtEnd() && isDigit(currentChar())) advance();`. -/
def digitLoop : Nat → Lexer → Lexer
  | 0, lx => lx
  | n + 1, lx =>
    if !lx.isAtEnd && isDigit lx.currentChar then digitLoop n lx.advance else lx

/-- The method `Lexer::readIdentifier`. -/
def readIdentifier (lx : Lexer) : Token × Lexer :=
  let start := lx.position
  let tokenLine := lx.line
  let tokenColumn := lx.column
  let lx1 := alnumLoop lx.remaining lx
  let value := substr lx1.source start (lx1.position - start)
  ({ type := getKeywordType value, value := value, line := tokenLine, column := tokenColumn }, lx1)

/-- The method `Lexer::readNumber`. -/
def readNumber (lx : Lexer) : Token × Lexer :=
  let start := lx.position
  let tokenLine := lx.line
  let tokenColumn := lx.column
  let lx1 := digitLoop lx.remaining lx
  if !lx1.isAtEnd && lx1.currentChar = '.' && isDigit lx1.peekChar then
    let lx2 := lx1.advance
    let lx3 := digitLoop lx2.remaining lx2
    ({ type := .FLOAT_LITERAL, value := substr lx3.source start (lx3.position - start),
       line := tokenLine, column := tokenColumn }, lx3)
  else
    ({ type := .INTEGER_LITERAL, value := substr lx1.source start (lx1.position - start),
       line := tokenLine, column := tokenColumn }, lx1)

/-- The loop of `Lexer::readString`: a backslash takes the following character
with it. -/
def stringLoop : Nat → Lexer → Lexer
  | 0, lx => lx
  | n + 1, lx =>
    if !lx.isAtEnd && lx.currentChar ≠ '"' then
      stringLoop n (if lx.currentChar = '\\' then lx.advance.advance else lx.advance)
    else lx

/-- The method `Lexer::readString`. -/
def readString (lx : Lexer) : Token × Lexer :=
  let start := lx.position
  let tokenLine := lx.line
  let tokenColumn := lx.column
  let lx1 := lx.advance
  let lx2 := stringLoop lx1.remaining lx1
  if lx2.isAtEnd then
    ({ type := .UNKNOWN, value := "", line := tokenLine, column := tokenColumn }, lx2)
  else
    let lx3 := lx2.advance
    ({ type := .STRING_LITERAL, value := substr lx3.source (start + 1) (lx3.position - start - 2),
       line := tokenLine, column := tokenColumn }, lx3)

/-- The part of `Lexer::nextToken` from the test `c == '/'` to the end: comment
or division, string, number, identifier, and the unknown-character fallback. -/
def nextTokenFromSlash (lx : Lexer) (c : Char) (tokenLine tokenColumn : Nat) : Token × Lexer :=
  if c = '/' then
    if lx.peekChar = '/' then
      ({ type := .COMMENT, value := "", line := tokenLine, column := tokenColumn }, lx.skipComment)
    else
      ({ type := .DIVIDE, value := "/", line := tokenLine, column := tokenColumn }, lx.advance)
  else if c = '"' then lx.readString
  else if isDigit c then lx.readNumber
  else if isAlpha c then lx.readIdentifier
  else
    ({ type := .UNKNOWN, value := String.singleton c, line := tokenLine, column := tokenColumn },
      lx.advance)

/-- The part of `Lexer::nextToken` from the test `c == '|'` on.  When the
character after a `|` is not a second `|`, control leaves the `if` with the
first character already consumed and falls through to the later tests. -/
def nextTokenFromPipe (lx : Lexer) (c : Char) (tokenLine tokenColumn : Nat) : Token × Lexer :=
  if c = '|' then
    let lx1 := lx.advance
    if lx1.currentChar = '|' then
      ({ type := .LOGICAL_OR, value := "||", line := tokenLine, column := tokenColumn }, lx1.advance)
    else nextTokenFromSlash lx1 c tokenLine tokenColumn
  else nextTokenFromSlash lx c tokenLine tokenColumn

/-- The part of `Lexer::nextToken` from the test `c == '&'` on, with the same
fall-through as for `|`. -/
def nextTokenFromAmp (lx : Lexer) (c : Char) (tokenLine tokenColumn : Nat) : Token × Lexer :=
  if c = '&' then
    let lx1 := lx.advance
    if lx1.currentChar = '&' then
      ({ type := .LOGICAL_AND, value := "&&", line := tokenLine, column := tokenColumn }, lx1.advance)
    else nextTokenFromPipe lx1 c tokenLine tokenColumn
  else nextTokenFromPipe lx c tokenLine tokenColumn

/-- The four tests of `Lexer::nextToken` for `=`, `!`, `<`, `>`, each of which
looks for a following `=`. -/
def nextTokenFromEq (lx : Lexer) (c : Char) (tokenLine tokenColumn : Nat) : Token × Lexer :=
  if c = '=' then
    let lx1 := lx.advance
    if lx1.currentChar = '=' then
      ({ type := .EQUAL, value := "==", line := tokenLine, column := tokenColumn }, lx1.advance)
    else ({ type := .ASSIGN, value := "=", line := tokenLine, column := tokenColumn }, lx1)
  else if c = '!' then
    let lx1 := lx.advance
    if lx1.currentChar = '=' then
      ({ type := .NOT_EQUAL, value := "!=", line := tokenLine, column := tokenColumn }, lx1.advance)
    else ({ type := .LOGICAL_NOT, value := "!", line := tokenLine, column := tokenColumn }, lx1)
  else if c = '<' then
    let lx1 := lx.advance
    if lx1.currentChar = '=' then
      ({ type := .LESS_EQUAL, value := "<=", line := tokenLine, column := tokenColumn }, lx1.advance)
    else ({ type := .LESS_THAN, value := "<", line := tokenLine, column := tokenColumn }, lx1)
  else if c = '>' then
    let lx1 := lx.advance
    if lx1.currentChar = '=' then
      ({ type := .GREATER_EQUAL, value := ">=", line := tokenLine, column := tokenColumn }, lx1.advance)
    else ({ type := .GREATER_THAN, value := ">", line := tokenLine, column := tokenColumn }, lx1)
  else nextTokenFromAmp lx c tokenLine tokenColumn

/-- The method `Lexer::nextToken`: skip whitespace, then the `switch` over the
single-character tokens, then the remaining tests. -/
def nextToken (lx0 : Lexer) : Token × Lexer :=
  let lx := lx0.skipWhitespace
  let tokenLine := lx.line
  let tokenColumn := lx.column
  if lx.isAtEnd then
    ({ type := .END_OF_FILE, value := "", line := tokenLine, column := tokenColumn }, lx)
  else
    let c := lx.currentChar
    if c = '(' then ({ type := .LEFT_PAREN, value := "(", line := tokenLine, column := tokenColumn }, lx.advance)
    else if c = ')' then ({ type := .RIGHT_PAREN, value := ")", line := tokenLine, column := tokenColumn }, lx.advance)
    else if c = '{' then ({ type := .LEFT_BRACE, value := "\x7b", line := tokenLine, column := tokenColumn }, lx.advance)
    else if c = '}' then ({ type := .RIGHT_BRACE, value := "\x7d", line := tokenLine, column := tokenColumn }, lx.advance)
    else if c = '[' then ({ type := .LEFT_BRACKET, value := "[", line := tokenLine, column := tokenColumn }, lx.advance)
    else if c = ']' then ({ type := .RIGHT_BRACKET, value := "]", line := tokenLine, column := tokenColumn }, lx.advance)
    else if c = ';' then ({ type := .SEMICOLON, value := ";", line := tokenLine, column := tokenColumn }, lx.advance)
    else if c = ':' then ({ type := .COLON, value := ":", line := tokenLine, column := tokenColumn }, lx.advance)
    else if c = ',' then ({ type := .COMMA, value := ",", line := tokenLine, column := tokenColumn }, lx.advance)
    else if c = '.' then ({ type := .DOT, value := ".", line := tokenLine, column := tokenColumn }, lx.advance)
    else if c = '+' then ({ type := .PLUS, value := "+", line := tokenLine, column := tokenColumn }, lx.advance)
    else if c = '-' then ({ type := .MINUS, value := "-", line := tokenLine, column := tokenColumn }, lx.advance)
    else if c = '*' then ({ type := .MULTIPLY, value := "*", line := tokenLine, column := tokenColumn }, lx.advance)
    else if c = '%' then ({ type := .MODULO, value := "%", line := tokenLine, column := tokenColumn }, lx.advance)
    else nextTokenFromEq lx c tokenLine tokenColumn

/-- The loop of `Lexer::tokenize`: tokens of kind `WHITESPACE` and `COMMENT` are
dropped, every other token returned by `nextToken` is appended. -/
def tokenizeLoop : Nat → Lexer → List Token → List Token × Lexer
  | 0, lx, tokens => (tokens, lx)
  | n + 1, lx, tokens =>
    if !lx.isAtEnd then
      let r := lx.nextToken
      if r.1.type ≠ TokenType.WHITESPACE ∧ r.1.type ≠ TokenType.COMMENT then
        tokenizeLoop n r.2 (tokens ++ [r.1])
      else
        tokenizeLoop n r.2 tokens
    else (tokens, lx)

/-- The method `Lexer::tokenize`: run the loop, then append one `END_OF_FILE`
token carrying the final line and column. -/
def tokenize (lx : Lexer) : List Token :=
  let r := tokenizeLoop lx.remaining lx []
  r.1 ++ [{ type := .END_OF_FILE, value := "", line := r.2.line, column := r.2.column }]

end Lexer

/-- Tokenizing a source text with a fresh lexer, `Lexer(source).tokenize()`. -/
def tokenize (source : List Char) : List Token :=
  (Lexer.new source).tokenize

/-! ## Abstract syntax (`include/parser/ast.h`)

Owning pointers that the parser may leave null are `Option`s; children that
every construction site supplies are plain values. -/

/-- The enumeration `Type::Kind`. -/
inductive TypeKind
  | VOID | BOOL | INT | FLOAT | VEC2 | VEC3 | VEC4 | MAT2 | MAT3 | MAT4
  | SAMPLER2D | SAMPLER3D | SAMPLERCUBE | STRUCT | ARRAY
  deriving DecidableEq, Repr

/-- The node `Type`: kind, struct name, array size (`-1` for "not an array"). -/
structure TypeNode where
  kind : TypeKind
  name : String := ""
  arraySize : Int := -1
  deriving DecidableEq, Repr

/-- The enumeration `BinaryExpression::Operator`. -/
inductive BinaryOperator
  | ASSIGN | ADD | SUBTRACT | MULTIPLY | DIVIDE | MODULO
  | EQUAL | NOT_EQUAL | LESS_THAN | LESS_EQUAL | GREATER_THAN | GREATER_EQUAL
  | LOGICAL_AND | LOGICAL_OR
  deriving DecidableEq, Repr

/-- The enumeration `UnaryExpression::Operator`. -/
inductive UnaryOperator
  | MINUS | LOGICAL_NOT
  deriving DecidableEq, Repr

/-- The enumeration `LiteralExpression::LiteralType`. -/
inductive LiteralType
  | INT | FLOAT | BOOL | STRING
  deriving DecidableEq, Repr

/-- The subclasses of `Expression`. -/
inductive Expr
  | Identifier (name : String)
  | Literal (literalType : LiteralType) (value : String)
  | Binary (left : Expr) (op : BinaryOperator) (right : Expr)
  | Unary (op : UnaryOperator) (operand : Expr)
  | FunctionCall (functionName : String) (arguments : List Expr)
  | MemberAccess (object : Expr) (member : String)
  deriving Repr

/-- The enumeration `VariableDeclaration::Qualifier`. -/
inductive Qualifier
  | NONE | IN | OUT | UNIFORM | CONST
  deriving DecidableEq, Repr

/-- The enumeration `ShaderDeclaration::ShaderType`. -/
inductive ShaderType
  | VERTEX | FRAGMENT | COMPUTE
  deriving DecidableEq, Repr

/-- The fields of the class `VariableDeclaration`. -/
structure VariableDeclaration where
  qualifier : Qualifier
  type : TypeNode
  name : String
  initializer : Option Expr := none
  deriving Repr

/-- The subclasses of `Statement`. -/
inductive Stmt
  | ExpressionStatement (expression : Expr)
  | AssignmentStatement (target : Expr) (value : Expr)
  | VariableDeclaration (decl : VariableDeclaration)
  | FunctionDeclaration (name : String) (returnType : Option TypeNode)
      (parameters : List VariableDeclaration) (body : List Stmt)
  | ShaderDeclaration (name : String) (shaderType : ShaderType) (body : List Stmt)
  | BlockStatement (statements : List Stmt)
  | IfStatement (condition : Expr) (thenStatement : Stmt) (elseStatement : Option Stmt)
  | ForStatement (initialization : Option Stmt) (condition : Option Expr)
      (update : Option Stmt) (body : Stmt)
  | WhileStatement (condition : Expr) (body : Stmt)
  | ReturnStatement (value : Option Expr)
  deriving Repr

/-- The root node `Program`. -/
structure Program where
  declarations : List Stmt := []
  deriving Repr

/-! ## Parser (`src/parser/parser.cpp`) -/

/-- The outcome of running a parser method from a cursor position: a value and
the new cursor, a thrown `std::runtime_error` with the cursor at the throw, the
exhaustion of the recursion budget of the model, or a cursor that leaves the
token vector (a read of `tokens_[current_ - 1]` outside its bounds, or a
decrement of a zero cursor). -/
inductive Res (α : Type) where
  | ok (a : α) (cur : Nat)
  | err (msg : String) (cur : Nat)
  | fuel
  | oob
  deriving Repr

/-- A parser method: it reads the token vector `tokens_` and the cursor
`current_`. -/
def ParserM (α : Type) : Type := List Token → Nat → Res α

instance : Monad ParserM where
  pure a := fun _ c => Res.ok a c
  bind m f := fun ts c =>
    match m ts c with
    | Res.ok a c1 => f a ts c1
    | Res.err msg c1 => Res.err msg c1
    | Res.fuel => Res.fuel
    | Res.oob => Res.oob

/-- The statement `throw std::runtime_error(message)`. -/
def throwRuntimeError {α : Type} (message : String) : ParserM α :=
  fun _ c => Res.err message c

/-- The recursion budget of the model is used up. -/
def outOfFuel {α : Type} : ParserM α :=
  fun _ _ => Res.fuel

/-- The method `Parser::isAtEnd`; `ts[c]?` is `none` exactly when
`current_ >= tokens_.size()`. -/
def isAtEndAt (ts : List Token) (c : Nat) : Bool :=
  match ts[c]? with
  | none => true
  | some t => decide (t.type = TokenType.END_OF_FILE)

/-- The static token `eofToken` of `currentToken` and `peekToken`. -/
def eofToken : Token :=
  { type := .END_OF_FILE, value := "", line := 0, column := 0 }

/-- The method `Parser::currentToken`. -/
def currentTokenAt (ts : List Token) (c : Nat) : Token :=
  if isAtEndAt ts c then eofToken else ts.getD c eofToken

/-- The method `Parser::peekToken` with its default offset 1. -/
def peekTokenAt (ts : List Token) (c : Nat) : Token :=
  match ts[c + 1]? with
  | none => eofToken
  | some t => t

/-- The method `Parser::check`. -/
def checkAt (ts : List Token) (c : Nat) (type : TokenType) : Bool :=
  if isAtEndAt ts c then false
  else match ts[c]? with
    | none => false
    | some t => decide (t.type = type)

/-- The method `Parser::advance` as a function of the cursor. -/
def advanceAt (ts : List Token) (c : Nat) : Nat :=
  if !isAtEndAt ts c then c + 1 else c

/-- The method `Parser::isAtEnd` inside a parser method. -/
def isAtEnd : ParserM Bool :=
  fun ts c => Res.ok (isAtEndAt ts c) c

/-- The method `Parser::currentToken` inside a parser method. -/
def currentToken : ParserM Token :=
  fun ts c => Res.ok (currentTokenAt ts c) c

/-- The method `Parser::peekToken` inside a parser method. -/
def peekToken : ParserM Token :=
  fun ts c => Res.ok (peekTokenAt ts c) c

/-- The method `Parser::check` inside a parser method. -/
def check (type : TokenType) : ParserM Bool :=
  fun ts c => Res.ok (checkAt ts c type) c

/-- A disjunction `check(t1) || check(t2) || ...` over the listed kinds. -/
def checkAny (types : List TokenType) : ParserM Bool :=
  fun ts c => Res.ok (types.any (checkAt ts c)) c

/-- The method `Parser::advance` inside a parser method. -/
def advance : ParserM Unit :=
  fun ts c => Res.ok () (advanceAt ts c)

/-- The method `Parser::match`. -/
def matchTok (type : TokenType) : ParserM Bool :=
  fun ts c => if checkAt ts c type then Res.ok true (advanceAt ts c) else Res.ok false c

/-- A disjunction `match(t1) || match(t2) || ...` over the listed kinds: the
first kind that matches advances the cursor and ends the evaluation. -/
def matchAny (types : List TokenType) : ParserM Bool :=
  fun ts c => if types.any (checkAt ts c) then Res.ok true (advanceAt ts c) else Res.ok false c

/-- The method `Parser::consume`. -/
def consume (type : TokenType) (message : String) : ParserM Token :=
  fun ts c =>
    if checkAt ts c type then Res.ok (currentTokenAt ts c) (advanceAt ts c)
    else Res.err message c

/-- The read `tokens_[current_ - 1]`, out of bounds when the cursor is 0 or
beyond the end of the vector. -/
def previousToken : ParserM Token :=
  fun ts c =>
    if c = 0 then Res.oob
    else match ts[c - 1]? with
      | none => Res.oob
      | some t => Res.ok t c

/-- The read `size_t savePos = current_`. -/
def getCurrent : ParserM Nat :=
  fun _ c => Res.ok c c

/-- The assignment `current_ = savePos`. -/
def setCurrent (savePos : Nat) : ParserM Unit :=
  fun _ _ => Res.ok () savePos

/-- The statement `current_--`.  Decrementing a zero `size_t` would wrap around
to the largest value and put the cursor outside the vector for good; the model
records that as `Res.oob`. -/
def decrementCurrent : ParserM Unit :=
  fun _ c => if c = 0 then Res.oob else Res.ok () (c - 1)

/-- The thirteen type keywords tested by `parseDeclaration`,
`parseShaderDeclaration` and `parseStatement`. -/
def typeKeywords : List TokenType :=
  [.VOID, .BOOL, .INT, .FLOAT, .VEC2, .VEC3, .VEC4, .MAT2, .MAT3, .MAT4,
   .SAMPLER2D, .SAMPLER3D, .SAMPLERCUBE]

/-- The four qualifier keywords. -/
def qualifierKeywords : List TokenType :=
  [.IN, .OUT, .UNIFORM, .CONST]

/-- The nine type keywords that open a declaration in a `for` initializer. -/
def forInitTypeKeywords : List TokenType :=
  [.INT, .FLOAT, .BOOL, .VEC2, .VEC3, .VEC4, .MAT2, .MAT3, .MAT4]

/-- The nine type keywords that `parsePrimary` accepts as constructor names. -/
def constructorKeywords : List TokenType :=
  [.VEC2, .VEC3, .VEC4, .MAT2, .MAT3, .MAT4, .BOOL, .INT, .FLOAT]

/-- The method `Parser::parseType`. -/
def parseType : ParserM TypeNode := do
  if (← matchTok .VOID) then pure { kind := .VOID }
  else if (← matchTok .BOOL) then pure { kind := .BOOL }
  else if (← matchTok .INT) then pure { kind := .INT }
  else if (← matchTok .FLOAT) then pure { kind := .FLOAT }
  else if (← matchTok .VEC2) then pure { kind := .VEC2 }
  else if (← matchTok .VEC3) then pure { kind := .VEC3 }
  else if (← matchTok .VEC4) then pure { kind := .VEC4 }
  else if (← matchTok .MAT2) then pure { kind := .MAT2 }
  else if (← matchTok .MAT3) then pure { kind := .MAT3 }
  else if (← matchTok .MAT4) then pure { kind := .MAT4 }
  else if (← matchTok .SAMPLER2D) then pure { kind := .SAMPLER2D }
  else if (← matchTok .SAMPLER3D) then pure { kind := .SAMPLER3D }
  else if (← matchTok .SAMPLERCUBE) then pure { kind := .SAMPLERCUBE }
  else throwRuntimeError "Expected type"

/-- The method `Parser::parseQualifier`. -/
def parseQualifier : ParserM Qualifier := do
  if (← check .IN) then advance; pure .IN
  else if (← check .OUT) then advance; pure .OUT
  else if (← check .UNIFORM) then advance; pure .UNIFORM
  else if (← check .CONST) then advance; pure .CONST
  else pure .NONE

/-- The method `Parser::parseShaderType`. -/
def parseShaderType : ParserM ShaderType := do
  if (← matchTok .VERTEX) then pure .VERTEX
  else if (← matchTok .FRAGMENT) then pure .FRAGMENT
  else if (← matchTok .COMPUTE) then pure .COMPUTE
  else throwRuntimeError "Expected shader type (vertex, fragment, or compute)"

/-- The name given to a `FunctionCallExpression` by `parsePostfix`: that of the
callee when `dynamic_cast<IdentifierExpression*>` succeeds, the empty string of
the constructor call `FunctionCallExpression("")` otherwise. -/
def calleeName (expr : Expr) : String :=
  match expr with
  | Expr.Identifier name => name
  | _ => ""

/-- The lookahead of `parseStatement` (lines 294-311): on a type keyword, step
over it, test for an identifier that is not followed by `(`, and restore the
cursor. -/
def isVariableDeclarationAhead : ParserM Bool := do
  if (← checkAny typeKeywords) then
    let savePos ← getCurrent
    advance
    let isVariableDeclaration := (← check .IDENTIFIER) && ((← peekToken).type != .LEFT_PAREN)
    setCurrent savePos
    pure isVariableDeclaration
  else pure false

/-- The lookahead of `parseStatement` (lines 316-333) on an identifier: step
over it, test for `=`, and restore the cursor (both branches of the source
restore it before doing anything else). -/
def isAssignmentAhead : ParserM Bool := do
  let savePos ← getCurrent
  advance
  let isAssignment ← check .ASSIGN
  setCurrent savePos
  pure isAssignment

mutual

/-- The method `Parser::parseStatement`. -/
def parseStatement : Nat → ParserM Stmt
  | 0 => outOfFuel
  | n + 1 => do
    if (← matchTok .LEFT_BRACE) then parseBlockStatement n
    else if (← matchTok .IF) then parseIfStatement n
    else if (← matchTok .FOR) then parseForStatement n
    else if (← matchTok .WHILE) then parseWhileStatement n
    else if (← matchTok .RETURN) then parseReturnStatement n
    else if (← isVariableDeclarationAhead) then parseVariableDeclaration n
    else if (← check .IDENTIFIER) then
      if (← isAssignmentAhead) then
        let identToken ← consume .IDENTIFIER "Expected identifier"
        let _ ← consume .ASSIGN "Expected '='"
        let value ← parseExpression n
        let _ ← consume .SEMICOLON "Expected ';' after assignment"
        pure (Stmt.AssignmentStatement (Expr.Identifier identToken.value) value)
      else
        let expr ← parseExpression n
        let _ ← consume .SEMICOLON "Expected ';' after expression"
        pure (Stmt.ExpressionStatement expr)
    else
      let expr ← parseExpression n
      let _ ← consume .SEMICOLON "Expected ';' after expression"
      pure (Stmt.ExpressionStatement expr)

/-- The loop `while (!check(RIGHT_BRACE) && !isAtEnd()) push_back(parseStatement())`
of `parseBlockStatement` and of the function bodies. -/
def parseStatementList : Nat → List Stmt → ParserM (List Stmt)
  | 0, _ => outOfFuel
  | n + 1, statements => do
    if !(← check .RIGHT_BRACE) && !(← isAtEnd) then
      let stmt ← parseStatement n
      parseStatementList n (statements ++ [stmt])
    else pure statements

/-- The method `Parser::parseBlockStatement`. -/
def parseBlockStatement : Nat → ParserM Stmt
  | 0 => outOfFuel
  | n + 1 => do
    let statements ← parseStatementList n []
    let _ ← consume .RIGHT_BRACE "Expected '\x7d'"
    pure (Stmt.BlockStatement statements)

/-- The tail shared by every variable declaration: an optional `= expression`
and the closing semicolon. -/
def parseVariableDeclarationRest : Nat → Qualifier → TypeNode → String → ParserM Stmt
  | 0, _, _, _ => outOfFuel
  | n + 1, qualifier, type, name => do
    if (← matchTok .ASSIGN) then
      let initializer ← parseExpression n
      let _ ← consume .SEMICOLON "Expected ';' after variable declaration"
      pure (Stmt.VariableDeclaration
        { qualifier := qualifier, type := type, name := name, initializer := some initializer })
    else
      let _ ← consume .SEMICOLON "Expected ';' after variable declaration"
      pure (Stmt.VariableDeclaration
        { qualifier := qualifier, type := type, name := name, initializer := none })

/-- The method `Parser::parseVariableDeclaration`. -/
def parseVariableDeclaration : Nat → ParserM Stmt
  | 0 => outOfFuel
  | n + 1 => do
    let qualifier ← parseQualifier
    let type ← parseType
    let nameToken ← consume .IDENTIFIER "Expected variable name"
    parseVariableDeclarationRest n qualifier type nameToken.value

/-- The method `Parser::parseIfStatement`. -/
def parseIfStatement : Nat → ParserM Stmt
  | 0 => outOfFuel
  | n + 1 => do
    let _ ← consume .LEFT_PAREN "Expected '(' after 'if'"
    let condition ← parseExpression n
    let _ ← consume .RIGHT_PAREN "Expected ')' after if condition"
    let thenStmt ← parseStatement n
    if (← matchTok .ELSE) then
      let elseStmt ← parseStatement n
      pure (Stmt.IfStatement condition thenStmt (some elseStmt))
    else
      pure (Stmt.IfStatement condition thenStmt none)

/-- The initializer clause of `Parser::parseForStatement` (lines 390-415). -/
def parseForInit : Nat → ParserM (Option Stmt)
  | 0 => outOfFuel
  | n + 1 => do
    if !(← check .SEMICOLON) then
      if (← checkAny forInitTypeKeywords) then
        let type ← parseType
        let nameToken ← consume .IDENTIFIER "Expected variable name"
        if (← matchTok .ASSIGN) then
          let initializer ← parseExpression n
          pure (some (Stmt.VariableDeclaration
            { qualifier := .NONE, type := type, name := nameToken.value,
              initializer := some initializer }))
        else
          pure (some (Stmt.VariableDeclaration
            { qualifier := .NONE, type := type, name := nameToken.value, initializer := none }))
      else
        let init ← parseStatement n
        decrementCurrent
        pure (some init)
    else pure none

/-- The method `Parser::parseForStatement`. -/
def parseForStatement : Nat → ParserM Stmt
  | 0 => outOfFuel
  | n + 1 => do
    let _ ← consume .LEFT_PAREN "Expected '(' after 'for'"
    let init ← parseForInit n
    let _ ← consume .SEMICOLON "Expected ';' after for init"
    let condition ← (do
      if !(← check .SEMICOLON) then
        let e ← parseExpression n
        pure (some e)
      else pure none)
    let _ ← consume .SEMICOLON "Expected ';' after for condition"
    let update ← (do
      if !(← check .RIGHT_PAREN) then
        let updateExpr ← parseExpression n
        pure (some (Stmt.ExpressionStatement updateExpr))
      else pure none)
    let _ ← consume .RIGHT_PAREN "Expected ')' after for clauses"
    let body ← parseStatement n
    pure (Stmt.ForStatement init condition update body)

/-- The method `Parser::parseWhileStatement`. -/
def parseWhileStatement : Nat → ParserM Stmt
  | 0 => outOfFuel
  | n + 1 => do
    let _ ← consume .LEFT_PAREN "Expected '(' after 'while'"
    let condition ← parseExpression n
    let _ ← consume .RIGHT_PAREN "Expected ')' after while condition"
    let body ← parseStatement n
    pure (Stmt.WhileStatement condition body)

/-- The method `Parser::parseReturnStatement`. -/
def parseReturnStatement : Nat → ParserM Stmt
  | 0 => outOfFuel
  | n + 1 => do
    if !(← check .SEMICOLON) then
      let value ← parseExpression n
      let _ ← consume .SEMICOLON "Expected ';' after return statement"
      pure (Stmt.ReturnStatement (some value))
    else
      let _ ← consume .SEMICOLON "Expected ';' after return statement"
      pure (Stmt.ReturnStatement none)

/-- The method `Parser::parseExpression`. -/
def parseExpression : Nat → ParserM Expr
  | 0 => outOfFuel
  | n + 1 => parseLogicalOr n

/-- The method `Parser::parseLogicalOr`. -/
def parseLogicalOr : Nat → ParserM Expr
  | 0 => outOfFuel
  | n + 1 => do
    let expr ← parseLogicalAnd n
    parseLogicalOrLoop n expr

/-- The loop of `Parser::parseLogicalOr`. -/
def parseLogicalOrLoop : Nat → Expr → ParserM Expr
  | 0, _ => outOfFuel
  | n + 1, expr => do
    if (← matchTok .LOGICAL_OR) then
      let right ← parseLogicalAnd n
      parseLogicalOrLoop n (Expr.Binary expr .LOGICAL_OR right)
    else pure expr

/-- The method `Parser::parseLogicalAnd`. -/
def parseLogicalAnd : Nat → ParserM Expr
  | 0 => outOfFuel
  | n + 1 => do
    let expr ← parseEquality n
    parseLogicalAndLoop n expr

/-- The loop of `Parser::parseLogicalAnd`. -/
def parseLogicalAndLoop : Nat → Expr → ParserM Expr
  | 0, _ => outOfFuel
  | n + 1, expr => do
    if (← matchTok .LOGICAL_AND) then
      let right ← parseEquality n
      parseLogicalAndLoop n (Expr.Binary expr .LOGICAL_AND right)
    else pure expr

/-- The method `Parser::parseEquality`. -/
def parseEquality : Nat → ParserM Expr
  | 0 => outOfFuel
  | n + 1 => do
    let expr ← parseComparison n
    parseEqualityLoop n expr

/-- The loop of `Parser::parseEquality`. -/
def parseEqualityLoop : Nat → Expr → ParserM Expr
  | 0, _ => outOfFuel
  | n + 1, expr => do
    if (← matchAny [.EQUAL, .NOT_EQUAL]) then
      let op := if (← previousToken).type = .EQUAL then BinaryOperator.EQUAL
        else BinaryOperator.NOT_EQUAL
      let right ← parseComparison n
      parseEqualityLoop n (Expr.Binary expr op right)
    else pure expr

/-- The method `Parser::parseComparison`. -/
def parseComparison : Nat → ParserM Expr
  | 0 => outOfFuel
  | n + 1 => do
    let expr ← parseAddition n
    parseComparisonLoop n expr

/-- The loop of `Parser::parseComparison`. -/
def parseComparisonLoop : Nat → Expr → ParserM Expr
  | 0, _ => outOfFuel
  | n + 1, expr => do
    if (← matchAny [.LESS_THAN, .LESS_EQUAL, .GREATER_THAN, .GREATER_EQUAL]) then
      let tokenType := (← previousToken).type
      let op ← (match tokenType with
        | .LESS_THAN => pure BinaryOperator.LESS_THAN
        | .LESS_EQUAL => pure BinaryOperator.LESS_EQUAL
        | .GREATER_THAN => pure BinaryOperator.GREATER_THAN
        | .GREATER_EQUAL => pure BinaryOperator.GREATER_EQUAL
        | _ => throwRuntimeError "Invalid comparison operator")
      let right ← parseAddition n
      parseComparisonLoop n (Expr.Binary expr op right)
    else pure expr

/-- The method `Parser::parseAddition`. -/
def parseAddition : Nat → ParserM Expr
  | 0 => outOfFuel
  | n + 1 => do
    let expr ← parseMultiplication n
    parseAdditionLoop n expr

/-- The loop of `Parser::parseAddition`. -/
def parseAdditionLoop : Nat → Expr → ParserM Expr
  | 0, _ => outOfFuel
  | n + 1, expr => do
    if (← matchAny [.PLUS, .MINUS]) then
      let op := if (← previousToken).type = .PLUS then BinaryOperator.ADD
        else BinaryOperator.SUBTRACT
      let right ← parseMultiplication n
      parseAdditionLoop n (Expr.Binary expr op right)
    else pure expr

/-- The method `Parser::parseMultiplication`. -/
def parseMultiplication : Nat → ParserM Expr
  | 0 => outOfFuel
  | n + 1 => do
    let expr ← parseUnary n
    parseMultiplicationLoop n expr

/-- The loop of `Parser::parseMultiplication`. -/
def parseMultiplicationLoop : Nat → Expr → ParserM Expr
  | 0, _ => outOfFuel
  | n + 1, expr => do
    if (← matchAny [.MULTIPLY, .DIVIDE, .MODULO]) then
      let tokenType := (← previousToken).type
      let op ← (match tokenType with
        | .MULTIPLY => pure BinaryOperator.MULTIPLY
        | .DIVIDE => pure BinaryOperator.DIVIDE
        | .MODULO => pure BinaryOperator.MODULO
        | _ => throwRuntimeError "Invalid multiplication operator")
      let right ← parseUnary n
      parseMultiplicationLoop n (Expr.Binary expr op right)
    else pure expr

/-- The method `Parser::parseUnary`. -/
def parseUnary : Nat → ParserM Expr
  | 0 => outOfFuel
  | n + 1 => do
    if (← matchAny [.LOGICAL_NOT, .MINUS]) then
      let op := if (← previousToken).type = .LOGICAL_NOT then UnaryOperator.LOGICAL_NOT
        else UnaryOperator.MINUS
      let operand ← parseUnary n
      pure (Expr.Unary op operand)
    else parsePostfix n

/-- The method `Parser::parsePrimary`. -/
def parsePrimary : Nat → ParserM Expr
  | 0 => outOfFuel
  | n + 1 => do
    if (← matchTok .INTEGER_LITERAL) then
      pure (Expr.Literal .INT (← previousToken).value)
    else if (← matchTok .FLOAT_LITERAL) then
      pure (Expr.Literal .FLOAT (← previousToken).value)
    else if (← matchTok .STRING_LITERAL) then
      pure (Expr.Literal .STRING (← previousToken).value)
    else if (← matchTok .IDENTIFIER) then
      pure (Expr.Identifier (← previousToken).value)
    else if (← matchAny constructorKeywords) then
      pure (Expr.Identifier (← previousToken).value)
    else if (← matchTok .LEFT_PAREN) then
      let expr ← parseExpression n
      let _ ← consume .RIGHT_PAREN "Expected ')' after expression"
      pure expr
    else throwRuntimeError "Expected expression"

/-- The method `Parser::parsePostfix`. -/
def parsePostfix : Nat → ParserM Expr
  | 0 => outOfFuel
  | n + 1 => do
    let expr ← parsePrimary n
    parsePostfixLoop n expr

/-- The loop `while (true)` of `Parser::parsePostfix`.  A call takes its name
from the callee when that is an identifier expression and the empty name
otherwise; an index expression is parsed and dropped. -/
def parsePostfixLoop : Nat → Expr → ParserM Expr
  | 0, _ => outOfFuel
  | n + 1, expr => do
    if (← matchTok .DOT) then
      let member ← consume .IDENTIFIER "Expected property name after '.'"
      parsePostfixLoop n (Expr.MemberAccess expr member.value)
    else if (← matchTok .LEFT_PAREN) then
      let functionName := calleeName expr
      if !(← check .RIGHT_PAREN) then
        let arguments ← parseArguments n []
        let _ ← consume .RIGHT_PAREN "Expected ')' after function arguments"
        parsePostfixLoop n (Expr.FunctionCall functionName arguments)
      else
        let _ ← consume .RIGHT_PAREN "Expected ')' after function arguments"
        parsePostfixLoop n (Expr.FunctionCall functionName [])
    else if (← matchTok .LEFT_BRACKET) then
      let _index ← parseExpression n
      let _ ← consume .RIGHT_BRACKET "Expected ']' after array index"
      parsePostfixLoop n (Expr.MemberAccess expr ("[" ++ toString 0 ++ "]"))
    else pure expr

/-- The loop `do ... while (match(COMMA))` over the arguments of a call. -/
def parseArguments : Nat → List Expr → ParserM (List Expr)
  | 0, _ => outOfFuel
  | n + 1, arguments => do
    let argument ← parseExpression n
    if (← matchTok .COMMA) then parseArguments n (arguments ++ [argument])
    else pure (arguments ++ [argument])

end

/-- The loop `do ... while (match(COMMA))` over the parameters of a function
declaration. -/
def parseParameters : Nat → List VariableDeclaration → ParserM (List VariableDeclaration)
  | 0, _ => outOfFuel
  | n + 1, parameters => do
    let paramQualifier ← parseQualifier
    let paramType ← parseType
    let paramName ← consume .IDENTIFIER "Expected parameter name"
    let param : VariableDeclaration :=
      { qualifier := paramQualifier, type := paramType, name := paramName.value }
    if (← matchTok .COMMA) then parseParameters n (parameters ++ [param])
    else pure (parameters ++ [param])

/-- The function-declaration branch, written out twice in the source
(`parseDeclaration` lines 101-133, `parseShaderDeclaration` lines 194-224): the
parameter list, then a body in braces or a semicolon. -/
def parseFunctionRest (n : Nat) (name : String) (returnType : TypeNode) : ParserM Stmt := do
  let _ ← consume .LEFT_PAREN "Expected '('"
  let parameters ← (do
    if !(← check .RIGHT_PAREN) then parseParameters n []
    else pure [])
  let _ ← consume .RIGHT_PAREN "Expected ')'"
  if (← matchTok .LEFT_BRACE) then
    let body ← parseStatementList n []
    let _ ← consume .RIGHT_BRACE "Expected '\x7d'"
    pure (Stmt.FunctionDeclaration name (some returnType) parameters body)
  else
    let _ ← consume .SEMICOLON "Expected ';' after function declaration"
    pure (Stmt.FunctionDeclaration name (some returnType) parameters [])

/-- The body loop of `Parser::parseShaderDeclaration`: qualified variable
declarations, functions and unqualified variable declarations; any other token
is an error. -/
def parseShaderBody : Nat → List Stmt → ParserM (List Stmt)
  | 0, _ => outOfFuel
  | n + 1, body => do
    if !(← check .RIGHT_BRACE) && !(← isAtEnd) then
      if (← checkAny qualifierKeywords) then
        let qualifier ← parseQualifier
        let type ← parseType
        let varName ← consume .IDENTIFIER "Expected variable name"
        let varDecl ← parseVariableDeclarationRest n qualifier type varName.value
        parseShaderBody n (body ++ [varDecl])
      else if (← checkAny typeKeywords) then
        let returnType ← parseType
        let name ← consume .IDENTIFIER "Expected name"
        if (← check .LEFT_PAREN) then
          let func ← parseFunctionRest n name.value returnType
          parseShaderBody n (body ++ [func])
        else
          let varDecl ← parseVariableDeclarationRest n .NONE returnType name.value
          parseShaderBody n (body ++ [varDecl])
      else
        throwRuntimeError ("Unexpected token in shader body at line " ++
          toString (← currentToken).line ++ ", column " ++ toString (← currentToken).column)
    else pure body

/-- The method `Parser::parseShaderDeclaration`. -/
def parseShaderDeclaration (n : Nat) : ParserM Stmt := do
  let nameToken ← consume .IDENTIFIER "Expected shader name"
  let _ ← consume .COLON "Expected ':' after shader name"
  let shaderType ← parseShaderType
  let _ ← consume .LEFT_BRACE "Expected '\x7b' to begin shader body"
  let body ← parseShaderBody n []
  let _ ← consume .RIGHT_BRACE "Expected '\x7d' to end shader body"
  pure (Stmt.ShaderDeclaration nameToken.value shaderType body)

/-- The method `Parser::parseDeclaration`. -/
def parseDeclaration (n : Nat) : ParserM Stmt := do
  if (← matchTok .SHADER) then parseShaderDeclaration n
  else if (← checkAny (qualifierKeywords ++ typeKeywords)) then
    let qualifier ← parseQualifier
    let type ← parseType
    if (← check .IDENTIFIER) then
      let nameToken ← consume .IDENTIFIER "Expected identifier"
      if (← check .LEFT_PAREN) then parseFunctionRest n nameToken.value type
      else parseVariableDeclarationRest n qualifier type nameToken.value
    else throwRuntimeError "Expected identifier after type"
  else parseStatement n

/-- The loop of `Parser::synchronize`; its budget is the number of tokens left,
and every iteration advances. -/
def synchronizeLoop : Nat → ParserM Unit
  | 0 => pure ()
  | n + 1 => do
    if !(← isAtEnd) then
      if (← previousToken).type = .SEMICOLON then pure ()
      else if [TokenType.SHADER, .IF, .FOR, .WHILE, .RETURN].contains (← currentToken).type then
        pure ()
      else
        advance
        synchronizeLoop n
    else pure ()

/-- The method `Parser::synchronize`. -/
def synchronize : ParserM Unit :=
  fun ts c => (do advance; synchronizeLoop (ts.length - c)) ts c

/-- One line printed by `Parser::reportError`: the message, and the line and
column of the current token unless the cursor is at end of input. -/
structure ErrorReport where
  message : String
  position : Option (Nat × Nat)
  deriving DecidableEq, Repr

/-- The method `Parser::reportError`. -/
def reportError (ts : List Token) (c : Nat) (message : String) : ErrorReport :=
  if !isAtEndAt ts c then
    { message := message,
      position := some ((currentTokenAt ts c).line, (currentTokenAt ts c).column) }
  else
    { message := message, position := none }

/-- The loop of `Parser::parseProgram` from cursor `c`: the declarations
collected so far and the error lines printed so far are carried along. -/
def parseProgramLoop : Nat → List Token → Nat → List Stmt → List ErrorReport →
    Res (Program × List ErrorReport)
  | 0, _, _, _, _ => Res.fuel
  | n + 1, ts, c, declarations, errors =>
    if !isAtEndAt ts c then
      match parseDeclaration n ts c with
      | Res.ok decl c1 => parseProgramLoop n ts c1 (declarations ++ [decl]) errors
      | Res.err msg c1 =>
        match synchronize ts c1 with
        | Res.ok _ c2 => parseProgramLoop n ts c2 declarations (errors ++ [reportError ts c1 msg])
        | Res.err msg2 c2 => Res.err msg2 c2
        | Res.fuel => Res.fuel
        | Res.oob => Res.oob
      | Res.fuel => Res.fuel
      | Res.oob => Res.oob
    else Res.ok ({ declarations := declarations }, errors) c

/-- Fuel that suffices for every token vector (see `parseProgram_total`). -/
def parseFuel (ts : List Token) : Nat :=
  40 * (ts.length + 2)

/-- The constructor `Parser::Parser` followed by `Parser::parseProgram`. -/
def parseProgram (ts : List Token) : Res (Program × List ErrorReport) :=
  parseProgramLoop (parseFuel ts) ts 0 [] []

/-! ## Code generation (`src/codegen/`) -/

/-- The mutable state of a code generator: the text written to `output_`, the
counter `indentLevel_`, and the private flag of the backend (`inKernel_` of the
CUDA generator; the flag `inShader_` of the GLSL generator is never written). -/
structure Generator where
  output : String := ""
  indentLevel : Nat := 0
  inKernel : Bool := false
  deriving DecidableEq, Repr

namespace Generator

/-- The method `BaseCodeGenerator::write`. -/
def write (g : Generator) (text : String) : Generator :=
  { g with output := g.output ++ text }

/-- The text written by `BaseCodeGenerator::indent` at a given level. -/
def indentText : Nat → String
  | 0 => ""
  | n + 1 => indentText n ++ "    "

/-- The method `BaseCodeGenerator::indent`. -/
def indent (g : Generator) : Generator :=
  g.write (indentText g.indentLevel)

/-- The method `BaseCodeGenerator::writeLine`. -/
def writeLine (g : Generator) (line : String) : Generator :=
  g.indent.write (line ++ "\n")

/-- The method `BaseCodeGenerator::increaseIndent`. -/
def increaseIndent (g : Generator) : Generator :=
  { g with indentLevel := g.indentLevel + 1 }

/-- The method `BaseCodeGenerator::decreaseIndent`. -/
def decreaseIndent (g : Generator) : Generator :=
  if g.indentLevel > 0 then { g with indentLevel := g.indentLevel - 1 } else g

end Generator

/-- The methods `getBinaryOperatorString` of both generators (the two switch
statements are identical). -/
def getBinaryOperatorString : BinaryOperator → String
  | .ASSIGN => "="
  | .ADD => "+"
  | .SUBTRACT => "-"
  | .MULTIPLY => "*"
  | .DIVIDE => "/"
  | .MODULO => "%"
  | .EQUAL => "=="
  | .NOT_EQUAL => "!="
  | .LESS_THAN => "<"
  | .LESS_EQUAL => "<="
  | .GREATER_THAN => ">"
  | .GREATER_EQUAL => ">="
  | .LOGICAL_AND => "&&"
  | .LOGICAL_OR => "||"

/-- The methods `getUnaryOperatorString` of both generators. -/
def getUnaryOperatorString : UnaryOperator → String
  | .MINUS => "-"
  | .LOGICAL_NOT => "!"

namespace GLSLGenerator

/-- The method `GLSLGenerator::getTypeString`. -/
def getTypeString (type : TypeNode) : String :=
  match type.kind with
  | .VOID => "void"
  | .BOOL => "bool"
  | .INT => "int"
  | .FLOAT => "float"
  | .VEC2 => "vec2"
  | .VEC3 => "vec3"
  | .VEC4 => "vec4"
  | .MAT2 => "mat2"
  | .MAT3 => "mat3"
  | .MAT4 => "mat4"
  | .SAMPLER2D => "sampler2D"
  | .SAMPLER3D => "sampler3D"
  | .SAMPLERCUBE => "samplerCube"
  | _ => "unknown"

/-- The method `GLSLGenerator::getQualifierString`. -/
def getQualifierString : Qualifier → String
  | .IN => "in"
  | .OUT => "out"
  | .UNIFORM => "uniform"
  | .CONST => "const"
  | _ => ""

mutual

/-- The expression visitors of `GLSLGenerator`. -/
def visitExpr : Expr → Generator → Generator
  | Expr.Identifier name, g => g.write name
  | Expr.Literal _ value, g => g.write value
  | Expr.Binary left op right, g =>
    let g := g.write "("
    let g := visitExpr left g
    let g := g.write (" " ++ getBinaryOperatorString op ++ " ")
    let g := visitExpr right g
    g.write ")"
  | Expr.Unary op operand, g =>
    let g := g.write (getUnaryOperatorString op)
    visitExpr operand g
  | Expr.FunctionCall functionName arguments, g =>
    let g := g.write (functionName ++ "(")
    let g := visitArguments arguments 0 g
    g.write ")"
  | Expr.MemberAccess object member, g =>
    let g := visitExpr object g
    g.write ("." ++ member)

/-- The argument loop of `GLSLGenerator::visit(FunctionCallExpression&)`, from
index `i` on. -/
def visitArguments : List Expr → Nat → Generator → Generator
  | [], _, g => g
  | argument :: rest, i, g =>
    let g := if i > 0 then g.write ", " else g
    let g := visitExpr argument g
    visitArguments rest (i + 1) g

end

/-- The part of `GLSLGenerator::visit(VariableDeclaration&)` before the final
`writeLine(";")`, which `visit(ForStatement&)` repeats for its initializer. -/
def visitVariableDeclarationHead (decl : VariableDeclaration) (g : Generator) : Generator :=
  let qualifier := getQualifierString decl.qualifier
  let g := if qualifier ≠ "" then g.write (qualifier ++ " ") else g
  let g := g.write (getTypeString decl.type)
  let g := g.write " "
  let g := g.write decl.name
  match decl.initializer with
  | some initializer => visitExpr initializer (g.write " = ")
  | none => g

/-- The parameter loop of `GLSLGenerator::visit(FunctionDeclaration&)`, from
index `i` on. -/
def visitParameters : List VariableDeclaration → Nat → Generator → Generator
  | [], _, g => g
  | param :: rest, i, g =>
    let g := if i > 0 then g.write ", " else g
    let qualifier := getQualifierString param.qualifier
    let g := if qualifier ≠ "" then g.write (qualifier ++ " ") else g
    let g := g.write (getTypeString param.type)
    let g := g.write (" " ++ param.name)
    visitParameters rest (i + 1) g

mutual

/-- The statement visitors of `GLSLGenerator`. -/
def visitStmt : Stmt → Generator → Generator
  | Stmt.ExpressionStatement expression, g =>
    let g := g.indent
    let g := visitExpr expression g
    g.write ";\n"
  | Stmt.AssignmentStatement target value, g =>
    let g := g.indent
    let g := visitExpr target g
    let g := g.write " = "
    let g := visitExpr value g
    g.write ";\n"
  | Stmt.VariableDeclaration decl, g =>
    let g := visitVariableDeclarationHead decl g
    g.writeLine ";"
  | Stmt.FunctionDeclaration name returnType parameters body, g =>
    let g := (match returnType with
      | some type => g.write (getTypeString type)
      | none => g.write "void")
    let g := g.write (" " ++ name ++ "(")
    let g := visitParameters parameters 0 g
    let g := g.writeLine ") \x7b"
    let g := g.increaseIndent
    let g := visitStmts body g
    let g := g.decreaseIndent
    let g := g.writeLine "\x7d"
    g.writeLine ""
  | Stmt.ShaderDeclaration name _ body, g =>
    let g := g.writeLine ("// Shader: " ++ name)
    visitStmts body g
  | Stmt.BlockStatement statements, g =>
    let g := g.writeLine "\x7b"
    let g := g.increaseIndent
    let g := visitStmts statements g
    let g := g.decreaseIndent
    g.writeLine "\x7d"
  | Stmt.IfStatement condition thenStatement elseStatement, g =>
    let g := g.indent
    let g := g.write "if ("
    let g := visitExpr condition g
    let g := g.writeLine ") \x7b"
    let g := g.increaseIndent
    let g := visitStmt thenStatement g
    let g := g.decreaseIndent
    let g := g.indent
    let g := (match elseStatement with
      | some elseStmt =>
        let g := g.writeLine "\x7d else \x7b"
        let g := g.increaseIndent
        let g := visitStmt elseStmt g
        let g := g.decreaseIndent
        g.indent
      | none => g)
    g.writeLine "\x7d"
  | Stmt.ForStatement initialization condition update body, g =>
    let g := g.indent
    let g := g.write "for ("
    let g := (match initialization with
      | some (Stmt.VariableDeclaration decl) => visitVariableDeclarationHead decl g
      | some init => visitStmt init g
      | none => g)
    let g := g.write "; "
    let g := (match condition with
      | some cond => visitExpr cond g
      | none => g)
    let g := g.write "; "
    let g := (match update with
      | some (Stmt.ExpressionStatement expression) => visitExpr expression g
      | some upd => visitStmt upd g
      | none => g)
    let g := g.writeLine ") \x7b"
    let g := g.increaseIndent
    let g := visitStmt body g
    let g := g.decreaseIndent
    let g := g.indent
    g.writeLine "\x7d"
  | Stmt.WhileStatement condition body, g =>
    let g := g.write "while ("
    let g := visitExpr condition g
    let g := g.writeLine ") \x7b"
    let g := g.increaseIndent
    let g := visitStmt body g
    let g := g.decreaseIndent
    g.writeLine "\x7d"
  | Stmt.ReturnStatement value, g =>
    let g := g.indent
    let g := g.write "return"
    let g := (match value with
      | some v => visitExpr v (g.write " ")
      | none => g)
    g.writeLine ";"

/-- The loops `for (auto& stmt : ...) stmt->accept(*this)`. -/
def visitStmts : List Stmt → Generator → Generator
  | [], g => g
  | stmt :: rest, g => visitStmts rest (visitStmt stmt g)

end

/-- The method `GLSLGenerator::visit(Program&)`. -/
def visitProgram (program : Program) (g : Generator) : Generator :=
  visitStmts program.declarations g

/-- The method `GLSLGenerator::generatePreamble`, that is `generateGLSLVersion`. -/
def generatePreamble (g : Generator) : Generator :=
  (g.writeLine "#version 330 core").writeLine ""

/-- The method `GLSLGenerator::generatePostamble`. -/
def generatePostamble (g : Generator) : Generator :=
  g

/-- The method `BaseCodeGenerator::generate` on a `GLSLGenerator`: the returned
text and the generator afterwards. -/
def generate (g : Generator) (program : Program) : String × Generator :=
  let g := { g with output := "" }
  let g := generatePreamble g
  let g := visitProgram program g
  let g := generatePostamble g
  (g.output, g)

end GLSLGenerator

namespace CUDAGenerator

/-- The method `CUDAGenerator::getTypeString`. -/
def getTypeString (type : TypeNode) : String :=
  match type.kind with
  | .VOID => "void"
  | .BOOL => "bool"
  | .INT => "int"
  | .FLOAT => "float"
  | .VEC2 => "float2"
  | .VEC3 => "float3"
  | .VEC4 => "float4"
  | .MAT2 => "float2x2"
  | .MAT3 => "float3x3"
  | .MAT4 => "float4x4"
  | .SAMPLER2D => "cudaTextureObject_t"
  | .SAMPLER3D => "cudaTextureObject_t"
  | .SAMPLERCUBE => "cudaTextureObject_t"
  | _ => "unknown"

/-- The method `CUDAGenerator::getQualifierString`. -/
def getQualifierString : Qualifier → String
  | .IN => ""
  | .OUT => ""
  | .UNIFORM => "__constant__"
  | .CONST => "const"
  | _ => ""

/-- The method `CUDAGenerator::getCUDABuiltinFunction`. -/
def getCUDABuiltinFunction (name : String) : String :=
  if name = "texture" then "tex2D"
  else if name = "normalize" then "normalize"
  else if name = "dot" then "dot"
  else if name = "cross" then "cross"
  else if name = "length" then "length"
  else if name = "distance" then "distance"
  else name

/-- The string concatenation of `CUDAGenerator::getFunctionCallString` over the
already rendered arguments, from index `i` on. -/
def joinArguments : List String → Nat → String → String
  | [], _, result => result
  | arg :: rest, i, result =>
    joinArguments rest (i + 1) ((if i > 0 then result ++ ", " else result) ++ arg)

/-- The method `CUDAGenerator::getFunctionCallString`; no visitor calls it. -/
def getFunctionCallString (name : String) (args : List String) : String :=
  joinArguments args 0 (getCUDABuiltinFunction name ++ "(") ++ ")"

/-- The method `CUDAGenerator::generateKernelSignature`. -/
def generateKernelSignature (name : String) (shaderType : ShaderType) : String :=
  let signature := "__global__ void " ++ name ++ "_kernel("
  let signature := (match shaderType with
    | .VERTEX => signature ++ "float* vertices, float* output, int numVertices"
    | .FRAGMENT => signature ++ "float* pixels, int width, int height"
    | .COMPUTE => signature ++ "float* input, float* output, int width, int height")
  signature ++ ")"

mutual

/-- The expression visitors of `CUDAGenerator`. -/
def visitExpr : Expr → Generator → Generator
  | Expr.Identifier name, g => g.write name
  | Expr.Literal _ value, g => g.write value
  | Expr.Binary left op right, g =>
    let g := visitExpr left g
    let g := g.write (" " ++ getBinaryOperatorString op ++ " ")
    visitExpr right g
  | Expr.Unary op operand, g =>
    let g := g.write (getUnaryOperatorString op)
    visitExpr operand g
  | Expr.FunctionCall functionName arguments, g =>
    let g := g.write (functionName ++ "(")
    let g := visitArguments arguments 0 g
    g.write ")"
  | Expr.MemberAccess object member, g =>
    let g := visitExpr object g
    g.write ("." ++ member)

/-- The argument loop of `CUDAGenerator::visit(FunctionCallExpression&)`, from
index `i` on. -/
def visitArguments : List Expr → Nat → Generator → Generator
  | [], _, g => g
  | argument :: rest, i, g =>
    let g := if i > 0 then g.write ", " else g
    let g := visitExpr argument g
    visitArguments rest (i + 1) g

end

/-- The parameter loop of `CUDAGenerator::visit(FunctionDeclaration&)`, from
index `i` on. -/
def visitParameters : List VariableDeclaration → Nat → Generator → Generator
  | [], _, g => g
  | param :: rest, i, g =>
    let g := if i > 0 then g.write ", " else g
    let qualifier := getQualifierString param.qualifier
    let g := if qualifier ≠ "" then g.write (qualifier ++ " ") else g
    let g := g.write (getTypeString param.type)
    let g := g.write (" " ++ param.name)
    visitParameters rest (i + 1) g

mutual

/-- The statement visitors of `CUDAGenerator`; the visits of `IfStatement` and
`ReturnStatement` have empty bodies. -/
def visitStmt : Stmt → Generator → Generator
  | Stmt.ExpressionStatement expression, g =>
    let g := g.indent
    let g := visitExpr expression g
    g.write ";\n"
  | Stmt.AssignmentStatement target value, g =>
    let g := g.indent
    let g := visitExpr target g
    let g := g.write " = "
    let g := visitExpr value g
    g.write ";\n"
  | Stmt.VariableDeclaration decl, g =>
    let qualifier := getQualifierString decl.qualifier
    let g := if qualifier ≠ "" then g.write (qualifier ++ " ") else g
    let g := g.write (getTypeString decl.type)
    let g := g.write " "
    let g := g.write decl.name
    let g := (match decl.initializer with
      | some initializer => visitExpr initializer (g.write " = ")
      | none => g)
    g.writeLine ";"
  | Stmt.FunctionDeclaration name returnType parameters body, g =>
    let g := g.write "__device__ "
    let g := (match returnType with
      | some type => g.write (getTypeString type)
      | none => g.write "void")
    let g := g.write (" " ++ name ++ "(")
    let g := visitParameters parameters 0 g
    let g := g.writeLine ") \x7b"
    let g := g.increaseIndent
    let g := visitStmts body g
    let g := g.decreaseIndent
    let g := g.writeLine "\x7d"
    g.writeLine ""
  | Stmt.ShaderDeclaration name shaderType body, g =>
    let g := g.writeLine ("// CUDA Kernel: " ++ name)
    let kernelSig := generateKernelSignature name shaderType
    let g := g.writeLine (kernelSig ++ " \x7b")
    let g := g.increaseIndent
    let g := if shaderType = ShaderType.COMPUTE then
        (((g.writeLine "// Thread indexing").writeLine
          "int idx = blockIdx.x * blockDim.x + threadIdx.x;").writeLine
          "int idy = blockIdx.y * blockDim.y + threadIdx.y;").writeLine ""
      else g
    let g := { g with inKernel := true }
    let g := visitStmts body g
    let g := { g with inKernel := false }
    let g := g.decreaseIndent
    let g := g.writeLine "\x7d"
    g.writeLine ""
  | Stmt.BlockStatement statements, g => visitStmts statements g
  | Stmt.IfStatement _ _ _, g => g
  | Stmt.ForStatement initialization condition update body, g =>
    let g := g.write "for ("
    let g := (match initialization with
      | some init => visitStmt init g
      | none => g)
    let g := g.write "; "
    let g := (match condition with
      | some cond => visitExpr cond g
      | none => g)
    let g := g.write "; "
    let g := (match update with
      | some upd => visitStmt upd g
      | none => g)
    let g := g.writeLine ") \x7b"
    let g := g.increaseIndent
    let g := visitStmt body g
    let g := g.decreaseIndent
    g.writeLine "\x7d"
  | Stmt.WhileStatement condition body, g =>
    let g := g.write "while ("
    let g := visitExpr condition g
    let g := g.writeLine ") \x7b"
    let g := g.increaseIndent
    let g := visitStmt body g
    let g := g.decreaseIndent
    g.writeLine "\x7d"
  | Stmt.ReturnStatement _, g => g

/-- The loops `for (auto& stmt : ...) stmt->accept(*this)`. -/
def visitStmts : List Stmt → Generator → Generator
  | [], g => g
  | stmt :: rest, g => visitStmts rest (visitStmt stmt g)

end

/-- The method `CUDAGenerator::visit(Program&)`. -/
def visitProgram (program : Program) (g : Generator) : Generator :=
  visitStmts program.declarations g

/-- The method `CUDAGenerator::generatePreamble`, that is `generateCUDAIncludes`. -/
def generatePreamble (g : Generator) : Generator :=
  ((g.writeLine "#include <cuda_runtime.h>").writeLine
    "#include <device_launch_parameters.h>").writeLine ""

/-- The method `CUDAGenerator::generatePostamble`. -/
def generatePostamble (g : Generator) : Generator :=
  g

/-- The method `BaseCodeGenerator::generate` on a `CUDAGenerator`: the returned
text and the generator afterwards. -/
def generate (g : Generator) (program : Program) : String × Generator :=
  let g := { g with output := "" }
  let g := generatePreamble g
  let g := visitProgram program g
  let g := generatePostamble g
  (g.output, g)

end CUDAGenerator

/-! ## Orchestration (`src/compiler/compiler.cpp`) -/

/-- The enumeration `TargetLanguage`. -/
inductive TargetLanguage
  | GLSL | CUDA
  deriving DecidableEq, Repr

/-- The fields of `CompilerOptions` that `compile` reads (the flag `verbose`
only switches progress messages on). -/
structure CompilerOptions where
  targets : List TargetLanguage
  inputFile : String
  verbose : Bool := false
  deriving Repr

/-- The fields of `Compiler::Impl`, and the error lines that the parser printed
during the call. -/
structure CompilerImpl where
  glslOutput : String := ""
  cudaOutput : String := ""
  errors : List String := []
  warnings : List String := []
  printed : List ErrorReport := []
  deriving DecidableEq, Repr

/-- The code-generation loop of `compile` over the requested targets; every
target gets a fresh generator. -/
def generateTargets : List TargetLanguage → Program → CompilerImpl → CompilerImpl
  | [], _, impl => impl
  | TargetLanguage.GLSL :: rest, program, impl =>
    generateTargets rest program
      { impl with glslOutput := (GLSLGenerator.generate {} program).1 }
  | TargetLanguage.CUDA :: rest, program, impl =>
    generateTargets rest program
      { impl with cudaOutput := (CUDAGenerator.generate {} program).1 }

/-- The method `Compiler::Impl::compile`.  The file system is the function
`readFile` (`none`: the file cannot be opened).  `parseProgram` always returns a
`Program`, so the branch `if (!program)` is never taken; the result is `none`
only if the parser model runs out of fuel or reads out of bounds, which
`parseProgram_total` excludes. -/
def compile (readFile : String → Option (List Char)) (options : CompilerOptions)
    (impl : CompilerImpl) : Option (Bool × CompilerImpl) :=
  match readFile options.inputFile with
  | none =>
    some (false, { impl with errors := impl.errors ++ ["Cannot open input file: " ++ options.inputFile] })
  | some source =>
    let tokens := tokenize source
    match parseProgram tokens with
    | Res.ok (program, printed) _ =>
      some (true, generateTargets options.targets program { impl with printed := impl.printed ++ printed })
    | Res.err msg _ => some (false, { impl with errors := impl.errors ++ [msg] })
    | Res.fuel => none
    | Res.oob => none

/-! ## Definitions used in the statements and proofs -/

/-- The text that the GLSL generator writes for an expression. -/
def GLSLGenerator.emitExpr (e : Expr) : String :=
  (GLSLGenerator.visitExpr e {}).output

/-- Postcondition judgement. -/
def Run {α : Type} (L c0 : Nat) (F : Prop) (r : Res α) (Q : α → Nat → Prop) : Prop :=
  match r with
  | Res.ok a c => Q a c
  | Res.err _ c => c0 ≤ c ∧ c ≤ L
  | Res.fuel => F
  | Res.oob => False

/-- Progress judgement. -/
def Adv {α : Type} (n r d : Nat) (m : ParserM α) (ts : List Token) : Prop :=
  ∀ c, c ≤ ts.length →
    Run ts.length c (n < 16 * (ts.length - c) + r) (m ts c) (fun _ c' => c + d ≤ c' ∧ c' ≤ ts.length)

structure RunAll (n : Nat) (ts : List Token) : Prop where
  parseStatement : Adv n 11 1 (parseStatement n) ts
  parseStatementList : ∀ acc, Adv n 12 0 (parseStatementList n acc) ts
  parseBlockStatement : Adv n 13 1 (parseBlockStatement n) ts
  parseVariableDeclarationRest : ∀ q t s, Adv n 1 1 (parseVariableDeclarationRest n q t s) ts
  parseVariableDeclaration : Adv n 1 1 (parseVariableDeclaration n) ts
  parseIfStatement : Adv n 1 1 (parseIfStatement n) ts
  parseForInit : Adv n 12 0 (parseForInit n) ts
  parseForStatement : Adv n 1 1 (parseForStatement n) ts
  parseWhileStatement : Adv n 1 1 (parseWhileStatement n) ts
  parseReturnStatement : Adv n 11 1 (parseReturnStatement n) ts
  parseExpression : Adv n 10 1 (parseExpression n) ts
  parseLogicalOr : Adv n 9 1 (parseLogicalOr n) ts
  parseLogicalOrLoop : ∀ e, Adv n 1 0 (parseLogicalOrLoop n e) ts
  parseLogicalAnd : Adv n 8 1 (parseLogicalAnd n) ts
  parseLogicalAndLoop : ∀ e, Adv n 1 0 (parseLogicalAndLoop n e) ts
  parseEquality : Adv n 7 1 (parseEquality n) ts
  parseEqualityLoop : ∀ e, Adv n 1 0 (parseEqualityLoop n e) ts
  parseComparison : Adv n 6 1 (parseComparison n) ts
  parseComparisonLoop : ∀ e, Adv n 1 0 (parseComparisonLoop n e) ts
  parseAddition : Adv n 5 1 (parseAddition n) ts
  parseAdditionLoop : ∀ e, Adv n 1 0 (parseAdditionLoop n e) ts
  parseMultiplication : Adv n 4 1 (parseMultiplication n) ts
  parseMultiplicationLoop : ∀ e, Adv n 1 0 (parseMultiplicationLoop n e) ts
  parseUnary : Adv n 3 1 (parseUnary n) ts
  parsePrimary : Adv n 1 1 (parsePrimary n) ts
  parsePostfix : Adv n 2 1 (parsePostfix n) ts
  parsePostfixLoop : ∀ e, Adv n 1 0 (parsePostfixLoop n e) ts
  parseArguments : ∀ acc, Adv n 11 1 (parseArguments n acc) ts

/-- More fuel does not change a result that was reached. -/
def FuelMono {α : Type} (m m' : ParserM α) : Prop :=
  ∀ ts c, m ts c = Res.fuel ∨ m ts c = m' ts c

structure MonoAll (n : Nat) : Prop where
  parseStatement : FuelMono (parseStatement n) (parseStatement (n + 1))
  parseStatementList : ∀ acc, FuelMono (parseStatementList n acc) (parseStatementList (n + 1) acc)
  parseBlockStatement : FuelMono (parseBlockStatement n) (parseBlockStatement (n + 1))
  parseVariableDeclarationRest : ∀ q t s,
    FuelMono (parseVariableDeclarationRest n q t s) (parseVariableDeclarationRest (n + 1) q t s)
  parseVariableDeclaration : FuelMono (parseVariableDeclaration n) (parseVariableDeclaration (n + 1))
  parseIfStatement : FuelMono (parseIfStatement n) (parseIfStatement (n + 1))
  parseForInit : FuelMono (parseForInit n) (parseForInit (n + 1))
  parseForStatement : FuelMono (parseForStatement n) (parseForStatement (n + 1))
  parseWhileStatement : FuelMono (parseWhileStatement n) (parseWhileStatement (n + 1))
  parseReturnStatement : FuelMono (parseReturnStatement n) (parseReturnStatement (n + 1))
  parseExpression : FuelMono (parseExpression n) (parseExpression (n + 1))
  parseLogicalOr : FuelMono (parseLogicalOr n) (parseLogicalOr (n + 1))
  parseLogicalOrLoop : ∀ e, FuelMono (parseLogicalOrLoop n e) (parseLogicalOrLoop (n + 1) e)
  parseLogicalAnd : FuelMono (parseLogicalAnd n) (parseLogicalAnd (n + 1))
  parseLogicalAndLoop : ∀ e, FuelMono (parseLogicalAndLoop n e) (parseLogicalAndLoop (n + 1) e)
  parseEquality : FuelMono (parseEquality n) (parseEquality (n + 1))
  parseEqualityLoop : ∀ e, FuelMono (parseEqualityLoop n e) (parseEqualityLoop (n + 1) e)
  parseComparison : FuelMono (parseComparison n) (parseComparison (n + 1))
  parseComparisonLoop : ∀ e, FuelMono (parseComparisonLoop n e) (parseComparisonLoop (n + 1) e)
  parseAddition : FuelMono (parseAddition n) (parseAddition (n + 1))
  parseAdditionLoop : ∀ e, FuelMono (parseAdditionLoop n e) (parseAdditionLoop (n + 1) e)
  parseMultiplication : FuelMono (parseMultiplication n) (parseMultiplication (n + 1))
  parseMultiplicationLoop : ∀ e,
    FuelMono (parseMultiplicationLoop n e) (parseMultiplicationLoop (n + 1) e)
  parseUnary : FuelMono (parseUnary n) (parseUnary (n + 1))
  parsePrimary : FuelMono (parsePrimary n) (parsePrimary (n + 1))
  parsePostfix : FuelMono (parsePostfix n) (parsePostfix (n + 1))
  parsePostfixLoop : ∀ e, FuelMono (parsePostfixLoop n e) (parsePostfixLoop (n + 1) e)
  parseArguments : ∀ acc, FuelMono (parseArguments n acc) (parseArguments (n + 1) acc)

/-- Moving the cursor of an outcome by `k` positions. -/
def Res.shift {α : Type} (k : Nat) : Res α → Res α
  | Res.ok a c => Res.ok a (c + k)
  | Res.err msg c => Res.err msg (c + k)
  | Res.fuel => Res.fuel
  | Res.oob => Res.oob

/-- A parser method does not look at the tokens before its starting cursor. -/
def Shifts {α : Type} (pre : List Token) (m : ParserM α) : Prop :=
  ∀ P c, m P c = Res.oob ∨ m (pre ++ P) (c + pre.length) = (m P c).shift pre.length

structure ShiftAll (pre : List Token) (n : Nat) : Prop where
  parseStatement : Shifts pre (sdl.parseStatement n)
  parseStatementList : ∀ a, Shifts pre (sdl.parseStatementList n a)
  parseBlockStatement : Shifts pre (sdl.parseBlockStatement n)
  parseVariableDeclarationRest : ∀ q t s, Shifts pre (sdl.parseVariableDeclarationRest n q t s)
  parseVariableDeclaration : Shifts pre (sdl.parseVariableDeclaration n)
  parseIfStatement : Shifts pre (sdl.parseIfStatement n)
  parseForInit : Shifts pre (sdl.parseForInit n)
  parseForStatement : Shifts pre (sdl.parseForStatement n)
  parseWhileStatement : Shifts pre (sdl.parseWhileStatement n)
  parseReturnStatement : Shifts pre (sdl.parseReturnStatement n)
  parseExpression : Shifts pre (sdl.parseExpression n)
  parseLogicalOr : Shifts pre (sdl.parseLogicalOr n)
  parseLogicalOrLoop : ∀ a, Shifts pre (sdl.parseLogicalOrLoop n a)
  parseLogicalAnd : Shifts pre (sdl.parseLogicalAnd n)
  parseLogicalAndLoop : ∀ a, Shifts pre (sdl.parseLogicalAndLoop n a)
  parseEquality : Shifts pre (sdl.parseEquality n)
  parseEqualityLoop : ∀ a, Shifts pre (sdl.parseEqualityLoop n a)
  parseComparison : Shifts pre (sdl.parseComparison n)
  parseComparisonLoop : ∀ a, Shifts pre (sdl.parseComparisonLoop n a)
  parseAddition : Shifts pre (sdl.parseAddition n)
  parseAdditionLoop : ∀ a, Shifts pre (sdl.parseAdditionLoop n a)
  parseMultiplication : Shifts pre (sdl.parseMultiplication n)
  parseMultiplicationLoop : ∀ a, Shifts pre (sdl.parseMultiplicationLoop n a)
  parseUnary : Shifts pre (sdl.parseUnary n)
  parsePrimary : Shifts pre (sdl.parsePrimary n)
  parsePostfix : Shifts pre (sdl.parsePostfix n)
  parsePostfixLoop : ∀ a, Shifts pre (sdl.parsePostfixLoop n a)
  parseArguments : ∀ a, Shifts pre (sdl.parseArguments n a)

/-- The kind of the token under the cursor, `END_OF_FILE` at end of input. -/
def typeAt (ts : List Token) (c : Nat) : TokenType :=
  (currentTokenAt ts c).type

/-- With enough fuel the parser method returns `a` and moves the cursor to `c'`. -/
def Parses {α : Type} (f : Nat → ParserM α) (ts : List Token) (c : Nat) (a : α) (c' : Nat) : Prop :=
  ∃ N, ∀ n, N ≤ n → f n ts c = Res.ok a c'

/-- The precedence level of a binary operator as the specification lists them,
loosest first; `ASSIGN` is on no level. -/
def precedenceLevel : BinaryOperator → Nat
  | .ASSIGN => 0
  | .LOGICAL_OR => 1
  | .LOGICAL_AND => 2
  | .EQUAL => 3
  | .NOT_EQUAL => 3
  | .LESS_THAN => 4
  | .LESS_EQUAL => 4
  | .GREATER_THAN => 4
  | .GREATER_EQUAL => 4
  | .ADD => 5
  | .SUBTRACT => 5
  | .MULTIPLY => 6
  | .DIVIDE => 6
  | .MODULO => 6

/-- The token kind that the lexer gives to the symbol of a binary operator. -/
def operatorToken : BinaryOperator → TokenType
  | .ASSIGN => .ASSIGN
  | .LOGICAL_OR => .LOGICAL_OR
  | .LOGICAL_AND => .LOGICAL_AND
  | .EQUAL => .EQUAL
  | .NOT_EQUAL => .NOT_EQUAL
  | .LESS_THAN => .LESS_THAN
  | .LESS_EQUAL => .LESS_EQUAL
  | .GREATER_THAN => .GREATER_THAN
  | .GREATER_EQUAL => .GREATER_EQUAL
  | .ADD => .PLUS
  | .SUBTRACT => .MINUS
  | .MULTIPLY => .MULTIPLY
  | .DIVIDE => .DIVIDE
  | .MODULO => .MODULO

/-- The parser method of a precedence level: 1 to 6 are the binary levels, every
other number stands for `parseUnary`. -/
def levelParser : Nat → Nat → ParserM Expr
  | 1 => parseLogicalOr
  | 2 => parseLogicalAnd
  | 3 => parseEquality
  | 4 => parseComparison
  | 5 => parseAddition
  | 6 => parseMultiplication
  | _ => parseUnary

/-- The loop of the parser method of a binary precedence level. -/
def levelLoop : Nat → Nat → Expr → ParserM Expr
  | 1 => parseLogicalOrLoop
  | 2 => parseLogicalAndLoop
  | 3 => parseEqualityLoop
  | 4 => parseComparisonLoop
  | 5 => parseAdditionLoop
  | 6 => parseMultiplicationLoop
  | _ => fun _ e => pure e

/-- Prepending declarations and error lines to the result of the program loop. -/
def Res.prepend (decls : List Stmt) (errs : List ErrorReport) :
    Res (Program × List ErrorReport) → Res (Program × List ErrorReport)
  | Res.ok r c => Res.ok ({ declarations := decls ++ r.1.declarations }, errs ++ r.2) c
  | Res.err msg c => Res.err msg c
  | Res.fuel => Res.fuel
  | Res.oob => Res.oob

/-- The text that the CUDA generator writes for an expression. -/
def CUDAGenerator.emitExpr (e : Expr) : String :=
  (CUDAGenerator.visitExpr e {}).output

/-- The lexer state on the first line after the characters `pre`, with the
characters `rest` still unread. -/
def Lexer.reading (pre rest : List Char) : Lexer :=
  { source := pre ++ rest, position := pre.length, line := 1, column := pre.length + 1 }

/-- The characters of the symbol of a binary operator. -/
def operatorChars : BinaryOperator → List Char
  | .ASSIGN => ['=']
  | .ADD => ['+']
  | .SUBTRACT => ['-']
  | .MULTIPLY => ['*']
  | .DIVIDE => ['/']
  | .MODULO => ['%']
  | .EQUAL => ['=', '=']
  | .NOT_EQUAL => ['!', '=']
  | .LESS_THAN => ['<']
  | .LESS_EQUAL => ['<', '=']
  | .GREATER_THAN => ['>']
  | .GREATER_EQUAL => ['>', '=']
  | .LOGICAL_AND => ['&', '&']
  | .LOGICAL_OR => ['|', '|']

/-- A name that the lexer reads as one `IDENTIFIER` token: a letter or an
underscore followed by letters, digits and underscores, and not a reserved word. -/
def isIdentifierName (name : String) : Bool :=
  match name.data with
  | [] => false
  | a :: rest =>
    isAlpha a && rest.all isAlphaNumeric && decide (getKeywordType name = TokenType.IDENTIFIER)

/-- The expression trees built from identifiers and the thirteen binary
operators that the parser produces, which are all of them but `ASSIGN`. -/
def isOperatorTree : Expr → Bool
  | .Identifier name => isIdentifierName name
  | .Binary left op right => decide (op ≠ BinaryOperator.ASSIGN) && isOperatorTree left && isOperatorTree right
  | _ => false

/-- The kind and the text of a token, without its position. -/
def tokenKey (t : Token) : TokenType × String :=
  (t.type, t.value)

/-- The kinds and texts of the tokens of the fully parenthesized form of an
operator tree. -/
def exprKeys : Expr → List (TokenType × String)
  | .Identifier name => [(TokenType.IDENTIFIER, name)]
  | .Binary left op right =>
    (TokenType.LEFT_PAREN, "(") :: (exprKeys left ++
      (operatorToken op, getBinaryOperatorString op) :: (exprKeys right ++ [(TokenType.RIGHT_PAREN, ")")]))
  | _ => []

/-- The loop of `tokenize` started in `lx0` appends the tokens `toks` and
reaches `lx1`, using one iteration for each token. -/
def Lexes (lx0 : Lexer) (toks : List Token) (lx1 : Lexer) : Prop :=
  ∀ (n : Nat) (acc : List Token),
    Lexer.tokenizeLoop (n + toks.length) lx0 acc = Lexer.tokenizeLoop n lx1 (acc ++ toks)

/-- The line of the character that follows the text `pre`: one more than the
number of newlines in `pre`. -/
def lineAfter (pre : List Char) : Nat :=
  1 + pre.count '\n'

/-- The column of the character that follows the text `pre`: one more than the
number of characters of `pre` after its last newline. -/
def columnAfter (pre : List Char) : Nat :=
  1 + (pre.reverse.takeWhile (fun c => c != '\n')).length

/-- The lexer state after the characters `pre` have been read, with the
characters `rest` still unread. -/
def Lexer.after (pre rest : List Char) : Lexer :=
  { source := pre ++ rest, position := pre.length, line := lineAfter pre, column := columnAfter pre }

/-- The loop of `tokenize` started in `lx0` makes `k` iterations, appends the
tokens `toks` and reaches `lx1`. -/
def LexSteps (k : Nat) (lx0 : Lexer) (toks : List Token) (lx1 : Lexer) : Prop :=
  ∀ (n : Nat) (acc : List Token),
    Lexer.tokenizeLoop (n + k) lx0 acc = Lexer.tokenizeLoop n lx1 (acc ++ toks)

/-- The operator and punctuation lexemes with their token kinds. -/
def symbolTable : List (String × TokenType) :=
  [("=", TokenType.ASSIGN), ("+", TokenType.PLUS), ("-", TokenType.MINUS),
    ("*", TokenType.MULTIPLY), ("/", TokenType.DIVIDE), ("%", TokenType.MODULO),
    ("==", TokenType.EQUAL), ("!=", TokenType.NOT_EQUAL), ("<", TokenType.LESS_THAN),
    ("<=", TokenType.LESS_EQUAL), (">", TokenType.GREATER_THAN), (">=", TokenType.GREATER_EQUAL),
    ("&&", TokenType.LOGICAL_AND), ("||", TokenType.LOGICAL_OR), ("!", TokenType.LOGICAL_NOT),
    ("(", TokenType.LEFT_PAREN), (")", TokenType.RIGHT_PAREN), ("\x7b", TokenType.LEFT_BRACE),
    ("\x7d", TokenType.RIGHT_BRACE), ("[", TokenType.LEFT_BRACKET), ("]", TokenType.RIGHT_BRACKET),
    (";", TokenType.SEMICOLON), (":", TokenType.COLON), (",", TokenType.COMMA),
    (".", TokenType.DOT)]

/-- The 27 reserved words of the lexer with their token kinds. -/
def reservedWords : List (String × TokenType) :=
  [("shader", .SHADER), ("vertex", .VERTEX), ("fragment", .FRAGMENT), ("compute", .COMPUTE),
    ("in", .IN), ("out", .OUT), ("uniform", .UNIFORM), ("const", .CONST), ("struct", .STRUCT),
    ("if", .IF), ("else", .ELSE), ("for", .FOR), ("while", .WHILE), ("return", .RETURN),
    ("void", .VOID), ("bool", .BOOL), ("int", .INT), ("float", .FLOAT),
    ("vec2", .VEC2), ("vec3", .VEC3), ("vec4", .VEC4), ("mat2", .MAT2), ("mat3", .MAT3),
    ("mat4", .MAT4), ("sampler2D", .SAMPLER2D), ("sampler3D", .SAMPLER3D),
    ("samplerCube", .SAMPLERCUBE)]

/-- A source made only of whitespace and `//` comments.  The flag tells whether
the text starts inside a comment, which lasts up to the next newline. -/
def onlyBlank : Bool → List Char → Bool
  | _, [] => true
  | true, c :: rest => if c = '\n' then onlyBlank false rest else onlyBlank true rest
  | false, c :: rest =>
    if isSpace c then onlyBlank false rest
    else if c = '/' then
      match rest with
      | d :: rest1 => if d = '/' then onlyBlank true rest1 else false
      | [] => false
    else false

/-- The three shader type words with the shader types they denote. -/
def shaderTypeTable : List (String × ShaderType) :=
  [("vertex", ShaderType.VERTEX), ("fragment", ShaderType.FRAGMENT), ("compute", ShaderType.COMPUTE)]

/-- The initialization clause of `GLSLGenerator::visit(ForStatement&)`. -/
def GLSLGenerator.visitForInitialization (initialization : Option Stmt) (g : Generator) :
    Generator :=
  match initialization with
  | some (Stmt.VariableDeclaration decl) => GLSLGenerator.visitVariableDeclarationHead decl g
  | some init => GLSLGenerator.visitStmt init g
  | none => g

/-- The update clause of `GLSLGenerator::visit(ForStatement&)`. -/
def GLSLGenerator.visitForUpdate (update : Option Stmt) (g : Generator) : Generator :=
  match update with
  | some (Stmt.ExpressionStatement expression) => GLSLGenerator.visitExpr expression g
  | some upd => GLSLGenerator.visitStmt upd g
  | none => g

/-- The condition clause of `GLSLGenerator::visit(ForStatement&)`. -/
def GLSLGenerator.visitForCondition (condition : Option Expr) (g : Generator) : Generator :=
  match condition with
  | some cond => GLSLGenerator.visitExpr cond g
  | none => g

/-- The generator `g` replayed after the text `t`: `t` is put in front of its
output, the indentation level is kept and the kernel flag is cleared. -/
def Generator.prepend (t : String) (g : Generator) : Generator :=
  { output := t ++ g.output, indentLevel := g.indentLevel, inKernel := false }

mutual
/-- The statement `s` with every `IfStatement` and `ReturnStatement` deleted from
the statement lists inside it: function bodies, shader bodies and blocks, also
those nested in loop bodies. -/
def deleteIfReturn : Stmt → Stmt
  | Stmt.ExpressionStatement e => Stmt.ExpressionStatement e
  | Stmt.AssignmentStatement a b => Stmt.AssignmentStatement a b
  | Stmt.VariableDeclaration d => Stmt.VariableDeclaration d
  | Stmt.FunctionDeclaration name rt ps body =>
    Stmt.FunctionDeclaration name rt ps (deleteIfReturnList body)
  | Stmt.ShaderDeclaration name st body => Stmt.ShaderDeclaration name st (deleteIfReturnList body)
  | Stmt.BlockStatement body => Stmt.BlockStatement (deleteIfReturnList body)
  | Stmt.IfStatement c th el => Stmt.IfStatement c th el
  | Stmt.ForStatement i c u body => Stmt.ForStatement i c u (deleteIfReturn body)
  | Stmt.WhileStatement c body => Stmt.WhileStatement c (deleteIfReturn body)
  | Stmt.ReturnStatement v => Stmt.ReturnStatement v
/-- The statement list `l` with every `IfStatement` and `ReturnStatement`
deleted, and the remaining statements treated by `deleteIfReturn`. -/
def deleteIfReturnList : List Stmt → List Stmt
  | [] => []
  | Stmt.IfStatement _ _ _ :: rest => deleteIfReturnList rest
  | Stmt.ReturnStatement _ :: rest => deleteIfReturnList rest
  | Stmt.ExpressionStatement e :: rest => Stmt.ExpressionStatement e :: deleteIfReturnList rest
  | Stmt.AssignmentStatement a b :: rest => Stmt.AssignmentStatement a b :: deleteIfReturnList rest
  | Stmt.VariableDeclaration d :: rest => Stmt.VariableDeclaration d :: deleteIfReturnList rest
  | Stmt.FunctionDeclaration name rt ps body :: rest =>
    Stmt.FunctionDeclaration name rt ps (deleteIfReturnList body) :: deleteIfReturnList rest
  | Stmt.ShaderDeclaration name st body :: rest =>
    Stmt.ShaderDeclaration name st (deleteIfReturnList body) :: deleteIfReturnList rest
  | Stmt.BlockStatement body :: rest =>
    Stmt.BlockStatement (deleteIfReturnList body) :: deleteIfReturnList rest
  | Stmt.ForStatement i c u body :: rest =>
    Stmt.ForStatement i c u (deleteIfReturn body) :: deleteIfReturnList rest
  | Stmt.WhileStatement c body :: rest =>
    Stmt.WhileStatement c (deleteIfReturn body) :: deleteIfReturnList rest
end

/-- The type keywords with the type kinds that `parseType` gives them. -/
def typeKeywordKinds : List (TokenType × TypeKind) :=
  [(.VOID, .VOID), (.BOOL, .BOOL), (.INT, .INT), (.FLOAT, .FLOAT), (.VEC2, .VEC2),
   (.VEC3, .VEC3), (.VEC4, .VEC4), (.MAT2, .MAT2), (.MAT3, .MAT3), (.MAT4, .MAT4),
   (.SAMPLER2D, .SAMPLER2D), (.SAMPLER3D, .SAMPLER3D), (.SAMPLERCUBE, .SAMPLERCUBE)]

/-- The qualifier keywords with the qualifiers that `parseQualifier` gives them. -/
def qualifierKinds : List (TokenType × Qualifier) :=
  [(.IN, .IN), (.OUT, .OUT), (.UNIFORM, .UNIFORM), (.CONST, .CONST)]

/-- Whether a statement is an `AssignmentStatement`. -/
def Stmt.isAssignment : Stmt → Bool
  | Stmt.AssignmentStatement _ _ => true
  | _ => false

/-- Every statement that the parser method returns satisfies `P`. -/
def Yields (m : ParserM Stmt) (P : Stmt → Prop) : Prop :=
  ∀ ts c s c', m ts c = Res.ok s c' → P s

/-- The token kinds that continue an expression after an operand: the three
postfix openers and the thirteen binary operators of the precedence levels. -/
def expressionContinuations : List TokenType :=
  [.DOT, .LEFT_PAREN, .LEFT_BRACKET, .LOGICAL_OR, .LOGICAL_AND, .EQUAL, .NOT_EQUAL,
   .LESS_THAN, .LESS_EQUAL, .GREATER_THAN, .GREATER_EQUAL, .PLUS, .MINUS, .MULTIPLY,
   .DIVIDE, .MODULO]

/-- The kinds and texts of the `m` tokens from position `c` on. -/
def tokensAt (ts : List Token) (c m : Nat) : List (TokenType × String) :=
  ((ts.drop c).take m).map fun t => (t.type, t.value)

/-- A position at which the loop of `Parser::synchronize` returns: the cursor is
at end of input, or the token before the cursor is a semicolon, or the token at
the cursor is one of the five listed keywords. -/
def synchronizationPoint (ts : List Token) (j : Nat) : Bool :=
  isAtEndAt ts j ||
    (match ts[j - 1]? with
      | some t => decide (t.type = TokenType.SEMICOLON)
      | none => false) ||
    [TokenType.SHADER, .IF, .FOR, .WHILE, .RETURN].contains (currentTokenAt ts j).type

/-- Every result that the parser method returns satisfies `P`. -/
def Returns {α : Type} (m : ParserM α) (P : α → Prop) : Prop :=
  ∀ ts c a c', m ts c = Res.ok a c' → P a

mutual

/-- The expression contains neither a `BinaryExpression` with the operator
`ASSIGN` nor a `LiteralExpression` of type `BOOL`. -/
def Expr.plain : Expr → Bool
  | Expr.Identifier _ => true
  | Expr.Literal t _ => t != LiteralType.BOOL
  | Expr.Binary l op r => op != BinaryOperator.ASSIGN && l.plain && r.plain
  | Expr.Unary _ e => e.plain
  | Expr.FunctionCall _ args => plainList args
  | Expr.MemberAccess e _ => e.plain

/-- `Expr.plain` for every expression of a list. -/
def plainList : List Expr → Bool
  | [] => true
  | e :: rest => e.plain && plainList rest

end

/-- The expression methods return expressions without `ASSIGN` and `BOOL`, at
fuel `n`. -/
structure PlainAll (n : Nat) : Prop where
  parseExpression : Returns (parseExpression n) (fun e => e.plain = true)
  parseLogicalOr : Returns (parseLogicalOr n) (fun e => e.plain = true)
  parseLogicalOrLoop : ∀ x, x.plain = true →
    Returns (parseLogicalOrLoop n x) (fun e => e.plain = true)
  parseLogicalAnd : Returns (parseLogicalAnd n) (fun e => e.plain = true)
  parseLogicalAndLoop : ∀ x, x.plain = true →
    Returns (parseLogicalAndLoop n x) (fun e => e.plain = true)
  parseEquality : Returns (parseEquality n) (fun e => e.plain = true)
  parseEqualityLoop : ∀ x, x.plain = true →
    Returns (parseEqualityLoop n x) (fun e => e.plain = true)
  parseComparison : Returns (parseComparison n) (fun e => e.plain = true)
  parseComparisonLoop : ∀ x, x.plain = true →
    Returns (parseComparisonLoop n x) (fun e => e.plain = true)
  parseAddition : Returns (parseAddition n) (fun e => e.plain = true)
  parseAdditionLoop : ∀ x, x.plain = true →
    Returns (parseAdditionLoop n x) (fun e => e.plain = true)
  parseMultiplication : Returns (parseMultiplication n) (fun e => e.plain = true)
  parseMultiplicationLoop : ∀ x, x.plain = true →
    Returns (parseMultiplicationLoop n x) (fun e => e.plain = true)
  parseUnary : Returns (parseUnary n) (fun e => e.plain = true)
  parsePrimary : Returns (parsePrimary n) (fun e => e.plain = true)
  parsePostfix : Returns (parsePostfix n) (fun e => e.plain = true)
  parsePostfixLoop : ∀ x, x.plain = true →
    Returns (parsePostfixLoop n x) (fun e => e.plain = true)
  parseArguments : ∀ l, plainList l = true →
    Returns (parseArguments n l) (fun r => plainList r = true)

/-- The check `pe` on an optional expression. -/
def everyOptional (pe : Expr → Bool) : Option Expr → Bool
  | none => true
  | some e => pe e

mutual

/-- The check `pe` holds for every expression that is a direct part of the
statement or of a statement nested in it, and the check `pa` for the target of
every `AssignmentStatement` among them. -/
def Stmt.every (pe pa : Expr → Bool) : Stmt → Bool
  | Stmt.ExpressionStatement e => pe e
  | Stmt.AssignmentStatement t v => pa t && pe t && pe v
  | Stmt.VariableDeclaration d => everyOptional pe d.initializer
  | Stmt.FunctionDeclaration _ _ parameters body =>
    parameters.all (fun p => everyOptional pe p.initializer) && everyList pe pa body
  | Stmt.ShaderDeclaration _ _ body => everyList pe pa body
  | Stmt.BlockStatement statements => everyList pe pa statements
  | Stmt.IfStatement c t none => pe c && t.every pe pa
  | Stmt.IfStatement c t (some e) => pe c && t.every pe pa && e.every pe pa
  | Stmt.ForStatement none c none b => everyOptional pe c && b.every pe pa
  | Stmt.ForStatement (some i) c none b => i.every pe pa && everyOptional pe c && b.every pe pa
  | Stmt.ForStatement none c (some u) b => everyOptional pe c && u.every pe pa && b.every pe pa
  | Stmt.ForStatement (some i) c (some u) b =>
    i.every pe pa && everyOptional pe c && u.every pe pa && b.every pe pa
  | Stmt.WhileStatement c b => pe c && b.every pe pa
  | Stmt.ReturnStatement v => everyOptional pe v

/-- `Stmt.every` for every statement of a list. -/
def everyList (pe pa : Expr → Bool) : List Stmt → Bool
  | [] => true
  | s :: rest => s.every pe pa && everyList pe pa rest

end

/-- The statement methods return statements on which the two checks hold, at
fuel `n`. -/
structure EveryAll (pe pa : Expr → Bool) (n : Nat) : Prop where
  parseStatement : Returns (parseStatement n) (fun s => s.every pe pa = true)
  parseStatementList : ∀ l, everyList pe pa l = true →
    Returns (parseStatementList n l) (fun r => everyList pe pa r = true)
  parseBlockStatement : Returns (parseBlockStatement n) (fun s => s.every pe pa = true)
  parseVariableDeclarationRest : ∀ q t name,
    Returns (parseVariableDeclarationRest n q t name) (fun s => s.every pe pa = true)
  parseVariableDeclaration : Returns (parseVariableDeclaration n) (fun s => s.every pe pa = true)
  parseIfStatement : Returns (parseIfStatement n) (fun s => s.every pe pa = true)
  parseForInit : Returns (parseForInit n) (fun o => ∀ s, o = some s → s.every pe pa = true)
  parseForStatement : Returns (parseForStatement n) (fun s => s.every pe pa = true)
  parseWhileStatement : Returns (parseWhileStatement n) (fun s => s.every pe pa = true)
  parseReturnStatement : Returns (parseReturnStatement n) (fun s => s.every pe pa = true)

/-- Whether an expression is an `IdentifierExpression`. -/
def Expr.isIdentifier : Expr → Bool
  | Expr.Identifier _ => true
  | _ => false

/-- The result reports no out-of-bounds access, and a cursor that it carries
lies between `lo` and `hi`. -/
def Res.within {α : Type} (r : Res α) (lo hi : Nat) : Bool :=
  match r with
  | Res.ok _ c => decide (lo ≤ c) && decide (c ≤ hi)
  | Res.err _ c => decide (lo ≤ c) && decide (c ≤ hi)
  | Res.fuel => true
  | Res.oob => false

/-! ## Theorems -/

theorem write_write (g : Generator) (a b : String) :
    (g.write a).write b = g.write (a ++ b) := by
  simp [Generator.write, String.append_assoc]

theorem write_empty (g : Generator) : g.write "" = g := by
  simp [Generator.write]

mutual
theorem glsl_visitExpr_eq : ∀ (e : Expr) (g : Generator),
    GLSLGenerator.visitExpr e g = g.write (GLSLGenerator.visitExpr e {}).output
  | Expr.Identifier name, g => by simp [GLSLGenerator.visitExpr, Generator.write]
  | Expr.Literal _ value, g => by simp [GLSLGenerator.visitExpr, Generator.write]
  | Expr.Binary left op right, g => by
    simp only [GLSLGenerator.visitExpr]
    rw [glsl_visitExpr_eq left, glsl_visitExpr_eq right,
      glsl_visitExpr_eq left (Generator.write _ _), glsl_visitExpr_eq right (Generator.write _ _)]
    simp [Generator.write, String.append_assoc]
  | Expr.Unary op operand, g => by
    simp only [GLSLGenerator.visitExpr]
    rw [glsl_visitExpr_eq operand, glsl_visitExpr_eq operand (Generator.write _ _)]
    simp [Generator.write, String.append_assoc]
  | Expr.FunctionCall functionName arguments, g => by
    simp only [GLSLGenerator.visitExpr]
    rw [glsl_visitArguments_eq arguments, glsl_visitArguments_eq arguments 0 (Generator.write _ _)]
    simp [Generator.write, String.append_assoc]
  | Expr.MemberAccess object member, g => by
    simp only [GLSLGenerator.visitExpr]
    rw [glsl_visitExpr_eq object]
    simp [Generator.write, String.append_assoc]
theorem glsl_visitArguments_eq : ∀ (args : List Expr) (i : Nat) (g : Generator),
    GLSLGenerator.visitArguments args i g = g.write (GLSLGenerator.visitArguments args i {}).output
  | [], i, g => by simp [GLSLGenerator.visitArguments, Generator.write]
  | a :: rest, i, g => by
    simp only [GLSLGenerator.visitArguments]
    rw [glsl_visitArguments_eq rest, glsl_visitExpr_eq a,
       glsl_visitArguments_eq rest (i+1) (GLSLGenerator.visitExpr _ _), glsl_visitExpr_eq a (ite _ _ _)]
    split <;> simp [Generator.write, String.append_assoc]
end

theorem glsl_binary (l r : Expr) (op : BinaryOperator) :
    GLSLGenerator.emitExpr (Expr.Binary l op r) =
      "(" ++ GLSLGenerator.emitExpr l ++ " " ++ getBinaryOperatorString op ++ " " ++ GLSLGenerator.emitExpr r ++ ")" := by
  simp only [GLSLGenerator.emitExpr, GLSLGenerator.visitExpr]
  rw [glsl_visitExpr_eq l, glsl_visitExpr_eq r]
  simp [Generator.write, String.append_assoc]

theorem bind_apply {α β : Type} (m : ParserM α) (f : α → ParserM β) (ts : List Token) (c : Nat) :
    (m >>= f) ts c = match m ts c with
      | Res.ok a c1 => f a ts c1
      | Res.err msg c1 => Res.err msg c1
      | Res.fuel => Res.fuel
      | Res.oob => Res.oob := rfl

theorem pure_apply {α : Type} (a : α) (ts : List Token) (c : Nat) :
    (pure a : ParserM α) ts c = Res.ok a c := rfl

theorem run_bind {α β : Type} {L c0 : Nat} {F : Prop} {m : ParserM α} {f : α → ParserM β}
    {ts : List Token} {c : Nat} {R : α → Nat → Prop} {Q : β → Nat → Prop}
    (h1 : Run L c0 F (m ts c) R)
    (h2 : ∀ a c1, R a c1 → Run L c0 F (f a ts c1) Q) :
    Run L c0 F ((m >>= f) ts c) Q := by
  rw [bind_apply]
  cases h : m ts c <;> simp only [h, Run] at h1 ⊢
  · exact h2 _ _ h1
  · exact h1
  · exact h1

theorem run_mono {α : Type} {L c0 c0' : Nat} {F F' : Prop} {r : Res α} {Q Q' : α → Nat → Prop}
    (h : Run L c0' F' r Q') (hc : c0 ≤ c0') (hF : F' → F) (hQ : ∀ a c, Q' a c → Q a c) :
    Run L c0 F r Q := by
  cases r <;> simp only [Run] at h ⊢
  · exact hQ _ _ h
  · omega
  · exact hF h

theorem run_pure {α : Type} {L c0 : Nat} {F : Prop} {a : α} {ts : List Token} {c : Nat}
    {Q : α → Nat → Prop} (h : Q a c) : Run L c0 F ((Pure.pure a : ParserM α) ts c) Q := h

theorem run_throw {α : Type} {L c0 : Nat} {F : Prop} {msg : String} {ts : List Token} {c : Nat}
    {Q : α → Nat → Prop} (h : c0 ≤ c ∧ c ≤ L) : Run L c0 F ((throwRuntimeError msg : ParserM α) ts c) Q := h

theorem isAtEndAt_false {ts : List Token} {c : Nat} (h : isAtEndAt ts c = false) : c < ts.length := by
  unfold isAtEndAt at h
  by_contra hc
  rw [List.getElem?_eq_none (by omega)] at h
  simp at h

theorem checkAt_true {ts : List Token} {c : Nat} {t : TokenType} (h : checkAt ts c t = true) :
    isAtEndAt ts c = false := by
  unfold checkAt at h
  cases h' : isAtEndAt ts c <;> simp_all

theorem checkAt_lt {ts : List Token} {c : Nat} {t : TokenType} (h : checkAt ts c t = true) :
    c < ts.length := isAtEndAt_false (checkAt_true h)

theorem advanceAt_of_check {ts : List Token} {c : Nat} {t : TokenType} (h : checkAt ts c t = true) :
    advanceAt ts c = c + 1 := by
  simp [advanceAt, checkAt_true h]

theorem any_checkAt {ts : List Token} {c : Nat} {l : List TokenType} (h : l.any (checkAt ts c) = true) :
    isAtEndAt ts c = false := by
  rw [List.any_eq_true] at h
  obtain ⟨t, _, ht⟩ := h
  exact checkAt_true ht

theorem advanceAt_le (ts : List Token) (c : Nat) : c ≤ advanceAt ts c ∧ (c ≤ ts.length → advanceAt ts c ≤ ts.length) := by
  unfold advanceAt
  cases h : isAtEndAt ts c
  · have := isAtEndAt_false h
    simp; omega
  · simp

/-- matchTok either steps over one token or stays. -/
theorem run_matchTok {L c0 : Nat} {F : Prop} (t : TokenType) (ts : List Token) (c : Nat) :
    Run L c0 F (matchTok t ts c)
      (fun b c' => (b = true ∧ c' = c + 1 ∧ c < ts.length) ∨ (b = false ∧ c' = c)) := by
  unfold sdl.matchTok
  cases h : checkAt ts c t
  · simp [Run]
  · simp [Run, advanceAt_of_check h, checkAt_lt h]

theorem run_matchAny {L c0 : Nat} {F : Prop} (l : List TokenType) (ts : List Token) (c : Nat) :
    Run L c0 F (matchAny l ts c)
      (fun b c' => (b = true ∧ c' = c + 1 ∧ c < ts.length) ∨ (b = false ∧ c' = c)) := by
  unfold sdl.matchAny
  cases h : l.any (checkAt ts c)
  · simp [Run]
  · have := isAtEndAt_false (any_checkAt h)
    simp [Run, advanceAt, any_checkAt h, this]

theorem run_consume {L c0 : Nat} {F : Prop} (t : TokenType) (msg : String) (ts : List Token) (c : Nat)
    (hc : c0 ≤ c ∧ c ≤ L) :
    Run L c0 F (consume t msg ts c) (fun _ c' => c' = c + 1 ∧ c < ts.length) := by
  unfold sdl.consume
  cases h : checkAt ts c t
  · simpa [Run] using hc
  · simp [Run, advanceAt_of_check h, checkAt_lt h]

theorem run_check {L c0 : Nat} {F : Prop} (t : TokenType) (ts : List Token) (c : Nat) :
    Run L c0 F (check t ts c) (fun b c' => c' = c ∧ (b = true → c < ts.length)) := by
  simp only [Run, sdl.check, true_and]
  exact checkAt_lt

theorem run_checkAny {L c0 : Nat} {F : Prop} (l : List TokenType) (ts : List Token) (c : Nat) :
    Run L c0 F (checkAny l ts c) (fun b c' => c' = c ∧ (b = true → c < ts.length)) := by
  simp only [Run, sdl.checkAny, true_and]
  exact fun h => isAtEndAt_false (any_checkAt h)

theorem run_isAtEnd {L c0 : Nat} {F : Prop} (ts : List Token) (c : Nat) :
    Run L c0 F (isAtEnd ts c) (fun b c' => c' = c ∧ b = isAtEndAt ts c) := by
  simp only [Run, sdl.isAtEnd, true_and]

theorem run_previousToken {L c0 : Nat} {F : Prop} (ts : List Token) (c : Nat)
    (h1 : 1 ≤ c) (h2 : c ≤ ts.length) :
    Run L c0 F (previousToken ts c) (fun _ c' => c' = c) := by
  unfold sdl.previousToken
  have h3 : c - 1 < ts.length := by omega
  have h4 : c ≠ 0 := by omega
  simp [Run, List.getElem?_eq_getElem h3, h4]

theorem run_currentToken {L c0 : Nat} {F : Prop} (ts : List Token) (c : Nat) :
    Run L c0 F (currentToken ts c) (fun _ c' => c' = c) := by
  simp [Run, sdl.currentToken]

theorem run_advance {L c0 : Nat} {F : Prop} (ts : List Token) (c : Nat) :
    Run L c0 F (advance ts c) (fun _ c' => c ≤ c' ∧ (c ≤ ts.length → c' ≤ ts.length)) := by
  simp only [Run, sdl.advance]
  exact advanceAt_le ts c

theorem run_parseType {c0 : Nat} {F : Prop} (ts : List Token) (c : Nat) (hc : c0 ≤ c ∧ c ≤ ts.length) :
    Run ts.length c0 F (parseType ts c) (fun _ c' => c' = c + 1 ∧ c < ts.length) := by
  unfold sdl.parseType
  iterate 13
    refine run_bind (run_matchTok _ ts _) fun b c1 h => ?_
    rcases h with ⟨rfl, rfl, h⟩ | ⟨rfl, rfl⟩
    · exact run_pure ⟨rfl, h⟩
    simp only [Bool.false_eq_true, ↓reduceIte]
  exact run_throw hc

theorem run_parseQualifier {c0 : Nat} {F : Prop} (ts : List Token) (c : Nat) (hc : c ≤ ts.length) :
    Run ts.length c0 F (parseQualifier ts c) (fun _ c' => c ≤ c' ∧ c' ≤ ts.length) := by
  unfold sdl.parseQualifier
  iterate 4
    refine run_bind (run_check _ ts _) fun b c1 h => ?_
    obtain ⟨rfl, h⟩ := h
    cases b
    swap
    · refine run_bind (run_advance ts _) fun _ c2 h2 => ?_
      exact run_pure ⟨h2.1, h2.2 hc⟩
    simp only [Bool.false_eq_true, ↓reduceIte]
  exact run_pure ⟨le_refl _, hc⟩

theorem run_outOfFuel {α : Type} {L c0 : Nat} {F : Prop} {ts : List Token} {c : Nat}
    {Q : α → Nat → Prop} (h : F) : Run L c0 F ((sdl.outOfFuel : ParserM α) ts c) Q := h

theorem adv_call {α : Type} {n r d : Nat} {m : ParserM α} {ts : List Token} (h : Adv n r d m ts)
    {c0 c1 : Nat} {F : Prop} (h1 : c1 ≤ ts.length) (h0 : c0 ≤ c1)
    (hF : n < 16 * (ts.length - c1) + r → F) :
    Run ts.length c0 F (m ts c1) (fun _ c' => c1 + d ≤ c' ∧ c' ≤ ts.length) :=
  run_mono (h c1 h1) h0 hF (fun _ _ hq => hq)

theorem runAll_zero (ts : List Token) : RunAll 0 ts := by
  constructor <;> intros <;> intro c _ <;> exact @run_outOfFuel _ _ _ _ ts c _ (by omega)

theorem run_parseExpression {n : Nat} {ts : List Token} (IH : RunAll n ts) :
    Adv (n + 1) 10 1 (parseExpression (n + 1)) ts := by
  intro c hc
  rw [parseExpression]
  exact adv_call IH.parseLogicalOr hc (le_refl _) (by omega)

theorem run_parseLogicalOr {n : Nat} {ts : List Token} (IH : RunAll n ts) :
    Adv (n + 1) 9 1 (parseLogicalOr (n + 1)) ts := by
  intro c hc
  rw [parseLogicalOr]
  refine run_bind (adv_call IH.parseLogicalAnd hc (le_refl _) (by omega)) fun e c1 h1 => ?_
  refine run_mono (adv_call (IH.parseLogicalOrLoop e) h1.2 (by omega) (by omega)) (le_refl _) id ?_
  intro _ c2 h2
  omega

theorem run_parseLogicalOrLoop {n : Nat} {ts : List Token} (IH : RunAll n ts) (e : Expr) :
    Adv (n + 1) 1 0 (parseLogicalOrLoop (n + 1) e) ts := by
  intro c hc
  rw [parseLogicalOrLoop]
  refine run_bind (run_matchTok _ ts _) fun b c1 h => ?_
  rcases h with ⟨rfl, rfl, h⟩ | ⟨rfl, rfl⟩
  · simp only [↓reduceIte]
    refine run_bind (adv_call IH.parseLogicalAnd (by omega) (by omega) (by omega)) fun r c2 h2 => ?_
    refine run_mono (adv_call (IH.parseLogicalOrLoop _) h2.2 (by omega) (by omega)) (le_refl _) id ?_
    intro _ c3 h3
    omega
  · simp only [Bool.false_eq_true, ↓reduceIte]
    exact run_pure (by omega)

theorem run_isVariableDeclarationAhead {L c0 : Nat} {F : Prop} (ts : List Token) (c : Nat) :
    Run L c0 F (isVariableDeclarationAhead ts c) (fun _ c' => c' = c) := by
  simp only [sdl.isVariableDeclarationAhead, bind_apply, sdl.checkAny]
  split <;> simp [Run, pure_apply, bind_apply, sdl.getCurrent, sdl.advance,
    sdl.check, sdl.peekToken, sdl.setCurrent]

theorem run_isAssignmentAhead {L c0 : Nat} {F : Prop} (ts : List Token) (c : Nat) :
    Run L c0 F (isAssignmentAhead ts c) (fun _ c' => c' = c) := by
  simp [sdl.isAssignmentAhead, bind_apply, sdl.getCurrent, sdl.advance,
    sdl.check, sdl.setCurrent, Run, pure_apply]

theorem run_parsePrimary {n : Nat} {ts : List Token} (IH : RunAll n ts) :
    Adv (n + 1) 1 1 (parsePrimary (n + 1)) ts := by
  intro c hc
  rw [parsePrimary]
  iterate 4
    refine run_bind (run_matchTok _ ts _) fun b c1 h => ?_
    rcases h with ⟨rfl, rfl, h⟩ | ⟨rfl, rfl⟩
    · simp only [↓reduceIte]
      refine run_bind (run_previousToken ts _ (by omega) (by omega)) fun t c2 h2 => ?_
      subst h2
      exact run_pure (by omega)
    simp only [Bool.false_eq_true, ↓reduceIte]
  refine run_bind (run_matchAny _ ts _) fun b c1 h => ?_
  rcases h with ⟨rfl, rfl, h⟩ | ⟨rfl, rfl⟩
  · simp only [↓reduceIte]
    refine run_bind (run_previousToken ts _ (by omega) (by omega)) fun t c2 h2 => ?_
    subst h2
    exact run_pure (by omega)
  simp only [Bool.false_eq_true, ↓reduceIte]
  refine run_bind (run_matchTok _ ts _) fun b c1 h => ?_
  rcases h with ⟨rfl, rfl, h⟩ | ⟨rfl, rfl⟩
  · simp only [↓reduceIte]
    refine run_bind (adv_call IH.parseExpression (by omega) (by omega) (by omega)) fun e c2 h2 => ?_
    refine run_bind (run_consume _ _ ts _ (by omega)) fun _ c3 h3 => ?_
    exact run_pure (by omega)
  simp only [Bool.false_eq_true, ↓reduceIte]
  exact run_throw (by omega)

theorem run_parseUnary {n : Nat} {ts : List Token} (IH : RunAll n ts) :
    Adv (n + 1) 3 1 (parseUnary (n + 1)) ts := by
  intro c hc
  rw [parseUnary]
  refine run_bind (run_matchAny _ ts _) fun b c1 h => ?_
  rcases h with ⟨rfl, rfl, h⟩ | ⟨rfl, rfl⟩
  · simp only [↓reduceIte]
    refine run_bind (run_previousToken ts _ (by omega) (by omega)) fun t c2 h2 => ?_
    subst h2
    refine run_bind (adv_call IH.parseUnary (by omega) (by omega) (by omega)) fun e c2 h2 => ?_
    exact run_pure (by omega)
  simp only [Bool.false_eq_true, ↓reduceIte]
  exact adv_call IH.parsePostfix (by omega) (by omega) (by omega)

theorem run_parsePostfix {n : Nat} {ts : List Token} (IH : RunAll n ts) :
    Adv (n + 1) 2 1 (parsePostfix (n + 1)) ts := by
  intro c hc
  rw [parsePostfix]
  refine run_bind (adv_call IH.parsePrimary hc (le_refl _) (by omega)) fun e c1 h1 => ?_
  refine run_mono (adv_call (IH.parsePostfixLoop e) h1.2 (by omega) (by omega)) (le_refl _) id ?_
  intro _ c2 h2
  omega

theorem run_parseArguments {n : Nat} {ts : List Token} (IH : RunAll n ts) (acc : List Expr) :
    Adv (n + 1) 11 1 (parseArguments (n + 1) acc) ts := by
  intro c hc
  rw [parseArguments]
  refine run_bind (adv_call IH.parseExpression hc (le_refl _) (by omega)) fun e c1 h1 => ?_
  refine run_bind (run_matchTok _ ts _) fun b c2 h => ?_
  rcases h with ⟨rfl, rfl, h⟩ | ⟨rfl, rfl⟩
  · simp only [↓reduceIte]
    refine run_mono (adv_call (IH.parseArguments _) (by omega) (by omega) (by omega)) (le_refl _) id ?_
    intro _ c3 h3
    omega
  simp only [Bool.false_eq_true, ↓reduceIte]
  exact run_pure (by omega)

theorem run_parsePostfixLoop {n : Nat} {ts : List Token} (IH : RunAll n ts) (e : Expr) :
    Adv (n + 1) 1 0 (parsePostfixLoop (n + 1) e) ts := by
  intro c hc
  rw [parsePostfixLoop]
  refine run_bind (run_matchTok _ ts _) fun b c1 h => ?_
  rcases h with ⟨rfl, rfl, h⟩ | ⟨rfl, rfl⟩
  · simp only [↓reduceIte]
    refine run_bind (run_consume _ _ ts _ (by omega)) fun _ c3 h3 => ?_
    refine run_mono (adv_call (IH.parsePostfixLoop _) (by omega) (by omega) (by omega)) (le_refl _) id ?_
    intro _ c4 h4
    omega
  simp only [Bool.false_eq_true, ↓reduceIte]
  refine run_bind (run_matchTok _ ts _) fun b c1 h => ?_
  rcases h with ⟨rfl, rfl, h⟩ | ⟨rfl, rfl⟩
  · simp only [↓reduceIte]
    refine run_bind (run_check _ ts _) fun b c2 h2 => ?_
    obtain ⟨rfl, h2⟩ := h2
    cases b
    · simp only [Bool.not_false, ↓reduceIte]
      refine run_bind (adv_call (IH.parseArguments _) (by omega) (by omega) (by omega)) fun _ c3 h3 => ?_
      refine run_bind (run_consume _ _ ts _ (by omega)) fun _ c4 h4 => ?_
      refine run_mono (adv_call (IH.parsePostfixLoop _) (by omega) (by omega) (by omega)) (le_refl _) id ?_
      intro _ c5 h5
      omega
    · simp only [Bool.not_true, Bool.false_eq_true, ↓reduceIte]
      refine run_bind (run_consume _ _ ts _ (by omega)) fun _ c4 h4 => ?_
      refine run_mono (adv_call (IH.parsePostfixLoop _) (by omega) (by omega) (by omega)) (le_refl _) id ?_
      intro _ c5 h5
      omega
  simp only [Bool.false_eq_true, ↓reduceIte]
  refine run_bind (run_matchTok _ ts _) fun b c1 h => ?_
  rcases h with ⟨rfl, rfl, h⟩ | ⟨rfl, rfl⟩
  · simp only [↓reduceIte]
    refine run_bind (adv_call IH.parseExpression (by omega) (by omega) (by omega)) fun _ c3 h3 => ?_
    refine run_bind (run_consume _ _ ts _ (by omega)) fun _ c4 h4 => ?_
    refine run_mono (adv_call (IH.parsePostfixLoop _) (by omega) (by omega) (by omega)) (le_refl _) id ?_
    intro _ c5 h5
    omega
  simp only [Bool.false_eq_true, ↓reduceIte]
  exact run_pure (by omega)

theorem run_parseLogicalAndLoop {n : Nat} {ts : List Token} (IH : RunAll n ts) (e : Expr) :
    Adv (n + 1) 1 0 (parseLogicalAndLoop (n + 1) e) ts := by
  intro c hc
  rw [parseLogicalAndLoop]
  refine run_bind (run_matchTok _ ts _) fun b c1 h => ?_
  rcases h with ⟨rfl, rfl, h⟩ | ⟨rfl, rfl⟩
  · simp only [↓reduceIte]
    refine run_bind (adv_call IH.parseEquality (by omega) (by omega) (by omega)) fun r c2 h2 => ?_
    refine run_mono (adv_call (IH.parseLogicalAndLoop _) h2.2 (by omega) (by omega)) (le_refl _) id ?_
    intro _ c3 h3
    omega
  · simp only [Bool.false_eq_true, ↓reduceIte]
    exact run_pure (by omega)

theorem run_parseLogicalAnd {n : Nat} {ts : List Token} (IH : RunAll n ts) :
    Adv (n + 1) 8 1 (parseLogicalAnd (n + 1)) ts := by
  intro c hc
  rw [parseLogicalAnd]
  refine run_bind (adv_call IH.parseEquality hc (le_refl _) (by omega)) fun e c1 h1 => ?_
  refine run_mono (adv_call (IH.parseLogicalAndLoop e) h1.2 (by omega) (by omega)) (le_refl _) id ?_
  intro _ c2 h2
  omega

theorem run_parseEqualityLoop {n : Nat} {ts : List Token} (IH : RunAll n ts) (e : Expr) :
    Adv (n + 1) 1 0 (parseEqualityLoop (n + 1) e) ts := by
  intro c hc
  rw [parseEqualityLoop]
  refine run_bind (run_matchAny _ ts _) fun b c1 h => ?_
  rcases h with ⟨rfl, rfl, h⟩ | ⟨rfl, rfl⟩
  · simp only [↓reduceIte]
    refine run_bind (run_previousToken ts _ (by omega) (by omega)) fun t c2 h2 => ?_
    subst h2
    refine run_bind (adv_call IH.parseComparison (by omega) (by omega) (by omega)) fun r c2 h2 => ?_
    refine run_mono (adv_call (IH.parseEqualityLoop _) h2.2 (by omega) (by omega)) (le_refl _) id ?_
    intro _ c3 h3
    omega
  · simp only [Bool.false_eq_true, ↓reduceIte]
    exact run_pure (by omega)

theorem run_parseEquality {n : Nat} {ts : List Token} (IH : RunAll n ts) :
    Adv (n + 1) 7 1 (parseEquality (n + 1)) ts := by
  intro c hc
  rw [parseEquality]
  refine run_bind (adv_call IH.parseComparison hc (le_refl _) (by omega)) fun e c1 h1 => ?_
  refine run_mono (adv_call (IH.parseEqualityLoop e) h1.2 (by omega) (by omega)) (le_refl _) id ?_
  intro _ c2 h2
  omega

theorem run_parseComparisonLoop {n : Nat} {ts : List Token} (IH : RunAll n ts) (e : Expr) :
    Adv (n + 1) 1 0 (parseComparisonLoop (n + 1) e) ts := by
  intro c hc
  rw [parseComparisonLoop]
  refine run_bind (run_matchAny _ ts _) fun b c1 h => ?_
  rcases h with ⟨rfl, rfl, h⟩ | ⟨rfl, rfl⟩
  · simp only [↓reduceIte]
    refine run_bind (run_previousToken ts _ (by omega) (by omega)) fun t c2 h2 => ?_
    subst h2
    refine run_bind (R := fun _ c2 => c2 = c + 1) ?_ fun op c2 h2 => ?_
    · generalize t.type = ty
      cases ty <;> first
        | exact run_pure rfl
        | exact run_throw (by omega)
    subst h2
    refine run_bind (adv_call IH.parseAddition (by omega) (by omega) (by omega)) fun r c2 h2 => ?_
    refine run_mono (adv_call (IH.parseComparisonLoop _) h2.2 (by omega) (by omega)) (le_refl _) id ?_
    intro _ c3 h3
    omega
  · simp only [Bool.false_eq_true, ↓reduceIte]
    exact run_pure (by omega)

theorem run_parseComparison {n : Nat} {ts : List Token} (IH : RunAll n ts) :
    Adv (n + 1) 6 1 (parseComparison (n + 1)) ts := by
  intro c hc
  rw [parseComparison]
  refine run_bind (adv_call IH.parseAddition hc (le_refl _) (by omega)) fun e c1 h1 => ?_
  refine run_mono (adv_call (IH.parseComparisonLoop e) h1.2 (by omega) (by omega)) (le_refl _) id ?_
  intro _ c2 h2
  omega

theorem run_parseAdditionLoop {n : Nat} {ts : List Token} (IH : RunAll n ts) (e : Expr) :
    Adv (n + 1) 1 0 (parseAdditionLoop (n + 1) e) ts := by
  intro c hc
  rw [parseAdditionLoop]
  refine run_bind (run_matchAny _ ts _) fun b c1 h => ?_
  rcases h with ⟨rfl, rfl, h⟩ | ⟨rfl, rfl⟩
  · simp only [↓reduceIte]
    refine run_bind (run_previousToken ts _ (by omega) (by omega)) fun t c2 h2 => ?_
    subst h2
    refine run_bind (adv_call IH.parseMultiplication (by omega) (by omega) (by omega)) fun r c2 h2 => ?_
    refine run_mono (adv_call (IH.parseAdditionLoop _) h2.2 (by omega) (by omega)) (le_refl _) id ?_
    intro _ c3 h3
    omega
  · simp only [Bool.false_eq_true, ↓reduceIte]
    exact run_pure (by omega)

theorem run_parseAddition {n : Nat} {ts : List Token} (IH : RunAll n ts) :
    Adv (n + 1) 5 1 (parseAddition (n + 1)) ts := by
  intro c hc
  rw [parseAddition]
  refine run_bind (adv_call IH.parseMultiplication hc (le_refl _) (by omega)) fun e c1 h1 => ?_
  refine run_mono (adv_call (IH.parseAdditionLoop e) h1.2 (by omega) (by omega)) (le_refl _) id ?_
  intro _ c2 h2
  omega

theorem run_parseMultiplicationLoop {n : Nat} {ts : List Token} (IH : RunAll n ts) (e : Expr) :
    Adv (n + 1) 1 0 (parseMultiplicationLoop (n + 1) e) ts := by
  intro c hc
  rw [parseMultiplicationLoop]
  refine run_bind (run_matchAny _ ts _) fun b c1 h => ?_
  rcases h with ⟨rfl, rfl, h⟩ | ⟨rfl, rfl⟩
  · simp only [↓reduceIte]
    refine run_bind (run_previousToken ts _ (by omega) (by omega)) fun t c2 h2 => ?_
    subst h2
    refine run_bind (R := fun _ c2 => c2 = c + 1) ?_ fun op c2 h2 => ?_
    · generalize t.type = ty
      cases ty <;> first
        | exact run_pure rfl
        | exact run_throw (by omega)
    subst h2
    refine run_bind (adv_call IH.parseUnary (by omega) (by omega) (by omega)) fun r c2 h2 => ?_
    refine run_mono (adv_call (IH.parseMultiplicationLoop _) h2.2 (by omega) (by omega)) (le_refl _) id ?_
    intro _ c3 h3
    omega
  · simp only [Bool.false_eq_true, ↓reduceIte]
    exact run_pure (by omega)

theorem run_parseMultiplication {n : Nat} {ts : List Token} (IH : RunAll n ts) :
    Adv (n + 1) 4 1 (parseMultiplication (n + 1)) ts := by
  intro c hc
  rw [parseMultiplication]
  refine run_bind (adv_call IH.parseUnary hc (le_refl _) (by omega)) fun e c1 h1 => ?_
  refine run_mono (adv_call (IH.parseMultiplicationLoop e) h1.2 (by omega) (by omega)) (le_refl _) id ?_
  intro _ c2 h2
  omega

theorem adv_tail {α : Type} {n r d : Nat} {m : ParserM α} {ts : List Token} (h : Adv n r d m ts)
    {c0 c1 d0 : Nat} {F : Prop} (h1 : c1 ≤ ts.length) (h0 : c0 ≤ c1)
    (hF : n < 16 * (ts.length - c1) + r → F) (hd : c0 + d0 ≤ c1 + d) :
    Run ts.length c0 F (m ts c1) (fun _ c' => c0 + d0 ≤ c' ∧ c' ≤ ts.length) :=
  run_mono (h c1 h1) h0 hF (fun _ _ hq => ⟨by omega, hq.2⟩)

theorem run_decrementCurrent {L c0 : Nat} {F : Prop} (ts : List Token) (c : Nat) (h : 1 ≤ c) :
    Run L c0 F (decrementCurrent ts c) (fun _ c' => c' = c - 1) := by
  have h4 : c ≠ 0 := by omega
  simp [Run, sdl.decrementCurrent, h4]

theorem run_parseStatement {n : Nat} {ts : List Token} (IH : RunAll n ts) :
    Adv (n + 1) 11 1 (parseStatement (n + 1)) ts := by
  intro c hc
  rw [parseStatement]
  refine run_bind (run_matchTok _ ts _) fun b c1 h => ?_
  rcases h with ⟨rfl, rfl, h⟩ | ⟨rfl, rfl⟩
  · simp only [↓reduceIte]
    exact adv_tail IH.parseBlockStatement (by omega) (by omega) (by omega) (by omega)
  simp only [Bool.false_eq_true, ↓reduceIte]
  refine run_bind (run_matchTok _ ts _) fun b c1 h => ?_
  rcases h with ⟨rfl, rfl, h⟩ | ⟨rfl, rfl⟩
  · simp only [↓reduceIte]
    exact adv_tail IH.parseIfStatement (by omega) (by omega) (by omega) (by omega)
  simp only [Bool.false_eq_true, ↓reduceIte]
  refine run_bind (run_matchTok _ ts _) fun b c1 h => ?_
  rcases h with ⟨rfl, rfl, h⟩ | ⟨rfl, rfl⟩
  · simp only [↓reduceIte]
    exact adv_tail IH.parseForStatement (by omega) (by omega) (by omega) (by omega)
  simp only [Bool.false_eq_true, ↓reduceIte]
  refine run_bind (run_matchTok _ ts _) fun b c1 h => ?_
  rcases h with ⟨rfl, rfl, h⟩ | ⟨rfl, rfl⟩
  · simp only [↓reduceIte]
    exact adv_tail IH.parseWhileStatement (by omega) (by omega) (by omega) (by omega)
  simp only [Bool.false_eq_true, ↓reduceIte]
  refine run_bind (run_matchTok _ ts _) fun b c1 h => ?_
  rcases h with ⟨rfl, rfl, h⟩ | ⟨rfl, rfl⟩
  · simp only [↓reduceIte]
    exact adv_tail IH.parseReturnStatement (by omega) (by omega) (by omega) (by omega)
  simp only [Bool.false_eq_true, ↓reduceIte]
  refine run_bind (run_isVariableDeclarationAhead ts _) fun b c1 h => ?_
  subst h
  cases b
  swap
  · simp only [↓reduceIte]
    exact adv_tail IH.parseVariableDeclaration (by omega) (by omega) (by omega) (by omega)
  simp only [Bool.false_eq_true, ↓reduceIte]
  refine run_bind (run_check _ ts _) fun b c1 h => ?_
  obtain ⟨rfl, h⟩ := h
  cases b
  swap
  · simp only [↓reduceIte]
    refine run_bind (run_isAssignmentAhead ts _) fun b c1 h => ?_
    subst h
    cases b
    swap
    · simp only [↓reduceIte]
      refine run_bind (run_consume _ _ ts _ (by omega)) fun _ c2 h2 => ?_
      refine run_bind (run_consume _ _ ts _ (by omega)) fun _ c3 h3 => ?_
      refine run_bind (adv_call IH.parseExpression (by omega) (by omega) (by omega)) fun _ c4 h4 => ?_
      refine run_bind (run_consume _ _ ts _ (by omega)) fun _ c5 h5 => ?_
      exact run_pure (by omega)
    · simp only [Bool.false_eq_true, ↓reduceIte]
      refine run_bind (adv_call IH.parseExpression (by omega) (by omega) (by omega)) fun _ c4 h4 => ?_
      refine run_bind (run_consume _ _ ts _ (by omega)) fun _ c5 h5 => ?_
      exact run_pure (by omega)
  · simp only [Bool.false_eq_true, ↓reduceIte]
    refine run_bind (adv_call IH.parseExpression (by omega) (by omega) (by omega)) fun _ c4 h4 => ?_
    refine run_bind (run_consume _ _ ts _ (by omega)) fun _ c5 h5 => ?_
    exact run_pure (by omega)

theorem run_parseStatementList {n : Nat} {ts : List Token} (IH : RunAll n ts) (acc : List Stmt) :
    Adv (n + 1) 12 0 (parseStatementList (n + 1) acc) ts := by
  intro c hc
  rw [parseStatementList]
  refine run_bind (run_check _ ts _) fun b c1 h => ?_
  obtain ⟨rfl, h⟩ := h
  refine run_bind (run_isAtEnd ts _) fun b2 c1 h2 => ?_
  obtain ⟨rfl, h2⟩ := h2
  split
  · refine run_bind (adv_call IH.parseStatement (by omega) (by omega) (by omega)) fun _ c4 h4 => ?_
    exact adv_tail (IH.parseStatementList _) (by omega) (by omega) (by omega) (by omega)
  · exact run_pure (by omega)

theorem run_parseBlockStatement {n : Nat} {ts : List Token} (IH : RunAll n ts) :
    Adv (n + 1) 13 1 (parseBlockStatement (n + 1)) ts := by
  intro c hc
  rw [parseBlockStatement]
  refine run_bind (adv_call (IH.parseStatementList _) (by omega) (by omega) (by omega)) fun _ c4 h4 => ?_
  refine run_bind (run_consume _ _ ts _ (by omega)) fun _ c5 h5 => ?_
  exact run_pure (by omega)

theorem run_parseVariableDeclarationRest {n : Nat} {ts : List Token} (IH : RunAll n ts)
    (q : Qualifier) (t : TypeNode) (s : String) :
    Adv (n + 1) 1 1 (parseVariableDeclarationRest (n + 1) q t s) ts := by
  intro c hc
  rw [parseVariableDeclarationRest]
  refine run_bind (run_matchTok _ ts _) fun b c1 h => ?_
  rcases h with ⟨rfl, rfl, h⟩ | ⟨rfl, rfl⟩
  · simp only [↓reduceIte]
    refine run_bind (adv_call IH.parseExpression (by omega) (by omega) (by omega)) fun _ c4 h4 => ?_
    refine run_bind (run_consume _ _ ts _ (by omega)) fun _ c5 h5 => ?_
    exact run_pure (by omega)
  simp only [Bool.false_eq_true, ↓reduceIte]
  refine run_bind (run_consume _ _ ts _ (by omega)) fun _ c5 h5 => ?_
  exact run_pure (by omega)

theorem run_parseVariableDeclaration {n : Nat} {ts : List Token} (IH : RunAll n ts) :
    Adv (n + 1) 1 1 (parseVariableDeclaration (n + 1)) ts := by
  intro c hc
  rw [parseVariableDeclaration]
  refine run_bind (run_parseQualifier ts _ hc) fun _ c1 h1 => ?_
  refine run_bind (run_parseType ts _ (by omega)) fun _ c2 h2 => ?_
  refine run_bind (run_consume _ _ ts _ (by omega)) fun _ c3 h3 => ?_
  exact adv_tail (IH.parseVariableDeclarationRest _ _ _) (by omega) (by omega) (by omega) (by omega)

theorem run_parseIfStatement {n : Nat} {ts : List Token} (IH : RunAll n ts) :
    Adv (n + 1) 1 1 (parseIfStatement (n + 1)) ts := by
  intro c hc
  rw [parseIfStatement]
  refine run_bind (run_consume _ _ ts _ (by omega)) fun _ c1 h1 => ?_
  refine run_bind (adv_call IH.parseExpression (by omega) (by omega) (by omega)) fun _ c2 h2 => ?_
  refine run_bind (run_consume _ _ ts _ (by omega)) fun _ c3 h3 => ?_
  refine run_bind (adv_call IH.parseStatement (by omega) (by omega) (by omega)) fun _ c4 h4 => ?_
  refine run_bind (run_matchTok _ ts _) fun b c5 h => ?_
  rcases h with ⟨rfl, rfl, h⟩ | ⟨rfl, rfl⟩
  · simp only [↓reduceIte]
    refine run_bind (adv_call IH.parseStatement (by omega) (by omega) (by omega)) fun _ c6 h6 => ?_
    exact run_pure (by omega)
  simp only [Bool.false_eq_true, ↓reduceIte]
  exact run_pure (by omega)

theorem run_parseForInit {n : Nat} {ts : List Token} (IH : RunAll n ts) :
    Adv (n + 1) 12 0 (parseForInit (n + 1)) ts := by
  intro c hc
  rw [parseForInit]
  refine run_bind (run_check _ ts _) fun b c1 h => ?_
  obtain ⟨rfl, h⟩ := h
  cases b
  · simp only [Bool.not_false, ↓reduceIte]
    refine run_bind (run_checkAny _ ts _) fun b c1 h => ?_
    obtain ⟨rfl, h⟩ := h
    cases b
    · simp only [Bool.false_eq_true, ↓reduceIte]
      refine run_bind (adv_call IH.parseStatement (by omega) (by omega) (by omega)) fun _ c4 h4 => ?_
      refine run_bind (run_decrementCurrent ts _ (by omega)) fun _ c5 h5 => ?_
      exact run_pure (by omega)
    · simp only [↓reduceIte]
      refine run_bind (run_parseType ts _ (by omega)) fun _ c2 h2 => ?_
      refine run_bind (run_consume _ _ ts _ (by omega)) fun _ c3 h3 => ?_
      refine run_bind (run_matchTok _ ts _) fun b c5 h => ?_
      rcases h with ⟨rfl, rfl, h⟩ | ⟨rfl, rfl⟩
      · simp only [↓reduceIte]
        refine run_bind (adv_call IH.parseExpression (by omega) (by omega) (by omega)) fun _ c6 h6 => ?_
        exact run_pure (by omega)
      simp only [Bool.false_eq_true, ↓reduceIte]
      exact run_pure (by omega)
  · simp only [Bool.not_true, Bool.false_eq_true, ↓reduceIte]
    exact run_pure (by omega)

theorem run_parseForStatement {n : Nat} {ts : List Token} (IH : RunAll n ts) :
    Adv (n + 1) 1 1 (parseForStatement (n + 1)) ts := by
  intro c hc
  rw [parseForStatement]
  refine run_bind (run_consume _ _ ts _ (by omega)) fun _ c1 h1 => ?_
  refine run_bind (adv_call IH.parseForInit (by omega) (by omega) (by omega)) fun _ c2 h2 => ?_
  refine run_bind (run_consume _ _ ts _ (by omega)) fun _ c3 h3 => ?_
  refine run_bind (R := fun _ c4 => c3 ≤ c4 ∧ c4 ≤ ts.length) ?_ fun _ c4 h4 => ?_
  · refine run_bind (run_check _ ts _) fun b c5 h => ?_
    obtain ⟨rfl, h⟩ := h
    cases b
    · simp only [Bool.not_false, ↓reduceIte]
      refine run_bind (adv_call IH.parseExpression (by omega) (by omega) (by omega)) fun _ c6 h6 => ?_
      exact run_pure (by omega)
    · simp only [Bool.not_true, Bool.false_eq_true, ↓reduceIte]
      exact run_pure (by omega)
  refine run_bind (run_consume _ _ ts _ (by omega)) fun _ c5 h5 => ?_
  refine run_bind (R := fun _ c6 => c5 ≤ c6 ∧ c6 ≤ ts.length) ?_ fun _ c6 h6 => ?_
  · refine run_bind (run_check _ ts _) fun b c7 h => ?_
    obtain ⟨rfl, h⟩ := h
    cases b
    · simp only [Bool.not_false, ↓reduceIte]
      refine run_bind (adv_call IH.parseExpression (by omega) (by omega) (by omega)) fun _ c8 h8 => ?_
      exact run_pure (by omega)
    · simp only [Bool.not_true, Bool.false_eq_true, ↓reduceIte]
      exact run_pure (by omega)
  refine run_bind (run_consume _ _ ts _ (by omega)) fun _ c7 h7 => ?_
  refine run_bind (adv_call IH.parseStatement (by omega) (by omega) (by omega)) fun _ c8 h8 => ?_
  exact run_pure (by omega)

theorem run_parseWhileStatement {n : Nat} {ts : List Token} (IH : RunAll n ts) :
    Adv (n + 1) 1 1 (parseWhileStatement (n + 1)) ts := by
  intro c hc
  rw [parseWhileStatement]
  refine run_bind (run_consume _ _ ts _ (by omega)) fun _ c1 h1 => ?_
  refine run_bind (adv_call IH.parseExpression (by omega) (by omega) (by omega)) fun _ c2 h2 => ?_
  refine run_bind (run_consume _ _ ts _ (by omega)) fun _ c3 h3 => ?_
  refine run_bind (adv_call IH.parseStatement (by omega) (by omega) (by omega)) fun _ c4 h4 => ?_
  exact run_pure (by omega)

theorem run_parseReturnStatement {n : Nat} {ts : List Token} (IH : RunAll n ts) :
    Adv (n + 1) 11 1 (parseReturnStatement (n + 1)) ts := by
  intro c hc
  rw [parseReturnStatement]
  refine run_bind (run_check _ ts _) fun b c1 h => ?_
  obtain ⟨rfl, h⟩ := h
  cases b
  · simp only [Bool.not_false, ↓reduceIte]
    refine run_bind (adv_call IH.parseExpression (by omega) (by omega) (by omega)) fun _ c2 h2 => ?_
    refine run_bind (run_consume _ _ ts _ (by omega)) fun _ c3 h3 => ?_
    exact run_pure (by omega)
  · simp only [Bool.not_true, Bool.false_eq_true, ↓reduceIte]
    refine run_bind (run_consume _ _ ts _ (by omega)) fun _ c3 h3 => ?_
    exact run_pure (by omega)

theorem runAll (n : Nat) (ts : List Token) : RunAll n ts := by
  induction n with
  | zero => exact runAll_zero ts
  | succ n IH =>
    exact {
      parseStatement := run_parseStatement IH
      parseStatementList := run_parseStatementList IH
      parseBlockStatement := run_parseBlockStatement IH
      parseVariableDeclarationRest := run_parseVariableDeclarationRest IH
      parseVariableDeclaration := run_parseVariableDeclaration IH
      parseIfStatement := run_parseIfStatement IH
      parseForInit := run_parseForInit IH
      parseForStatement := run_parseForStatement IH
      parseWhileStatement := run_parseWhileStatement IH
      parseReturnStatement := run_parseReturnStatement IH
      parseExpression := run_parseExpression IH
      parseLogicalOr := run_parseLogicalOr IH
      parseLogicalOrLoop := run_parseLogicalOrLoop IH
      parseLogicalAnd := run_parseLogicalAnd IH
      parseLogicalAndLoop := run_parseLogicalAndLoop IH
      parseEquality := run_parseEquality IH
      parseEqualityLoop := run_parseEqualityLoop IH
      parseComparison := run_parseComparison IH
      parseComparisonLoop := run_parseComparisonLoop IH
      parseAddition := run_parseAddition IH
      parseAdditionLoop := run_parseAdditionLoop IH
      parseMultiplication := run_parseMultiplication IH
      parseMultiplicationLoop := run_parseMultiplicationLoop IH
      parseUnary := run_parseUnary IH
      parsePrimary := run_parsePrimary IH
      parsePostfix := run_parsePostfix IH
      parsePostfixLoop := run_parsePostfixLoop IH
      parseArguments := run_parseArguments IH }

theorem run_parseShaderType {c0 : Nat} {F : Prop} (ts : List Token) (c : Nat) (hc : c0 ≤ c ∧ c ≤ ts.length) :
    Run ts.length c0 F (parseShaderType ts c) (fun _ c' => c' = c + 1 ∧ c < ts.length) := by
  unfold sdl.parseShaderType
  iterate 3
    refine run_bind (run_matchTok _ ts _) fun b c1 h => ?_
    rcases h with ⟨rfl, rfl, h⟩ | ⟨rfl, rfl⟩
    · exact run_pure ⟨rfl, h⟩
    simp only [Bool.false_eq_true, ↓reduceIte]
  exact run_throw hc

theorem run_parseParameters (ts : List Token) :
    ∀ (n : Nat) (acc : List VariableDeclaration), Adv n 1 1 (parseParameters n acc) ts := by
  intro n
  induction n with
  | zero => intro acc c _; exact @run_outOfFuel _ _ _ _ ts c _ (by omega)
  | succ n IH =>
    intro acc c hc
    rw [parseParameters]
    refine run_bind (run_parseQualifier ts _ hc) fun _ c1 h1 => ?_
    refine run_bind (run_parseType ts _ (by omega)) fun _ c2 h2 => ?_
    refine run_bind (run_consume _ _ ts _ (by omega)) fun _ c3 h3 => ?_
    refine run_bind (run_matchTok _ ts _) fun b c5 h => ?_
    rcases h with ⟨rfl, rfl, h⟩ | ⟨rfl, rfl⟩
    · simp only [↓reduceIte]
      exact adv_tail (IH _) (by omega) (by omega) (by omega) (by omega)
    simp only [Bool.false_eq_true, ↓reduceIte]
    exact run_pure (by omega)

theorem run_parseFunctionRest (ts : List Token) (n : Nat) (name : String) (ty : TypeNode) :
    Adv n 1 1 (parseFunctionRest n name ty) ts := by
  intro c hc
  unfold parseFunctionRest
  refine run_bind (run_consume _ _ ts _ (by omega)) fun _ c1 h1 => ?_
  refine run_bind (R := fun _ c2 => c1 ≤ c2 ∧ c2 ≤ ts.length) ?_ fun _ c2 h2 => ?_
  · refine run_bind (run_check _ ts _) fun b c5 h => ?_
    obtain ⟨rfl, h⟩ := h
    cases b
    · simp only [Bool.not_false, ↓reduceIte]
      exact run_mono (adv_call (run_parseParameters ts n _) (by omega) (by omega) (by omega))
        (le_refl _) id (by intro _ _ _; omega)
    · simp only [Bool.not_true, Bool.false_eq_true, ↓reduceIte]
      exact run_pure (by omega)
  refine run_bind (run_consume _ _ ts _ (by omega)) fun _ c3 h3 => ?_
  refine run_bind (run_matchTok _ ts _) fun b c5 h => ?_
  rcases h with ⟨rfl, rfl, h⟩ | ⟨rfl, rfl⟩
  · simp only [↓reduceIte]
    refine run_bind (adv_call ((runAll n ts).parseStatementList _) (by omega) (by omega) (by omega)) fun _ c6 h6 => ?_
    refine run_bind (run_consume _ _ ts _ (by omega)) fun _ c7 h7 => ?_
    exact run_pure (by omega)
  simp only [Bool.false_eq_true, ↓reduceIte]
  refine run_bind (run_consume _ _ ts _ (by omega)) fun _ c7 h7 => ?_
  exact run_pure (by omega)

theorem run_parseShaderBody (ts : List Token) :
    ∀ (n : Nat) (acc : List Stmt), Adv n 1 0 (parseShaderBody n acc) ts := by
  intro n
  induction n with
  | zero => intro acc c _; exact @run_outOfFuel _ _ _ _ ts c _ (by omega)
  | succ n IH =>
    intro acc c hc
    rw [parseShaderBody]
    refine run_bind (run_check _ ts _) fun b c1 h => ?_
    obtain ⟨rfl, h⟩ := h
    refine run_bind (run_isAtEnd ts _) fun b2 c1 h2 => ?_
    obtain ⟨rfl, h2⟩ := h2
    split
    · refine run_bind (run_checkAny _ ts _) fun b c1 h => ?_
      obtain ⟨rfl, h⟩ := h
      cases b
      swap
      · simp only [↓reduceIte]
        refine run_bind (run_parseQualifier ts _ hc) fun _ c1 h1 => ?_
        refine run_bind (run_parseType ts _ (by omega)) fun _ c2 h2 => ?_
        refine run_bind (run_consume _ _ ts _ (by omega)) fun _ c3 h3 => ?_
        refine run_bind (adv_call ((runAll n ts).parseVariableDeclarationRest _ _ _) (by omega) (by omega) (by omega)) fun _ c6 h6 => ?_
        exact adv_tail (IH _) (by omega) (by omega) (by omega) (by omega)
      simp only [Bool.false_eq_true, ↓reduceIte]
      refine run_bind (run_checkAny _ ts _) fun b c1 h => ?_
      obtain ⟨rfl, h⟩ := h
      cases b
      swap
      · simp only [↓reduceIte]
        refine run_bind (run_parseType ts _ (by omega)) fun _ c2 h2 => ?_
        refine run_bind (run_consume _ _ ts _ (by omega)) fun _ c3 h3 => ?_
        refine run_bind (run_check _ ts _) fun b c1 h => ?_
        obtain ⟨rfl, h⟩ := h
        cases b
        swap
        · simp only [↓reduceIte]
          refine run_bind (adv_call (run_parseFunctionRest ts n _ _) (by omega) (by omega) (by omega)) fun _ c6 h6 => ?_
          exact adv_tail (IH _) (by omega) (by omega) (by omega) (by omega)
        simp only [Bool.false_eq_true, ↓reduceIte]
        refine run_bind (adv_call ((runAll n ts).parseVariableDeclarationRest _ _ _) (by omega) (by omega) (by omega)) fun _ c6 h6 => ?_
        exact adv_tail (IH _) (by omega) (by omega) (by omega) (by omega)
      simp only [Bool.false_eq_true, ↓reduceIte]
      refine run_bind (run_currentToken ts _) fun _ c1 h1 => ?_
      subst h1
      refine run_bind (run_currentToken ts _) fun _ c1 h1 => ?_
      subst h1
      exact run_throw (by omega)
    · exact run_pure (by omega)

theorem run_parseShaderDeclaration (ts : List Token) (n : Nat) :
    Adv n 1 1 (parseShaderDeclaration n) ts := by
  intro c hc
  unfold parseShaderDeclaration
  refine run_bind (run_consume _ _ ts _ (by omega)) fun _ c1 h1 => ?_
  refine run_bind (run_consume _ _ ts _ (by omega)) fun _ c2 h2 => ?_
  refine run_bind (run_parseShaderType ts _ (by omega)) fun _ c3 h3 => ?_
  refine run_bind (run_consume _ _ ts _ (by omega)) fun _ c4 h4 => ?_
  refine run_bind (adv_call (run_parseShaderBody ts n _) (by omega) (by omega) (by omega)) fun _ c6 h6 => ?_
  refine run_bind (run_consume _ _ ts _ (by omega)) fun _ c7 h7 => ?_
  exact run_pure (by omega)

theorem run_parseDeclaration (ts : List Token) (n : Nat) :
    Adv n 11 1 (parseDeclaration n) ts := by
  intro c hc
  unfold parseDeclaration
  refine run_bind (run_matchTok _ ts _) fun b c5 h => ?_
  rcases h with ⟨rfl, rfl, h⟩ | ⟨rfl, rfl⟩
  · simp only [↓reduceIte]
    exact adv_tail (run_parseShaderDeclaration ts n) (by omega) (by omega) (by omega) (by omega)
  simp only [Bool.false_eq_true, ↓reduceIte]
  refine run_bind (run_checkAny _ ts _) fun b c1 h => ?_
  obtain ⟨rfl, h⟩ := h
  cases b
  swap
  · simp only [↓reduceIte]
    refine run_bind (run_parseQualifier ts _ hc) fun _ c1 h1 => ?_
    refine run_bind (run_parseType ts _ (by omega)) fun _ c2 h2 => ?_
    refine run_bind (run_check _ ts _) fun b c1 h => ?_
    obtain ⟨rfl, h⟩ := h
    cases b
    swap
    · simp only [↓reduceIte]
      refine run_bind (run_consume _ _ ts _ (by omega)) fun _ c3 h3 => ?_
      refine run_bind (run_check _ ts _) fun b c1 h => ?_
      obtain ⟨rfl, h⟩ := h
      cases b
      swap
      · simp only [↓reduceIte]
        exact adv_tail (run_parseFunctionRest ts n _ _) (by omega) (by omega) (by omega) (by omega)
      simp only [Bool.false_eq_true, ↓reduceIte]
      exact adv_tail ((runAll n ts).parseVariableDeclarationRest _ _ _) (by omega) (by omega) (by omega) (by omega)
    simp only [Bool.false_eq_true, ↓reduceIte]
    exact run_throw (by omega)
  simp only [Bool.false_eq_true, ↓reduceIte]
  exact adv_tail (runAll n ts).parseStatement (by omega) (by omega) (by omega) (by omega)

theorem synchronizeLoop_ok (ts : List Token) :
    ∀ (n c : Nat), (isAtEndAt ts c = true ∨ 1 ≤ c) → c ≤ ts.length →
      ∃ c', synchronizeLoop n ts c = Res.ok () c' ∧ c ≤ c' ∧ c' ≤ ts.length := by
  intro n
  induction n with
  | zero => intro c _ hc; exact ⟨c, rfl, le_refl _, hc⟩
  | succ n IH =>
    intro c h1 hc
    rw [synchronizeLoop, bind_apply]
    simp only [sdl.isAtEnd]
    cases hb : isAtEndAt ts c
    · have h2 : c ≠ 0 := by
        rcases h1 with h1 | h1
        · rw [hb] at h1; cases h1
        · omega
      have h3 := isAtEndAt_false hb
      have h4 : c - 1 < ts.length := by omega
      simp only [Bool.not_false, ↓reduceIte, bind_apply, sdl.previousToken, h2,
        List.getElem?_eq_getElem h4, sdl.currentToken]
      split
      · exact ⟨c, rfl, le_refl _, hc⟩
      · rw [bind_apply]
        simp only [sdl.currentToken]
        split
        · exact ⟨c, rfl, le_refl _, hc⟩
        · rw [bind_apply]
          simp only [sdl.advance, advanceAt, hb, Bool.not_false, ↓reduceIte]
          obtain ⟨c', h5, h6, h7⟩ := IH (c + 1) (Or.inr (by omega)) (by omega)
          exact ⟨c', h5, by omega, h7⟩
    · exact ⟨c, rfl, le_refl _, hc⟩

theorem synchronize_ok (ts : List Token) (c : Nat) (hc : c ≤ ts.length) :
    ∃ c', synchronize ts c = Res.ok () c' ∧ advanceAt ts c ≤ c' ∧ c' ≤ ts.length := by
  have h := synchronizeLoop_ok ts (ts.length - c) (advanceAt ts c) (by
    unfold advanceAt
    cases h : isAtEndAt ts c
    · simp
    · simp [h]) ((advanceAt_le ts c).2 hc)
  unfold synchronize
  rw [bind_apply]
  simp only [sdl.advance]
  exact h

/-- Sufficient fuel makes the loop of `parseProgram` return. -/
theorem parseProgramLoop_ok (ts : List Token) :
    ∀ (n c : Nat) (decls : List Stmt) (errs : List ErrorReport), c ≤ ts.length →
      16 * (ts.length - c) + 12 ≤ n →
      ∃ p e c', parseProgramLoop n ts c decls errs = Res.ok (p, e) c' := by
  intro n
  induction n with
  | zero => intro c _ _ _ h; omega
  | succ n IH =>
    intro c decls errs hc hn
    rw [parseProgramLoop]
    cases hb : isAtEndAt ts c
    · simp only [Bool.not_false, ↓reduceIte]
      have h3 := isAtEndAt_false hb
      have h := run_parseDeclaration ts n c hc
      cases hd : parseDeclaration n ts c with
      | ok d c1 =>
        rw [hd] at h
        simp only [Run] at h
        exact IH c1 _ _ h.2 (by omega)
      | err msg c1 =>
        rw [hd] at h
        simp only [Run] at h
        obtain ⟨c2, h5, h6, h7⟩ := synchronize_ok ts c1 h.2
        simp only [h5]
        have h8 := advanceAt_le ts c1
        have h9 : c + 1 ≤ c2 := by
          by_cases hcc : c1 = c
          · subst hcc
            simp only [advanceAt, hb, Bool.not_false, ↓reduceIte] at h6
            exact h6
          · omega
        exact IH c2 _ _ h7 (by omega)
      | fuel =>
        rw [hd] at h
        simp only [Run] at h
        omega
      | oob =>
        rw [hd] at h
        exact h.elim
    · simp only [Bool.not_true, Bool.false_eq_true, ↓reduceIte]
      exact ⟨_, _, _, rfl⟩

theorem parseProgram_ok (ts : List Token) :
    ∃ p e c', parseProgram ts = Res.ok (p, e) c' :=
  parseProgramLoop_ok ts _ 0 [] [] (Nat.zero_le _) (by unfold parseFuel; omega)

theorem fuelMono_refl {α : Type} (m : ParserM α) : FuelMono m m :=
  fun _ _ => Or.inr rfl

theorem fuelMono_outOfFuel {α : Type} (m : ParserM α) : FuelMono outOfFuel m :=
  fun _ _ => Or.inl rfl

theorem fuelMono_bind {α β : Type} {m m' : ParserM α} {f f' : α → ParserM β}
    (h1 : FuelMono m m') (h2 : ∀ a, FuelMono (f a) (f' a)) :
    FuelMono (m >>= f) (m' >>= f') := by
  intro ts c
  rw [bind_apply, bind_apply]
  rcases h1 ts c with h | h
  · left; rw [h]
  · rw [← h]
    cases m ts c with
    | ok a c1 => exact h2 a ts c1
    | err _ _ => right; rfl
    | fuel => right; rfl
    | oob => right; rfl

theorem fuelMono_ite {α : Type} {p : Prop} [Decidable p] {a a' b b' : ParserM α}
    (h1 : FuelMono a a') (h2 : FuelMono b b') :
    FuelMono (if p then a else b) (if p then a' else b') := by
  split
  · exact h1
  · exact h2

theorem monoAll_zero : MonoAll 0 := by
  constructor <;> intros <;> exact fuelMono_outOfFuel _

theorem monoAll_succ {n : Nat} (IH : MonoAll n) : MonoAll (n + 1) := by
  constructor <;> intros <;> (first
    | rw [sdl.parseStatement, sdl.parseStatement]
    | rw [sdl.parseBlockStatement, sdl.parseBlockStatement]
    | rw [sdl.parseVariableDeclaration, sdl.parseVariableDeclaration]
    | rw [sdl.parseIfStatement, sdl.parseIfStatement]
    | rw [sdl.parseForInit, sdl.parseForInit]
    | rw [sdl.parseForStatement, sdl.parseForStatement]
    | rw [sdl.parseWhileStatement, sdl.parseWhileStatement]
    | rw [sdl.parseReturnStatement, sdl.parseReturnStatement]
    | rw [sdl.parseExpression, sdl.parseExpression]
    | rw [sdl.parseLogicalOr, sdl.parseLogicalOr]
    | rw [sdl.parseLogicalAnd, sdl.parseLogicalAnd]
    | rw [sdl.parseEquality, sdl.parseEquality]
    | rw [sdl.parseComparison, sdl.parseComparison]
    | rw [sdl.parseAddition, sdl.parseAddition]
    | rw [sdl.parseMultiplication, sdl.parseMultiplication]
    | rw [sdl.parseUnary, sdl.parseUnary]
    | rw [sdl.parsePrimary, sdl.parsePrimary]
    | rw [sdl.parsePostfix, sdl.parsePostfix]
    | rw [sdl.parseStatementList, sdl.parseStatementList]
    | rw [sdl.parseLogicalOrLoop, sdl.parseLogicalOrLoop]
    | rw [sdl.parseLogicalAndLoop, sdl.parseLogicalAndLoop]
    | rw [sdl.parseEqualityLoop, sdl.parseEqualityLoop]
    | rw [sdl.parseComparisonLoop, sdl.parseComparisonLoop]
    | rw [sdl.parseAdditionLoop, sdl.parseAdditionLoop]
    | rw [sdl.parseMultiplicationLoop, sdl.parseMultiplicationLoop]
    | rw [sdl.parsePostfixLoop, sdl.parsePostfixLoop]
    | rw [sdl.parseArguments, sdl.parseArguments]
    | rw [sdl.parseVariableDeclarationRest, sdl.parseVariableDeclarationRest]) <;> repeat' first
    | with_reducible exact IH.parseStatement
    | with_reducible exact IH.parseBlockStatement
    | with_reducible exact IH.parseVariableDeclaration
    | with_reducible exact IH.parseIfStatement
    | with_reducible exact IH.parseForInit
    | with_reducible exact IH.parseForStatement
    | with_reducible exact IH.parseWhileStatement
    | with_reducible exact IH.parseReturnStatement
    | with_reducible exact IH.parseExpression
    | with_reducible exact IH.parseLogicalOr
    | with_reducible exact IH.parseLogicalAnd
    | with_reducible exact IH.parseEquality
    | with_reducible exact IH.parseComparison
    | with_reducible exact IH.parseAddition
    | with_reducible exact IH.parseMultiplication
    | with_reducible exact IH.parseUnary
    | with_reducible exact IH.parsePrimary
    | with_reducible exact IH.parsePostfix
    | with_reducible exact IH.parseStatementList _
    | with_reducible exact IH.parseLogicalOrLoop _
    | with_reducible exact IH.parseLogicalAndLoop _
    | with_reducible exact IH.parseEqualityLoop _
    | with_reducible exact IH.parseComparisonLoop _
    | with_reducible exact IH.parseAdditionLoop _
    | with_reducible exact IH.parseMultiplicationLoop _
    | with_reducible exact IH.parsePostfixLoop _
    | with_reducible exact IH.parseArguments _
    | with_reducible exact IH.parseVariableDeclarationRest _ _ _
    | with_reducible exact fuelMono_refl _
    | with_reducible apply fuelMono_bind
    | with_reducible apply fuelMono_ite
    | intro _

theorem monoAll (n : Nat) : MonoAll n := by
  induction n with
  | zero => exact monoAll_zero
  | succ n IH => exact monoAll_succ IH

theorem mono_parseParameters : ∀ (n : Nat) (acc : List VariableDeclaration),
    FuelMono (parseParameters n acc) (parseParameters (n + 1) acc) := by
  intro n
  induction n with
  | zero => intro acc; exact fuelMono_outOfFuel _
  | succ n IH =>
    intro acc
    rw [parseParameters, parseParameters]
    repeat' first
      | with_reducible exact IH _
      | with_reducible exact fuelMono_refl _
      | with_reducible apply fuelMono_bind
      | with_reducible apply fuelMono_ite
      | intro _

theorem mono_parseFunctionRest (n : Nat) (name : String) (ty : TypeNode) :
    FuelMono (parseFunctionRest n name ty) (parseFunctionRest (n + 1) name ty) := by
  unfold parseFunctionRest
  repeat' first
    | with_reducible exact mono_parseParameters n _
    | with_reducible exact (monoAll n).parseStatementList _
    | with_reducible exact fuelMono_refl _
    | with_reducible apply fuelMono_bind
    | with_reducible apply fuelMono_ite
    | intro _

theorem mono_parseShaderBody : ∀ (n : Nat) (acc : List Stmt),
    FuelMono (parseShaderBody n acc) (parseShaderBody (n + 1) acc) := by
  intro n
  induction n with
  | zero => intro acc; exact fuelMono_outOfFuel _
  | succ n IH =>
    intro acc
    rw [parseShaderBody, parseShaderBody]
    repeat' first
      | with_reducible exact IH _
      | with_reducible exact mono_parseFunctionRest n _ _
      | with_reducible exact (monoAll n).parseVariableDeclarationRest _ _ _
      | with_reducible exact fuelMono_refl _
      | with_reducible apply fuelMono_bind
      | with_reducible apply fuelMono_ite
      | intro _

theorem mono_parseShaderDeclaration (n : Nat) :
    FuelMono (parseShaderDeclaration n) (parseShaderDeclaration (n + 1)) := by
  unfold parseShaderDeclaration
  repeat' first
    | with_reducible exact mono_parseShaderBody n _
    | with_reducible exact fuelMono_refl _
    | with_reducible apply fuelMono_bind
    | with_reducible apply fuelMono_ite
    | intro _

theorem mono_parseDeclaration (n : Nat) :
    FuelMono (parseDeclaration n) (parseDeclaration (n + 1)) := by
  unfold parseDeclaration
  repeat' first
    | with_reducible exact mono_parseShaderDeclaration n
    | with_reducible exact mono_parseFunctionRest n _ _
    | with_reducible exact (monoAll n).parseVariableDeclarationRest _ _ _
    | with_reducible exact (monoAll n).parseStatement
    | with_reducible exact fuelMono_refl _
    | with_reducible apply fuelMono_bind
    | with_reducible apply fuelMono_ite
    | intro _

theorem mono_parseProgramLoop (ts : List Token) :
    ∀ (n c : Nat) (decls : List Stmt) (errs : List ErrorReport),
      parseProgramLoop n ts c decls errs = Res.fuel ∨
      parseProgramLoop n ts c decls errs = parseProgramLoop (n + 1) ts c decls errs := by
  intro n
  induction n with
  | zero => intro c decls errs; left; rfl
  | succ n IH =>
    intro c decls errs
    rw [parseProgramLoop, parseProgramLoop]
    split
    · rcases mono_parseDeclaration n ts c with h | h
      · left; rw [h]
      · rw [← h]
        cases parseDeclaration n ts c with
        | ok d c1 => exact IH c1 _ _
        | err msg c1 =>
          simp only
          cases synchronize ts c1 with
          | ok _ c2 => exact IH c2 _ _
          | err _ _ => right; rfl
          | fuel => right; rfl
          | oob => right; rfl
        | fuel => right; rfl
        | oob => right; rfl
    · right; rfl

theorem parseProgramLoop_fuel (ts : List Token) (c : Nat) (decls : List Stmt)
    (errs : List ErrorReport) (n k : Nat) (r : Program × List ErrorReport) (c' : Nat)
    (h : parseProgramLoop n ts c decls errs = Res.ok r c') :
    parseProgramLoop (n + k) ts c decls errs = Res.ok r c' := by
  induction k with
  | zero => exact h
  | succ k IH =>
    rcases mono_parseProgramLoop ts (n + k) c decls errs with h1 | h1
    · rw [IH] at h1; cases h1
    · rw [← Nat.add_assoc, ← h1, IH]

theorem getElem?_shift (pre P : List Token) (c : Nat) :
    (pre ++ P)[c + pre.length]? = P[c]? := by
  rw [List.getElem?_append_right (by omega)]
  simp

theorem isAtEndAt_shift (pre P : List Token) (c : Nat) :
    isAtEndAt (pre ++ P) (c + pre.length) = isAtEndAt P c := by
  simp only [isAtEndAt, getElem?_shift]

theorem checkAt_shift (pre P : List Token) (c : Nat) (t : TokenType) :
    checkAt (pre ++ P) (c + pre.length) t = checkAt P c t := by
  simp only [checkAt, isAtEndAt_shift, getElem?_shift]

theorem any_checkAt_shift (pre P : List Token) (c : Nat) (l : List TokenType) :
    l.any (checkAt (pre ++ P) (c + pre.length)) = l.any (checkAt P c) := by
  congr 1
  funext t
  exact checkAt_shift pre P c t

theorem advanceAt_shift (pre P : List Token) (c : Nat) :
    advanceAt (pre ++ P) (c + pre.length) = advanceAt P c + pre.length := by
  simp only [advanceAt, isAtEndAt_shift]
  split <;> omega

theorem currentTokenAt_shift (pre P : List Token) (c : Nat) :
    currentTokenAt (pre ++ P) (c + pre.length) = currentTokenAt P c := by
  simp only [currentTokenAt, isAtEndAt_shift, List.getD_eq_getElem?_getD, getElem?_shift]

theorem peekTokenAt_shift (pre P : List Token) (c : Nat) :
    peekTokenAt (pre ++ P) (c + pre.length) = peekTokenAt P c := by
  have h : c + pre.length + 1 = (c + 1) + pre.length := by omega
  simp only [peekTokenAt, h, getElem?_shift]

theorem shifts_pure {α : Type} (pre : List Token) (a : α) : Shifts pre (Pure.pure a : ParserM α) :=
  fun _ _ => Or.inr rfl

theorem shifts_throw {α : Type} (pre : List Token) (msg : String) :
    Shifts pre (throwRuntimeError msg : ParserM α) :=
  fun _ _ => Or.inr rfl

theorem shifts_outOfFuel {α : Type} (pre : List Token) : Shifts pre (outOfFuel : ParserM α) :=
  fun _ _ => Or.inr rfl

theorem shifts_bind {α β : Type} {pre : List Token} {m : ParserM α} {f : α → ParserM β}
    (h1 : Shifts pre m) (h2 : ∀ a, Shifts pre (f a)) : Shifts pre (m >>= f) := by
  intro P c
  rw [bind_apply, bind_apply]
  rcases h1 P c with h | h
  · left; rw [h]
  · rw [h]
    cases m P c with
    | ok a c1 => exact h2 a P c1
    | err _ _ => right; rfl
    | fuel => right; rfl
    | oob => right; rfl

theorem shifts_ite {α : Type} {pre : List Token} {p : Prop} [Decidable p] {a b : ParserM α}
    (h1 : Shifts pre a) (h2 : Shifts pre b) : Shifts pre (if p then a else b) := by
  split
  · exact h1
  · exact h2

theorem shifts_check (pre : List Token) (t : TokenType) : Shifts pre (check t) := by
  intro P c; right
  simp only [sdl.check, checkAt_shift, Res.shift]

theorem shifts_checkAny (pre : List Token) (l : List TokenType) : Shifts pre (checkAny l) := by
  intro P c; right
  simp only [sdl.checkAny, any_checkAt_shift, Res.shift]

theorem shifts_isAtEnd (pre : List Token) : Shifts pre isAtEnd := by
  intro P c; right
  simp only [sdl.isAtEnd, isAtEndAt_shift, Res.shift]

theorem shifts_currentToken (pre : List Token) : Shifts pre currentToken := by
  intro P c; right
  simp only [sdl.currentToken, currentTokenAt_shift, Res.shift]

theorem shifts_advance (pre : List Token) : Shifts pre advance := by
  intro P c; right
  simp only [sdl.advance, advanceAt_shift, Res.shift]

theorem shifts_matchTok (pre : List Token) (t : TokenType) : Shifts pre (matchTok t) := by
  intro P c; right
  simp only [sdl.matchTok, checkAt_shift, advanceAt_shift]
  split <;> rfl

theorem shifts_matchAny (pre : List Token) (l : List TokenType) : Shifts pre (matchAny l) := by
  intro P c; right
  simp only [sdl.matchAny, any_checkAt_shift, advanceAt_shift]
  split <;> rfl

theorem shifts_consume (pre : List Token) (t : TokenType) (msg : String) :
    Shifts pre (consume t msg) := by
  intro P c; right
  simp only [sdl.consume, checkAt_shift, advanceAt_shift, currentTokenAt_shift]
  split <;> rfl

theorem shifts_previousToken (pre : List Token) : Shifts pre previousToken := by
  intro P c
  by_cases h : c = 0
  · left; simp [sdl.previousToken, h]
  · right
    have h1 : c + pre.length ≠ 0 := by omega
    have h2 : c + pre.length - 1 = (c - 1) + pre.length := by omega
    simp only [sdl.previousToken, h, h1, h2, getElem?_shift, if_false]
    cases P[c - 1]? <;> rfl

theorem shifts_decrementCurrent (pre : List Token) : Shifts pre decrementCurrent := by
  intro P c
  by_cases h : c = 0
  · left; simp [sdl.decrementCurrent, h]
  · right
    have h1 : c + pre.length ≠ 0 := by omega
    simp only [sdl.decrementCurrent, h, h1, if_false, Res.shift]
    congr 1
    omega

theorem shifts_isVariableDeclarationAhead (pre : List Token) :
    Shifts pre isVariableDeclarationAhead := by
  intro P c; right
  simp only [sdl.isVariableDeclarationAhead, bind_apply, sdl.checkAny, any_checkAt_shift]
  split
  · simp only [bind_apply, sdl.getCurrent, sdl.advance, sdl.check, sdl.peekToken, sdl.setCurrent,
      advanceAt_shift, checkAt_shift, peekTokenAt_shift]
    rfl
  · rfl

theorem shifts_isAssignmentAhead (pre : List Token) : Shifts pre isAssignmentAhead := by
  intro P c; right
  simp only [sdl.isAssignmentAhead, bind_apply, sdl.getCurrent, sdl.advance, sdl.check,
    sdl.setCurrent, advanceAt_shift, checkAt_shift]
  rfl

theorem shifts_parseType (pre : List Token) : Shifts pre parseType := by
  unfold sdl.parseType
  repeat' first
    | with_reducible exact shifts_matchTok pre _
    | with_reducible exact shifts_pure pre _
    | with_reducible exact shifts_throw pre _
    | with_reducible apply shifts_bind
    | with_reducible apply shifts_ite
    | intro _

theorem shifts_parseQualifier (pre : List Token) : Shifts pre parseQualifier := by
  unfold sdl.parseQualifier
  repeat' first
    | with_reducible exact shifts_check pre _
    | with_reducible exact shifts_advance pre
    | with_reducible exact shifts_pure pre _
    | with_reducible apply shifts_bind
    | with_reducible apply shifts_ite
    | intro _

theorem shifts_parseShaderType (pre : List Token) : Shifts pre parseShaderType := by
  unfold sdl.parseShaderType
  repeat' first
    | with_reducible exact shifts_matchTok pre _
    | with_reducible exact shifts_pure pre _
    | with_reducible exact shifts_throw pre _
    | with_reducible apply shifts_bind
    | with_reducible apply shifts_ite
    | intro _

theorem shifts_comparisonSwitch (pre : List Token) (ty : TokenType) :
    Shifts pre (match ty with
      | .LESS_THAN => Pure.pure BinaryOperator.LESS_THAN
      | .LESS_EQUAL => Pure.pure BinaryOperator.LESS_EQUAL
      | .GREATER_THAN => Pure.pure BinaryOperator.GREATER_THAN
      | .GREATER_EQUAL => Pure.pure BinaryOperator.GREATER_EQUAL
      | _ => throwRuntimeError "Invalid comparison operator" : ParserM BinaryOperator) := by
  cases ty <;> first
    | exact shifts_pure pre _
    | exact shifts_throw pre _

theorem shifts_multiplicationSwitch (pre : List Token) (ty : TokenType) :
    Shifts pre (match ty with
      | .MULTIPLY => Pure.pure BinaryOperator.MULTIPLY
      | .DIVIDE => Pure.pure BinaryOperator.DIVIDE
      | .MODULO => Pure.pure BinaryOperator.MODULO
      | _ => throwRuntimeError "Invalid multiplication operator" : ParserM BinaryOperator) := by
  cases ty <;> first
    | exact shifts_pure pre _
    | exact shifts_throw pre _

theorem shiftAll_zero (pre : List Token) : ShiftAll pre 0 := by
  constructor <;> intros <;> exact shifts_outOfFuel pre

theorem shiftAll_succ {pre : List Token} {n : Nat} (IH : ShiftAll pre n) : ShiftAll pre (n + 1) := by
  constructor <;> intros <;> (first
    | rw [sdl.parseStatement]
    | rw [sdl.parseStatementList]
    | rw [sdl.parseBlockStatement]
    | rw [sdl.parseVariableDeclarationRest]
    | rw [sdl.parseVariableDeclaration]
    | rw [sdl.parseIfStatement]
    | rw [sdl.parseForInit]
    | rw [sdl.parseForStatement]
    | rw [sdl.parseWhileStatement]
    | rw [sdl.parseReturnStatement]
    | rw [sdl.parseExpression]
    | rw [sdl.parseLogicalOr]
    | rw [sdl.parseLogicalOrLoop]
    | rw [sdl.parseLogicalAnd]
    | rw [sdl.parseLogicalAndLoop]
    | rw [sdl.parseEquality]
    | rw [sdl.parseEqualityLoop]
    | rw [sdl.parseComparison]
    | rw [sdl.parseComparisonLoop]
    | rw [sdl.parseAddition]
    | rw [sdl.parseAdditionLoop]
    | rw [sdl.parseMultiplication]
    | rw [sdl.parseMultiplicationLoop]
    | rw [sdl.parseUnary]
    | rw [sdl.parsePrimary]
    | rw [sdl.parsePostfix]
    | rw [sdl.parsePostfixLoop]
    | rw [sdl.parseArguments]) <;> repeat' first
    | with_reducible exact IH.parseStatement
    | with_reducible exact IH.parseBlockStatement
    | with_reducible exact IH.parseVariableDeclaration
    | with_reducible exact IH.parseIfStatement
    | with_reducible exact IH.parseForInit
    | with_reducible exact IH.parseForStatement
    | with_reducible exact IH.parseWhileStatement
    | with_reducible exact IH.parseReturnStatement
    | with_reducible exact IH.parseExpression
    | with_reducible exact IH.parseLogicalOr
    | with_reducible exact IH.parseLogicalAnd
    | with_reducible exact IH.parseEquality
    | with_reducible exact IH.parseComparison
    | with_reducible exact IH.parseAddition
    | with_reducible exact IH.parseMultiplication
    | with_reducible exact IH.parseUnary
    | with_reducible exact IH.parsePrimary
    | with_reducible exact IH.parsePostfix
    | with_reducible exact IH.parseStatementList _
    | with_reducible exact IH.parseLogicalOrLoop _
    | with_reducible exact IH.parseLogicalAndLoop _
    | with_reducible exact IH.parseEqualityLoop _
    | with_reducible exact IH.parseComparisonLoop _
    | with_reducible exact IH.parseAdditionLoop _
    | with_reducible exact IH.parseMultiplicationLoop _
    | with_reducible exact IH.parsePostfixLoop _
    | with_reducible exact IH.parseArguments _
    | with_reducible exact IH.parseVariableDeclarationRest _ _ _
    | with_reducible exact shifts_pure pre _
    | with_reducible exact shifts_throw pre _
    | with_reducible exact shifts_matchTok pre _
    | with_reducible exact shifts_matchAny pre _
    | with_reducible exact shifts_check pre _
    | with_reducible exact shifts_checkAny pre _
    | with_reducible exact shifts_consume pre _ _
    | with_reducible exact shifts_previousToken pre
    | with_reducible exact shifts_currentToken pre
    | with_reducible exact shifts_isAtEnd pre
    | with_reducible exact shifts_advance pre
    | with_reducible exact shifts_decrementCurrent pre
    | with_reducible exact shifts_parseType pre
    | with_reducible exact shifts_parseQualifier pre
    | with_reducible exact shifts_parseShaderType pre
    | with_reducible exact shifts_isVariableDeclarationAhead pre
    | with_reducible exact shifts_isAssignmentAhead pre
    | exact shifts_comparisonSwitch pre _
    | exact shifts_multiplicationSwitch pre _
    | with_reducible apply shifts_bind
    | with_reducible apply shifts_ite
    | intro _

theorem shiftAll (pre : List Token) (n : Nat) : ShiftAll pre n := by
  induction n with
  | zero => exact shiftAll_zero pre
  | succ n IH => exact shiftAll_succ IH

theorem shifts_parseParameters (pre : List Token) :
    ∀ (n : Nat) (acc : List VariableDeclaration), Shifts pre (parseParameters n acc) := by
  intro n
  induction n with
  | zero => intro acc; exact shifts_outOfFuel pre
  | succ n IH =>
    intro acc
    rw [parseParameters]
    repeat' first
      | with_reducible exact IH _
      | with_reducible exact shifts_pure pre _
      | with_reducible exact shifts_throw pre _
      | with_reducible exact shifts_matchTok pre _
      | with_reducible exact shifts_check pre _
      | with_reducible exact shifts_checkAny pre _
      | with_reducible exact shifts_consume pre _ _
      | with_reducible exact shifts_previousToken pre
      | with_reducible exact shifts_currentToken pre
      | with_reducible exact shifts_isAtEnd pre
      | with_reducible exact shifts_advance pre
      | with_reducible exact shifts_parseType pre
      | with_reducible exact shifts_parseQualifier pre
      | with_reducible exact shifts_parseShaderType pre
      | with_reducible apply shifts_bind
      | with_reducible apply shifts_ite
      | intro _

theorem shifts_parseFunctionRest (pre : List Token) (n : Nat) (name : String) (ty : TypeNode) :
    Shifts pre (parseFunctionRest n name ty) := by
  unfold parseFunctionRest
  repeat' first
      | with_reducible exact shifts_parseParameters pre n _
      | with_reducible exact (shiftAll pre n).parseStatementList _
      | with_reducible exact shifts_pure pre _
      | with_reducible exact shifts_throw pre _
      | with_reducible exact shifts_matchTok pre _
      | with_reducible exact shifts_check pre _
      | with_reducible exact shifts_checkAny pre _
      | with_reducible exact shifts_consume pre _ _
      | with_reducible exact shifts_previousToken pre
      | with_reducible exact shifts_currentToken pre
      | with_reducible exact shifts_isAtEnd pre
      | with_reducible exact shifts_advance pre
      | with_reducible exact shifts_parseType pre
      | with_reducible exact shifts_parseQualifier pre
      | with_reducible exact shifts_parseShaderType pre
      | with_reducible apply shifts_bind
      | with_reducible apply shifts_ite
      | intro _

theorem shifts_parseShaderBody (pre : List Token) :
    ∀ (n : Nat) (acc : List Stmt), Shifts pre (parseShaderBody n acc) := by
  intro n
  induction n with
  | zero => intro acc; exact shifts_outOfFuel pre
  | succ n IH =>
    intro acc
    rw [parseShaderBody]
    repeat' first
      | with_reducible exact IH _
      | with_reducible exact shifts_parseFunctionRest pre n _ _
      | with_reducible exact (shiftAll pre n).parseVariableDeclarationRest _ _ _
      | with_reducible exact shifts_pure pre _
      | with_reducible exact shifts_throw pre _
      | with_reducible exact shifts_matchTok pre _
      | with_reducible exact shifts_check pre _
      | with_reducible exact shifts_checkAny pre _
      | with_reducible exact shifts_consume pre _ _
      | with_reducible exact shifts_previousToken pre
      | with_reducible exact shifts_currentToken pre
      | with_reducible exact shifts_isAtEnd pre
      | with_reducible exact shifts_advance pre
      | with_reducible exact shifts_parseType pre
      | with_reducible exact shifts_parseQualifier pre
      | with_reducible exact shifts_parseShaderType pre
      | with_reducible apply shifts_bind
      | with_reducible apply shifts_ite
      | intro _

theorem shifts_parseShaderDeclaration (pre : List Token) (n : Nat) :
    Shifts pre (parseShaderDeclaration n) := by
  unfold parseShaderDeclaration
  repeat' first
      | with_reducible exact shifts_parseShaderBody pre n _
      | with_reducible exact shifts_pure pre _
      | with_reducible exact shifts_throw pre _
      | with_reducible exact shifts_matchTok pre _
      | with_reducible exact shifts_check pre _
      | with_reducible exact shifts_checkAny pre _
      | with_reducible exact shifts_consume pre _ _
      | with_reducible exact shifts_previousToken pre
      | with_reducible exact shifts_currentToken pre
      | with_reducible exact shifts_isAtEnd pre
      | with_reducible exact shifts_advance pre
      | with_reducible exact shifts_parseType pre
      | with_reducible exact shifts_parseQualifier pre
      | with_reducible exact shifts_parseShaderType pre
      | with_reducible apply shifts_bind
      | with_reducible apply shifts_ite
      | intro _

theorem shifts_parseDeclaration (pre : List Token) (n : Nat) :
    Shifts pre (parseDeclaration n) := by
  unfold parseDeclaration
  repeat' first
      | with_reducible exact shifts_parseShaderDeclaration pre n
      | with_reducible exact shifts_parseFunctionRest pre n _ _
      | with_reducible exact (shiftAll pre n).parseVariableDeclarationRest _ _ _
      | with_reducible exact (shiftAll pre n).parseStatement
      | with_reducible exact shifts_pure pre _
      | with_reducible exact shifts_throw pre _
      | with_reducible exact shifts_matchTok pre _
      | with_reducible exact shifts_check pre _
      | with_reducible exact shifts_checkAny pre _
      | with_reducible exact shifts_consume pre _ _
      | with_reducible exact shifts_previousToken pre
      | with_reducible exact shifts_currentToken pre
      | with_reducible exact shifts_isAtEnd pre
      | with_reducible exact shifts_advance pre
      | with_reducible exact shifts_parseType pre
      | with_reducible exact shifts_parseQualifier pre
      | with_reducible exact shifts_parseShaderType pre
      | with_reducible apply shifts_bind
      | with_reducible apply shifts_ite
      | intro _

theorem shifts_synchronizeLoop (pre : List Token) : ∀ (n : Nat), Shifts pre (synchronizeLoop n) := by
  intro n
  induction n with
  | zero => exact shifts_pure pre ()
  | succ n IH =>
    rw [synchronizeLoop]
    repeat' first
      | with_reducible exact IH
      | with_reducible exact shifts_pure pre _
      | with_reducible exact shifts_throw pre _
      | with_reducible exact shifts_matchTok pre _
      | with_reducible exact shifts_check pre _
      | with_reducible exact shifts_checkAny pre _
      | with_reducible exact shifts_consume pre _ _
      | with_reducible exact shifts_previousToken pre
      | with_reducible exact shifts_currentToken pre
      | with_reducible exact shifts_isAtEnd pre
      | with_reducible exact shifts_advance pre
      | with_reducible exact shifts_parseType pre
      | with_reducible exact shifts_parseQualifier pre
      | with_reducible exact shifts_parseShaderType pre
      | with_reducible apply shifts_bind
      | with_reducible apply shifts_ite
      | intro _

theorem shifts_synchronize (pre : List Token) : Shifts pre synchronize := by
  intro P c
  have h : (pre ++ P).length - (c + pre.length) = P.length - c := by
    rw [List.length_append]; omega
  unfold synchronize
  rw [h]
  exact shifts_bind (shifts_advance pre) (fun _ => shifts_synchronizeLoop pre _) P c

theorem reportError_shift (pre P : List Token) (c : Nat) (msg : String) :
    reportError (pre ++ P) (c + pre.length) msg = reportError P c msg := by
  simp only [reportError, isAtEndAt_shift, currentTokenAt_shift]

/-- The loop of `parseProgram` does not look at the tokens before its cursor. -/
theorem parseProgramLoop_shift (pre P : List Token) :
    ∀ (n c : Nat) (decls : List Stmt) (errs : List ErrorReport),
      parseProgramLoop n P c decls errs = Res.oob ∨
      parseProgramLoop n (pre ++ P) (c + pre.length) decls errs =
        (parseProgramLoop n P c decls errs).shift pre.length := by
  intro n
  induction n with
  | zero => intro c decls errs; right; rfl
  | succ n IH =>
    intro c decls errs
    rw [parseProgramLoop, parseProgramLoop, isAtEndAt_shift]
    split
    · rcases shifts_parseDeclaration pre n P c with h | h
      · left; rw [h]
      · rw [h]
        cases parseDeclaration n P c with
        | ok d c1 => exact IH c1 _ _
        | err msg c1 =>
          simp only [Res.shift]
          rcases shifts_synchronize pre P c1 with h2 | h2
          · left; rw [h2]
          · rw [h2, reportError_shift]
            cases synchronize P c1 with
            | ok _ c2 => exact IH c2 _ _
            | err _ _ => right; rfl
            | fuel => right; rfl
            | oob => right; rfl
        | fuel => right; rfl
        | oob => right; rfl
    · right; rfl

theorem typeAt_eq_of_getElem? {ts : List Token} {c : Nat} {tok : Token} (h : ts[c]? = some tok) :
    typeAt ts c = tok.type := by
  unfold typeAt currentTokenAt isAtEndAt
  rw [h]
  by_cases h1 : tok.type = TokenType.END_OF_FILE
  · simp [h1, eofToken]
  · have h2 : c < ts.length := by
      by_contra hc
      rw [List.getElem?_eq_none (by omega)] at h
      cases h
    simp [h1, List.getD_eq_getElem?_getD, h]

theorem getElem?_of_typeAt {ts : List Token} {c : Nat} {t : TokenType} (h : typeAt ts c = t)
    (ht : t ≠ TokenType.END_OF_FILE) : ∃ tok, ts[c]? = some tok ∧ tok.type = t := by
  cases h1 : ts[c]? with
  | none =>
    exfalso
    apply ht
    rw [← h]
    simp [typeAt, currentTokenAt, isAtEndAt, h1, eofToken]
  | some tok =>
    exact ⟨tok, rfl, by rw [← h, typeAt_eq_of_getElem? h1]⟩

theorem checkAt_eq (ts : List Token) (c : Nat) (t : TokenType) (ht : t ≠ TokenType.END_OF_FILE) :
    checkAt ts c t = decide (typeAt ts c = t) := by
  cases h1 : ts[c]? with
  | none =>
    have h2 : typeAt ts c = TokenType.END_OF_FILE := by
      simp [typeAt, currentTokenAt, isAtEndAt, h1, eofToken]
    simp [checkAt, isAtEndAt, h1, h2, Ne.symm ht]
  | some tok =>
    rw [typeAt_eq_of_getElem? h1]
    by_cases h3 : tok.type = TokenType.END_OF_FILE
    · have h4 : ¬ TokenType.END_OF_FILE = t := Ne.symm ht
      simp [checkAt, isAtEndAt, h1, h3, h4]
    · simp [checkAt, isAtEndAt, h1, h3]

theorem isAtEndAt_of_typeAt {ts : List Token} {c : Nat} (h : typeAt ts c ≠ TokenType.END_OF_FILE) :
    isAtEndAt ts c = false := by
  cases h1 : ts[c]? with
  | none =>
    exfalso; apply h
    simp [typeAt, currentTokenAt, isAtEndAt, h1, eofToken]
  | some tok =>
    rw [typeAt_eq_of_getElem? h1] at h
    simp [isAtEndAt, h1, h]

theorem advanceAt_of_typeAt {ts : List Token} {c : Nat} (h : typeAt ts c ≠ TokenType.END_OF_FILE) :
    advanceAt ts c = c + 1 := by
  simp [advanceAt, isAtEndAt_of_typeAt h]

theorem matchTok_of_typeAt {ts : List Token} {c : Nat} {t : TokenType} (h : typeAt ts c = t)
    (ht : t ≠ TokenType.END_OF_FILE) : matchTok t ts c = Res.ok true (c + 1) := by
  have h1 : typeAt ts c ≠ TokenType.END_OF_FILE := by rw [h]; exact ht
  simp [matchTok, checkAt_eq ts c t ht, h, advanceAt_of_typeAt h1]

theorem matchTok_of_ne {ts : List Token} {c : Nat} {t : TokenType} (h : typeAt ts c ≠ t)
    (ht : t ≠ TokenType.END_OF_FILE) : matchTok t ts c = Res.ok false c := by
  simp [matchTok, checkAt_eq ts c t ht, h]

theorem any_checkAt_eq (ts : List Token) (c : Nat) (l : List TokenType)
    (hl : TokenType.END_OF_FILE ∉ l) :
    l.any (checkAt ts c) = decide (typeAt ts c ∈ l) := by
  induction l with
  | nil => simp
  | cons t l IH =>
    have h1 : t ≠ TokenType.END_OF_FILE := fun h => hl (by simp [h])
    have h2 : TokenType.END_OF_FILE ∉ l := fun h => hl (by simp [h])
    rw [List.any_cons, IH h2, checkAt_eq ts c t h1]
    simp [List.mem_cons]

theorem matchAny_of_mem {ts : List Token} {c : Nat} {l : List TokenType} (h : typeAt ts c ∈ l)
    (hl : TokenType.END_OF_FILE ∉ l) : matchAny l ts c = Res.ok true (c + 1) := by
  have h1 : typeAt ts c ≠ TokenType.END_OF_FILE := fun h2 => hl (h2 ▸ h)
  simp [matchAny, any_checkAt_eq ts c l hl, h, advanceAt_of_typeAt h1]

theorem matchAny_of_not_mem {ts : List Token} {c : Nat} {l : List TokenType} (h : typeAt ts c ∉ l)
    (hl : TokenType.END_OF_FILE ∉ l) : matchAny l ts c = Res.ok false c := by
  simp [matchAny, any_checkAt_eq ts c l hl, h]

theorem previousToken_succ {ts : List Token} {c : Nat} {tok : Token} (h : ts[c]? = some tok) :
    previousToken ts (c + 1) = Res.ok tok (c + 1) := by
  simp [previousToken, h]

theorem consume_of_typeAt {ts : List Token} {c : Nat} {t : TokenType} (msg : String)
    (h : typeAt ts c = t) (ht : t ≠ TokenType.END_OF_FILE) :
    consume t msg ts c = Res.ok (currentTokenAt ts c) (c + 1) := by
  have h1 : typeAt ts c ≠ TokenType.END_OF_FILE := by rw [h]; exact ht
  simp [consume, checkAt_eq ts c t ht, h, advanceAt_of_typeAt h1]

theorem parses_chain {α β : Type} {f : Nat → ParserM α} {g : α → Nat → ParserM β}
    {h : Nat → ParserM β} {ts : List Token} {c c1 c2 : Nat} {a : α} {b : β}
    (h1 : Parses f ts c a c1) (h2 : Parses (g a) ts c1 b c2)
    (hh : ∀ n, h (n + 1) = (f n >>= fun x => g x n)) : Parses h ts c b c2 := by
  obtain ⟨N1, h1⟩ := h1
  obtain ⟨N2, h2⟩ := h2
  refine ⟨max N1 N2 + 1, fun n hn => ?_⟩
  obtain ⟨m, rfl⟩ : ∃ m, n = m + 1 := ⟨n - 1, by omega⟩
  rw [hh, bind_apply, h1 m (by omega)]
  exact h2 m (by omega)

theorem operatorToken_ne_eof (op : BinaryOperator) : operatorToken op ≠ TokenType.END_OF_FILE := by
  cases op <;> simp [operatorToken]

theorem operatorToken_injective {a b : BinaryOperator} (h : operatorToken a = operatorToken b) :
    a = b := by
  cases a <;> cases b <;> first | rfl | (simp [operatorToken] at h)

theorem parseLogicalOrLoop_stop (ts : List Token) (c : Nat) (e : Expr)
    (h : ∀ op, precedenceLevel op = 1 → typeAt ts c ≠ operatorToken op) :
    Parses (fun n => sdl.parseLogicalOrLoop n e) ts c e c := by
  refine ⟨1, fun n hn => ?_⟩
  obtain ⟨m, rfl⟩ : ∃ m, n = m + 1 := ⟨n - 1, by omega⟩
  show sdl.parseLogicalOrLoop (m + 1) e ts c = Res.ok e c
  have h1 : typeAt ts c ≠ TokenType.LOGICAL_OR := h BinaryOperator.LOGICAL_OR rfl
  rw [sdl.parseLogicalOrLoop, bind_apply, matchTok_of_ne h1 (by decide)]
  rfl

theorem parseLogicalOrLoop_step (ts : List Token) (c c1 c2 : Nat) (e r res : Expr) (op : BinaryOperator)
    (hop : precedenceLevel op = 1) (h : typeAt ts c = operatorToken op)
    (h1 : Parses sdl.parseLogicalAnd ts (c + 1) r c1)
    (h2 : Parses (fun n => sdl.parseLogicalOrLoop n (Expr.Binary e op r)) ts c1 res c2) :
    Parses (fun n => sdl.parseLogicalOrLoop n e) ts c res c2 := by
  obtain ⟨N1, h1⟩ := h1
  obtain ⟨N2, h2⟩ := h2
  obtain ⟨tok, htok, htype⟩ := getElem?_of_typeAt h (operatorToken_ne_eof op)
  refine ⟨max N1 N2 + 1, fun n hn => ?_⟩
  obtain ⟨m, rfl⟩ : ∃ m, n = m + 1 := ⟨n - 1, by omega⟩
  show sdl.parseLogicalOrLoop (m + 1) e ts c = Res.ok res c2
  have h1' := h1 m (by omega)
  have h2' := h2 m (by omega)
  simp only at h2'
  have hop' : op = BinaryOperator.LOGICAL_OR := by
    cases op <;> simp [precedenceLevel] at hop
    rfl
  subst hop'
  rw [sdl.parseLogicalOrLoop, bind_apply, matchTok_of_typeAt (t := TokenType.LOGICAL_OR) h (by decide)]
  simp only [↓reduceIte, bind_apply, h1']
  exact h2'

theorem parseLogicalOr_of_loop (ts : List Token) (c c1 c2 : Nat) (e res : Expr)
    (h1 : Parses sdl.parseLogicalAnd ts c e c1)
    (h2 : Parses (fun n => sdl.parseLogicalOrLoop n e) ts c1 res c2) :
    Parses sdl.parseLogicalOr ts c res c2 :=
  parses_chain (g := fun x n => sdl.parseLogicalOrLoop n x) h1 h2 (fun n => by rw [sdl.parseLogicalOr])

theorem parseLogicalAndLoop_stop (ts : List Token) (c : Nat) (e : Expr)
    (h : ∀ op, precedenceLevel op = 2 → typeAt ts c ≠ operatorToken op) :
    Parses (fun n => sdl.parseLogicalAndLoop n e) ts c e c := by
  refine ⟨1, fun n hn => ?_⟩
  obtain ⟨m, rfl⟩ : ∃ m, n = m + 1 := ⟨n - 1, by omega⟩
  show sdl.parseLogicalAndLoop (m + 1) e ts c = Res.ok e c
  have h1 : typeAt ts c ≠ TokenType.LOGICAL_AND := h BinaryOperator.LOGICAL_AND rfl
  rw [sdl.parseLogicalAndLoop, bind_apply, matchTok_of_ne h1 (by decide)]
  rfl

theorem parseLogicalAndLoop_step (ts : List Token) (c c1 c2 : Nat) (e r res : Expr) (op : BinaryOperator)
    (hop : precedenceLevel op = 2) (h : typeAt ts c = operatorToken op)
    (h1 : Parses sdl.parseEquality ts (c + 1) r c1)
    (h2 : Parses (fun n => sdl.parseLogicalAndLoop n (Expr.Binary e op r)) ts c1 res c2) :
    Parses (fun n => sdl.parseLogicalAndLoop n e) ts c res c2 := by
  obtain ⟨N1, h1⟩ := h1
  obtain ⟨N2, h2⟩ := h2
  obtain ⟨tok, htok, htype⟩ := getElem?_of_typeAt h (operatorToken_ne_eof op)
  refine ⟨max N1 N2 + 1, fun n hn => ?_⟩
  obtain ⟨m, rfl⟩ : ∃ m, n = m + 1 := ⟨n - 1, by omega⟩
  show sdl.parseLogicalAndLoop (m + 1) e ts c = Res.ok res c2
  have h1' := h1 m (by omega)
  have h2' := h2 m (by omega)
  simp only at h2'
  have hop' : op = BinaryOperator.LOGICAL_AND := by
    cases op <;> simp [precedenceLevel] at hop
    rfl
  subst hop'
  rw [sdl.parseLogicalAndLoop, bind_apply, matchTok_of_typeAt (t := TokenType.LOGICAL_AND) h (by decide)]
  simp only [↓reduceIte, bind_apply, h1']
  exact h2'

theorem parseLogicalAnd_of_loop (ts : List Token) (c c1 c2 : Nat) (e res : Expr)
    (h1 : Parses sdl.parseEquality ts c e c1)
    (h2 : Parses (fun n => sdl.parseLogicalAndLoop n e) ts c1 res c2) :
    Parses sdl.parseLogicalAnd ts c res c2 :=
  parses_chain (g := fun x n => sdl.parseLogicalAndLoop n x) h1 h2 (fun n => by rw [sdl.parseLogicalAnd])

theorem parseEqualityLoop_stop (ts : List Token) (c : Nat) (e : Expr)
    (h : ∀ op, precedenceLevel op = 3 → typeAt ts c ≠ operatorToken op) :
    Parses (fun n => sdl.parseEqualityLoop n e) ts c e c := by
  refine ⟨1, fun n hn => ?_⟩
  obtain ⟨m, rfl⟩ : ∃ m, n = m + 1 := ⟨n - 1, by omega⟩
  show sdl.parseEqualityLoop (m + 1) e ts c = Res.ok e c
  rw [sdl.parseEqualityLoop, bind_apply, matchAny_of_not_mem (l := _) ?_ (by decide)]
  · rfl
  · intro hm
    simp only [List.mem_cons, List.mem_singleton, List.not_mem_nil, or_false] at hm
    rcases hm with hm | hm
    · exact h BinaryOperator.EQUAL rfl hm
    · exact h BinaryOperator.NOT_EQUAL rfl hm

theorem parseEqualityLoop_step (ts : List Token) (c c1 c2 : Nat) (e r res : Expr) (op : BinaryOperator)
    (hop : precedenceLevel op = 3) (h : typeAt ts c = operatorToken op)
    (h1 : Parses sdl.parseComparison ts (c + 1) r c1)
    (h2 : Parses (fun n => sdl.parseEqualityLoop n (Expr.Binary e op r)) ts c1 res c2) :
    Parses (fun n => sdl.parseEqualityLoop n e) ts c res c2 := by
  obtain ⟨N1, h1⟩ := h1
  obtain ⟨N2, h2⟩ := h2
  obtain ⟨tok, htok, htype⟩ := getElem?_of_typeAt h (operatorToken_ne_eof op)
  refine ⟨max N1 N2 + 1, fun n hn => ?_⟩
  obtain ⟨m, rfl⟩ : ∃ m, n = m + 1 := ⟨n - 1, by omega⟩
  show sdl.parseEqualityLoop (m + 1) e ts c = Res.ok res c2
  have h1' := h1 m (by omega)
  have h2' := h2 m (by omega)
  simp only at h2'
  rw [sdl.parseEqualityLoop, bind_apply, matchAny_of_mem (l := _) (by rw [h]; cases op <;> simp [precedenceLevel] at hop <;> simp [operatorToken]) (by decide)]
  simp only [↓reduceIte, bind_apply, previousToken_succ htok, htype]
  cases op <;> simp [precedenceLevel] at hop <;> simp [operatorToken, pure_apply, bind_apply, h1', h2']

theorem parseEquality_of_loop (ts : List Token) (c c1 c2 : Nat) (e res : Expr)
    (h1 : Parses sdl.parseComparison ts c e c1)
    (h2 : Parses (fun n => sdl.parseEqualityLoop n e) ts c1 res c2) :
    Parses sdl.parseEquality ts c res c2 :=
  parses_chain (g := fun x n => sdl.parseEqualityLoop n x) h1 h2 (fun n => by rw [sdl.parseEquality])

theorem parseComparisonLoop_stop (ts : List Token) (c : Nat) (e : Expr)
    (h : ∀ op, precedenceLevel op = 4 → typeAt ts c ≠ operatorToken op) :
    Parses (fun n => sdl.parseComparisonLoop n e) ts c e c := by
  refine ⟨1, fun n hn => ?_⟩
  obtain ⟨m, rfl⟩ : ∃ m, n = m + 1 := ⟨n - 1, by omega⟩
  show sdl.parseComparisonLoop (m + 1) e ts c = Res.ok e c
  rw [sdl.parseComparisonLoop, bind_apply, matchAny_of_not_mem (l := _) ?_ (by decide)]
  · rfl
  · intro hm
    simp only [List.mem_cons, List.mem_singleton, List.not_mem_nil, or_false] at hm
    rcases hm with hm | hm | hm | hm
    · exact h BinaryOperator.LESS_THAN rfl hm
    · exact h BinaryOperator.LESS_EQUAL rfl hm
    · exact h BinaryOperator.GREATER_THAN rfl hm
    · exact h BinaryOperator.GREATER_EQUAL rfl hm

theorem parseComparisonLoop_step (ts : List Token) (c c1 c2 : Nat) (e r res : Expr) (op : BinaryOperator)
    (hop : precedenceLevel op = 4) (h : typeAt ts c = operatorToken op)
    (h1 : Parses sdl.parseAddition ts (c + 1) r c1)
    (h2 : Parses (fun n => sdl.parseComparisonLoop n (Expr.Binary e op r)) ts c1 res c2) :
    Parses (fun n => sdl.parseComparisonLoop n e) ts c res c2 := by
  obtain ⟨N1, h1⟩ := h1
  obtain ⟨N2, h2⟩ := h2
  obtain ⟨tok, htok, htype⟩ := getElem?_of_typeAt h (operatorToken_ne_eof op)
  refine ⟨max N1 N2 + 1, fun n hn => ?_⟩
  obtain ⟨m, rfl⟩ : ∃ m, n = m + 1 := ⟨n - 1, by omega⟩
  show sdl.parseComparisonLoop (m + 1) e ts c = Res.ok res c2
  have h1' := h1 m (by omega)
  have h2' := h2 m (by omega)
  simp only at h2'
  rw [sdl.parseComparisonLoop, bind_apply, matchAny_of_mem (l := _) (by rw [h]; cases op <;> simp [precedenceLevel] at hop <;> simp [operatorToken]) (by decide)]
  simp only [↓reduceIte, bind_apply, previousToken_succ htok, htype]
  cases op <;> simp [precedenceLevel] at hop <;> simp [operatorToken, pure_apply, bind_apply, h1', h2']

theorem parseComparison_of_loop (ts : List Token) (c c1 c2 : Nat) (e res : Expr)
    (h1 : Parses sdl.parseAddition ts c e c1)
    (h2 : Parses (fun n => sdl.parseComparisonLoop n e) ts c1 res c2) :
    Parses sdl.parseComparison ts c res c2 :=
  parses_chain (g := fun x n => sdl.parseComparisonLoop n x) h1 h2 (fun n => by rw [sdl.parseComparison])

theorem parseAdditionLoop_stop (ts : List Token) (c : Nat) (e : Expr)
    (h : ∀ op, precedenceLevel op = 5 → typeAt ts c ≠ operatorToken op) :
    Parses (fun n => sdl.parseAdditionLoop n e) ts c e c := by
  refine ⟨1, fun n hn => ?_⟩
  obtain ⟨m, rfl⟩ : ∃ m, n = m + 1 := ⟨n - 1, by omega⟩
  show sdl.parseAdditionLoop (m + 1) e ts c = Res.ok e c
  rw [sdl.parseAdditionLoop, bind_apply, matchAny_of_not_mem (l := _) ?_ (by decide)]
  · rfl
  · intro hm
    simp only [List.mem_cons, List.mem_singleton, List.not_mem_nil, or_false] at hm
    rcases hm with hm | hm
    · exact h BinaryOperator.ADD rfl hm
    · exact h BinaryOperator.SUBTRACT rfl hm

theorem parseAdditionLoop_step (ts : List Token) (c c1 c2 : Nat) (e r res : Expr) (op : BinaryOperator)
    (hop : precedenceLevel op = 5) (h : typeAt ts c = operatorToken op)
    (h1 : Parses sdl.parseMultiplication ts (c + 1) r c1)
    (h2 : Parses (fun n => sdl.parseAdditionLoop n (Expr.Binary e op r)) ts c1 res c2) :
    Parses (fun n => sdl.parseAdditionLoop n e) ts c res c2 := by
  obtain ⟨N1, h1⟩ := h1
  obtain ⟨N2, h2⟩ := h2
  obtain ⟨tok, htok, htype⟩ := getElem?_of_typeAt h (operatorToken_ne_eof op)
  refine ⟨max N1 N2 + 1, fun n hn => ?_⟩
  obtain ⟨m, rfl⟩ : ∃ m, n = m + 1 := ⟨n - 1, by omega⟩
  show sdl.parseAdditionLoop (m + 1) e ts c = Res.ok res c2
  have h1' := h1 m (by omega)
  have h2' := h2 m (by omega)
  simp only at h2'
  rw [sdl.parseAdditionLoop, bind_apply, matchAny_of_mem (l := _) (by rw [h]; cases op <;> simp [precedenceLevel] at hop <;> simp [operatorToken]) (by decide)]
  simp only [↓reduceIte, bind_apply, previousToken_succ htok, htype]
  cases op <;> simp [precedenceLevel] at hop <;> simp [operatorToken, pure_apply, bind_apply, h1', h2']

theorem parseAddition_of_loop (ts : List Token) (c c1 c2 : Nat) (e res : Expr)
    (h1 : Parses sdl.parseMultiplication ts c e c1)
    (h2 : Parses (fun n => sdl.parseAdditionLoop n e) ts c1 res c2) :
    Parses sdl.parseAddition ts c res c2 :=
  parses_chain (g := fun x n => sdl.parseAdditionLoop n x) h1 h2 (fun n => by rw [sdl.parseAddition])

theorem parseMultiplicationLoop_stop (ts : List Token) (c : Nat) (e : Expr)
    (h : ∀ op, precedenceLevel op = 6 → typeAt ts c ≠ operatorToken op) :
    Parses (fun n => sdl.parseMultiplicationLoop n e) ts c e c := by
  refine ⟨1, fun n hn => ?_⟩
  obtain ⟨m, rfl⟩ : ∃ m, n = m + 1 := ⟨n - 1, by omega⟩
  show sdl.parseMultiplicationLoop (m + 1) e ts c = Res.ok e c
  rw [sdl.parseMultiplicationLoop, bind_apply, matchAny_of_not_mem (l := _) ?_ (by decide)]
  · rfl
  · intro hm
    simp only [List.mem_cons, List.mem_singleton, List.not_mem_nil, or_false] at hm
    rcases hm with hm | hm | hm
    · exact h BinaryOperator.MULTIPLY rfl hm
    · exact h BinaryOperator.DIVIDE rfl hm
    · exact h BinaryOperator.MODULO rfl hm

theorem parseMultiplicationLoop_step (ts : List Token) (c c1 c2 : Nat) (e r res : Expr) (op : BinaryOperator)
    (hop : precedenceLevel op = 6) (h : typeAt ts c = operatorToken op)
    (h1 : Parses sdl.parseUnary ts (c + 1) r c1)
    (h2 : Parses (fun n => sdl.parseMultiplicationLoop n (Expr.Binary e op r)) ts c1 res c2) :
    Parses (fun n => sdl.parseMultiplicationLoop n e) ts c res c2 := by
  obtain ⟨N1, h1⟩ := h1
  obtain ⟨N2, h2⟩ := h2
  obtain ⟨tok, htok, htype⟩ := getElem?_of_typeAt h (operatorToken_ne_eof op)
  refine ⟨max N1 N2 + 1, fun n hn => ?_⟩
  obtain ⟨m, rfl⟩ : ∃ m, n = m + 1 := ⟨n - 1, by omega⟩
  show sdl.parseMultiplicationLoop (m + 1) e ts c = Res.ok res c2
  have h1' := h1 m (by omega)
  have h2' := h2 m (by omega)
  simp only at h2'
  rw [sdl.parseMultiplicationLoop, bind_apply, matchAny_of_mem (l := _) (by rw [h]; cases op <;> simp [precedenceLevel] at hop <;> simp [operatorToken]) (by decide)]
  simp only [↓reduceIte, bind_apply, previousToken_succ htok, htype]
  cases op <;> simp [precedenceLevel] at hop <;> simp [operatorToken, pure_apply, bind_apply, h1', h2']

theorem parseMultiplication_of_loop (ts : List Token) (c c1 c2 : Nat) (e res : Expr)
    (h1 : Parses sdl.parseUnary ts c e c1)
    (h2 : Parses (fun n => sdl.parseMultiplicationLoop n e) ts c1 res c2) :
    Parses sdl.parseMultiplication ts c res c2 :=
  parses_chain (g := fun x n => sdl.parseMultiplicationLoop n x) h1 h2 (fun n => by rw [sdl.parseMultiplication])

theorem levelLoop_stop (k : Nat) (hk : 1 ≤ k ∧ k ≤ 6) (ts : List Token) (c : Nat) (e : Expr)
    (h : ∀ op, precedenceLevel op = k → typeAt ts c ≠ operatorToken op) :
    Parses (fun n => levelLoop k n e) ts c e c := by
  obtain ⟨h1, h2⟩ := hk
  interval_cases k
  · exact parseLogicalOrLoop_stop ts c e h
  · exact parseLogicalAndLoop_stop ts c e h
  · exact parseEqualityLoop_stop ts c e h
  · exact parseComparisonLoop_stop ts c e h
  · exact parseAdditionLoop_stop ts c e h
  · exact parseMultiplicationLoop_stop ts c e h

theorem levelLoop_step (k : Nat) (hk : 1 ≤ k ∧ k ≤ 6) (ts : List Token) (c c1 c2 : Nat)
    (e r res : Expr) (op : BinaryOperator)
    (hop : precedenceLevel op = k) (h : typeAt ts c = operatorToken op)
    (h1 : Parses (levelParser (k + 1)) ts (c + 1) r c1)
    (h2 : Parses (fun n => levelLoop k n (Expr.Binary e op r)) ts c1 res c2) :
    Parses (fun n => levelLoop k n e) ts c res c2 := by
  obtain ⟨hk1, hk2⟩ := hk
  interval_cases k
  · exact parseLogicalOrLoop_step ts c c1 c2 e r res op hop h h1 h2
  · exact parseLogicalAndLoop_step ts c c1 c2 e r res op hop h h1 h2
  · exact parseEqualityLoop_step ts c c1 c2 e r res op hop h h1 h2
  · exact parseComparisonLoop_step ts c c1 c2 e r res op hop h h1 h2
  · exact parseAdditionLoop_step ts c c1 c2 e r res op hop h h1 h2
  · exact parseMultiplicationLoop_step ts c c1 c2 e r res op hop h h1 h2

theorem levelParser_of_loop (k : Nat) (hk : 1 ≤ k ∧ k ≤ 6) (ts : List Token) (c c1 c2 : Nat)
    (e res : Expr)
    (h1 : Parses (levelParser (k + 1)) ts c e c1)
    (h2 : Parses (fun n => levelLoop k n e) ts c1 res c2) :
    Parses (levelParser k) ts c res c2 := by
  obtain ⟨hk1, hk2⟩ := hk
  interval_cases k
  · exact parseLogicalOr_of_loop ts c c1 c2 e res h1 h2
  · exact parseLogicalAnd_of_loop ts c c1 c2 e res h1 h2
  · exact parseEquality_of_loop ts c c1 c2 e res h1 h2
  · exact parseComparison_of_loop ts c c1 c2 e res h1 h2
  · exact parseAddition_of_loop ts c c1 c2 e res h1 h2
  · exact parseMultiplication_of_loop ts c c1 c2 e res h1 h2

/-- An operand parsed at a tight level is also the result of every looser level
whose operators do not follow it. -/
theorem levelParser_climb (ts : List Token) (c c1 : Nat) (e : Expr) (j : Nat) (hj : j ≤ 7) :
    ∀ (d k : Nat), 1 ≤ k → k + d = j →
      Parses (levelParser j) ts c e c1 →
      (∀ op, k ≤ precedenceLevel op → precedenceLevel op < j → typeAt ts c1 ≠ operatorToken op) →
      Parses (levelParser k) ts c e c1 := by
  intro d
  induction d with
  | zero =>
    intro k _ hkj h _
    have : k = j := by omega
    subst this
    exact h
  | succ d IH =>
    intro k hk hkj h hstop
    have h1 := IH (k + 1) (by omega) (by omega) h (fun op h2 h3 => hstop op (by omega) h3)
    exact levelParser_of_loop k ⟨hk, by omega⟩ ts c c1 c1 e e h1
      (levelLoop_stop k ⟨hk, by omega⟩ ts c1 e (fun op h2 => hstop op (by omega) (by omega)))

/-- One binary operator between two operands of the next tighter level. -/
theorem levelParser_binary (k : Nat) (hk : 1 ≤ k ∧ k ≤ 6) (ts : List Token) (c c1 c2 : Nat)
    (l r : Expr) (op : BinaryOperator) (hop : precedenceLevel op = k)
    (h1 : Parses (levelParser (k + 1)) ts c l c1)
    (h : typeAt ts c1 = operatorToken op)
    (h2 : Parses (levelParser (k + 1)) ts (c1 + 1) r c2)
    (hstop : ∀ op', precedenceLevel op' = k → typeAt ts c2 ≠ operatorToken op') :
    Parses (levelParser k) ts c (Expr.Binary l op r) c2 :=
  levelParser_of_loop k hk ts c c1 c2 l _ h1
    (levelLoop_step k hk ts c1 c2 c2 l r _ op hop h h2 (levelLoop_stop k hk ts c2 _ hstop))

theorem parseExpression_of_level (ts : List Token) (c c1 : Nat) (e : Expr)
    (h : Parses (levelParser 1) ts c e c1) : Parses parseExpression ts c e c1 := by
  obtain ⟨N, h⟩ := h
  refine ⟨N + 1, fun n hn => ?_⟩
  obtain ⟨m, rfl⟩ : ∃ m, n = m + 1 := ⟨n - 1, by omega⟩
  rw [parseExpression]
  exact h m (by omega)

theorem parsePrimary_identifier (ts : List Token) (c : Nat) (tok : Token)
    (h : ts[c]? = some tok) (ht : tok.type = TokenType.IDENTIFIER) :
    Parses parsePrimary ts c (Expr.Identifier tok.value) (c + 1) := by
  have h1 : typeAt ts c = TokenType.IDENTIFIER := by rw [typeAt_eq_of_getElem? h, ht]
  refine ⟨1, fun n hn => ?_⟩
  obtain ⟨m, rfl⟩ : ∃ m, n = m + 1 := ⟨n - 1, by omega⟩
  rw [parsePrimary, bind_apply, matchTok_of_ne (by rw [h1]; decide) (by decide)]
  simp only [Bool.false_eq_true, ↓reduceIte]
  rw [bind_apply, matchTok_of_ne (by rw [h1]; decide) (by decide)]
  simp only [Bool.false_eq_true, ↓reduceIte]
  rw [bind_apply, matchTok_of_ne (by rw [h1]; decide) (by decide)]
  simp only [Bool.false_eq_true, ↓reduceIte]
  rw [bind_apply, matchTok_of_typeAt h1 (by decide)]
  simp only [↓reduceIte, bind_apply, previousToken_succ h, pure_apply]

theorem parsePrimary_paren (ts : List Token) (c c1 : Nat) (e : Expr)
    (h : typeAt ts c = TokenType.LEFT_PAREN)
    (h1 : Parses parseExpression ts (c + 1) e c1)
    (h2 : typeAt ts c1 = TokenType.RIGHT_PAREN) :
    Parses parsePrimary ts c e (c1 + 1) := by
  obtain ⟨N, h1⟩ := h1
  refine ⟨N + 1, fun n hn => ?_⟩
  obtain ⟨m, rfl⟩ : ∃ m, n = m + 1 := ⟨n - 1, by omega⟩
  rw [parsePrimary, bind_apply, matchTok_of_ne (by rw [h]; decide) (by decide)]
  simp only [Bool.false_eq_true, ↓reduceIte]
  rw [bind_apply, matchTok_of_ne (by rw [h]; decide) (by decide)]
  simp only [Bool.false_eq_true, ↓reduceIte]
  rw [bind_apply, matchTok_of_ne (by rw [h]; decide) (by decide)]
  simp only [Bool.false_eq_true, ↓reduceIte]
  rw [bind_apply, matchTok_of_ne (by rw [h]; decide) (by decide)]
  simp only [Bool.false_eq_true, ↓reduceIte]
  rw [bind_apply, matchAny_of_not_mem (by rw [h]; decide) (by decide)]
  simp only [Bool.false_eq_true, ↓reduceIte]
  rw [bind_apply, matchTok_of_typeAt h (by decide)]
  simp only [↓reduceIte, bind_apply, h1 m (by omega), consume_of_typeAt _ h2 (by decide), pure_apply]

theorem parsePostfix_of_primary (ts : List Token) (c c1 : Nat) (e : Expr)
    (h1 : Parses parsePrimary ts c e c1)
    (h2 : typeAt ts c1 ∉ [TokenType.DOT, TokenType.LEFT_PAREN, TokenType.LEFT_BRACKET]) :
    Parses parsePostfix ts c e c1 := by
  refine parses_chain (g := fun x n => parsePostfixLoop n x) h1 ?_ (fun n => by rw [parsePostfix])
  refine ⟨1, fun n hn => ?_⟩
  obtain ⟨m, rfl⟩ : ∃ m, n = m + 1 := ⟨n - 1, by omega⟩
  simp only [List.mem_cons, List.mem_singleton, List.not_mem_nil, or_false, not_or] at h2
  show parsePostfixLoop (m + 1) e ts c1 = Res.ok e c1
  rw [parsePostfixLoop, bind_apply, matchTok_of_ne h2.1 (by decide)]
  simp only [Bool.false_eq_true, ↓reduceIte]
  rw [bind_apply, matchTok_of_ne h2.2.1 (by decide)]
  simp only [Bool.false_eq_true, ↓reduceIte]
  rw [bind_apply, matchTok_of_ne h2.2.2 (by decide)]
  simp only [Bool.false_eq_true, ↓reduceIte, pure_apply]

theorem parseUnary_of_postfix (ts : List Token) (c c1 : Nat) (e : Expr)
    (h1 : typeAt ts c ∉ [TokenType.LOGICAL_NOT, TokenType.MINUS])
    (h2 : Parses parsePostfix ts c e c1) :
    Parses parseUnary ts c e c1 := by
  obtain ⟨N, h2⟩ := h2
  refine ⟨N + 1, fun n hn => ?_⟩
  obtain ⟨m, rfl⟩ : ∃ m, n = m + 1 := ⟨n - 1, by omega⟩
  rw [parseUnary, bind_apply, matchAny_of_not_mem h1 (by decide)]
  simp only [Bool.false_eq_true, ↓reduceIte]
  exact h2 m (by omega)

/-- An identifier token that no postfix operator follows is an operand. -/
theorem parseUnary_identifier (ts : List Token) (c : Nat) (tok : Token)
    (h : ts[c]? = some tok) (ht : tok.type = TokenType.IDENTIFIER)
    (h2 : typeAt ts (c + 1) ∉ [TokenType.DOT, TokenType.LEFT_PAREN, TokenType.LEFT_BRACKET]) :
    Parses (levelParser 7) ts c (Expr.Identifier tok.value) (c + 1) :=
  parseUnary_of_postfix ts c (c + 1) _
    (by rw [typeAt_eq_of_getElem? h, ht]; decide)
    (parsePostfix_of_primary ts c (c + 1) _ (parsePrimary_identifier ts c tok h ht) h2)

theorem operatorToken_not_postfix (op : BinaryOperator) :
    operatorToken op ∉ [TokenType.DOT, TokenType.LEFT_PAREN, TokenType.LEFT_BRACKET] := by
  cases op <;> decide

theorem precedenceLevel_le (op : BinaryOperator) : precedenceLevel op ≤ 6 := by
  cases op <;> decide

theorem eof_ne_operatorToken (op : BinaryOperator) : TokenType.END_OF_FILE ≠ operatorToken op := by
  cases op <;> decide

theorem parses_lo_hi (ta tlo tb thi tc te : Token) (lo hi : BinaryOperator)
    (ha : ta.type = .IDENTIFIER) (hb : tb.type = .IDENTIFIER) (hc : tc.type = .IDENTIFIER)
    (hlo : tlo.type = operatorToken lo) (hhi : thi.type = operatorToken hi)
    (he : te.type = .END_OF_FILE)
    (h1 : 1 ≤ precedenceLevel lo) (h2 : precedenceLevel lo < precedenceLevel hi) :
    Parses parseExpression [ta, tlo, tb, thi, tc, te] 0
      (Expr.Binary (Expr.Identifier ta.value) lo
        (Expr.Binary (Expr.Identifier tb.value) hi (Expr.Identifier tc.value))) 5 := by
  have hj := precedenceLevel_le hi
  have t1 : typeAt [ta, tlo, tb, thi, tc, te] 1 = operatorToken lo := by
    rw [@typeAt_eq_of_getElem? _ _ tlo rfl, hlo]
  have t3 : typeAt [ta, tlo, tb, thi, tc, te] 3 = operatorToken hi := by
    rw [@typeAt_eq_of_getElem? _ _ thi rfl, hhi]
  have t5 : typeAt [ta, tlo, tb, thi, tc, te] 5 = TokenType.END_OF_FILE := by
    rw [@typeAt_eq_of_getElem? _ _ te rfl, he]
  have pa := parseUnary_identifier [ta, tlo, tb, thi, tc, te] 0 ta rfl ha
    (by rw [t1]; exact operatorToken_not_postfix lo)
  have pb := parseUnary_identifier [ta, tlo, tb, thi, tc, te] 2 tb rfl hb
    (by rw [t3]; exact operatorToken_not_postfix hi)
  have pc := parseUnary_identifier [ta, tlo, tb, thi, tc, te] 4 tc rfl hc
    (by rw [t5]; decide)
  -- the left operand `a` at the level above `lo`
  have la := levelParser_climb _ 0 1 _ 7 (le_refl _) (7 - (precedenceLevel lo + 1))
    (precedenceLevel lo + 1) (by omega) (by omega) pa
    (fun op h3 _ => by rw [t1]; intro h5; have h6 := operatorToken_injective h5; subst h6; omega)
  -- the right operand `b hi c` at the level of `hi`
  have lb := levelParser_climb _ 2 3 _ 7 (le_refl _) (7 - (precedenceLevel hi + 1))
    (precedenceLevel hi + 1) (by omega) (by omega) pb
    (fun op h3 _ => by rw [t3]; intro h5; have h6 := operatorToken_injective h5; subst h6; omega)
  have lc := levelParser_climb _ 4 5 _ 7 (le_refl _) (7 - (precedenceLevel hi + 1))
    (precedenceLevel hi + 1) (by omega) (by omega) pc
    (fun op _ _ => by rw [t5]; exact eof_ne_operatorToken op)
  have bhc := levelParser_binary (precedenceLevel hi) ⟨by omega, hj⟩ _ 2 3 5 _ _ hi rfl lb t3 lc
    (fun op _ => by rw [t5]; exact eof_ne_operatorToken op)
  have bhc' := levelParser_climb _ 2 5 _ (precedenceLevel hi) (by omega)
    (precedenceLevel hi - (precedenceLevel lo + 1)) (precedenceLevel lo + 1) (by omega) (by omega)
    bhc (fun op _ _ => by rw [t5]; exact eof_ne_operatorToken op)
  have all := levelParser_binary (precedenceLevel lo) ⟨h1, by omega⟩ _ 0 1 5 _ _ lo rfl la t1 bhc'
    (fun op _ => by rw [t5]; exact eof_ne_operatorToken op)
  exact parseExpression_of_level _ 0 5 _
    (levelParser_climb _ 0 5 _ (precedenceLevel lo) (by omega) (precedenceLevel lo - 1) 1
      (le_refl _) (by omega) all (fun op _ _ => by rw [t5]; exact eof_ne_operatorToken op))

theorem parses_hi_lo (ta tlo tb thi tc te : Token) (lo hi : BinaryOperator)
    (ha : ta.type = .IDENTIFIER) (hb : tb.type = .IDENTIFIER) (hc : tc.type = .IDENTIFIER)
    (hlo : tlo.type = operatorToken lo) (hhi : thi.type = operatorToken hi)
    (he : te.type = .END_OF_FILE)
    (h1 : 1 ≤ precedenceLevel lo) (h2 : precedenceLevel lo < precedenceLevel hi) :
    Parses parseExpression [ta, thi, tb, tlo, tc, te] 0
      (Expr.Binary (Expr.Binary (Expr.Identifier ta.value) hi (Expr.Identifier tb.value)) lo
        (Expr.Identifier tc.value)) 5 := by
  have hj := precedenceLevel_le hi
  have t1 : typeAt [ta, thi, tb, tlo, tc, te] 1 = operatorToken hi := by
    rw [@typeAt_eq_of_getElem? _ _ thi rfl, hhi]
  have t3 : typeAt [ta, thi, tb, tlo, tc, te] 3 = operatorToken lo := by
    rw [@typeAt_eq_of_getElem? _ _ tlo rfl, hlo]
  have t5 : typeAt [ta, thi, tb, tlo, tc, te] 5 = TokenType.END_OF_FILE := by
    rw [@typeAt_eq_of_getElem? _ _ te rfl, he]
  have pa := parseUnary_identifier [ta, thi, tb, tlo, tc, te] 0 ta rfl ha
    (by rw [t1]; exact operatorToken_not_postfix hi)
  have pb := parseUnary_identifier [ta, thi, tb, tlo, tc, te] 2 tb rfl hb
    (by rw [t3]; exact operatorToken_not_postfix lo)
  have pc := parseUnary_identifier [ta, thi, tb, tlo, tc, te] 4 tc rfl hc
    (by rw [t5]; decide)
  have la := levelParser_climb _ 0 1 _ 7 (le_refl _) (7 - (precedenceLevel hi + 1))
    (precedenceLevel hi + 1) (by omega) (by omega) pa
    (fun op h3 _ => by rw [t1]; intro h5; have h6 := operatorToken_injective h5; subst h6; omega)
  have lb := levelParser_climb _ 2 3 _ 7 (le_refl _) (7 - (precedenceLevel hi + 1))
    (precedenceLevel hi + 1) (by omega) (by omega) pb
    (fun op h3 _ => by rw [t3]; intro h5; have h6 := operatorToken_injective h5; subst h6; omega)
  have ahb := levelParser_binary (precedenceLevel hi) ⟨by omega, hj⟩ _ 0 1 3 _ _ hi rfl la t1 lb
    (fun op h3 => by rw [t3]; intro h5; have h6 := operatorToken_injective h5; subst h6; omega)
  have ahb' := levelParser_climb _ 0 3 _ (precedenceLevel hi) (by omega)
    (precedenceLevel hi - (precedenceLevel lo + 1)) (precedenceLevel lo + 1) (by omega) (by omega)
    ahb (fun op h3 _ => by rw [t3]; intro h5; have h6 := operatorToken_injective h5; subst h6; omega)
  have lc := levelParser_climb _ 4 5 _ 7 (le_refl _) (7 - (precedenceLevel lo + 1))
    (precedenceLevel lo + 1) (by omega) (by omega) pc
    (fun op _ _ => by rw [t5]; exact eof_ne_operatorToken op)
  have all := levelParser_binary (precedenceLevel lo) ⟨h1, by omega⟩ _ 0 3 5 _ _ lo rfl ahb' t3 lc
    (fun op _ => by rw [t5]; exact eof_ne_operatorToken op)
  exact parseExpression_of_level _ 0 5 _
    (levelParser_climb _ 0 5 _ (precedenceLevel lo) (by omega) (precedenceLevel lo - 1) 1
      (le_refl _) (by omega) all (fun op _ _ => by rw [t5]; exact eof_ne_operatorToken op))

theorem parses_same_level (ta tp tb tq tc te : Token) (p q : BinaryOperator)
    (ha : ta.type = .IDENTIFIER) (hb : tb.type = .IDENTIFIER) (hc : tc.type = .IDENTIFIER)
    (hp : tp.type = operatorToken p) (hq : tq.type = operatorToken q)
    (he : te.type = .END_OF_FILE)
    (h1 : 1 ≤ precedenceLevel p) (h2 : precedenceLevel p = precedenceLevel q) :
    Parses parseExpression [ta, tp, tb, tq, tc, te] 0
      (Expr.Binary (Expr.Binary (Expr.Identifier ta.value) p (Expr.Identifier tb.value)) q
        (Expr.Identifier tc.value)) 5 := by
  have hj := precedenceLevel_le p
  have t1 : typeAt [ta, tp, tb, tq, tc, te] 1 = operatorToken p := by
    rw [@typeAt_eq_of_getElem? _ _ tp rfl, hp]
  have t3 : typeAt [ta, tp, tb, tq, tc, te] 3 = operatorToken q := by
    rw [@typeAt_eq_of_getElem? _ _ tq rfl, hq]
  have t5 : typeAt [ta, tp, tb, tq, tc, te] 5 = TokenType.END_OF_FILE := by
    rw [@typeAt_eq_of_getElem? _ _ te rfl, he]
  have pa := parseUnary_identifier [ta, tp, tb, tq, tc, te] 0 ta rfl ha
    (by rw [t1]; exact operatorToken_not_postfix p)
  have pb := parseUnary_identifier [ta, tp, tb, tq, tc, te] 2 tb rfl hb
    (by rw [t3]; exact operatorToken_not_postfix q)
  have pc := parseUnary_identifier [ta, tp, tb, tq, tc, te] 4 tc rfl hc
    (by rw [t5]; decide)
  have la := levelParser_climb _ 0 1 _ 7 (le_refl _) (7 - (precedenceLevel p + 1))
    (precedenceLevel p + 1) (by omega) (by omega) pa
    (fun op h3 _ => by rw [t1]; intro h5; have h6 := operatorToken_injective h5; subst h6; omega)
  have lb := levelParser_climb _ 2 3 _ 7 (le_refl _) (7 - (precedenceLevel p + 1))
    (precedenceLevel p + 1) (by omega) (by omega) pb
    (fun op h3 _ => by rw [t3]; intro h5; have h6 := operatorToken_injective h5; subst h6; omega)
  have lc := levelParser_climb _ 4 5 _ 7 (le_refl _) (7 - (precedenceLevel p + 1))
    (precedenceLevel p + 1) (by omega) (by omega) pc
    (fun op _ _ => by rw [t5]; exact eof_ne_operatorToken op)
  have hk : 1 ≤ precedenceLevel p ∧ precedenceLevel p ≤ 6 := ⟨h1, hj⟩
  have all := levelParser_of_loop (precedenceLevel p) hk _ 0 1 5 _ _ la
    (levelLoop_step (precedenceLevel p) hk _ 1 3 5 _ _ _ p rfl t1 lb
      (levelLoop_step (precedenceLevel p) hk _ 3 5 5 _ _ _ q h2.symm t3 lc
        (levelLoop_stop (precedenceLevel p) hk _ 5 _
          (fun op _ => by rw [t5]; exact eof_ne_operatorToken op))))
  exact parseExpression_of_level _ 0 5 _
    (levelParser_climb _ 0 5 _ (precedenceLevel p) (by omega) (precedenceLevel p - 1) 1
      (le_refl _) (by omega) all (fun op _ _ => by rw [t5]; exact eof_ne_operatorToken op))

theorem prepend_prepend (d1 d2 : List Stmt) (e1 e2 : List ErrorReport)
    (r : Res (Program × List ErrorReport)) :
    (r.prepend d2 e2).prepend d1 e1 = r.prepend (d1 ++ d2) (e1 ++ e2) := by
  cases r <;> simp [Res.prepend, List.append_assoc]

/-- The loop of `parseProgram` only appends to what it has collected. -/
theorem parseProgramLoop_acc (ts : List Token) :
    ∀ (n c : Nat) (decls : List Stmt) (errs : List ErrorReport),
      parseProgramLoop n ts c decls errs = (parseProgramLoop n ts c [] []).prepend decls errs := by
  intro n
  induction n with
  | zero => intro c decls errs; rfl
  | succ n IH =>
    intro c decls errs
    rw [parseProgramLoop, parseProgramLoop]
    split
    · cases parseDeclaration n ts c with
      | ok d c1 =>
        simp only
        rw [IH c1 (decls ++ [d]) errs, IH c1 ([] ++ [d]) [], prepend_prepend]
        simp
      | err msg c1 =>
        simp only
        cases synchronize ts c1 with
        | ok _ c2 =>
          simp only
          rw [IH c2 decls (errs ++ _), IH c2 [] ([] ++ _), prepend_prepend]
          simp
        | err _ _ => rfl
        | fuel => rfl
        | oob => rfl
      | fuel => rfl
      | oob => rfl
    · simp [Res.prepend]

theorem fuel_stable {α : Type} (f : Nat → ParserM α) (hmono : ∀ n, FuelMono (f n) (f (n + 1)))
    (ts : List Token) (c n : Nat) (h : f n ts c ≠ Res.fuel) :
    ∀ k, f (n + k) ts c = f n ts c := by
  intro k
  induction k with
  | zero => rfl
  | succ k IH =>
    rcases hmono (n + k) ts c with h1 | h1
    · rw [IH] at h1; exact absurd h1 h
    · rw [← Nat.add_assoc, ← h1, IH]

theorem parses_result {α : Type} {f : Nat → ParserM α} (hmono : ∀ n, FuelMono (f n) (f (n + 1)))
    {ts : List Token} {c c' : Nat} {a : α} (h : Parses f ts c a c') (n : Nat)
    (hn : f n ts c ≠ Res.fuel) : f n ts c = Res.ok a c' := by
  obtain ⟨N, h⟩ := h
  rw [← fuel_stable f hmono ts c n hn N]
  exact h _ (by omega)

theorem parses_of_eval {α : Type} {f : Nat → ParserM α} (hmono : ∀ n, FuelMono (f n) (f (n + 1)))
    {ts : List Token} {c c' : Nat} {a : α} (N : Nat) (h : f N ts c = Res.ok a c') :
    Parses f ts c a c' := by
  refine ⟨N, fun n hn => ?_⟩
  obtain ⟨k, rfl⟩ : ∃ k, n = N + k := ⟨n - N, by omega⟩
  rw [fuel_stable f hmono ts c N (by rw [h]; simp) k, h]

/-- With the fuel of `parseFuel`, `parseExpression` returns what it returns with
any sufficient fuel. -/
theorem parseExpression_of_parses {ts : List Token} {c c' : Nat} {e : Expr}
    (h : Parses parseExpression ts c e c') (hc : c ≤ ts.length) (n : Nat)
    (hn : 16 * (ts.length - c) + 10 ≤ n) : parseExpression n ts c = Res.ok e c' := by
  refine parses_result (fun n => (monoAll n).parseExpression) h n ?_
  intro hf
  have h1 := (runAll n ts).parseExpression c hc
  rw [hf] at h1
  simp only [Run] at h1
  omega

theorem parseProgram_fuel (ts : List Token) (k : Nat) :
    parseProgramLoop (parseFuel ts + k) ts 0 [] [] = parseProgram ts := by
  obtain ⟨p, e, c, h⟩ := parseProgram_ok ts
  rw [h]
  exact parseProgramLoop_fuel ts 0 [] [] (parseFuel ts) k (p, e) c h

theorem parseDeclaration_type_semicolon (tT tS : Token) (P : List Token) (n : Nat)
    (hT : tT.type ∈ typeKeywords) (hS : tS.type = TokenType.SEMICOLON) :
    parseDeclaration n (tT :: tS :: P) 0 = Res.err "Expected identifier after type" 1 := by
  obtain ⟨ty, v, l, c⟩ := tT
  obtain ⟨_, v2, l2, c2⟩ := tS
  simp only at hS
  subst hS
  simp only [typeKeywords, List.mem_cons, List.mem_singleton, List.not_mem_nil, or_false] at hT
  rcases hT with h | h | h | h | h | h | h | h | h | h | h | h | h <;> subst h <;>
    simp [parseDeclaration, bind_apply, matchTok, checkAt, isAtEndAt, checkAny, qualifierKeywords,
      typeKeywords, parseQualifier, check, pure_apply, parseType, advanceAt, throwRuntimeError]

theorem synchronize_after_semicolon (tT tS : Token) (P : List Token)
    (hS : tS.type = TokenType.SEMICOLON) :
    synchronize (tT :: tS :: P) 1 = Res.ok () 2 := by
  have h1 : isAtEndAt (tT :: tS :: P) 1 = false := by simp [isAtEndAt, hS]
  have h2 : (tT :: tS :: P).length - 1 = P.length + 1 := by simp
  unfold synchronize
  rw [h2, bind_apply]
  simp only [sdl.advance, advanceAt, h1, Bool.not_false, ↓reduceIte]
  rw [synchronizeLoop, bind_apply]
  simp only [sdl.isAtEnd]
  cases isAtEndAt (tT :: tS :: P) 2
  · simp [bind_apply, sdl.previousToken, hS, pure_apply]
  · simp [pure_apply]

/-- C3.  For every type keyword token `T`, every semicolon token and every token
sequence `P`, parsing `T ;` followed by `P` reports the error "Expected
identifier after type" (at the position of the semicolon) for the malformed
declaration and then yields exactly the declarations, and the further error
lines, that parsing `P` alone yields; the final cursor is two tokens further. -/
theorem malformed_declaration_does_not_disturb (tT tS : Token) (P : List Token)
    (hT : tT.type ∈ typeKeywords) (hS : tS.type = TokenType.SEMICOLON) :
    ∃ program errors c,
      parseProgram P = Res.ok (program, errors) c ∧
      parseProgram (tT :: tS :: P) =
        Res.ok (program,
          { message := "Expected identifier after type",
            position := some (tS.line, tS.column) } :: errors) (c + 2) := by
  obtain ⟨p, e, c, h⟩ := parseProgram_ok P
  refine ⟨p, e, c, h, ?_⟩
  have hfuel : parseFuel (tT :: tS :: P) = (parseFuel P + 79) + 1 := by
    simp only [parseFuel, List.length_cons]; omega
  have h0 : isAtEndAt (tT :: tS :: P) 0 = false := by
    have : tT.type ≠ TokenType.END_OF_FILE := by
      intro h1; rw [h1] at hT; revert hT; decide
    simp [isAtEndAt, this]
  have h1 : isAtEndAt (tT :: tS :: P) 1 = false := by simp [isAtEndAt, hS]
  have hrep : reportError (tT :: tS :: P) 1 "Expected identifier after type" =
      { message := "Expected identifier after type", position := some (tS.line, tS.column) } := by
    simp [reportError, h1, currentTokenAt]
  unfold parseProgram
  rw [hfuel, parseProgramLoop]
  simp only [h0, Bool.not_false, ↓reduceIte, parseDeclaration_type_semicolon tT tS P _ hT hS,
    synchronize_after_semicolon tT tS P hS, hrep, List.nil_append]
  have hshift := parseProgramLoop_shift [tT, tS] P (parseFuel P + 79) 0 []
    [{ message := "Expected identifier after type", position := some (tS.line, tS.column) }]
  have hacc := parseProgramLoop_acc P (parseFuel P + 79) 0 []
    [{ message := "Expected identifier after type", position := some (tS.line, tS.column) }]
  rw [parseProgram_fuel P 79, h] at hacc
  rw [hacc] at hshift
  simp only [Res.prepend, Res.shift, List.nil_append, List.singleton_append, List.length_cons,
    List.length_nil, Nat.zero_add, List.cons_append, reduceCtorEq, false_or] at hshift
  exact hshift

/-- Witness for C3: the tokens of `int ; shader s : vertex { }`. -/
theorem malformed_declaration_does_not_disturb_witness :
    ∃ program errors c,
      parseProgram [⟨.SHADER, "shader", 1, 7⟩, ⟨.IDENTIFIER, "s", 1, 14⟩, ⟨.COLON, ":", 1, 16⟩,
        ⟨.VERTEX, "vertex", 1, 18⟩, ⟨.LEFT_BRACE, "\x7b", 1, 25⟩, ⟨.RIGHT_BRACE, "\x7d", 1, 27⟩,
        ⟨.END_OF_FILE, "", 1, 28⟩] = Res.ok (program, errors) c ∧
      parseProgram (⟨.INT, "int", 1, 1⟩ :: ⟨.SEMICOLON, ";", 1, 5⟩ ::
        [⟨.SHADER, "shader", 1, 7⟩, ⟨.IDENTIFIER, "s", 1, 14⟩, ⟨.COLON, ":", 1, 16⟩,
        ⟨.VERTEX, "vertex", 1, 18⟩, ⟨.LEFT_BRACE, "\x7b", 1, 25⟩, ⟨.RIGHT_BRACE, "\x7d", 1, 27⟩,
        ⟨.END_OF_FILE, "", 1, 28⟩]) =
        Res.ok (program,
          { message := "Expected identifier after type",
            position := some ((⟨.SEMICOLON, ";", 1, 5⟩ : Token).line,
              (⟨.SEMICOLON, ";", 1, 5⟩ : Token).column) } :: errors) (c + 2) :=
  malformed_declaration_does_not_disturb ⟨.INT, "int", 1, 1⟩ ⟨.SEMICOLON, ";", 1, 5⟩ _
    (by decide) rfl

/-- The example of C3 evaluated: `int ; shader s : vertex { }` yields the single
`ShaderDeclaration` named `s` and one error line. -/
theorem malformed_declaration_example :
    parseProgram (tokenize "int ; shader s : vertex \x7b \x7d".toList) =
      Res.ok ({ declarations := [Stmt.ShaderDeclaration "s" ShaderType.VERTEX []] },
        [{ message := "Expected identifier after type", position := some (1, 5) }]) 8 := by
  rfl

/-- C4.  For every token sequence, `parseProgram` returns a `Program` (never a
propagated error, never for lack of fuel, never after leaving the token vector),
and more fuel than `parseFuel` gives the same result.  Every iteration of its
loop, which starts with the cursor `c` not at end of input, moves the cursor
forward by at least one token: either `parseDeclaration` succeeds at a later
cursor, or it throws and `synchronize` stops at a later cursor. -/
theorem parseProgram_terminates (ts : List Token) :
    (∃ program errors c, parseProgram ts = Res.ok (program, errors) c ∧
      ∀ k, parseProgramLoop (parseFuel ts + k) ts 0 [] [] = Res.ok (program, errors) c) ∧
    (∀ n c, c ≤ ts.length → isAtEndAt ts c = false → 16 * (ts.length - c) + 11 ≤ n →
      (∃ decl c1, parseDeclaration n ts c = Res.ok decl c1 ∧ c + 1 ≤ c1 ∧ c1 ≤ ts.length) ∨
      (∃ msg c1 c2, parseDeclaration n ts c = Res.err msg c1 ∧
        synchronize ts c1 = Res.ok () c2 ∧ c + 1 ≤ c2 ∧ c2 ≤ ts.length)) := by
  constructor
  · obtain ⟨p, e, c, h⟩ := parseProgram_ok ts
    exact ⟨p, e, c, h, fun k => by rw [parseProgram_fuel, h]⟩
  · intro n c hc hb hn
    have h := run_parseDeclaration ts n c hc
    cases hd : parseDeclaration n ts c with
    | ok d c1 =>
      rw [hd] at h
      exact Or.inl ⟨d, c1, rfl, h⟩
    | err msg c1 =>
      rw [hd] at h
      simp only [Run] at h
      obtain ⟨c2, h5, h6, h7⟩ := synchronize_ok ts c1 h.2
      refine Or.inr ⟨msg, c1, c2, rfl, h5, ?_, h7⟩
      have h8 := (advanceAt_le ts c1).1
      by_cases hcc : c1 = c
      · subst hcc
        simp only [advanceAt, hb, Bool.not_false, ↓reduceIte] at h6
        exact h6
      · omega
    | fuel =>
      rw [hd] at h
      simp only [Run] at h
      omega
    | oob =>
      rw [hd] at h
      exact h.elim

mutual
theorem cuda_visitExpr_eq : ∀ (e : Expr) (g : Generator),
    CUDAGenerator.visitExpr e g = g.write (CUDAGenerator.visitExpr e {}).output
  | Expr.Identifier name, g => by simp [CUDAGenerator.visitExpr, Generator.write]
  | Expr.Literal _ value, g => by simp [CUDAGenerator.visitExpr, Generator.write]
  | Expr.Binary left op right, g => by
    simp only [CUDAGenerator.visitExpr]
    rw [cuda_visitExpr_eq left, cuda_visitExpr_eq right,
      cuda_visitExpr_eq right (Generator.write _ _)]
    simp [Generator.write, String.append_assoc]
  | Expr.Unary op operand, g => by
    simp only [CUDAGenerator.visitExpr]
    rw [cuda_visitExpr_eq operand,
      cuda_visitExpr_eq operand (Generator.write _ _)]
    simp [Generator.write, String.append_assoc]
  | Expr.FunctionCall functionName arguments, g => by
    simp only [CUDAGenerator.visitExpr]
    rw [cuda_visitArguments_eq arguments,
      cuda_visitArguments_eq arguments 0 (Generator.write _ _)]
    simp [Generator.write, String.append_assoc]
  | Expr.MemberAccess object member, g => by
    simp only [CUDAGenerator.visitExpr]
    rw [cuda_visitExpr_eq object]
    simp [Generator.write, String.append_assoc]
theorem cuda_visitArguments_eq : ∀ (args : List Expr) (i : Nat) (g : Generator),
    CUDAGenerator.visitArguments args i g =
      g.write (CUDAGenerator.visitArguments args i {}).output
  | [], i, g => by simp [CUDAGenerator.visitArguments, Generator.write]
  | a :: rest, i, g => by
    simp only [CUDAGenerator.visitArguments]
    rw [cuda_visitArguments_eq rest, cuda_visitExpr_eq a,
      cuda_visitArguments_eq rest (i + 1) (CUDAGenerator.visitExpr _ _),
      cuda_visitExpr_eq a (ite _ _ _)]
    split <;> simp [Generator.write, String.append_assoc]
end

/-- C1 at a failing input.  For the source consisting of one space the token
sequence returned by `tokenize` holds two `END_OF_FILE` tokens: the one that
`nextToken` returns after skipping the trailing whitespace, which the loop of
`tokenize` keeps, and the one appended after the loop. -/
theorem tokenize_trailing_space :
    tokenize " ".toList =
      [{ type := .END_OF_FILE, value := "", line := 1, column := 2 },
       { type := .END_OF_FILE, value := "", line := 1, column := 2 }] := by
  rfl

/-- C2 at a failing input.  For a file whose text is `int ;` the parser reports
the error "Expected identifier after type", and `compile` for the target GLSL
nevertheless returns `true`, records no error and stores the generated GLSL
text. -/
theorem compile_succeeds_after_parse_error :
    parseProgram (tokenize "int ;".toList) =
      Res.ok ({ declarations := [] },
        [{ message := "Expected identifier after type", position := some (1, 5) }]) 2 ∧
    compile (fun _ => some "int ;".toList) { targets := [.GLSL], inputFile := "a.sdl" } {} =
      some (true,
        { glslOutput := "#version 330 core\n\n", cudaOutput := "", errors := [], warnings := [],
          printed := [{ message := "Expected identifier after type", position := some (1, 5) }] }) :=
  ⟨rfl, rfl⟩

/-- C5.  With the precedence levels of the specification (`||` loosest, then
`&&`, `==` `!=`, `<` `<=` `>` `>=`, `+` `-`, and `*` `/` `%` tightest), for
identifier tokens `a`, `b`, `c` and operator tokens `lo` and `hi` with `hi` on a
strictly tighter level than `lo`: the tokens `a lo b hi c` parse to
`Binary(a, lo, Binary(b, hi, c))` and the tokens `a hi b lo c` parse to
`Binary(Binary(a, hi, b), lo, c)`, in both cases up to the `END_OF_FILE` token. -/
theorem precedence_levels (ta tlo tb thi tc te : Token) (lo hi : BinaryOperator)
    (ha : ta.type = .IDENTIFIER) (hb : tb.type = .IDENTIFIER) (hc : tc.type = .IDENTIFIER)
    (hlo : tlo.type = operatorToken lo) (hhi : thi.type = operatorToken hi)
    (he : te.type = .END_OF_FILE)
    (h1 : 1 ≤ precedenceLevel lo) (h2 : precedenceLevel lo < precedenceLevel hi)
    (n : Nat) (hn : parseFuel [ta, tlo, tb, thi, tc, te] ≤ n) :
    parseExpression n [ta, tlo, tb, thi, tc, te] 0 =
      Res.ok (Expr.Binary (Expr.Identifier ta.value) lo
        (Expr.Binary (Expr.Identifier tb.value) hi (Expr.Identifier tc.value))) 5 ∧
    parseExpression n [ta, thi, tb, tlo, tc, te] 0 =
      Res.ok (Expr.Binary (Expr.Binary (Expr.Identifier ta.value) hi (Expr.Identifier tb.value))
        lo (Expr.Identifier tc.value)) 5 := by
  have hn' : 16 * 6 + 10 ≤ n := by
    simp only [parseFuel, List.length_cons, List.length_nil] at hn; omega
  exact ⟨parseExpression_of_parses (parses_lo_hi ta tlo tb thi tc te lo hi ha hb hc hlo hhi he h1 h2)
      (Nat.zero_le _) n hn',
    parseExpression_of_parses (parses_hi_lo ta tlo tb thi tc te lo hi ha hb hc hlo hhi he h1 h2)
      (Nat.zero_le _) n hn'⟩

/-- Witness for C5: `a + b * c` and `a * b + c`. -/
theorem precedence_levels_witness :
    parseExpression 320 [⟨.IDENTIFIER, "a", 1, 1⟩, ⟨.PLUS, "+", 1, 3⟩, ⟨.IDENTIFIER, "b", 1, 5⟩,
        ⟨.MULTIPLY, "*", 1, 7⟩, ⟨.IDENTIFIER, "c", 1, 9⟩, ⟨.END_OF_FILE, "", 1, 10⟩] 0 =
      Res.ok (Expr.Binary (Expr.Identifier "a") .ADD
        (Expr.Binary (Expr.Identifier "b") .MULTIPLY (Expr.Identifier "c"))) 5 ∧
    parseExpression 320 [⟨.IDENTIFIER, "a", 1, 1⟩, ⟨.MULTIPLY, "*", 1, 7⟩, ⟨.IDENTIFIER, "b", 1, 5⟩,
        ⟨.PLUS, "+", 1, 3⟩, ⟨.IDENTIFIER, "c", 1, 9⟩, ⟨.END_OF_FILE, "", 1, 10⟩] 0 =
      Res.ok (Expr.Binary (Expr.Binary (Expr.Identifier "a") .MULTIPLY (Expr.Identifier "b"))
        .ADD (Expr.Identifier "c")) 5 :=
  precedence_levels ⟨.IDENTIFIER, "a", 1, 1⟩ ⟨.PLUS, "+", 1, 3⟩ ⟨.IDENTIFIER, "b", 1, 5⟩
    ⟨.MULTIPLY, "*", 1, 7⟩ ⟨.IDENTIFIER, "c", 1, 9⟩ ⟨.END_OF_FILE, "", 1, 10⟩ .ADD .MULTIPLY
    rfl rfl rfl rfl rfl rfl (by decide) (by decide) 320 (by decide)

/-- C6.  For identifier tokens `a`, `b`, `c` and operator tokens `p` and `q` of
one precedence level, the tokens `a p b q c` parse to
`Binary(Binary(a, p, b), q, c)`, up to the `END_OF_FILE` token. -/
theorem left_associativity (ta tp tb tq tc te : Token) (p q : BinaryOperator)
    (ha : ta.type = .IDENTIFIER) (hb : tb.type = .IDENTIFIER) (hc : tc.type = .IDENTIFIER)
    (hp : tp.type = operatorToken p) (hq : tq.type = operatorToken q)
    (he : te.type = .END_OF_FILE)
    (h1 : 1 ≤ precedenceLevel p) (h2 : precedenceLevel p = precedenceLevel q)
    (n : Nat) (hn : parseFuel [ta, tp, tb, tq, tc, te] ≤ n) :
    parseExpression n [ta, tp, tb, tq, tc, te] 0 =
      Res.ok (Expr.Binary (Expr.Binary (Expr.Identifier ta.value) p (Expr.Identifier tb.value))
        q (Expr.Identifier tc.value)) 5 := by
  have hn' : 16 * 6 + 10 ≤ n := by
    simp only [parseFuel, List.length_cons, List.length_nil] at hn; omega
  exact parseExpression_of_parses
    (parses_same_level ta tp tb tq tc te p q ha hb hc hp hq he h1 h2) (Nat.zero_le _) n hn'

/-- Witness for C6: `a - b + c`. -/
theorem left_associativity_witness :
    parseExpression 320 [⟨.IDENTIFIER, "a", 1, 1⟩, ⟨.MINUS, "-", 1, 3⟩, ⟨.IDENTIFIER, "b", 1, 5⟩,
        ⟨.PLUS, "+", 1, 7⟩, ⟨.IDENTIFIER, "c", 1, 9⟩, ⟨.END_OF_FILE, "", 1, 10⟩] 0 =
      Res.ok (Expr.Binary (Expr.Binary (Expr.Identifier "a") .SUBTRACT (Expr.Identifier "b"))
        .ADD (Expr.Identifier "c")) 5 :=
  left_associativity ⟨.IDENTIFIER, "a", 1, 1⟩ ⟨.MINUS, "-", 1, 3⟩ ⟨.IDENTIFIER, "b", 1, 5⟩
    ⟨.PLUS, "+", 1, 7⟩ ⟨.IDENTIFIER, "c", 1, 9⟩ ⟨.END_OF_FILE, "", 1, 10⟩ .SUBTRACT .ADD
    rfl rfl rfl rfl rfl rfl (by decide) (by decide) 320 (by decide)

theorem parseExpression_of_eval {ts : List Token} {c' : Nat} {e : Expr} (N : Nat)
    (h : parseExpression N ts 0 = Res.ok e c') (n : Nat) (hn : parseFuel ts ≤ n) :
    parseExpression n ts 0 = Res.ok e c' :=
  parseExpression_of_parses (parses_of_eval (fun n => (monoAll n).parseExpression) N h)
    (Nat.zero_le _) n (by unfold parseFuel at hn; omega)

theorem parseUnary_prefix (ts : List Token) (c c1 : Nat) (tok : Token) (e : Expr)
    (h : ts[c]? = some tok)
    (ht : tok.type = TokenType.LOGICAL_NOT ∨ tok.type = TokenType.MINUS)
    (h1 : Parses parseUnary ts (c + 1) e c1) :
    Parses parseUnary ts c
      (Expr.Unary (if tok.type = TokenType.LOGICAL_NOT then UnaryOperator.LOGICAL_NOT
        else UnaryOperator.MINUS) e) c1 := by
  obtain ⟨N, h1⟩ := h1
  have h2 : typeAt ts c ∈ [TokenType.LOGICAL_NOT, TokenType.MINUS] := by
    rw [typeAt_eq_of_getElem? h]
    rcases ht with ht | ht <;> simp [ht]
  refine ⟨N + 1, fun n hn => ?_⟩
  obtain ⟨m, rfl⟩ : ∃ m, n = m + 1 := ⟨n - 1, by omega⟩
  rw [parseUnary, bind_apply, matchAny_of_mem h2 (by decide)]
  simp only [↓reduceIte, bind_apply, previousToken_succ h, h1 m (by omega), pure_apply]

theorem parsePostfix_member (ts : List Token) (c c1 : Nat) (e : Expr) (tx : Token)
    (h1 : Parses parsePrimary ts c e c1)
    (hdot : typeAt ts c1 = TokenType.DOT)
    (hx : ts[c1 + 1]? = some tx) (hxt : tx.type = TokenType.IDENTIFIER)
    (h2 : typeAt ts (c1 + 2) ∉ [TokenType.DOT, TokenType.LEFT_PAREN, TokenType.LEFT_BRACKET]) :
    Parses parsePostfix ts c (Expr.MemberAccess e tx.value) (c1 + 2) := by
  refine parses_chain (g := fun x n => parsePostfixLoop n x) h1 ?_ (fun n => by rw [parsePostfix])
  have hx' : typeAt ts (c1 + 1) = TokenType.IDENTIFIER := by rw [typeAt_eq_of_getElem? hx, hxt]
  have hcur : currentTokenAt ts (c1 + 1) = tx := by
    have h3 := @isAtEndAt_of_typeAt ts (c1 + 1) (by rw [hx']; decide)
    simp [currentTokenAt, h3, List.getD_eq_getElem?_getD, hx]
  refine ⟨2, fun n hn => ?_⟩
  obtain ⟨m, rfl⟩ : ∃ m, n = m + 2 := ⟨n - 2, by omega⟩
  simp only [List.mem_cons, List.mem_singleton, List.not_mem_nil, or_false, not_or] at h2
  show parsePostfixLoop (m + 1 + 1) e ts c1 = Res.ok (Expr.MemberAccess e tx.value) (c1 + 2)
  rw [parsePostfixLoop, bind_apply, matchTok_of_typeAt hdot (by decide)]
  simp only [↓reduceIte, bind_apply, consume_of_typeAt _ hx' (by decide), hcur]
  rw [parsePostfixLoop, bind_apply, matchTok_of_ne h2.1 (by decide)]
  simp only [Bool.false_eq_true, ↓reduceIte]
  rw [bind_apply, matchTok_of_ne h2.2.1 (by decide)]
  simp only [Bool.false_eq_true, ↓reduceIte]
  rw [bind_apply, matchTok_of_ne h2.2.2 (by decide)]
  simp only [Bool.false_eq_true, ↓reduceIte, pure_apply]

theorem levelParser_expression (ts : List Token) (c c1 : Nat) (e : Expr) (j : Nat)
    (hj1 : 1 ≤ j) (hj : j ≤ 7) (h : Parses (levelParser j) ts c e c1)
    (hstop : ∀ op, typeAt ts c1 ≠ operatorToken op) :
    Parses parseExpression ts c e c1 :=
  parseExpression_of_level ts c c1 e
    (levelParser_climb ts c c1 e j hj (j - 1) 1 (le_refl _) (by omega) h
      (fun op _ _ => hstop op))

/-- C7.  For identifier tokens `a`, `b`, `x`: the tokens `- a * b` parse to
`Binary(Unary(MINUS, a), MULTIPLY, b)`, the tokens `- a . x` parse to
`Unary(MINUS, MemberAccess(a, x))`, and the tokens `! - a` parse to
`Unary(LOGICAL_NOT, Unary(MINUS, a))`, each up to the `END_OF_FILE` token: a
unary prefix operator binds tighter than a binary operator and looser than a
postfix operator. -/
theorem unary_binding (tminus tnot tmul tdot ta tb tx te : Token)
    (hminus : tminus.type = .MINUS) (hnot : tnot.type = .LOGICAL_NOT)
    (hmul : tmul.type = .MULTIPLY) (hdot : tdot.type = .DOT)
    (ha : ta.type = .IDENTIFIER) (hb : tb.type = .IDENTIFIER) (hx : tx.type = .IDENTIFIER)
    (he : te.type = .END_OF_FILE) (n : Nat) (hn : 280 ≤ n) :
    parseExpression n [tminus, ta, tmul, tb, te] 0 =
      Res.ok (Expr.Binary (Expr.Unary .MINUS (Expr.Identifier ta.value)) .MULTIPLY
        (Expr.Identifier tb.value)) 4 ∧
    parseExpression n [tminus, ta, tdot, tx, te] 0 =
      Res.ok (Expr.Unary .MINUS (Expr.MemberAccess (Expr.Identifier ta.value) tx.value)) 4 ∧
    parseExpression n [tnot, tminus, ta, te] 0 =
      Res.ok (Expr.Unary .LOGICAL_NOT (Expr.Unary .MINUS (Expr.Identifier ta.value))) 3 := by
  have hm' : (if tminus.type = TokenType.LOGICAL_NOT then UnaryOperator.LOGICAL_NOT
      else UnaryOperator.MINUS) = UnaryOperator.MINUS := by simp [hminus]
  have hn' : (if tnot.type = TokenType.LOGICAL_NOT then UnaryOperator.LOGICAL_NOT
      else UnaryOperator.MINUS) = UnaryOperator.LOGICAL_NOT := by simp [hnot]
  refine ⟨?_, ?_, ?_⟩
  · have t2 : typeAt [tminus, ta, tmul, tb, te] 2 = TokenType.MULTIPLY := by
      rw [@typeAt_eq_of_getElem? _ _ tmul rfl, hmul]
    have t4 : typeAt [tminus, ta, tmul, tb, te] 4 = TokenType.END_OF_FILE := by
      rw [@typeAt_eq_of_getElem? _ _ te rfl, he]
    have pa := parseUnary_identifier [tminus, ta, tmul, tb, te] 1 ta rfl ha (by rw [t2]; decide)
    have pma := parseUnary_prefix [tminus, ta, tmul, tb, te] 0 2 tminus _ rfl (Or.inr hminus) pa
    rw [hm'] at pma
    have pb := parseUnary_identifier [tminus, ta, tmul, tb, te] 3 tb rfl hb (by rw [t4]; decide)
    have all := levelParser_binary 6 (by decide) _ 0 2 4 _ _ .MULTIPLY rfl pma t2 pb
      (fun op _ => by rw [t4]; exact eof_ne_operatorToken op)
    exact parseExpression_of_parses
      (levelParser_expression _ 0 4 _ 6 (by decide) (by decide) all
        (fun op => by rw [t4]; exact eof_ne_operatorToken op))
      (Nat.zero_le _) n (by simp only [List.length_cons, List.length_nil]; omega)
  · have t1 : typeAt [tminus, ta, tdot, tx, te] 1 = TokenType.IDENTIFIER := by
      rw [@typeAt_eq_of_getElem? _ _ ta rfl, ha]
    have t2 : typeAt [tminus, ta, tdot, tx, te] 2 = TokenType.DOT := by
      rw [@typeAt_eq_of_getElem? _ _ tdot rfl, hdot]
    have t4 : typeAt [tminus, ta, tdot, tx, te] 4 = TokenType.END_OF_FILE := by
      rw [@typeAt_eq_of_getElem? _ _ te rfl, he]
    have pa := parsePrimary_identifier [tminus, ta, tdot, tx, te] 1 ta rfl ha
    have pm := parsePostfix_member [tminus, ta, tdot, tx, te] 1 2 _ tx pa t2 rfl hx
      (by rw [t4]; decide)
    have pu := parseUnary_of_postfix [tminus, ta, tdot, tx, te] 1 4 _ (by rw [t1]; decide) pm
    have pma := parseUnary_prefix [tminus, ta, tdot, tx, te] 0 4 tminus _ rfl (Or.inr hminus) pu
    rw [hm'] at pma
    exact parseExpression_of_parses
      (levelParser_expression _ 0 4 _ 7 (by decide) (by decide) pma
        (fun op => by rw [t4]; exact eof_ne_operatorToken op))
      (Nat.zero_le _) n (by simp only [List.length_cons, List.length_nil]; omega)
  · have t3 : typeAt [tnot, tminus, ta, te] 3 = TokenType.END_OF_FILE := by
      rw [@typeAt_eq_of_getElem? _ _ te rfl, he]
    have pa := parseUnary_identifier [tnot, tminus, ta, te] 2 ta rfl ha (by rw [t3]; decide)
    have pma := parseUnary_prefix [tnot, tminus, ta, te] 1 3 tminus _ rfl (Or.inr hminus) pa
    rw [hm'] at pma
    have pna := parseUnary_prefix [tnot, tminus, ta, te] 0 3 tnot _ rfl (Or.inl hnot) pma
    rw [hn'] at pna
    exact parseExpression_of_parses
      (levelParser_expression _ 0 3 _ 7 (by decide) (by decide) pna
        (fun op => by rw [t3]; exact eof_ne_operatorToken op))
      (Nat.zero_le _) n (by simp only [List.length_cons, List.length_nil]; omega)

/-- Witness for C7: the tokens of `-a * b`, `-a.x` and `!-a`. -/
theorem unary_binding_witness :
    parseExpression 280 [⟨.MINUS, "-", 1, 1⟩, ⟨.IDENTIFIER, "a", 1, 2⟩, ⟨.MULTIPLY, "*", 1, 4⟩,
        ⟨.IDENTIFIER, "b", 1, 6⟩, ⟨.END_OF_FILE, "", 1, 7⟩] 0 =
      Res.ok (Expr.Binary (Expr.Unary .MINUS (Expr.Identifier "a")) .MULTIPLY
        (Expr.Identifier "b")) 4 ∧
    parseExpression 280 [⟨.MINUS, "-", 1, 1⟩, ⟨.IDENTIFIER, "a", 1, 2⟩, ⟨.DOT, ".", 1, 3⟩,
        ⟨.IDENTIFIER, "x", 1, 4⟩, ⟨.END_OF_FILE, "", 1, 7⟩] 0 =
      Res.ok (Expr.Unary .MINUS (Expr.MemberAccess (Expr.Identifier "a") "x")) 4 ∧
    parseExpression 280 [⟨.LOGICAL_NOT, "!", 1, 1⟩, ⟨.MINUS, "-", 1, 1⟩,
        ⟨.IDENTIFIER, "a", 1, 2⟩, ⟨.END_OF_FILE, "", 1, 7⟩] 0 =
      Res.ok (Expr.Unary .LOGICAL_NOT (Expr.Unary .MINUS (Expr.Identifier "a"))) 3 :=
  unary_binding ⟨.MINUS, "-", 1, 1⟩ ⟨.LOGICAL_NOT, "!", 1, 1⟩ ⟨.MULTIPLY, "*", 1, 4⟩
    ⟨.DOT, ".", 1, 3⟩ ⟨.IDENTIFIER, "a", 1, 2⟩ ⟨.IDENTIFIER, "b", 1, 6⟩ ⟨.IDENTIFIER, "x", 1, 4⟩
    ⟨.END_OF_FILE, "", 1, 7⟩ rfl rfl rfl rfl rfl rfl rfl rfl 280 (by decide)

/-- C9.  The CUDA generator writes `Binary(Binary(a, ADD, b), MULTIPLY, c)` as
`a + b * c`; tokenizing that text and parsing the tokens as an expression gives
`Binary(a, ADD, Binary(b, MULTIPLY, c))`, a different tree. -/
theorem cuda_emission_changes_grouping :
    CUDAGenerator.emitExpr
        (Expr.Binary (Expr.Binary (Expr.Identifier "a") .ADD (Expr.Identifier "b")) .MULTIPLY
          (Expr.Identifier "c")) = "a + b * c" ∧
    (∀ n, parseFuel (tokenize "a + b * c".toList) ≤ n →
      parseExpression n (tokenize "a + b * c".toList) 0 =
        Res.ok (Expr.Binary (Expr.Identifier "a") .ADD
          (Expr.Binary (Expr.Identifier "b") .MULTIPLY (Expr.Identifier "c"))) 5) ∧
    Expr.Binary (Expr.Identifier "a") .ADD
        (Expr.Binary (Expr.Identifier "b") .MULTIPLY (Expr.Identifier "c")) ≠
      Expr.Binary (Expr.Binary (Expr.Identifier "a") .ADD (Expr.Identifier "b")) .MULTIPLY
        (Expr.Identifier "c") := by
  refine ⟨rfl, fun n hn => parseExpression_of_eval 30 (by rfl) n hn, ?_⟩
  simp

/-- C10.  For every binary expression `Binary(l, op, r)` the GLSL generator
writes `(`, the text of `l`, a space, the symbol of `op`, a space, the text of
`r` and `)`, and the CUDA generator writes the same without the parentheses; so
`Binary(a, ADD, b)` is written `(a + b)` by GLSL and `a + b` by CUDA. -/
theorem binary_emission (l r : Expr) (op : BinaryOperator) :
    GLSLGenerator.emitExpr (Expr.Binary l op r) =
      "(" ++ GLSLGenerator.emitExpr l ++ " " ++ getBinaryOperatorString op ++ " " ++
        GLSLGenerator.emitExpr r ++ ")" ∧
    CUDAGenerator.emitExpr (Expr.Binary l op r) =
      CUDAGenerator.emitExpr l ++ " " ++ getBinaryOperatorString op ++ " " ++
        CUDAGenerator.emitExpr r ∧
    GLSLGenerator.emitExpr (Expr.Binary (Expr.Identifier "a") .ADD (Expr.Identifier "b")) =
      "(a + b)" ∧
    CUDAGenerator.emitExpr (Expr.Binary (Expr.Identifier "a") .ADD (Expr.Identifier "b")) =
      "a + b" := by
  refine ⟨?_, ?_, rfl, rfl⟩
  · simp only [GLSLGenerator.emitExpr, GLSLGenerator.visitExpr]
    rw [glsl_visitExpr_eq l, glsl_visitExpr_eq r]
    simp [Generator.write, String.append_assoc]
  · simp only [CUDAGenerator.emitExpr, CUDAGenerator.visitExpr]
    rw [cuda_visitExpr_eq l, cuda_visitExpr_eq r]
    simp [Generator.write, String.append_assoc]

theorem getD_append_cons (pre : List Char) (c d : Char) (rest : List Char) :
    (pre ++ c :: rest).getD pre.length d = c := by
  induction pre with
  | nil => rfl
  | cons a pre ih => simpa using ih

theorem reading_isAtEnd_cons (pre : List Char) (c : Char) (rest : List Char) :
    (Lexer.reading pre (c :: rest)).isAtEnd = false := by
  simp [Lexer.reading, Lexer.isAtEnd]

theorem reading_isAtEnd_nil (pre : List Char) : (Lexer.reading pre []).isAtEnd = true := by
  simp [Lexer.reading, Lexer.isAtEnd]

theorem reading_currentChar (pre : List Char) (c : Char) (rest : List Char) :
    (Lexer.reading pre (c :: rest)).currentChar = c := by
  simp only [Lexer.reading, Lexer.currentChar, Lexer.isAtEnd, getD_append_cons]
  simp

theorem reading_advance (pre : List Char) (c : Char) (rest : List Char) (h : c ≠ '\n') :
    (Lexer.reading pre (c :: rest)).advance = Lexer.reading (pre ++ [c]) rest := by
  simp only [Lexer.reading, Lexer.advance, Lexer.isAtEnd, getD_append_cons]
  simp [h]

theorem reading_peekChar (pre : List Char) (c d : Char) (rest : List Char) :
    (Lexer.reading pre (c :: d :: rest)).peekChar = d := by
  have h := getD_append_cons (pre ++ [c]) d (Char.ofNat 0) rest
  simp only [List.append_assoc, List.singleton_append, List.length_append, List.length_singleton] at h
  simp only [Lexer.reading, Lexer.peekChar, h]
  simp

theorem reading_remaining (pre rest : List Char) :
    (Lexer.reading pre rest).remaining = rest.length := by
  simp [Lexer.reading, Lexer.remaining]

theorem skipWhitespaceLoop_stop (n : Nat) (pre : List Char) (c : Char) (rest : List Char)
    (h : isSpace c = false) :
    Lexer.skipWhitespaceLoop n (Lexer.reading pre (c :: rest)) = Lexer.reading pre (c :: rest) := by
  cases n with
  | zero => rfl
  | succ n => simp [Lexer.skipWhitespaceLoop, reading_currentChar, h]

theorem skipWhitespace_stop (pre : List Char) (c : Char) (rest : List Char)
    (h : isSpace c = false) :
    (Lexer.reading pre (c :: rest)).skipWhitespace = Lexer.reading pre (c :: rest) :=
  skipWhitespaceLoop_stop _ pre c rest h

theorem skipWhitespace_space (pre : List Char) (c : Char) (rest : List Char)
    (h : isSpace c = false) :
    (Lexer.reading pre (' ' :: c :: rest)).skipWhitespace = Lexer.reading (pre ++ [' ']) (c :: rest) := by
  unfold Lexer.skipWhitespace
  rw [reading_remaining, List.length_cons, Lexer.skipWhitespaceLoop, reading_isAtEnd_cons,
    reading_currentChar, reading_advance _ _ _ (by decide), skipWhitespaceLoop_stop _ _ _ _ h]
  rfl

theorem nextToken_leftParen (lx0 : Lexer) (pre rest : List Char)
    (h : lx0.skipWhitespace = Lexer.reading pre ('(' :: rest)) :
    lx0.nextToken = ({ type := .LEFT_PAREN, value := "(", line := 1, column := pre.length + 1 },
      Lexer.reading (pre ++ ['(']) rest) := by
  simp only [Lexer.nextToken, h, reading_isAtEnd_cons, reading_currentChar]
  rw [reading_advance _ _ _ (by decide)]
  rfl

theorem nextToken_rightParen (lx0 : Lexer) (pre rest : List Char)
    (h : lx0.skipWhitespace = Lexer.reading pre (')' :: rest)) :
    lx0.nextToken = ({ type := .RIGHT_PAREN, value := ")", line := 1, column := pre.length + 1 },
      Lexer.reading (pre ++ [')']) rest) := by
  simp only [Lexer.nextToken, h, reading_isAtEnd_cons, reading_currentChar]
  rw [reading_advance _ _ _ (by decide)]
  rfl

theorem operatorChars_eq (op : BinaryOperator) :
    (getBinaryOperatorString op).data = operatorChars op := by
  cases op <;> rfl

theorem nextToken_operator (op : BinaryOperator) (hop : op ≠ BinaryOperator.ASSIGN)
    (lx0 : Lexer) (pre rest : List Char)
    (h : lx0.skipWhitespace = Lexer.reading pre (operatorChars op ++ ' ' :: rest)) :
    lx0.nextToken =
      ({ type := operatorToken op, value := getBinaryOperatorString op, line := 1, column := pre.length + 1 },
        Lexer.reading (pre ++ operatorChars op) (' ' :: rest)) := by
  cases op
  case ASSIGN => exact absurd rfl hop
  all_goals
    simp only [operatorChars, List.cons_append, List.nil_append] at h
    simp only [Lexer.nextToken, Lexer.nextTokenFromEq, Lexer.nextTokenFromAmp, Lexer.nextTokenFromPipe,
      Lexer.nextTokenFromSlash, h, reading_isAtEnd_cons, reading_currentChar]
    simp [reading_advance, reading_currentChar, reading_peekChar, operatorToken, getBinaryOperatorString]
    exact ⟨⟨rfl, rfl⟩, rfl⟩

theorem isDigit_of_isAlpha (a : Char) (h : isAlpha a = true) : isDigit a = false := by
  cases hd : isDigit a with
  | false => rfl
  | true =>
    exfalso
    simp only [isAlpha, isDigit, Bool.or_eq_true, Bool.and_eq_true, decide_eq_true_eq] at h hd
    rcases h with (⟨h1, h2⟩ | ⟨h1, h2⟩) | h
    · exact absurd (Char.le_trans h1 hd.2) (by decide)
    · exact absurd (Char.le_trans h1 hd.2) (by decide)
    · subst h; exact absurd hd.2 (by decide)

theorem ne_of_isAlpha (a c : Char) (h : isAlpha a = true) (hc : isAlpha c = false) : a ≠ c := by
  rintro rfl
  rw [h] at hc
  cases hc

theorem ne_of_isAlphaNumeric (a c : Char) (h : isAlphaNumeric a = true)
    (hc : isAlphaNumeric c = false) : a ≠ c := by
  rintro rfl
  rw [h] at hc
  cases hc

theorem alnumLoop_name (name : List Char) (h : ∀ c ∈ name, isAlphaNumeric c = true) :
    ∀ (n : Nat) (pre rest : List Char), name.length ≤ n →
      (∀ c ∈ rest.head?, isAlphaNumeric c = false) →
      Lexer.alnumLoop n (Lexer.reading pre (name ++ rest)) = Lexer.reading (pre ++ name) rest := by
  induction name with
  | nil =>
    intro n pre rest _ hr
    rw [List.nil_append, List.append_nil]
    cases n with
    | zero => rfl
    | succ n =>
      cases rest with
      | nil => simp [Lexer.alnumLoop, reading_isAtEnd_nil]
      | cons c rest =>
        have h1 := hr c (by simp)
        simp [Lexer.alnumLoop, reading_currentChar, h1]
  | cons a name ih =>
    intro n pre rest hn hr
    cases n with
    | zero => simp at hn
    | succ n =>
      have h1 := h a (by simp)
      rw [List.cons_append, Lexer.alnumLoop, reading_isAtEnd_cons, reading_currentChar, h1,
        reading_advance _ _ _ (ne_of_isAlphaNumeric a _ h1 (by decide))]
      simp only [Bool.not_false, Bool.and_self, if_true]
      rw [ih (fun c hc => h c (by simp [hc])) n _ rest (by simpa using hn) hr]
      simp

theorem readIdentifier_name (name : List Char) (h : ∀ c ∈ name, isAlphaNumeric c = true)
    (pre rest : List Char) (hr : ∀ c ∈ rest.head?, isAlphaNumeric c = false) :
    (Lexer.reading pre (name ++ rest)).readIdentifier =
      ({ type := getKeywordType (String.mk name), value := String.mk name, line := 1, column := pre.length + 1 },
        Lexer.reading (pre ++ name) rest) := by
  unfold Lexer.readIdentifier
  simp only [reading_remaining]
  rw [alnumLoop_name name h _ pre rest (by simp) hr]
  simp [Lexer.reading, substr]

theorem nextToken_identifier (lx0 : Lexer) (a : Char) (name pre rest : List Char)
    (ha : isAlpha a = true) (h : ∀ c ∈ name, isAlphaNumeric c = true)
    (hr : ∀ c ∈ rest.head?, isAlphaNumeric c = false)
    (h0 : lx0.skipWhitespace = Lexer.reading pre (a :: (name ++ rest))) :
    lx0.nextToken =
      ({ type := getKeywordType (String.mk (a :: name)), value := String.mk (a :: name), line := 1, column := pre.length + 1 },
        Lexer.reading (pre ++ a :: name) rest) := by
  have k0 : a ≠ '(' := ne_of_isAlpha a _ ha (by decide)
  have k1 : a ≠ ')' := ne_of_isAlpha a _ ha (by decide)
  have k2 : a ≠ '\x7b' := ne_of_isAlpha a _ ha (by decide)
  have k3 : a ≠ '\x7d' := ne_of_isAlpha a _ ha (by decide)
  have k4 : a ≠ '[' := ne_of_isAlpha a _ ha (by decide)
  have k5 : a ≠ ']' := ne_of_isAlpha a _ ha (by decide)
  have k6 : a ≠ ';' := ne_of_isAlpha a _ ha (by decide)
  have k7 : a ≠ ':' := ne_of_isAlpha a _ ha (by decide)
  have k8 : a ≠ ',' := ne_of_isAlpha a _ ha (by decide)
  have k9 : a ≠ '.' := ne_of_isAlpha a _ ha (by decide)
  have k10 : a ≠ '+' := ne_of_isAlpha a _ ha (by decide)
  have k11 : a ≠ '-' := ne_of_isAlpha a _ ha (by decide)
  have k12 : a ≠ '*' := ne_of_isAlpha a _ ha (by decide)
  have k13 : a ≠ '%' := ne_of_isAlpha a _ ha (by decide)
  have k14 : a ≠ '=' := ne_of_isAlpha a _ ha (by decide)
  have k15 : a ≠ '!' := ne_of_isAlpha a _ ha (by decide)
  have k16 : a ≠ '<' := ne_of_isAlpha a _ ha (by decide)
  have k17 : a ≠ '>' := ne_of_isAlpha a _ ha (by decide)
  have k18 : a ≠ '&' := ne_of_isAlpha a _ ha (by decide)
  have k19 : a ≠ '|' := ne_of_isAlpha a _ ha (by decide)
  have k20 : a ≠ '/' := ne_of_isAlpha a _ ha (by decide)
  have k21 : a ≠ '"' := ne_of_isAlpha a _ ha (by decide)
  have hd := isDigit_of_isAlpha a ha
  have h1 : ∀ c ∈ a :: name, isAlphaNumeric c = true := by
    intro c hc
    rcases List.mem_cons.1 hc with rfl | hc
    · simp [isAlphaNumeric, ha]
    · exact h c hc
  have h2 := readIdentifier_name (a :: name) h1 pre rest hr
  rw [List.cons_append] at h2
  simp only [Lexer.nextToken, Lexer.nextTokenFromEq, Lexer.nextTokenFromAmp, Lexer.nextTokenFromPipe,
    Lexer.nextTokenFromSlash, h0, reading_isAtEnd_cons, reading_currentChar]
  simp only [k0, k1, k2, k3, k4, k5, k6, k7, k8, k9, k10, k11, k12, k13, k14, k15, k16, k17, k18, k19, k20, k21, hd, ha, if_false, if_true, Bool.false_eq_true]
  exact h2

theorem lexes_single (lx0 lx1 : Lexer) (t : Token) (h1 : lx0.isAtEnd = false)
    (h2 : lx0.nextToken = (t, lx1)) (h3 : t.type ≠ TokenType.WHITESPACE)
    (h4 : t.type ≠ TokenType.COMMENT) : Lexes lx0 [t] lx1 := by
  intro n acc
  simp [Lexer.tokenizeLoop, h1, h2, h3, h4]

theorem lexes_append {lx0 lx1 lx2 : Lexer} {t1 t2 : List Token} (h1 : Lexes lx0 t1 lx1)
    (h2 : Lexes lx1 t2 lx2) : Lexes lx0 (t1 ++ t2) lx2 := by
  intro n acc
  have e : n + (t1 ++ t2).length = (n + t2.length) + t1.length := by
    simp only [List.length_append]; omega
  rw [e, h1, h2, List.append_assoc]

theorem emit_identifier (name : String) :
    (GLSLGenerator.emitExpr (Expr.Identifier name)).data = name.data := by
  simp [GLSLGenerator.emitExpr, GLSLGenerator.visitExpr, Generator.write]

theorem emit_binary (l r : Expr) (op : BinaryOperator) :
    (GLSLGenerator.emitExpr (Expr.Binary l op r)).data =
      '(' :: ((GLSLGenerator.emitExpr l).data ++
        ' ' :: (operatorChars op ++ ' ' :: ((GLSLGenerator.emitExpr r).data ++ [')']))) := by
  rw [glsl_binary, ← operatorChars_eq]
  simp [String.data_append]

theorem operatorChars_head (op : BinaryOperator) :
    ∃ c cs, operatorChars op = c :: cs ∧ isSpace c = false := by
  cases op <;> exact ⟨_, _, rfl, by decide⟩

theorem isSpace_of_isAlpha (a : Char) (h : isAlpha a = true) : isSpace a = false := by
  cases hs : isSpace a with
  | false => rfl
  | true =>
    exfalso
    simp only [isSpace, Bool.or_eq_true, decide_eq_true_eq] at hs
    rcases hs with ((((hs | hs) | hs) | hs) | hs) | hs <;> (subst hs; revert h; decide)

theorem emit_head : ∀ (e : Expr), isOperatorTree e = true →
    ∃ c cs, (GLSLGenerator.emitExpr e).data = c :: cs ∧ isSpace c = false
  | .Identifier name, h => by
    rw [emit_identifier]
    simp only [isOperatorTree, isIdentifierName] at h
    cases hn : name.data with
    | nil => rw [hn] at h; cases h
    | cons a rest =>
      rw [hn] at h
      simp only [Bool.and_eq_true] at h
      exact ⟨a, rest, rfl, isSpace_of_isAlpha a h.1.1⟩
  | .Binary l op r, _ => by
    rw [emit_binary]
    exact ⟨_, _, rfl, by decide⟩
  | .Literal _ _, h => by simp [isOperatorTree] at h
  | .Unary _ _, h => by simp [isOperatorTree] at h
  | .FunctionCall _ _, h => by simp [isOperatorTree] at h
  | .MemberAccess _ _, h => by simp [isOperatorTree] at h

theorem lexes_emit : ∀ (e : Expr), isOperatorTree e = true →
    ∀ (pre rest : List Char) (lx0 : Lexer), (∀ c ∈ rest.head?, isAlphaNumeric c = false) →
      lx0.isAtEnd = false →
      lx0.skipWhitespace = Lexer.reading pre ((GLSLGenerator.emitExpr e).data ++ rest) →
      ∃ toks, toks.map tokenKey = exprKeys e ∧
        Lexes lx0 toks (Lexer.reading (pre ++ (GLSLGenerator.emitExpr e).data) rest)
  | .Identifier name, h => by
    intro pre rest lx0 hr h0 hs
    rw [emit_identifier] at hs ⊢
    simp only [isOperatorTree, isIdentifierName] at h
    have hname : String.mk name.data = name := rfl
    cases hn : name.data with
    | nil => rw [hn] at h; cases h
    | cons a cs =>
      rw [hn] at h hs
      simp only [Bool.and_eq_true, decide_eq_true_eq, List.all_eq_true] at h
      have h1 := nextToken_identifier lx0 a cs pre rest h.1.1 h.1.2 hr hs
      rw [← hn, hname, h.2] at h1
      refine ⟨[{ type := .IDENTIFIER, value := name, line := 1, column := pre.length + 1 }], rfl, ?_⟩
      rw [← hn]
      exact lexes_single lx0 _ _ h0 h1 (by simp) (by simp)
  | .Binary l op r, h => by
    intro pre rest lx0 hr h0 hs
    simp only [isOperatorTree, Bool.and_eq_true, decide_eq_true_eq] at h
    obtain ⟨⟨hop, hl⟩, hrt⟩ := h
    rw [emit_binary] at hs ⊢
    obtain ⟨cl, csl, hcl, hcl'⟩ := emit_head l hl
    obtain ⟨cr, csr, hcr, hcr'⟩ := emit_head r hrt
    obtain ⟨co, cso, hco, hco'⟩ := operatorChars_head op
    have hs1 : lx0.skipWhitespace = Lexer.reading pre ('(' :: ((GLSLGenerator.emitExpr l).data ++
        ' ' :: (operatorChars op ++ ' ' :: ((GLSLGenerator.emitExpr r).data ++ ')' :: rest)))) := by
      rw [hs]; simp
    -- the opening parenthesis
    have s1 := lexes_single lx0 _ _ h0 (nextToken_leftParen lx0 pre _ hs1) (by simp) (by simp)
    -- the left operand
    obtain ⟨tl, hkl, s2⟩ := lexes_emit l hl (pre ++ ['('])
      (' ' :: (operatorChars op ++ ' ' :: ((GLSLGenerator.emitExpr r).data ++ ')' :: rest)))
      (Lexer.reading (pre ++ ['('])
        ((GLSLGenerator.emitExpr l).data ++
          ' ' :: (operatorChars op ++ ' ' :: ((GLSLGenerator.emitExpr r).data ++ ')' :: rest))))
      (by intro c hc; simp at hc; subst hc; decide)
      (by rw [hcl]; exact reading_isAtEnd_cons _ _ _)
      (by rw [hcl]; exact skipWhitespace_stop _ _ _ hcl')
    -- the operator
    have s3 := lexes_single
      (Lexer.reading (pre ++ ['('] ++ (GLSLGenerator.emitExpr l).data)
        (' ' :: (operatorChars op ++ ' ' :: ((GLSLGenerator.emitExpr r).data ++ ')' :: rest)))) _ _
      (reading_isAtEnd_cons _ _ _)
      (nextToken_operator op hop _ (pre ++ ['('] ++ (GLSLGenerator.emitExpr l).data ++ [' '])
        ((GLSLGenerator.emitExpr r).data ++ ')' :: rest)
        (by rw [hco]; exact skipWhitespace_space _ _ _ hco'))
      (by cases op <;> simp [operatorToken]) (by cases op <;> simp [operatorToken])
    -- the right operand
    obtain ⟨tr, hkr, s4⟩ := lexes_emit r hrt
      (pre ++ ['('] ++ (GLSLGenerator.emitExpr l).data ++ [' '] ++ operatorChars op ++ [' '])
      (')' :: rest)
      (Lexer.reading (pre ++ ['('] ++ (GLSLGenerator.emitExpr l).data ++ [' '] ++ operatorChars op)
        (' ' :: ((GLSLGenerator.emitExpr r).data ++ ')' :: rest)))
      (by intro c hc; simp at hc; subst hc; decide)
      (reading_isAtEnd_cons _ _ _)
      (by rw [hcr]; exact skipWhitespace_space _ _ _ hcr')
    -- the closing parenthesis
    have s5 := lexes_single
      (Lexer.reading (pre ++ ['('] ++ (GLSLGenerator.emitExpr l).data ++ [' '] ++ operatorChars op ++ [' '] ++
        (GLSLGenerator.emitExpr r).data) (')' :: rest)) _ _
      (reading_isAtEnd_cons _ _ _)
      (nextToken_rightParen _ _ rest (skipWhitespace_stop _ _ _ (by decide)))
      (by simp) (by simp)
    have s := lexes_append s1 (lexes_append s2 (lexes_append s3 (lexes_append s4 s5)))
    have e : pre ++ '(' :: ((GLSLGenerator.emitExpr l).data ++
        ' ' :: (operatorChars op ++ ' ' :: ((GLSLGenerator.emitExpr r).data ++ [')']))) =
        pre ++ ['('] ++ (GLSLGenerator.emitExpr l).data ++ [' '] ++ operatorChars op ++ [' '] ++
          (GLSLGenerator.emitExpr r).data ++ [')'] := by simp
    rw [e]
    refine ⟨_, ?_, s⟩
    simp [exprKeys, hkl, hkr, tokenKey]
  | .Literal _ _, h => by simp [isOperatorTree] at h
  | .Unary _ _, h => by simp [isOperatorTree] at h
  | .FunctionCall _ _, h => by simp [isOperatorTree] at h
  | .MemberAccess _ _, h => by simp [isOperatorTree] at h

theorem tokenizeLoop_atEnd (n : Nat) (lx : Lexer) (acc : List Token) (h : lx.isAtEnd = true) :
    Lexer.tokenizeLoop n lx acc = (acc, lx) := by
  cases n with
  | zero => rfl
  | succ n => simp [Lexer.tokenizeLoop, h]

theorem exprKeys_length_le : ∀ (e : Expr), isOperatorTree e = true →
    (exprKeys e).length ≤ (GLSLGenerator.emitExpr e).data.length
  | .Identifier name, h => by
    obtain ⟨c, cs, hc, _⟩ := emit_head _ h
    rw [hc]
    simp [exprKeys]
  | .Binary l op r, h => by
    simp only [isOperatorTree, Bool.and_eq_true, decide_eq_true_eq] at h
    have h1 := exprKeys_length_le l h.1.2
    have h2 := exprKeys_length_le r h.2
    rw [emit_binary]
    simp only [exprKeys, List.length_cons, List.length_append, List.length_nil]
    omega
  | .Literal _ _, h => by simp [isOperatorTree] at h
  | .Unary _ _, h => by simp [isOperatorTree] at h
  | .FunctionCall _ _, h => by simp [isOperatorTree] at h
  | .MemberAccess _ _, h => by simp [isOperatorTree] at h

theorem tokenize_emit (e : Expr) (h : isOperatorTree e = true) :
    ∃ toks eof, toks.map tokenKey = exprKeys e ∧ eof.type = TokenType.END_OF_FILE ∧
      tokenize (GLSLGenerator.emitExpr e).data = toks ++ [eof] := by
  obtain ⟨c, cs, hc, hc'⟩ := emit_head e h
  have h0 : Lexer.new (GLSLGenerator.emitExpr e).data =
      Lexer.reading [] ((GLSLGenerator.emitExpr e).data ++ []) := by
    simp [Lexer.new, Lexer.reading]
  obtain ⟨toks, hk, hl⟩ := lexes_emit e h [] [] (Lexer.new (GLSLGenerator.emitExpr e).data)
    (by simp) (by rw [h0, hc]; exact reading_isAtEnd_cons _ _ _)
    (by rw [h0, hc]; exact skipWhitespace_stop _ _ _ hc')
  have hlen : toks.length ≤ (GLSLGenerator.emitExpr e).data.length := by
    have h1 := exprKeys_length_le e h
    rw [← hk, List.length_map] at h1
    exact h1
  have h2 := hl ((GLSLGenerator.emitExpr e).data.length - toks.length) []
  rw [Nat.sub_add_cancel hlen, tokenizeLoop_atEnd _ _ _ (reading_isAtEnd_nil _)] at h2
  have h3 : (Lexer.new (GLSLGenerator.emitExpr e).data).remaining =
      (GLSLGenerator.emitExpr e).data.length := by simp [Lexer.new, Lexer.remaining]
  refine ⟨toks, Token.mk .END_OF_FILE "" 1 ((GLSLGenerator.emitExpr e).data.length + 1), hk, rfl, ?_⟩
  unfold tokenize Lexer.tokenize
  simp only [h3, h2, List.nil_append]
  rfl

theorem getElem?_append_cons {α : Type} (pre : List α) (x : α) (post : List α) :
    (pre ++ x :: post)[pre.length]? = some x := by
  induction pre with
  | nil => simp
  | cons a pre ih => simpa using ih

theorem getElem?_of_keys (ts : List Token) (pre post : List (TokenType × String))
    (ty : TokenType) (v : String) (h : ts.map tokenKey = pre ++ (ty, v) :: post) :
    ∃ tok, ts[pre.length]? = some tok ∧ tok.type = ty ∧ tok.value = v := by
  have h1 : (ts.map tokenKey)[pre.length]? = some (ty, v) := by
    rw [h]; exact getElem?_append_cons pre _ post
  rw [List.getElem?_map] at h1
  cases h2 : ts[pre.length]? with
  | none => rw [h2] at h1; cases h1
  | some tok =>
    rw [h2] at h1
    simp only [Option.map_some', Option.some.injEq, tokenKey, Prod.mk.injEq] at h1
    exact ⟨tok, rfl, h1.1, h1.2⟩

theorem typeAt_of_keys (ts : List Token) (pre post : List (TokenType × String))
    (ty : TokenType) (v : String) (h : ts.map tokenKey = pre ++ (ty, v) :: post) :
    typeAt ts pre.length = ty := by
  obtain ⟨tok, h1, h2, _⟩ := getElem?_of_keys ts pre post ty v h
  rw [typeAt_eq_of_getElem? h1, h2]

theorem exprKeys_head : ∀ (e : Expr), isOperatorTree e = true →
    ∃ ty v ks, exprKeys e = (ty, v) :: ks ∧ ty ∉ [TokenType.LOGICAL_NOT, TokenType.MINUS]
  | .Identifier name, _ => ⟨_, _, _, rfl, by decide⟩
  | .Binary l op r, _ => ⟨_, _, _, rfl, by decide⟩
  | .Literal _ _, h => by simp [isOperatorTree] at h
  | .Unary _ _, h => by simp [isOperatorTree] at h
  | .FunctionCall _ _, h => by simp [isOperatorTree] at h
  | .MemberAccess _ _, h => by simp [isOperatorTree] at h

theorem levelParser_of_primary (ts : List Token) (c c1 : Nat) (e : Expr) (j : Nat)
    (hj1 : 1 ≤ j) (hj : j ≤ 7) (h : Parses parsePrimary ts c e c1)
    (hfirst : typeAt ts c ∉ [TokenType.LOGICAL_NOT, TokenType.MINUS])
    (hnext : typeAt ts c1 ∉ [TokenType.DOT, TokenType.LEFT_PAREN, TokenType.LEFT_BRACKET])
    (hstop : ∀ op, j ≤ precedenceLevel op → typeAt ts c1 ≠ operatorToken op) :
    Parses (levelParser j) ts c e c1 :=
  levelParser_climb ts c c1 e 7 (le_refl _) (7 - j) j hj1 (by omega)
    ( parseUnary_of_postfix ts c c1 e hfirst (parsePostfix_of_primary ts c c1 e h hnext))
    (fun op h1 _ => hstop op h1)

theorem rightParen_ne_operatorToken (op : BinaryOperator) :
    TokenType.RIGHT_PAREN ≠ operatorToken op := by
  cases op <;> simp [operatorToken]

theorem parsePrimary_keys : ∀ (e : Expr), isOperatorTree e = true →
    ∀ (ts : List Token) (pre post : List (TokenType × String)),
      ts.map tokenKey = pre ++ (exprKeys e ++ post) →
      Parses parsePrimary ts pre.length e (pre.length + (exprKeys e).length)
  | .Identifier name, _ => by
    intro ts pre post h
    obtain ⟨tok, h1, h2, h3⟩ := getElem?_of_keys ts pre post .IDENTIFIER name h
    have h4 := parsePrimary_identifier ts pre.length tok h1 h2
    rw [h3] at h4
    exact h4
  | .Binary l op r, h => by
    intro ts pre post hts
    simp only [isOperatorTree, Bool.and_eq_true, decide_eq_true_eq] at h
    obtain ⟨⟨hop, hl⟩, hrt⟩ := h
    have hk1 : 1 ≤ precedenceLevel op := by
      cases op <;> first | exact absurd rfl hop | simp [precedenceLevel]
    have hk6 := precedenceLevel_le op
    have e1 : ts.map tokenKey = pre ++ (TokenType.LEFT_PAREN, "(") :: (exprKeys l ++
        (operatorToken op, getBinaryOperatorString op) :: (exprKeys r ++
          (TokenType.RIGHT_PAREN, ")") :: post)) := by
      rw [hts]; simp [exprKeys]
    have e2 : ts.map tokenKey = (pre ++ [(TokenType.LEFT_PAREN, "(")]) ++ (exprKeys l ++
        (operatorToken op, getBinaryOperatorString op) :: (exprKeys r ++
          (TokenType.RIGHT_PAREN, ")") :: post)) := by
      rw [e1]; simp
    have e3 : ts.map tokenKey = (pre ++ [(TokenType.LEFT_PAREN, "(")] ++ exprKeys l) ++
        (operatorToken op, getBinaryOperatorString op) :: (exprKeys r ++
          (TokenType.RIGHT_PAREN, ")") :: post) := by
      rw [e1]; simp
    have e4 : ts.map tokenKey = (pre ++ [(TokenType.LEFT_PAREN, "(")] ++ exprKeys l ++
        [(operatorToken op, getBinaryOperatorString op)]) ++ (exprKeys r ++
          (TokenType.RIGHT_PAREN, ")") :: post) := by
      rw [e1]; simp
    have e5 : ts.map tokenKey = (pre ++ [(TokenType.LEFT_PAREN, "(")] ++ exprKeys l ++
        [(operatorToken op, getBinaryOperatorString op)] ++ exprKeys r) ++
          (TokenType.RIGHT_PAREN, ")") :: post := by
      rw [e1]; simp
    have t1 := typeAt_of_keys ts _ _ _ _ e1
    have p2 := parsePrimary_keys l hl ts _ _ e2
    have t3 := typeAt_of_keys ts _ _ _ _ e3
    have p4 := parsePrimary_keys r hrt ts _ _ e4
    have t5 := typeAt_of_keys ts _ _ _ _ e5
    obtain ⟨tyl, vl, ksl, hkl, htyl⟩ := exprKeys_head l hl
    obtain ⟨tyr, vr, ksr, hkr, htyr⟩ := exprKeys_head r hrt
    have f2 : typeAt ts (pre ++ [(TokenType.LEFT_PAREN, "(")]).length = tyl :=
      typeAt_of_keys ts _ (ksl ++ (operatorToken op, getBinaryOperatorString op) :: (exprKeys r ++
          (TokenType.RIGHT_PAREN, ")") :: post)) tyl vl (by rw [e2, hkl]; simp)
    have f4 : typeAt ts (pre ++ [(TokenType.LEFT_PAREN, "(")] ++ exprKeys l ++
        [(operatorToken op, getBinaryOperatorString op)]).length = tyr :=
      typeAt_of_keys ts _ (ksr ++ (TokenType.RIGHT_PAREN, ")") :: post) tyr vr (by rw [e4, hkr]; simp)
    simp only [List.length_append, List.length_cons, List.length_nil, Nat.zero_add] at p2 t3 p4 t5 f2 f4
    have hL := levelParser_of_primary ts _ _ l (precedenceLevel op + 1) (by omega) (by omega) p2
      (by rw [f2]; exact htyl) (by rw [t3]; exact operatorToken_not_postfix op)
      (fun op' h1 h2 => by
        rw [t3] at h2
        have h3 := operatorToken_injective h2
        subst h3
        omega)
    have hR := levelParser_of_primary ts _ _ r (precedenceLevel op + 1) (by omega) (by omega) p4
      (by rw [f4]; exact htyr) (by rw [t5]; decide)
      (fun op' _ h2 => by rw [t5] at h2; exact rightParen_ne_operatorToken op' h2)
    have hB := levelParser_binary (precedenceLevel op) ⟨hk1, hk6⟩ ts _ _ _ l r op rfl hL t3 hR
      (fun op' _ h2 => by rw [t5] at h2; exact rightParen_ne_operatorToken op' h2)
    have hE := levelParser_expression ts _ _ _ (precedenceLevel op) hk1 (by omega) hB
      (fun op' h2 => by rw [t5] at h2; exact rightParen_ne_operatorToken op' h2)
    have hP := parsePrimary_paren ts pre.length _ _ t1 hE t5
    have hlen : pre.length + (exprKeys (Expr.Binary l op r)).length =
        pre.length + 1 + (exprKeys l).length + 1 + (exprKeys r).length + 1 := by
      simp only [exprKeys, List.length_append, List.length_cons, List.length_nil]
      omega
    rw [hlen]
    exact hP
  | .Literal _ _, h => by simp [isOperatorTree] at h
  | .Unary _ _, h => by simp [isOperatorTree] at h
  | .FunctionCall _ _, h => by simp [isOperatorTree] at h
  | .MemberAccess _ _, h => by simp [isOperatorTree] at h

/-- C8.  For every expression tree `e` built from identifiers (names that the
lexer reads as an identifier and that are not reserved words) and the thirteen
binary operators that the parser produces (all but `ASSIGN`): tokenizing the
text that the GLSL generator writes for `e` and parsing the tokens as an
expression, with any fuel from `parseFuel` on, returns `e` itself and leaves the
cursor on the last token, the `END_OF_FILE` token, so every token before it has
been consumed. -/
theorem glsl_emission_reparses (e : Expr) (he : isOperatorTree e = true) (n : Nat)
    (hn : parseFuel (tokenize (GLSLGenerator.emitExpr e).toList) ≤ n) :
    parseExpression n (tokenize (GLSLGenerator.emitExpr e).toList) 0 =
        Res.ok e ((tokenize (GLSLGenerator.emitExpr e).toList).length - 1) ∧
      typeAt (tokenize (GLSLGenerator.emitExpr e).toList)
        ((tokenize (GLSLGenerator.emitExpr e).toList).length - 1) = TokenType.END_OF_FILE := by
  obtain ⟨toks, eof, hk, heof, ht⟩ := tokenize_emit e he
  have ht1 : tokenize (GLSLGenerator.emitExpr e).toList = toks ++ [eof] := ht
  rw [ht1] at hn ⊢
  have hlen : (exprKeys e).length = toks.length := by rw [← hk, List.length_map]
  have hmap : (toks ++ [eof]).map tokenKey = [] ++ (exprKeys e ++ [(eof.type, eof.value)]) := by
    simp [hk, tokenKey]
  have hmap1 : (toks ++ [eof]).map tokenKey = exprKeys e ++ (eof.type, eof.value) :: [] := by
    simp [hk, tokenKey]
  have p := parsePrimary_keys e he (toks ++ [eof]) [] _ hmap
  have t1 := typeAt_of_keys (toks ++ [eof]) _ _ _ _ hmap1
  obtain ⟨ty, v, ks, hks, hty⟩ := exprKeys_head e he
  have t0 : typeAt (toks ++ [eof]) ([] : List (TokenType × String)).length = ty :=
    typeAt_of_keys (toks ++ [eof]) [] (ks ++ [(eof.type, eof.value)]) ty v (by rw [hmap, hks]; simp)
  simp only [List.length_nil, Nat.zero_add] at p t0
  rw [hlen] at p
  rw [hlen, heof] at t1
  have hcur : (toks ++ [eof]).length - 1 = toks.length := by simp
  rw [hcur]
  have hL := levelParser_of_primary (toks ++ [eof]) 0 toks.length e 1 (le_refl _) (by omega) p
    (by rw [t0]; exact hty) (by rw [t1]; decide)
    (fun op _ h2 => by rw [t1] at h2; exact eof_ne_operatorToken op h2)
  refine ⟨parseExpression_of_parses (parseExpression_of_level _ _ _ _ hL) (Nat.zero_le _) n ?_, t1⟩
  unfold parseFuel at hn
  omega

theorem glsl_emission_reparses_witness :
    isOperatorTree (Expr.Binary (Expr.Binary (Expr.Identifier "a") .ADD (Expr.Identifier "b"))
        .MULTIPLY (Expr.Identifier "c")) = true ∧
      GLSLGenerator.emitExpr (Expr.Binary (Expr.Binary (Expr.Identifier "a") .ADD
        (Expr.Identifier "b")) .MULTIPLY (Expr.Identifier "c")) = "((a + b) * c)" ∧
      parseExpression 480 (tokenize "((a + b) * c)".toList) 0 =
        Res.ok (Expr.Binary (Expr.Binary (Expr.Identifier "a") .ADD (Expr.Identifier "b"))
          .MULTIPLY (Expr.Identifier "c")) 9 :=
  ⟨by decide, rfl,
    (glsl_emission_reparses (Expr.Binary (Expr.Binary (Expr.Identifier "a") .ADD
      (Expr.Identifier "b")) .MULTIPLY (Expr.Identifier "c")) (by decide) 480 (by decide)).1⟩

theorem lineAfter_concat (pre : List Char) (c : Char) :
    lineAfter (pre ++ [c]) = if c = '\n' then lineAfter pre + 1 else lineAfter pre := by
  unfold lineAfter
  by_cases h : c = '\n'
  · subst h; simp [List.count_append]; omega
  · have h1 : ('\n' == c) = false := by
      simp only [beq_eq_false_iff_ne, ne_eq]; exact fun h2 => h h2.symm
    simp [List.count_append, h, List.count_cons, h1]

theorem columnAfter_concat (pre : List Char) (c : Char) :
    columnAfter (pre ++ [c]) = if c = '\n' then 1 else columnAfter pre + 1 := by
  unfold columnAfter
  by_cases h : c = '\n'
  · subst h; simp [List.takeWhile]
  · simp [List.takeWhile, h]; omega

theorem new_eq_after (s : List Char) : Lexer.new s = Lexer.after [] s := rfl

theorem after_isAtEnd_cons (pre : List Char) (c : Char) (rest : List Char) :
    (Lexer.after pre (c :: rest)).isAtEnd = false := by
  simp [Lexer.after, Lexer.isAtEnd]

theorem after_isAtEnd_nil (pre : List Char) : (Lexer.after pre []).isAtEnd = true := by
  simp [Lexer.after, Lexer.isAtEnd]

theorem after_currentChar (pre : List Char) (c : Char) (rest : List Char) :
    (Lexer.after pre (c :: rest)).currentChar = c := by
  simp only [Lexer.after, Lexer.currentChar, Lexer.isAtEnd, getD_append_cons]
  simp

theorem after_currentChar_nil (pre : List Char) :
    (Lexer.after pre []).currentChar = Char.ofNat 0 := by
  simp [Lexer.after, Lexer.currentChar, Lexer.isAtEnd]

theorem after_peekChar (pre : List Char) (c d : Char) (rest : List Char) :
    (Lexer.after pre (c :: d :: rest)).peekChar = d := by
  have h := getD_append_cons (pre ++ [c]) d (Char.ofNat 0) rest
  simp only [List.append_assoc, List.singleton_append, List.length_append, List.length_singleton] at h
  simp only [Lexer.after, Lexer.peekChar, h]
  simp

theorem after_peekChar_last (pre : List Char) (c : Char) :
    (Lexer.after pre [c]).peekChar = Char.ofNat 0 := by
  simp [Lexer.after, Lexer.peekChar]

theorem after_advance (pre : List Char) (c : Char) (rest : List Char) :
    (Lexer.after pre (c :: rest)).advance = Lexer.after (pre ++ [c]) rest := by
  simp only [Lexer.after, Lexer.advance, Lexer.isAtEnd, getD_append_cons, lineAfter_concat,
    columnAfter_concat]
  by_cases h : c = '\n' <;> simp [h]

theorem after_advance_nil (pre : List Char) :
    (Lexer.after pre []).advance = Lexer.after pre [] := by
  simp [Lexer.after, Lexer.advance, Lexer.isAtEnd]

theorem after_remaining (pre rest : List Char) :
    (Lexer.after pre rest).remaining = rest.length := by
  simp [Lexer.after, Lexer.remaining]

theorem skipWhitespaceLoop_span (xs : List Char) (h : ∀ c ∈ xs, isSpace c = true) :
    ∀ (n : Nat) (pre rest : List Char), xs.length ≤ n →
      (∀ c ∈ rest.head?, isSpace c = false) →
      Lexer.skipWhitespaceLoop n (Lexer.after pre (xs ++ rest)) = Lexer.after (pre ++ xs) rest := by
  induction xs with
  | nil =>
    intro n pre rest _ hr
    rw [List.nil_append, List.append_nil]
    cases n with
    | zero => rfl
    | succ n =>
      cases rest with
      | nil => simp [Lexer.skipWhitespaceLoop, after_isAtEnd_nil]
      | cons c rest =>
        have h1 := hr c (by simp)
        simp [Lexer.skipWhitespaceLoop, after_currentChar, h1]
  | cons a xs ih =>
    intro n pre rest hn hr
    cases n with
    | zero => simp at hn
    | succ n =>
      have h1 := h a (by simp)
      rw [List.cons_append, Lexer.skipWhitespaceLoop, after_isAtEnd_cons, after_currentChar, after_advance]
      simp only [h1, Bool.not_false, Bool.and_self, Bool.true_and, if_true, ne_eq, not_false_eq_true,
        decide_True, decide_not, Bool.not_eq_true']
      rw [ih (fun c hc => h c (by simp [hc])) n _ rest (by simpa using hn) hr]
      simp

theorem skipCommentLoop_span (xs : List Char) (h : ∀ c ∈ xs, c ≠ '\n') :
    ∀ (n : Nat) (pre rest : List Char), xs.length ≤ n →
      (∀ c ∈ rest.head?, c = '\n') →
      Lexer.skipCommentLoop n (Lexer.after pre (xs ++ rest)) = Lexer.after (pre ++ xs) rest := by
  induction xs with
  | nil =>
    intro n pre rest _ hr
    rw [List.nil_append, List.append_nil]
    cases n with
    | zero => rfl
    | succ n =>
      cases rest with
      | nil => simp [Lexer.skipCommentLoop, after_isAtEnd_nil]
      | cons c rest =>
        have h1 := hr c (by simp)
        simp [Lexer.skipCommentLoop, after_currentChar, h1]
  | cons a xs ih =>
    intro n pre rest hn hr
    cases n with
    | zero => simp at hn
    | succ n =>
      have h1 := h a (by simp)
      rw [List.cons_append, Lexer.skipCommentLoop, after_isAtEnd_cons, after_currentChar, after_advance]
      simp only [h1, Bool.not_false, Bool.and_self, Bool.true_and, if_true, ne_eq, not_false_eq_true,
        decide_True, decide_not, Bool.not_eq_true']
      rw [ih (fun c hc => h c (by simp [hc])) n _ rest (by simpa using hn) hr]
      simp

theorem alnumLoop_span (xs : List Char) (h : ∀ c ∈ xs, isAlphaNumeric c = true) :
    ∀ (n : Nat) (pre rest : List Char), xs.length ≤ n →
      (∀ c ∈ rest.head?, isAlphaNumeric c = false) →
      Lexer.alnumLoop n (Lexer.after pre (xs ++ rest)) = Lexer.after (pre ++ xs) rest := by
  induction xs with
  | nil =>
    intro n pre rest _ hr
    rw [List.nil_append, List.append_nil]
    cases n with
    | zero => rfl
    | succ n =>
      cases rest with
      | nil => simp [Lexer.alnumLoop, after_isAtEnd_nil]
      | cons c rest =>
        have h1 := hr c (by simp)
        simp [Lexer.alnumLoop, after_currentChar, h1]
  | cons a xs ih =>
    intro n pre rest hn hr
    cases n with
    | zero => simp at hn
    | succ n =>
      have h1 := h a (by simp)
      rw [List.cons_append, Lexer.alnumLoop, after_isAtEnd_cons, after_currentChar, after_advance]
      simp only [h1, Bool.not_false, Bool.and_self, Bool.true_and, if_true, ne_eq, not_false_eq_true,
        decide_True, decide_not, Bool.not_eq_true']
      rw [ih (fun c hc => h c (by simp [hc])) n _ rest (by simpa using hn) hr]
      simp

theorem digitLoop_span (xs : List Char) (h : ∀ c ∈ xs, isDigit c = true) :
    ∀ (n : Nat) (pre rest : List Char), xs.length ≤ n →
      (∀ c ∈ rest.head?, isDigit c = false) →
      Lexer.digitLoop n (Lexer.after pre (xs ++ rest)) = Lexer.after (pre ++ xs) rest := by
  induction xs with
  | nil =>
    intro n pre rest _ hr
    rw [List.nil_append, List.append_nil]
    cases n with
    | zero => rfl
    | succ n =>
      cases rest with
      | nil => simp [Lexer.digitLoop, after_isAtEnd_nil]
      | cons c rest =>
        have h1 := hr c (by simp)
        simp [Lexer.digitLoop, after_currentChar, h1]
  | cons a xs ih =>
    intro n pre rest hn hr
    cases n with
    | zero => simp at hn
    | succ n =>
      have h1 := h a (by simp)
      rw [List.cons_append, Lexer.digitLoop, after_isAtEnd_cons, after_currentChar, after_advance]
      simp only [h1, Bool.not_false, Bool.and_self, Bool.true_and, if_true, ne_eq, not_false_eq_true,
        decide_True, decide_not, Bool.not_eq_true']
      rw [ih (fun c hc => h c (by simp [hc])) n _ rest (by simpa using hn) hr]
      simp

theorem skipWhitespace_span (ws pre rest : List Char) (h : ∀ c ∈ ws, isSpace c = true)
    (hr : ∀ c ∈ rest.head?, isSpace c = false) :
    (Lexer.after pre (ws ++ rest)).skipWhitespace = Lexer.after (pre ++ ws) rest := by
  unfold Lexer.skipWhitespace
  exact skipWhitespaceLoop_span ws h _ pre rest (by simp [after_remaining]) hr

theorem skipWhitespace_none (pre rest : List Char) (hr : ∀ c ∈ rest.head?, isSpace c = false) :
    (Lexer.after pre rest).skipWhitespace = Lexer.after pre rest := by
  have h := skipWhitespace_span [] pre rest (by simp) hr
  simpa using h

theorem skipComment_span (xs pre rest : List Char) (h : ∀ c ∈ xs, c ≠ '\n')
    (hr : ∀ c ∈ rest.head?, c = '\n') :
    (Lexer.after pre (xs ++ rest)).skipComment = Lexer.after (pre ++ xs) rest := by
  unfold Lexer.skipComment
  exact skipCommentLoop_span xs h _ pre rest (by simp [after_remaining]) hr

theorem lexSteps_token (lx0 lx1 : Lexer) (t : Token) (h1 : lx0.isAtEnd = false)
    (h2 : lx0.nextToken = (t, lx1)) (h3 : t.type ≠ TokenType.WHITESPACE)
    (h4 : t.type ≠ TokenType.COMMENT) : LexSteps 1 lx0 [t] lx1 := by
  intro n acc
  simp [Lexer.tokenizeLoop, h1, h2, h3, h4]

theorem lexSteps_dropped (lx0 lx1 : Lexer) (t : Token) (h1 : lx0.isAtEnd = false)
    (h2 : lx0.nextToken = (t, lx1)) (h3 : t.type = TokenType.COMMENT) : LexSteps 1 lx0 [] lx1 := by
  intro n acc
  simp [Lexer.tokenizeLoop, h1, h2, h3]

theorem lexSteps_nil (lx : Lexer) : LexSteps 0 lx [] lx := by
  intro n acc
  simp

theorem lexSteps_append {lx0 lx1 lx2 : Lexer} {k1 k2 : Nat} {t1 t2 : List Token}
    (h1 : LexSteps k1 lx0 t1 lx1) (h2 : LexSteps k2 lx1 t2 lx2) :
    LexSteps (k1 + k2) lx0 (t1 ++ t2) lx2 := by
  intro n acc
  have e : n + (k1 + k2) = (n + k2) + k1 := by omega
  rw [e, h1, h2, List.append_assoc]

theorem tokenize_of_lexSteps (s whole : List Char) (k : Nat) (toks : List Token)
    (h : LexSteps k (Lexer.after [] s) toks (Lexer.after whole [])) (hk : k ≤ s.length) :
    tokenize s = toks ++ [Token.mk .END_OF_FILE "" (lineAfter whole) (columnAfter whole)] := by
  have h2 := h (s.length - k) []
  rw [Nat.sub_add_cancel hk, tokenizeLoop_atEnd _ _ _ (after_isAtEnd_nil _)] at h2
  unfold tokenize Lexer.tokenize
  rw [new_eq_after, after_remaining, h2]
  rfl

theorem nextToken_endOfFile (lx0 : Lexer) (pre : List Char)
    (h0 : lx0.skipWhitespace = Lexer.after pre []) :
    lx0.nextToken =
      (Token.mk .END_OF_FILE "" (lineAfter pre) (columnAfter pre), Lexer.after pre []) := by
  simp only [Lexer.nextToken, h0, after_isAtEnd_nil, if_true]
  rfl

theorem alphaNumeric_of_cons (a : Char) (name : List Char) (ha : isAlpha a = true)
    (h : ∀ c ∈ name, isAlphaNumeric c = true) : ∀ c ∈ a :: name, isAlphaNumeric c = true := by
  intro c hc
  rcases List.mem_cons.1 hc with rfl | hc
  · simp [isAlphaNumeric, ha]
  · exact h c hc

theorem readIdentifier_word (name : List Char) (h : ∀ c ∈ name, isAlphaNumeric c = true)
    (pre rest : List Char) (hr : ∀ c ∈ rest.head?, isAlphaNumeric c = false) :
    (Lexer.after pre (name ++ rest)).readIdentifier =
      (Token.mk (getKeywordType (String.mk name)) (String.mk name) (lineAfter pre) (columnAfter pre),
        Lexer.after (pre ++ name) rest) := by
  unfold Lexer.readIdentifier
  simp only [after_remaining]
  rw [alnumLoop_span name h _ pre rest (by simp) hr]
  simp [Lexer.after, substr]

theorem nextToken_word (lx0 : Lexer) (a : Char) (name pre rest : List Char)
    (ha : isAlpha a = true) (h : ∀ c ∈ name, isAlphaNumeric c = true)
    (hr : ∀ c ∈ rest.head?, isAlphaNumeric c = false)
    (h0 : lx0.skipWhitespace = Lexer.after pre (a :: (name ++ rest))) :
    lx0.nextToken =
      (Token.mk (getKeywordType (String.mk (a :: name))) (String.mk (a :: name)) (lineAfter pre)
          (columnAfter pre),
        Lexer.after (pre ++ a :: name) rest) := by
  have k0 : a ≠ '(' := ne_of_isAlpha a _ ha (by decide)
  have k1 : a ≠ ')' := ne_of_isAlpha a _ ha (by decide)
  have k2 : a ≠ '\x7b' := ne_of_isAlpha a _ ha (by decide)
  have k3 : a ≠ '\x7d' := ne_of_isAlpha a _ ha (by decide)
  have k4 : a ≠ '[' := ne_of_isAlpha a _ ha (by decide)
  have k5 : a ≠ ']' := ne_of_isAlpha a _ ha (by decide)
  have k6 : a ≠ ';' := ne_of_isAlpha a _ ha (by decide)
  have k7 : a ≠ ':' := ne_of_isAlpha a _ ha (by decide)
  have k8 : a ≠ ',' := ne_of_isAlpha a _ ha (by decide)
  have k9 : a ≠ '.' := ne_of_isAlpha a _ ha (by decide)
  have k10 : a ≠ '+' := ne_of_isAlpha a _ ha (by decide)
  have k11 : a ≠ '-' := ne_of_isAlpha a _ ha (by decide)
  have k12 : a ≠ '*' := ne_of_isAlpha a _ ha (by decide)
  have k13 : a ≠ '%' := ne_of_isAlpha a _ ha (by decide)
  have k14 : a ≠ '=' := ne_of_isAlpha a _ ha (by decide)
  have k15 : a ≠ '!' := ne_of_isAlpha a _ ha (by decide)
  have k16 : a ≠ '<' := ne_of_isAlpha a _ ha (by decide)
  have k17 : a ≠ '>' := ne_of_isAlpha a _ ha (by decide)
  have k18 : a ≠ '&' := ne_of_isAlpha a _ ha (by decide)
  have k19 : a ≠ '|' := ne_of_isAlpha a _ ha (by decide)
  have k20 : a ≠ '/' := ne_of_isAlpha a _ ha (by decide)
  have k21 : a ≠ '"' := ne_of_isAlpha a _ ha (by decide)
  have hd := isDigit_of_isAlpha a ha
  have h2 := readIdentifier_word (a :: name) (alphaNumeric_of_cons a name ha h) pre rest hr
  rw [List.cons_append] at h2
  simp only [Lexer.nextToken, Lexer.nextTokenFromEq, Lexer.nextTokenFromAmp, Lexer.nextTokenFromPipe,
    Lexer.nextTokenFromSlash, h0, after_isAtEnd_cons, after_currentChar]
  simp only [k0, k1, k2, k3, k4, k5, k6, k7, k8, k9, k10, k11, k12, k13, k14, k15, k16, k17, k18, k19, k20, k21, hd, ha, if_false, if_true, Bool.false_eq_true]
  exact h2

theorem symbolTable_chars :
    symbolTable.map (fun x => (x.1.data, x.2)) =
      [(['='], TokenType.ASSIGN), (['+'], TokenType.PLUS), (['-'], TokenType.MINUS),
      (['*'], TokenType.MULTIPLY), (['/'], TokenType.DIVIDE), (['%'], TokenType.MODULO),
      (['=', '='], TokenType.EQUAL), (['!', '='], TokenType.NOT_EQUAL), (['<'], TokenType.LESS_THAN),
      (['<', '='], TokenType.LESS_EQUAL), (['>'], TokenType.GREATER_THAN), (['>', '='], TokenType.GREATER_EQUAL),
      (['&', '&'], TokenType.LOGICAL_AND), (['|', '|'], TokenType.LOGICAL_OR), (['!'], TokenType.LOGICAL_NOT),
      (['('], TokenType.LEFT_PAREN), ([')'], TokenType.RIGHT_PAREN), (['\x7b'], TokenType.LEFT_BRACE),
      (['\x7d'], TokenType.RIGHT_BRACE), (['['], TokenType.LEFT_BRACKET), ([']'], TokenType.RIGHT_BRACKET),
      ([';'], TokenType.SEMICOLON), ([':'], TokenType.COLON), ([','], TokenType.COMMA),
      (['.'], TokenType.DOT)] := rfl

theorem nextToken_symbol_forall :
    ∀ x ∈ symbolTable.map (fun x => (x.1.data, x.2)), ∀ (lx0 : Lexer) (pre rest : List Char),
      (∀ c ∈ rest.head?, c = ' ') → lx0.skipWhitespace = Lexer.after pre (x.1 ++ rest) →
      lx0.nextToken = (Token.mk x.2 (String.mk x.1) (lineAfter pre) (columnAfter pre),
        Lexer.after (pre ++ x.1) rest) := by
  rw [symbolTable_chars]
  simp only [List.forall_mem_cons]
  repeat' apply And.intro
  all_goals first
    | (intro x hx; exact absurd hx (List.not_mem_nil x))
    | (intro lx0 pre rest hr h0
       rcases rest with _ | ⟨c, rest⟩
       · simp only [List.cons_append, List.nil_append] at h0
         simp only [Lexer.nextToken, Lexer.nextTokenFromEq, Lexer.nextTokenFromAmp,
           Lexer.nextTokenFromPipe, Lexer.nextTokenFromSlash, h0, after_isAtEnd_cons,
           after_currentChar]
         simp [after_advance, after_currentChar, after_currentChar_nil, after_peekChar,
           after_peekChar_last]
         first
           | exact ⟨⟨rfl, rfl, rfl⟩, rfl⟩
           | exact ⟨rfl, rfl, rfl⟩
           | exact ⟨rfl, rfl⟩
       · have hc := hr c (by simp)
         subst hc
         simp only [List.cons_append, List.nil_append] at h0
         simp only [Lexer.nextToken, Lexer.nextTokenFromEq, Lexer.nextTokenFromAmp,
           Lexer.nextTokenFromPipe, Lexer.nextTokenFromSlash, h0, after_isAtEnd_cons,
           after_currentChar]
         simp [after_advance, after_currentChar, after_currentChar_nil, after_peekChar,
           after_peekChar_last]
         first
           | exact ⟨⟨rfl, rfl, rfl⟩, rfl⟩
           | exact ⟨rfl, rfl, rfl⟩
           | exact ⟨rfl, rfl⟩)

theorem nextToken_symbol (lx0 : Lexer) (pre rest : List Char) (l : List Char) (k : TokenType)
    (hx : (l, k) ∈ symbolTable.map (fun x => (x.1.data, x.2)))
    (hr : ∀ c ∈ rest.head?, c = ' ')
    (h0 : lx0.skipWhitespace = Lexer.after pre (l ++ rest)) :
    lx0.nextToken = (Token.mk k (String.mk l) (lineAfter pre) (columnAfter pre),
      Lexer.after (pre ++ l) rest) :=
  nextToken_symbol_forall (l, k) hx lx0 pre rest hr h0

theorem symbol_head_forall :
    ∀ x ∈ symbolTable.map (fun x => (x.1.data, x.2)),
      (∃ c cs, x.1 = c :: cs ∧ isSpace c = false) ∧ x.2 ≠ TokenType.WHITESPACE ∧
        x.2 ≠ TokenType.COMMENT := by
  rw [symbolTable_chars]
  simp only [List.forall_mem_cons]
  repeat' apply And.intro
  all_goals first
    | (intro x hx; exact absurd hx (List.not_mem_nil x))
    | exact ⟨_, _, rfl, by decide⟩
    | decide

theorem symbol_head (l : List Char) (k : TokenType)
    (hx : (l, k) ∈ symbolTable.map (fun x => (x.1.data, x.2))) :
    (∃ c cs, l = c :: cs ∧ isSpace c = false) ∧ k ≠ TokenType.WHITESPACE ∧ k ≠ TokenType.COMMENT :=
  symbol_head_forall (l, k) hx

theorem intercalate_go_data (s : String) : ∀ (l : List String) (acc : String),
    (String.intercalate.go acc s l).data =
      acc.data ++ (l.map (fun x => s.data ++ x.data)).flatten := by
  intro l
  induction l with
  | nil => intro acc; simp [String.intercalate.go]
  | cons a l ih => intro acc; simp [String.intercalate.go, ih, String.data_append]

theorem lexSteps_symbols : ∀ (l : List (String × TokenType)) (pre : List Char),
    (∀ x ∈ l, x ∈ symbolTable) →
    ∃ toks, toks.map (fun t => (t.value, t.type)) = l ∧
      LexSteps l.length (Lexer.after pre (l.map (fun x => ' ' :: x.1.data)).flatten) toks
        (Lexer.after (pre ++ (l.map (fun x => ' ' :: x.1.data)).flatten) []) := by
  intro l
  induction l with
  | nil =>
    intro pre _
    exact ⟨[], rfl, by simpa using lexSteps_nil _⟩
  | cons x l ih =>
    intro pre hl
    have hx : (x.1.data, x.2) ∈ symbolTable.map (fun x => (x.1.data, x.2)) :=
      List.mem_map.2 ⟨x, hl x (by simp), rfl⟩
    obtain ⟨⟨c, cs, hc, hc1⟩, hk1, hk2⟩ := symbol_head _ _ hx
    have hr : ∀ c ∈ ((l.map (fun x => ' ' :: x.1.data)).flatten).head?, c = ' ' := by
      cases l <;> simp
    have hs : (Lexer.after pre ([' '] ++ (x.1.data ++ (l.map (fun x => ' ' :: x.1.data)).flatten))).skipWhitespace =
        Lexer.after (pre ++ [' ']) (x.1.data ++ (l.map (fun x => ' ' :: x.1.data)).flatten) :=
      skipWhitespace_span [' '] pre _ (by decide) (by rw [hc]; simpa using hc1)
    have st := lexSteps_token _ _ _ (after_isAtEnd_cons pre ' ' _)
      (nextToken_symbol _ (pre ++ [' ']) _ x.1.data x.2 hx hr hs) hk1 hk2
    obtain ⟨toks, htoks, ht⟩ := ih (pre ++ [' '] ++ x.1.data) (fun y hy => hl y (by simp [hy]))
    refine ⟨Token.mk x.2 (String.mk x.1.data) (lineAfter (pre ++ [' ']))
      (columnAfter (pre ++ [' '])) :: toks, ?_, ?_⟩
    · simp [htoks]
    · have e := lexSteps_append st ht
      have e1 : pre ++ (List.map (fun x => ' ' :: x.1.data) (x :: l)).flatten =
          pre ++ [' '] ++ x.1.data ++ (List.map (fun x => ' ' :: x.1.data) l).flatten := by simp
      rw [e1]
      have e2 : (x :: l).length = 1 + l.length := by simp; omega
      rw [e2]
      exact e

theorem lineAfter_append (pre w : List Char) (h : ∀ c ∈ w, c ≠ '\n') :
    lineAfter (pre ++ w) = lineAfter pre := by
  unfold lineAfter
  rw [List.count_append, List.count_eq_zero.2 (fun hm => h _ hm rfl)]
  rfl

theorem columnAfter_append (pre w : List Char) (h : ∀ c ∈ w, c ≠ '\n') :
    columnAfter (pre ++ w) = columnAfter pre + w.length := by
  induction w generalizing pre with
  | nil => simp
  | cons c w ih =>
    have e : pre ++ c :: w = (pre ++ [c]) ++ w := by simp
    rw [e, ih _ (fun x hx => h x (by simp [hx])), columnAfter_concat, if_neg (h c (by simp))]
    simp only [List.length_cons]
    omega

theorem newline_of_isAlphaNumeric (c : Char) (h : isAlphaNumeric c = true) : c ≠ '\n' :=
  ne_of_isAlphaNumeric c _ h (by decide)

theorem length_le_flatten (l : List (String × TokenType)) :
    l.length ≤ ((l.map (fun x => ' ' :: x.1.data)).flatten).length := by
  induction l with
  | nil => simp
  | cons x l ih =>
    simp only [List.map_cons, List.flatten_cons, List.length_append, List.length_cons]
    omega

/-- C16.  For every list of operator and punctuation lexemes of the table
(`=` `+` `-` `*` `/` `%` `==` `!=` `<` `<=` `>` `>=` `&&` `||` `!` `(` `)`, the
braces, `[` `]` `;` `:` `,` `.`), tokenizing the lexemes joined by single spaces
yields tokens whose texts and kinds are the listed lexemes and kinds in the same
order, followed by one `END_OF_FILE` token. -/
theorem symbols_lexing (l : List (String × TokenType)) (hl : ∀ x ∈ l, x ∈ symbolTable) :
    (tokenize (String.intercalate " " (l.map Prod.fst)).toList).map (fun t => (t.value, t.type)) =
      l ++ [("", TokenType.END_OF_FILE)] := by
  cases l with
  | nil => rfl
  | cons x l =>
    have hx : (x.1.data, x.2) ∈ symbolTable.map (fun x => (x.1.data, x.2)) :=
      List.mem_map.2 ⟨x, hl x (by simp), rfl⟩
    obtain ⟨⟨c, cs, hc, hc1⟩, hk1, hk2⟩ := symbol_head _ _ hx
    have hsrc : (String.intercalate " " ((x :: l).map Prod.fst)).toList =
        x.1.data ++ (l.map (fun x => ' ' :: x.1.data)).flatten := by
      show (String.intercalate.go x.1 " " (l.map Prod.fst)).data = _
      rw [intercalate_go_data]
      simp only [List.map_map]
      rfl
    have hr : ∀ c ∈ ((l.map (fun x => ' ' :: x.1.data)).flatten).head?, c = ' ' := by
      cases l <;> simp
    have hs : (Lexer.after [] (x.1.data ++ (l.map (fun x => ' ' :: x.1.data)).flatten)).skipWhitespace =
        Lexer.after [] (x.1.data ++ (l.map (fun x => ' ' :: x.1.data)).flatten) :=
      skipWhitespace_none _ _ (by rw [hc]; simpa using hc1)
    have st := lexSteps_token _ _ _ (by rw [hc]; exact after_isAtEnd_cons _ _ _)
      (nextToken_symbol _ [] _ x.1.data x.2 hx hr hs) hk1 hk2
    obtain ⟨toks, htoks, ht⟩ := lexSteps_symbols l ([] ++ x.1.data) (fun y hy => hl y (by simp [hy]))
    have e := tokenize_of_lexSteps _ _ _ _ (lexSteps_append st ht) (by
      have h1 := length_le_flatten l
      rw [hc] at *
      simp only [List.length_append, List.length_cons]
      omega)
    rw [hsrc, e]
    simp [htoks]

theorem symbols_lexing_witness :
    (∀ x ∈ [("<=", TokenType.LESS_EQUAL), ("=", TokenType.ASSIGN), ("&&", TokenType.LOGICAL_AND),
        (".", TokenType.DOT)], x ∈ symbolTable) ∧
      (tokenize "<= = && .".toList).map (fun t => (t.value, t.type)) =
        [("<=", TokenType.LESS_EQUAL), ("=", TokenType.ASSIGN), ("&&", TokenType.LOGICAL_AND),
          (".", TokenType.DOT), ("", TokenType.END_OF_FILE)] :=
  ⟨by decide, symbols_lexing [("<=", TokenType.LESS_EQUAL), ("=", TokenType.ASSIGN),
    ("&&", TokenType.LOGICAL_AND), (".", TokenType.DOT)] (by decide)⟩

theorem lookup_cons_eq (w k : String) (v : TokenType) (l : List (String × TokenType)) :
    List.lookup w ((k, v) :: l) = if w = k then some v else List.lookup w l := by
  by_cases h : w = k
  · subst h; simp [List.lookup]
  · have h1 : (w == k) = false := by simpa using h
    simp [List.lookup, h1, h]

theorem getKeywordType_eq_lookup (w : String) :
    getKeywordType w = (reservedWords.lookup w).getD TokenType.IDENTIFIER := by
  by_cases h0 : w = "shader"
  · subst h0; rfl
  by_cases h1 : w = "vertex"
  · subst h1; rfl
  by_cases h2 : w = "fragment"
  · subst h2; rfl
  by_cases h3 : w = "compute"
  · subst h3; rfl
  by_cases h4 : w = "in"
  · subst h4; rfl
  by_cases h5 : w = "out"
  · subst h5; rfl
  by_cases h6 : w = "uniform"
  · subst h6; rfl
  by_cases h7 : w = "const"
  · subst h7; rfl
  by_cases h8 : w = "struct"
  · subst h8; rfl
  by_cases h9 : w = "if"
  · subst h9; rfl
  by_cases h10 : w = "else"
  · subst h10; rfl
  by_cases h11 : w = "for"
  · subst h11; rfl
  by_cases h12 : w = "while"
  · subst h12; rfl
  by_cases h13 : w = "return"
  · subst h13; rfl
  by_cases h14 : w = "void"
  · subst h14; rfl
  by_cases h15 : w = "bool"
  · subst h15; rfl
  by_cases h16 : w = "int"
  · subst h16; rfl
  by_cases h17 : w = "float"
  · subst h17; rfl
  by_cases h18 : w = "vec2"
  · subst h18; rfl
  by_cases h19 : w = "vec3"
  · subst h19; rfl
  by_cases h20 : w = "vec4"
  · subst h20; rfl
  by_cases h21 : w = "mat2"
  · subst h21; rfl
  by_cases h22 : w = "mat3"
  · subst h22; rfl
  by_cases h23 : w = "mat4"
  · subst h23; rfl
  by_cases h24 : w = "sampler2D"
  · subst h24; rfl
  by_cases h25 : w = "sampler3D"
  · subst h25; rfl
  by_cases h26 : w = "samplerCube"
  · subst h26; rfl
  have e1 : getKeywordType w = TokenType.IDENTIFIER := by
    unfold getKeywordType
    rw [if_neg h0, if_neg h1, if_neg h2, if_neg h3, if_neg h4, if_neg h5, if_neg h6, if_neg h7, if_neg h8, if_neg h9, if_neg h10, if_neg h11, if_neg h12, if_neg h13, if_neg h14, if_neg h15, if_neg h16, if_neg h17, if_neg h18, if_neg h19, if_neg h20, if_neg h21, if_neg h22, if_neg h23, if_neg h24, if_neg h25, if_neg h26]
  have e2 : reservedWords.lookup w = none := by
    unfold reservedWords
    rw [lookup_cons_eq, if_neg h0, lookup_cons_eq, if_neg h1, lookup_cons_eq, if_neg h2, lookup_cons_eq, if_neg h3, lookup_cons_eq, if_neg h4, lookup_cons_eq, if_neg h5, lookup_cons_eq, if_neg h6, lookup_cons_eq, if_neg h7, lookup_cons_eq, if_neg h8, lookup_cons_eq, if_neg h9, lookup_cons_eq, if_neg h10, lookup_cons_eq, if_neg h11, lookup_cons_eq, if_neg h12, lookup_cons_eq, if_neg h13, lookup_cons_eq, if_neg h14, lookup_cons_eq, if_neg h15, lookup_cons_eq, if_neg h16, lookup_cons_eq, if_neg h17, lookup_cons_eq, if_neg h18, lookup_cons_eq, if_neg h19, lookup_cons_eq, if_neg h20, lookup_cons_eq, if_neg h21, lookup_cons_eq, if_neg h22, lookup_cons_eq, if_neg h23, lookup_cons_eq, if_neg h24, lookup_cons_eq, if_neg h25, lookup_cons_eq, if_neg h26, List.lookup_nil]
  rw [e1, e2]
  rfl

theorem lookup_getD_mem (w : String) (d : TokenType) :
    ∀ (l : List (String × TokenType)), (l.lookup w).getD d = d ∨ (l.lookup w).getD d ∈ l.map Prod.snd
  | [] => Or.inl rfl
  | (k, v) :: l => by
    rw [lookup_cons_eq]
    by_cases h : w = k
    · rw [if_pos h]; right; simp
    · rw [if_neg h]
      rcases lookup_getD_mem w d l with h1 | h1
      · exact Or.inl h1
      · right; simp only [List.map_cons, List.mem_cons]; exact Or.inr h1

theorem getKeywordType_ne (w : String) :
    getKeywordType w ≠ TokenType.WHITESPACE ∧ getKeywordType w ≠ TokenType.COMMENT ∧
      getKeywordType w ≠ TokenType.NEWLINE := by
  rw [getKeywordType_eq_lookup]
  have h : ∀ k ∈ reservedWords.map Prod.snd,
      k ≠ TokenType.WHITESPACE ∧ k ≠ TokenType.COMMENT ∧ k ≠ TokenType.NEWLINE := by decide
  rcases lookup_getD_mem w TokenType.IDENTIFIER reservedWords with h1 | h1
  · rw [h1]; decide
  · exact h _ h1

theorem tokenize_word (p : List Char) (a : Char) (cs : List Char)
    (hp : ∀ c ∈ p, isSpace c = true) (ha : isAlpha a = true)
    (hcs : ∀ c ∈ cs, isAlphaNumeric c = true) :
    tokenize (p ++ a :: cs) =
      [Token.mk (getKeywordType (String.mk (a :: cs))) (String.mk (a :: cs)) (lineAfter p)
          (columnAfter p),
        Token.mk .END_OF_FILE "" (lineAfter p) (columnAfter p + (cs.length + 1))] := by
  have hs : (Lexer.after [] (p ++ a :: (cs ++ []))).skipWhitespace =
      Lexer.after ([] ++ p) (a :: (cs ++ [])) :=
    skipWhitespace_span p [] _ hp (by simpa using isSpace_of_isAlpha a ha)
  have hne : (Lexer.after [] (p ++ a :: (cs ++ []))).isAtEnd = false := by
    cases p <;> exact after_isAtEnd_cons _ _ _
  have st := lexSteps_token _ _ _ hne
    (nextToken_word _ a cs ([] ++ p) [] ha hcs (by simp) hs)
    (getKeywordType_ne _).1 (getKeywordType_ne _).2.1
  have e := tokenize_of_lexSteps _ _ _ _ st (by simp only [List.length_append, List.length_cons]; omega)
  have hw : ∀ c ∈ a :: cs, c ≠ '\n' := fun c hc =>
    newline_of_isAlphaNumeric c (alphaNumeric_of_cons a cs ha hcs c hc)
  simp only [List.append_nil, List.nil_append] at e
  rw [e, lineAfter_append p _ hw, columnAfter_append p _ hw]
  rfl

/-- C15.  For every word made of ASCII letters, digits and underscores that
starts with a letter or an underscore, `tokenize` returns one token with the
word as its text, at line 1 and column 1, followed by `END_OF_FILE`; the kind of
the token is the kind that the table of the 27 reserved words gives for the
word, and `IDENTIFIER` when the word is not in the table. -/
theorem word_lexing (a : Char) (cs : List Char) (ha : isAlpha a = true)
    (hcs : ∀ c ∈ cs, isAlphaNumeric c = true) :
    tokenize (a :: cs) =
      [Token.mk ((reservedWords.lookup (String.mk (a :: cs))).getD TokenType.IDENTIFIER)
          (String.mk (a :: cs)) 1 1,
        Token.mk .END_OF_FILE "" 1 (cs.length + 2)] := by
  have h := tokenize_word [] a cs (by simp) ha hcs
  rw [getKeywordType_eq_lookup] at h
  rw [List.nil_append] at h
  rw [h]
  have e : columnAfter [] + (cs.length + 1) = cs.length + 2 := by
    show 1 + 0 + (cs.length + 1) = cs.length + 2
    omega
  rw [e]
  rfl

theorem word_lexing_witness :
    (isAlpha 's' = true ∧ ∀ c ∈ "haders".toList, isAlphaNumeric c = true) ∧
      tokenize "shaders".toList =
        [Token.mk .IDENTIFIER "shaders" 1 1, Token.mk .END_OF_FILE "" 1 8] :=
  ⟨⟨by decide, by decide⟩, word_lexing 's' "haders".toList (by decide) (by decide)⟩

/-- C18.  For every prefix `p` made of whitespace characters only and every
word (a letter or underscore followed by letters, digits and underscores),
`tokenize` of the prefix followed by the word returns the token of the word with
line `1 + (number of newlines in p)` and column
`1 + (number of characters of p after its last newline)`, followed by
`END_OF_FILE`; with the empty prefix the token is at line 1, column 1. -/
theorem token_position (p : List Char) (a : Char) (cs : List Char)
    (hp : ∀ c ∈ p, isSpace c = true) (ha : isAlpha a = true)
    (hcs : ∀ c ∈ cs, isAlphaNumeric c = true) :
    tokenize (p ++ a :: cs) =
      [Token.mk (getKeywordType (String.mk (a :: cs))) (String.mk (a :: cs))
          (1 + p.count '\n') (1 + (p.reverse.takeWhile (fun c => c != '\n')).length),
        Token.mk .END_OF_FILE "" (1 + p.count '\n')
          (1 + (p.reverse.takeWhile (fun c => c != '\n')).length + (cs.length + 1))] :=
  tokenize_word p a cs hp ha hcs

theorem token_position_witness :
    ((∀ c ∈ " \n\t ".toList, isSpace c = true) ∧ isAlpha 'x' = true ∧
      ∀ c ∈ "1".toList, isAlphaNumeric c = true) ∧
      tokenize " \n\t x1".toList =
        [Token.mk .IDENTIFIER "x1" 2 3, Token.mk .END_OF_FILE "" 2 5] :=
  ⟨⟨by decide, by decide, by decide⟩,
    token_position " \n\t ".toList 'x' "1".toList (by decide) (by decide) (by decide)⟩

theorem ne_of_isDigit (a c : Char) (h : isDigit a = true) (hc : isDigit c = false) : a ≠ c := by
  rintro rfl
  rw [h] at hc
  cases hc

theorem nextToken_digit (lx0 : Lexer) (a : Char) (pre rest : List Char) (ha : isDigit a = true)
    (h0 : lx0.skipWhitespace = Lexer.after pre (a :: rest)) :
    lx0.nextToken = (Lexer.after pre (a :: rest)).readNumber := by
  have k0 : a ≠ '(' := ne_of_isDigit a _ ha (by decide)
  have k1 : a ≠ ')' := ne_of_isDigit a _ ha (by decide)
  have k2 : a ≠ '\x7b' := ne_of_isDigit a _ ha (by decide)
  have k3 : a ≠ '\x7d' := ne_of_isDigit a _ ha (by decide)
  have k4 : a ≠ '[' := ne_of_isDigit a _ ha (by decide)
  have k5 : a ≠ ']' := ne_of_isDigit a _ ha (by decide)
  have k6 : a ≠ ';' := ne_of_isDigit a _ ha (by decide)
  have k7 : a ≠ ':' := ne_of_isDigit a _ ha (by decide)
  have k8 : a ≠ ',' := ne_of_isDigit a _ ha (by decide)
  have k9 : a ≠ '.' := ne_of_isDigit a _ ha (by decide)
  have k10 : a ≠ '+' := ne_of_isDigit a _ ha (by decide)
  have k11 : a ≠ '-' := ne_of_isDigit a _ ha (by decide)
  have k12 : a ≠ '*' := ne_of_isDigit a _ ha (by decide)
  have k13 : a ≠ '%' := ne_of_isDigit a _ ha (by decide)
  have k14 : a ≠ '=' := ne_of_isDigit a _ ha (by decide)
  have k15 : a ≠ '!' := ne_of_isDigit a _ ha (by decide)
  have k16 : a ≠ '<' := ne_of_isDigit a _ ha (by decide)
  have k17 : a ≠ '>' := ne_of_isDigit a _ ha (by decide)
  have k18 : a ≠ '&' := ne_of_isDigit a _ ha (by decide)
  have k19 : a ≠ '|' := ne_of_isDigit a _ ha (by decide)
  have k20 : a ≠ '/' := ne_of_isDigit a _ ha (by decide)
  have k21 : a ≠ '"' := ne_of_isDigit a _ ha (by decide)
  simp only [Lexer.nextToken, Lexer.nextTokenFromEq, Lexer.nextTokenFromAmp, Lexer.nextTokenFromPipe,
    Lexer.nextTokenFromSlash, h0, after_isAtEnd_cons, after_currentChar]
  simp only [k0, k1, k2, k3, k4, k5, k6, k7, k8, k9, k10, k11, k12, k13, k14, k15, k16, k17, k18, k19, k20, k21, ha, if_false, if_true, Bool.false_eq_true]

theorem readNumber_integer_end (d pre : List Char) (h : ∀ c ∈ d, isDigit c = true) :
    (Lexer.after pre (d ++ [])).readNumber =
      (Token.mk .INTEGER_LITERAL (String.mk d) (lineAfter pre) (columnAfter pre),
        Lexer.after (pre ++ d) []) := by
  unfold Lexer.readNumber
  simp only [after_remaining]
  rw [digitLoop_span d h _ pre [] (by simp) (by simp)]
  simp only [after_isAtEnd_nil, Bool.not_true, Bool.false_and, Bool.false_eq_true, if_false]
  simp [Lexer.after, substr]

theorem readNumber_integer_dot (d pre : List Char) (h : ∀ c ∈ d, isDigit c = true) :
    (Lexer.after pre (d ++ ['.'])).readNumber =
      (Token.mk .INTEGER_LITERAL (String.mk d) (lineAfter pre) (columnAfter pre),
        Lexer.after (pre ++ d) ['.']) := by
  unfold Lexer.readNumber
  simp only [after_remaining]
  rw [digitLoop_span d h _ pre ['.'] (by simp) (by simp; decide)]
  have hz : isDigit (Char.ofNat 0) = false := by decide
  simp only [after_isAtEnd_cons, after_currentChar, after_peekChar_last, hz]
  simp [Lexer.after, substr]

theorem readNumber_float_end (d f pre : List Char) (g : Char) (h : ∀ c ∈ d, isDigit c = true)
    (hg : isDigit g = true) (hf : ∀ c ∈ f, isDigit c = true) :
    (Lexer.after pre (d ++ '.' :: g :: f)).readNumber =
      (Token.mk .FLOAT_LITERAL (String.mk (d ++ '.' :: g :: f)) (lineAfter pre) (columnAfter pre),
        Lexer.after (pre ++ (d ++ '.' :: g :: f)) []) := by
  unfold Lexer.readNumber
  simp only [after_remaining]
  rw [digitLoop_span d h _ pre ('.' :: g :: f) (by simp) (by simp; decide)]
  simp only [after_isAtEnd_cons, after_currentChar, after_peekChar, hg, after_advance,
    after_remaining]
  have h2 := digitLoop_span (g :: f) (by
    intro c hc
    rcases List.mem_cons.1 hc with rfl | hc
    · exact hg
    · exact hf c hc) (g :: f).length (pre ++ d ++ ['.']) [] (le_refl _) (by simp)
  rw [List.append_nil] at h2
  simp only [Bool.not_false, Bool.and_self, decide_True, if_true, h2]
  simp [Lexer.after, substr]
  rw [List.take_of_length_le]
  simp only [List.length_append, List.length_cons]
  omega

theorem isSpace_of_isDigit (a : Char) (h : isDigit a = true) : isSpace a = false := by
  cases hs : isSpace a with
  | false => rfl
  | true =>
    exfalso
    simp only [isSpace, Bool.or_eq_true, decide_eq_true_eq] at hs
    rcases hs with ((((hs | hs) | hs) | hs) | hs) | hs <;> (subst hs; revert h; decide)

theorem lineAfter_plain (w : List Char) (h : ∀ c ∈ w, c ≠ '\n') : lineAfter w = 1 := by
  have h1 := lineAfter_append [] w h
  rw [List.nil_append] at h1
  rw [h1]; rfl

theorem columnAfter_plain (w : List Char) (h : ∀ c ∈ w, c ≠ '\n') :
    columnAfter w = w.length + 1 := by
  have h1 := columnAfter_append [] w h
  rw [List.nil_append] at h1
  rw [h1]
  show 1 + 0 + w.length = w.length + 1
  omega

/-- C11.  For all non-empty digit strings `d` and `f`: `tokenize d` is one
`INTEGER_LITERAL` with text `d` followed by `END_OF_FILE`; `tokenize` of `d`, a
dot and `f` is one `FLOAT_LITERAL` with the whole text followed by
`END_OF_FILE`; and `tokenize` of `d` followed by a dot is an `INTEGER_LITERAL`
with text `d`, a `DOT` token and `END_OF_FILE`. -/
theorem number_lexing (d f : List Char) (hd : d ≠ []) (hf : f ≠ [])
    (hdd : ∀ c ∈ d, isDigit c = true) (hff : ∀ c ∈ f, isDigit c = true) :
    tokenize d =
        [Token.mk .INTEGER_LITERAL (String.mk d) 1 1, Token.mk .END_OF_FILE "" 1 (d.length + 1)] ∧
      tokenize (d ++ '.' :: f) =
        [Token.mk .FLOAT_LITERAL (String.mk (d ++ '.' :: f)) 1 1,
          Token.mk .END_OF_FILE "" 1 (d.length + f.length + 2)] ∧
      tokenize (d ++ ['.']) =
        [Token.mk .INTEGER_LITERAL (String.mk d) 1 1, Token.mk .DOT "." 1 (d.length + 1),
          Token.mk .END_OF_FILE "" 1 (d.length + 2)] := by
  obtain ⟨a, ds, rfl⟩ := List.exists_cons_of_ne_nil hd
  obtain ⟨g, fs, rfl⟩ := List.exists_cons_of_ne_nil hf
  have ha := hdd a (by simp)
  have hg := hff g (by simp)
  have hfs : ∀ c ∈ fs, isDigit c = true := fun c hc => hff c (by simp [hc])
  have hnl : ∀ c ∈ a :: ds, c ≠ '\n' := fun c hc => ne_of_isDigit c _ (hdd c hc) (by decide)
  have hnl2 : ∀ c ∈ (a :: ds) ++ '.' :: g :: fs, c ≠ '\n' := by
    intro c hc
    rcases List.mem_append.1 hc with hc | hc
    · exact hnl c hc
    · rcases List.mem_cons.1 hc with rfl | hc
      · decide
      · exact ne_of_isDigit c _ (hff c hc) (by decide)
  have hnl3 : ∀ c ∈ (a :: ds) ++ ['.'], c ≠ '\n' := by
    intro c hc
    rcases List.mem_append.1 hc with hc | hc
    · exact hnl c hc
    · rw [List.mem_singleton.1 hc]; decide
  have hsp := isSpace_of_isDigit a ha
  refine ⟨?_, ?_, ?_⟩
  · have hn := nextToken_digit (Lexer.after [] (a :: ds)) a [] ds ha
      (skipWhitespace_none _ _ (by simpa using hsp))
    have hr := readNumber_integer_end (a :: ds) [] hdd
    rw [List.append_nil] at hr
    rw [hr] at hn
    have st := lexSteps_token _ _ _ (after_isAtEnd_cons _ _ _) hn (by simp) (by simp)
    rw [tokenize_of_lexSteps _ _ _ _ st (by simp)]
    simp only [List.nil_append, lineAfter_plain _ hnl, columnAfter_plain _ hnl]
    rfl
  · have hn := nextToken_digit (Lexer.after [] (a :: (ds ++ '.' :: g :: fs))) a [] _ ha
      (skipWhitespace_none _ _ (by simpa using hsp))
    have hr := readNumber_float_end (a :: ds) fs [] g hdd hg hfs
    rw [List.cons_append] at hr
    rw [hr] at hn
    have st := lexSteps_token _ _ _ (after_isAtEnd_cons _ _ _) hn (by simp) (by simp)
    rw [List.cons_append, tokenize_of_lexSteps _ _ _ _ st (by simp)]
    rw [← List.cons_append]
    simp only [List.nil_append, lineAfter_plain _ hnl2, columnAfter_plain _ hnl2]
    simp only [List.length_append, List.length_cons]
    rfl
  · have hn := nextToken_digit (Lexer.after [] (a :: (ds ++ ['.']))) a [] _ ha
      (skipWhitespace_none _ _ (by simpa using hsp))
    have hr := readNumber_integer_dot (a :: ds) [] hdd
    rw [List.cons_append] at hr
    rw [hr] at hn
    have st1 := lexSteps_token _ _ _ (after_isAtEnd_cons _ _ _) hn (by simp) (by simp)
    have hn2 := nextToken_symbol (Lexer.after ([] ++ a :: ds) (['.'] ++ [])) ([] ++ a :: ds) []
      ['.'] TokenType.DOT (by rw [symbolTable_chars]; simp) (by simp)
      (skipWhitespace_none _ _ (by simp; decide))
    have st2 := lexSteps_token _ _ _ (after_isAtEnd_cons _ _ _) hn2 (by simp) (by simp)
    have st := lexSteps_append st1 st2
    rw [List.cons_append, tokenize_of_lexSteps _ _ _ _ st (by simp)]
    simp only [List.nil_append, List.cons_append, List.append_nil, List.singleton_append]
    rw [← List.cons_append]
    simp only [lineAfter_plain _ hnl, columnAfter_plain _ hnl, lineAfter_plain _ hnl3,
      columnAfter_plain _ hnl3]
    simp only [List.length_append, List.length_cons, List.length_nil]
    rfl

theorem number_lexing_witness :
    ("123".toList ≠ [] ∧ "14".toList ≠ [] ∧ (∀ c ∈ "123".toList, isDigit c = true) ∧
      ∀ c ∈ "14".toList, isDigit c = true) ∧
      tokenize "123".toList =
        [Token.mk .INTEGER_LITERAL "123" 1 1, Token.mk .END_OF_FILE "" 1 4] ∧
      tokenize "123.14".toList =
        [Token.mk .FLOAT_LITERAL "123.14" 1 1, Token.mk .END_OF_FILE "" 1 7] ∧
      tokenize "123.".toList =
        [Token.mk .INTEGER_LITERAL "123" 1 1, Token.mk .DOT "." 1 4,
          Token.mk .END_OF_FILE "" 1 5] :=
  ⟨⟨by decide, by decide, by decide, by decide⟩,
    number_lexing "123".toList "14".toList (by decide) (by decide) (by decide) (by decide)⟩

theorem nextToken_quote (lx0 : Lexer) (pre rest : List Char)
    (h0 : lx0.skipWhitespace = Lexer.after pre ('"' :: rest)) :
    lx0.nextToken = (Lexer.after pre ('"' :: rest)).readString := by
  simp only [Lexer.nextToken, Lexer.nextTokenFromEq, Lexer.nextTokenFromAmp, Lexer.nextTokenFromPipe,
    Lexer.nextTokenFromSlash, h0, after_isAtEnd_cons, after_currentChar]
  simp

theorem stringLoop_unterminated : ∀ (n : Nat) (pre s : List Char), s.length ≤ n → '"' ∉ s →
    Lexer.stringLoop n (Lexer.after pre s) = Lexer.after (pre ++ s) [] := by
  intro n
  induction n with
  | zero =>
    intro pre s hn _
    have hs : s = [] := List.length_eq_zero.1 (Nat.le_zero.1 hn)
    subst hs
    simp [Lexer.stringLoop]
  | succ n ih =>
    intro pre s hn hq
    cases s with
    | nil => simp [Lexer.stringLoop, after_isAtEnd_nil]
    | cons c s =>
      have hc : c ≠ '"' := fun h => hq (by simp [h])
      have hq1 : '"' ∉ s := fun h => hq (by simp [h])
      have hn1 : s.length ≤ n := by simpa using hn
      rw [Lexer.stringLoop, after_isAtEnd_cons, after_currentChar]
      simp only [Bool.not_false, Bool.true_and, ne_eq, hc, not_false_eq_true, decide_True, if_true]
      by_cases hb : c = '\\'
      · rw [if_pos hb, after_advance]
        cases s with
        | nil =>
          rw [after_advance_nil, ih _ [] (by simp) (by simp)]
          simp
        | cons d s =>
          rw [after_advance, ih _ s (by simp at hn1; omega) (fun h => hq1 (by simp [h]))]
          simp
      · rw [if_neg hb, after_advance, ih _ s hn1 hq1]
        simp

theorem readString_unterminated (pre s : List Char) (hq : '"' ∉ s) :
    (Lexer.after pre ('"' :: s)).readString =
      (Token.mk .UNKNOWN "" (lineAfter pre) (columnAfter pre), Lexer.after (pre ++ '"' :: s) []) := by
  unfold Lexer.readString
  simp only [after_advance, after_remaining]
  rw [stringLoop_unterminated _ _ s (le_refl _) hq]
  simp only [after_isAtEnd_nil, if_true]
  simp [Lexer.after]

/-- C12.  For every text `s` that contains no double quote, `tokenize` of a
double quote followed by `s` returns exactly two tokens: an `UNKNOWN` token with
empty text at line 1, column 1, and the `END_OF_FILE` token, which carries the
position of the end of the text. -/
theorem unterminated_string (s : List Char) (hq : '"' ∉ s) :
    tokenize ('"' :: s) =
      [Token.mk .UNKNOWN "" 1 1,
        Token.mk .END_OF_FILE "" (lineAfter ('"' :: s)) (columnAfter ('"' :: s))] := by
  have hn := nextToken_quote (Lexer.after [] ('"' :: s)) [] s
    (skipWhitespace_none _ _ (by simp; decide))
  rw [readString_unterminated [] s hq] at hn
  have st := lexSteps_token _ _ _ (after_isAtEnd_cons _ _ _) hn (by simp) (by simp)
  rw [tokenize_of_lexSteps _ _ _ _ st (by simp)]
  rfl

theorem unterminated_string_witness :
    '"' ∉ "abc\\\n".toList ∧
      tokenize "\"abc\\\n".toList =
        [Token.mk .UNKNOWN "" 1 1, Token.mk .END_OF_FILE "" 2 1] :=
  ⟨by decide, unterminated_string "abc\\\n".toList (by decide)⟩

theorem stringLoop_plain (s : List Char) (hq : '"' ∉ s) (hb : '\\' ∉ s) :
    ∀ (n : Nat) (pre rest : List Char),
      Lexer.stringLoop (n + s.length) (Lexer.after pre (s ++ rest)) =
        Lexer.stringLoop n (Lexer.after (pre ++ s) rest) := by
  induction s with
  | nil => intro n pre rest; simp
  | cons c s ih =>
    intro n pre rest
    have hc : c ≠ '"' := fun h => hq (by simp [h])
    have hc1 : c ≠ '\\' := fun h => hb (by simp [h])
    have e : n + (c :: s).length = (n + s.length) + 1 := by simp; omega
    rw [e, List.cons_append, Lexer.stringLoop, after_isAtEnd_cons, after_currentChar]
    simp only [Bool.not_false, Bool.true_and, ne_eq, hc, hc1, not_false_eq_true, decide_True,
      if_true, if_false]
    rw [after_advance, ih (fun h => hq (by simp [h])) (fun h => hb (by simp [h]))]
    simp

theorem stringLoop_escape (n : Nat) (pre rest : List Char) (d : Char) :
    Lexer.stringLoop (n + 1) (Lexer.after pre ('\\' :: d :: rest)) =
      Lexer.stringLoop n (Lexer.after (pre ++ ['\\', d]) rest) := by
  rw [Lexer.stringLoop, after_isAtEnd_cons, after_currentChar]
  have h1 : ('\\' : Char) ≠ '"' := by decide
  simp only [Bool.not_false, Bool.true_and, ne_eq, h1, not_false_eq_true, decide_True, if_true]
  rw [after_advance, after_advance]
  simp

theorem stringLoop_stop (n : Nat) (pre rest : List Char) :
    Lexer.stringLoop n (Lexer.after pre ('"' :: rest)) = Lexer.after pre ('"' :: rest) := by
  cases n with
  | zero => rfl
  | succ n => simp [Lexer.stringLoop, after_currentChar]

theorem readString_closed (pre body rest : List Char)
    (hloop : Lexer.stringLoop (body ++ '"' :: rest).length
        (Lexer.after (pre ++ ['"']) (body ++ '"' :: rest)) =
      Lexer.after (pre ++ ['"'] ++ body) ('"' :: rest)) :
    (Lexer.after pre ('"' :: (body ++ '"' :: rest))).readString =
      (Token.mk .STRING_LITERAL (String.mk body) (lineAfter pre) (columnAfter pre),
        Lexer.after (pre ++ ['"'] ++ body ++ ['"']) rest) := by
  unfold Lexer.readString
  simp only [after_advance, after_remaining]
  rw [hloop]
  simp only [after_isAtEnd_cons, Bool.false_eq_true, if_false, after_advance]
  have e : pre.length + 1 + body.length + 1 - pre.length - 2 = body.length := by omega
  simp [Lexer.after, substr, e]

theorem tokenize_closed_string (body : List Char)
    (hloop : Lexer.stringLoop (body ++ ['"']).length (Lexer.after ([] ++ ['"']) (body ++ ['"'])) =
      Lexer.after ([] ++ ['"'] ++ body) ['"']) :
    tokenize ('"' :: (body ++ ['"'])) =
      [Token.mk .STRING_LITERAL (String.mk body) 1 1,
        Token.mk .END_OF_FILE "" (lineAfter ('"' :: (body ++ ['"'])))
          (columnAfter ('"' :: (body ++ ['"'])))] := by
  have hn := nextToken_quote (Lexer.after [] ('"' :: (body ++ ['"']))) [] _
    (skipWhitespace_none _ _ (by simp; decide))
  rw [readString_closed [] body [] hloop] at hn
  have st := lexSteps_token _ _ _ (after_isAtEnd_cons _ _ _) hn (by simp) (by simp)
  rw [tokenize_of_lexSteps _ _ _ _ st (by simp)]
  simp only [List.nil_append, List.singleton_append, List.cons_append]
  rfl

/-- C13.  For all texts `s` and `t` that contain neither a double quote nor a
backslash: `tokenize` of `s` enclosed in double quotes returns one
`STRING_LITERAL` whose text is `s`, and `tokenize` of the quoted text made of
`s`, a backslash, a double quote and `t` returns one `STRING_LITERAL` whose text
is `s`, the backslash, the double quote and `t`; in both cases the token is at
line 1, column 1 and is followed only by `END_OF_FILE`. -/
theorem string_lexing (s t : List Char) (hs : '"' ∉ s ∧ '\\' ∉ s) (ht : '"' ∉ t ∧ '\\' ∉ t) :
    tokenize ('"' :: (s ++ ['"'])) =
        [Token.mk .STRING_LITERAL (String.mk s) 1 1,
          Token.mk .END_OF_FILE "" (lineAfter ('"' :: (s ++ ['"'])))
            (columnAfter ('"' :: (s ++ ['"'])))] ∧
      tokenize ('"' :: ((s ++ '\\' :: '"' :: t) ++ ['"'])) =
        [Token.mk .STRING_LITERAL (String.mk (s ++ '\\' :: '"' :: t)) 1 1,
          Token.mk .END_OF_FILE "" (lineAfter ('"' :: ((s ++ '\\' :: '"' :: t) ++ ['"'])))
            (columnAfter ('"' :: ((s ++ '\\' :: '"' :: t) ++ ['"'])))] := by
  constructor
  · apply tokenize_closed_string
    have e : (s ++ ['"']).length = 1 + s.length := by simp; omega
    rw [e, stringLoop_plain s hs.1 hs.2, stringLoop_stop]
  · apply tokenize_closed_string
    have e : ((s ++ '\\' :: '"' :: t) ++ ['"']).length = ((2 + t.length) + 1) + s.length := by
      simp only [List.length_append, List.length_cons, List.length_nil]; omega
    have e1 : (s ++ '\\' :: '"' :: t) ++ ['"'] = s ++ '\\' :: '"' :: (t ++ ['"']) := by simp
    rw [e, e1, stringLoop_plain s hs.1 hs.2, stringLoop_escape, stringLoop_plain t ht.1 ht.2,
      stringLoop_stop]
    simp

theorem string_lexing_witness :
    (('"' ∉ "hello".toList ∧ '\\' ∉ "hello".toList) ∧ '"' ∉ " x".toList ∧ '\\' ∉ " x".toList) ∧
      tokenize "\"hello\"".toList =
        [Token.mk .STRING_LITERAL "hello" 1 1, Token.mk .END_OF_FILE "" 1 8] ∧
      tokenize "\"hello\\\" x\"".toList =
        [Token.mk .STRING_LITERAL "hello\\\" x" 1 1, Token.mk .END_OF_FILE "" 1 12] :=
  ⟨⟨⟨by decide, by decide⟩, by decide, by decide⟩,
    string_lexing "hello".toList " x".toList ⟨by decide, by decide⟩ ⟨by decide, by decide⟩⟩

/-- C14 at a failing input.  For the source `&a` the token sequence returned by
`tokenize` is an `UNKNOWN` token with text `&` followed directly by
`END_OF_FILE`: the identifier `a`, which `tokenize` returns for the source `a`,
is lost; the same happens after a single `|`, while after `@` the identifier is
kept. -/
theorem ampersand_swallows_next_character :
    tokenize "&a".toList = [Token.mk .UNKNOWN "&" 1 1, Token.mk .END_OF_FILE "" 1 3] ∧
      tokenize "a".toList = [Token.mk .IDENTIFIER "a" 1 1, Token.mk .END_OF_FILE "" 1 2] ∧
      tokenize "|a".toList = [Token.mk .UNKNOWN "|" 1 1, Token.mk .END_OF_FILE "" 1 3] ∧
      tokenize "@a".toList =
        [Token.mk .UNKNOWN "@" 1 1, Token.mk .IDENTIFIER "a" 1 2, Token.mk .END_OF_FILE "" 1 3] :=
  ⟨rfl, rfl, rfl, rfl⟩

theorem readIdentifier_kind (lx : Lexer) :
    lx.readIdentifier.1.type ≠ TokenType.WHITESPACE ∧ lx.readIdentifier.1.type ≠ TokenType.NEWLINE := by
  unfold Lexer.readIdentifier
  exact ⟨(getKeywordType_ne _).1, (getKeywordType_ne _).2.2⟩

theorem readNumber_kind (lx : Lexer) :
    lx.readNumber.1.type ≠ TokenType.WHITESPACE ∧ lx.readNumber.1.type ≠ TokenType.NEWLINE := by
  unfold Lexer.readNumber
  simp only []
  split_ifs <;> simp

theorem readString_kind (lx : Lexer) :
    lx.readString.1.type ≠ TokenType.WHITESPACE ∧ lx.readString.1.type ≠ TokenType.NEWLINE := by
  unfold Lexer.readString
  simp only []
  split_ifs <;> simp

theorem nextTokenFromSlash_kind (lx : Lexer) (c : Char) (l k : Nat) :
    (lx.nextTokenFromSlash c l k).1.type ≠ TokenType.WHITESPACE ∧
      (lx.nextTokenFromSlash c l k).1.type ≠ TokenType.NEWLINE := by
  unfold Lexer.nextTokenFromSlash
  split_ifs
  · simp
  · simp
  · exact readString_kind lx
  · exact readNumber_kind lx
  · exact readIdentifier_kind lx
  · simp

theorem nextTokenFromPipe_kind (lx : Lexer) (c : Char) (l k : Nat) :
    (lx.nextTokenFromPipe c l k).1.type ≠ TokenType.WHITESPACE ∧
      (lx.nextTokenFromPipe c l k).1.type ≠ TokenType.NEWLINE := by
  unfold Lexer.nextTokenFromPipe
  simp only []
  split_ifs
  · simp
  · exact nextTokenFromSlash_kind _ c l k
  · exact nextTokenFromSlash_kind _ c l k

theorem nextTokenFromAmp_kind (lx : Lexer) (c : Char) (l k : Nat) :
    (lx.nextTokenFromAmp c l k).1.type ≠ TokenType.WHITESPACE ∧
      (lx.nextTokenFromAmp c l k).1.type ≠ TokenType.NEWLINE := by
  unfold Lexer.nextTokenFromAmp
  simp only []
  split_ifs
  · simp
  · exact nextTokenFromPipe_kind _ c l k
  · exact nextTokenFromPipe_kind _ c l k

theorem nextTokenFromEq_kind (lx : Lexer) (c : Char) (l k : Nat) :
    (lx.nextTokenFromEq c l k).1.type ≠ TokenType.WHITESPACE ∧
      (lx.nextTokenFromEq c l k).1.type ≠ TokenType.NEWLINE := by
  unfold Lexer.nextTokenFromEq
  simp only []
  split_ifs <;> first | exact nextTokenFromAmp_kind _ c l k | simp

theorem kind_ite {c : Prop} [Decidable c] {a b : Token × Lexer}
    (ha : a.1.type ≠ TokenType.WHITESPACE ∧ a.1.type ≠ TokenType.NEWLINE)
    (hb : b.1.type ≠ TokenType.WHITESPACE ∧ b.1.type ≠ TokenType.NEWLINE) :
    (if c then a else b).1.type ≠ TokenType.WHITESPACE ∧
      (if c then a else b).1.type ≠ TokenType.NEWLINE := by
  split <;> assumption

theorem nextToken_kind (lx : Lexer) :
    lx.nextToken.1.type ≠ TokenType.WHITESPACE ∧ lx.nextToken.1.type ≠ TokenType.NEWLINE := by
  unfold Lexer.nextToken
  dsimp only
  repeat' first
    | with_reducible apply kind_ite
    | with_reducible exact nextTokenFromEq_kind _ _ _ _
    | (refine ⟨?_, ?_⟩ <;> simp)

theorem tokenizeLoop_kinds : ∀ (n : Nat) (lx : Lexer) (acc : List Token),
    (∀ t ∈ acc, t.type ≠ TokenType.WHITESPACE ∧ t.type ≠ TokenType.COMMENT ∧
      t.type ≠ TokenType.NEWLINE) →
    ∀ t ∈ (Lexer.tokenizeLoop n lx acc).1, t.type ≠ TokenType.WHITESPACE ∧
      t.type ≠ TokenType.COMMENT ∧ t.type ≠ TokenType.NEWLINE := by
  intro n
  induction n with
  | zero => intro lx acc h; exact h
  | succ n ih =>
    intro lx acc h
    rw [Lexer.tokenizeLoop]
    dsimp only
    split_ifs with h1 h2
    · apply ih
      intro t ht
      rcases List.mem_append.1 ht with ht | ht
      · exact h t ht
      · rw [List.mem_singleton.1 ht]
        exact ⟨h2.1, h2.2, (nextToken_kind lx).2⟩
    · exact ih _ _ h
    · exact h

theorem nextToken_comment (lx0 : Lexer) (pre body rest : List Char)
    (hb : ∀ c ∈ body, c ≠ '\n') (hr : ∀ c ∈ rest.head?, c = '\n')
    (h0 : lx0.skipWhitespace = Lexer.after pre ('/' :: '/' :: (body ++ rest))) :
    lx0.nextToken = (Token.mk .COMMENT "" (lineAfter pre) (columnAfter pre),
      Lexer.after (pre ++ '/' :: '/' :: body) rest) := by
  have h1 := skipComment_span ('/' :: '/' :: body) pre rest (by
    intro c hc
    rcases List.mem_cons.1 hc with rfl | hc
    · decide
    · rcases List.mem_cons.1 hc with rfl | hc
      · decide
      · exact hb c hc) hr
  simp only [List.cons_append] at h1
  simp only [Lexer.nextToken, Lexer.nextTokenFromEq, Lexer.nextTokenFromAmp, Lexer.nextTokenFromPipe,
    Lexer.nextTokenFromSlash, h0, after_isAtEnd_cons, after_currentChar, after_peekChar, h1]
  simp
  exact ⟨rfl, rfl⟩

theorem tokenize_kinds (source : List Char) :
    ∀ t ∈ tokenize source, t.type ≠ TokenType.WHITESPACE ∧ t.type ≠ TokenType.COMMENT ∧
      t.type ≠ TokenType.NEWLINE := by
  intro t ht
  unfold tokenize Lexer.tokenize at ht
  rcases List.mem_append.1 ht with ht | ht
  · exact tokenizeLoop_kinds _ _ [] (by simp) t ht
  · rw [List.mem_singleton.1 ht]
    simp

theorem tokenize_commented (c : List Char) (hc : ∀ x ∈ c, x ≠ '\n') :
    tokenize ('s' :: (['h', 'a', 'd', 'e', 'r'] ++
        (' ' :: '/' :: '/' :: (c ++ '\n' :: 'm' :: (['a', 'i', 'n'] ++ []))))) =
      [Token.mk .SHADER "shader" 1 1, Token.mk .IDENTIFIER "main" 2 1,
        Token.mk .END_OF_FILE "" 2 5] := by
  have n1 := nextToken_word (Lexer.after [] ('s' :: (['h', 'a', 'd', 'e', 'r'] ++
      (' ' :: '/' :: '/' :: (c ++ '\n' :: 'm' :: (['a', 'i', 'n'] ++ [])))))) 's'
    ['h', 'a', 'd', 'e', 'r'] [] _ (by decide) (by decide) (by simp; decide)
    (skipWhitespace_none _ _ (by simp; decide))
  have s1 := lexSteps_token _ _ _ (after_isAtEnd_cons _ _ _) n1 (by decide) (by decide)
  have w2 := skipWhitespace_span [' '] ([] ++ 's' :: ['h', 'a', 'd', 'e', 'r'])
    ('/' :: '/' :: (c ++ '\n' :: 'm' :: (['a', 'i', 'n'] ++ []))) (by decide) (by simp; decide)
  have n2 := nextToken_comment _ _ c _ hc (by simp) w2
  have s2 := lexSteps_dropped _ _ _ (after_isAtEnd_cons _ _ _) n2 rfl
  have w3 := skipWhitespace_span ['\n']
    ([] ++ 's' :: ['h', 'a', 'd', 'e', 'r'] ++ [' '] ++ '/' :: '/' :: c)
    ('m' :: (['a', 'i', 'n'] ++ [])) (by decide) (by simp; decide)
  have n3 := nextToken_word _ 'm' ['a', 'i', 'n'] _ [] (by decide) (by decide) (by simp) w3
  have s3 := lexSteps_token _ _ _ (after_isAtEnd_cons _ _ _) n3
    (getKeywordType_ne (String.mk ['m', 'a', 'i', 'n'])).1
    (getKeywordType_ne (String.mk ['m', 'a', 'i', 'n'])).2.1
  have st := lexSteps_append s1 (lexSteps_append s2 s3)
  rw [tokenize_of_lexSteps _ _ _ _ st (by simp)]
  have hp : ∀ x ∈ 's' :: ['h', 'a', 'd', 'e', 'r'] ++ [' '] ++ '/' :: '/' :: c, x ≠ '\n' := by
    intro x hx
    simp only [List.cons_append, List.nil_append, List.mem_cons] at hx
    rcases hx with rfl | rfl | rfl | rfl | rfl | rfl | rfl | rfl | rfl | hx
    all_goals first | decide | exact hc x hx
  have hm : ∀ x ∈ ['m', 'a', 'i', 'n'], x ≠ '\n' := by decide
  have e1 : lineAfter ([] ++ 's' :: ['h', 'a', 'd', 'e', 'r'] ++ [' '] ++ '/' :: '/' :: c ++ ['\n']) = 2 := by
    rw [List.nil_append, lineAfter_concat, if_pos rfl, lineAfter_plain _ hp]
  have e2 : columnAfter ([] ++ 's' :: ['h', 'a', 'd', 'e', 'r'] ++ [' '] ++ '/' :: '/' :: c ++ ['\n']) = 1 := by
    rw [List.nil_append, columnAfter_concat, if_pos rfl]
  have e3 : lineAfter ([] ++ 's' :: ['h', 'a', 'd', 'e', 'r'] ++ [' '] ++ '/' :: '/' :: c ++ ['\n'] ++
      'm' :: ['a', 'i', 'n']) = 2 := by
    rw [lineAfter_append _ _ hm, e1]
  have e4 : columnAfter ([] ++ 's' :: ['h', 'a', 'd', 'e', 'r'] ++ [' '] ++ '/' :: '/' :: c ++ ['\n'] ++
      'm' :: ['a', 'i', 'n']) = 5 := by
    rw [columnAfter_append _ _ hm, e2]
    rfl
  rw [e1, e2, e3, e4]
  rfl

/-- C17.  The result of `tokenize` contains, for every source, no token of kind
`WHITESPACE`, `COMMENT` or `NEWLINE`; and for every comment text `c` without a
newline, tokenizing `shader //`, `c`, a newline and `main` yields exactly the
`SHADER` token, the `IDENTIFIER` token `main` on line 2 and `END_OF_FILE`. -/
theorem comments_and_whitespace (source c : List Char) (hc : '\n' ∉ c) :
    (∀ t ∈ tokenize source, t.type ≠ TokenType.WHITESPACE ∧ t.type ≠ TokenType.COMMENT ∧
      t.type ≠ TokenType.NEWLINE) ∧
    tokenize ("shader //".toList ++ c ++ '\n' :: "main".toList) =
      [Token.mk .SHADER "shader" 1 1, Token.mk .IDENTIFIER "main" 2 1,
        Token.mk .END_OF_FILE "" 2 5] := by
  refine ⟨tokenize_kinds source, ?_⟩
  have h := tokenize_commented c (fun x hx h => hc (h ▸ hx))
  have e : "shader //".toList ++ c ++ '\n' :: "main".toList =
      's' :: (['h', 'a', 'd', 'e', 'r'] ++
        (' ' :: '/' :: '/' :: (c ++ '\n' :: 'm' :: (['a', 'i', 'n'] ++ [])))) := by
    simp [String.toList]
  rw [e]
  exact h

theorem comments_and_whitespace_witness :
    '\n' ∉ " this is a comment".toList ∧
      (∀ t ∈ tokenize " // x\n ".toList, t.type ≠ TokenType.WHITESPACE ∧
        t.type ≠ TokenType.COMMENT ∧ t.type ≠ TokenType.NEWLINE) ∧
      tokenize "shader // this is a comment\nmain".toList =
        [Token.mk .SHADER "shader" 1 1, Token.mk .IDENTIFIER "main" 2 1,
          Token.mk .END_OF_FILE "" 2 5] :=
  ⟨by decide, comments_and_whitespace " // x\n ".toList " this is a comment".toList (by decide)⟩

theorem onlyBlank_false_cons (c : Char) (rest : List Char) :
    onlyBlank false (c :: rest) =
      if isSpace c then onlyBlank false rest
      else if c = '/' then
        match rest with
        | d :: rest1 => if d = '/' then onlyBlank true rest1 else false
        | [] => false
      else false := by
  cases rest <;> simp [onlyBlank]

theorem onlyBlank_true_cons (c : Char) (rest : List Char) :
    onlyBlank true (c :: rest) = if c = '\n' then onlyBlank false rest else onlyBlank true rest := by
  simp [onlyBlank]

theorem onlyBlank_comment : ∀ (tail : List Char), onlyBlank true tail = true →
    ∃ body rest, tail = body ++ rest ∧ (∀ c ∈ body, c ≠ '\n') ∧ (∀ c ∈ rest.head?, c = '\n') ∧
      onlyBlank false rest = true
  | [], _ => ⟨[], [], rfl, by simp, by simp, rfl⟩
  | c :: tail, h => by
    rw [onlyBlank_true_cons] at h
    by_cases hc : c = '\n'
    · subst hc
      rw [if_pos rfl] at h
      refine ⟨[], '\n' :: tail, rfl, by simp, by simp, ?_⟩
      rw [onlyBlank_false_cons, if_pos (by decide)]
      exact h
    · rw [if_neg hc] at h
      obtain ⟨body, rest, h1, h2, h3, h4⟩ := onlyBlank_comment tail h
      refine ⟨c :: body, rest, by rw [h1]; rfl, ?_, h3, h4⟩
      intro x hx
      rcases List.mem_cons.1 hx with rfl | hx
      · exact hc
      · exact h2 x hx

theorem onlyBlank_space : ∀ (src : List Char), onlyBlank false src = true →
    ∃ ws rest, src = ws ++ rest ∧ (∀ c ∈ ws, isSpace c = true) ∧
      (rest = [] ∨ ∃ tail, rest = '/' :: '/' :: tail ∧ onlyBlank true tail = true)
  | [], _ => ⟨[], [], rfl, by simp, Or.inl rfl⟩
  | c :: src, h => by
    rw [onlyBlank_false_cons] at h
    by_cases hc : isSpace c = true
    · rw [if_pos hc] at h
      obtain ⟨ws, rest, h1, h2, h3⟩ := onlyBlank_space src h
      refine ⟨c :: ws, rest, by rw [h1]; rfl, ?_, h3⟩
      intro x hx
      rcases List.mem_cons.1 hx with rfl | hx
      · exact hc
      · exact h2 x hx
    · rw [if_neg hc] at h
      by_cases h1 : c = '/'
      · subst h1
        rw [if_pos rfl] at h
        cases src with
        | nil => simp at h
        | cons d src =>
          by_cases h2 : d = '/'
          · subst h2
            simp at h
            exact ⟨[], _, rfl, by simp, Or.inr ⟨src, rfl, h⟩⟩
          · simp [h2] at h
      · rw [if_neg h1] at h
        cases h

theorem tokenizeLoop_blank : ∀ (n : Nat) (pre rest : List Char) (acc : List Token),
    onlyBlank false rest = true → (∀ t ∈ acc, t.type = TokenType.END_OF_FILE) →
    ∀ t ∈ (Lexer.tokenizeLoop n (Lexer.after pre rest) acc).1, t.type = TokenType.END_OF_FILE := by
  intro n
  induction n with
  | zero => intro pre rest acc _ h; exact h
  | succ n ih =>
    intro pre rest acc hb hacc
    cases rest with
    | nil => rw [tokenizeLoop_atEnd _ _ _ (after_isAtEnd_nil _)]; exact hacc
    | cons c r =>
      have hne := after_isAtEnd_cons pre c r
      obtain ⟨ws, rest1, h1, h2, h3⟩ := onlyBlank_space _ hb
      rw [h1] at hne ⊢
      rcases h3 with h3 | ⟨tail, h3, h4⟩
      · subst h3
        have hs := skipWhitespace_span ws pre [] h2 (by simp)
        have st := lexSteps_token _ _ _ hne (nextToken_endOfFile _ _ hs) (by simp) (by simp)
        rw [st n acc, tokenizeLoop_atEnd _ _ _ (after_isAtEnd_nil _)]
        intro t ht
        rcases List.mem_append.1 ht with ht | ht
        · exact hacc t ht
        · rw [List.mem_singleton.1 ht]
      · subst h3
        obtain ⟨body, rest2, h5, h6, h7, h8⟩ := onlyBlank_comment tail h4
        subst h5
        have hs := skipWhitespace_span ws pre ('/' :: '/' :: (body ++ rest2)) h2 (by simp; decide)
        have st := lexSteps_dropped _ _ _ hne (nextToken_comment _ _ body rest2 h6 h7 hs) rfl
        rw [st n acc, List.append_nil]
        exact ih _ rest2 acc h8 hacc

theorem tokenize_blank (source : List Char) (h : onlyBlank false source = true) :
    ∃ t ts, tokenize source = t :: ts ∧ t.type = TokenType.END_OF_FILE := by
  have h1 := tokenizeLoop_blank source.length [] source [] h (by simp)
  unfold tokenize Lexer.tokenize
  rw [new_eq_after, after_remaining]
  dsimp only
  cases h2 : (Lexer.tokenizeLoop source.length (Lexer.after [] source) []).1 with
  | nil => exact ⟨_, [], rfl, rfl⟩
  | cons t ts =>
    rw [h2] at h1
    exact ⟨t, _, rfl, h1 t (by simp)⟩

theorem parseProgram_at_end (t : Token) (ts : List Token) (h : t.type = TokenType.END_OF_FILE) :
    parseProgram (t :: ts) = Res.ok ({ declarations := [] }, []) 0 := by
  unfold parseProgram parseFuel
  have e : 40 * ((t :: ts).length + 2) = (40 * ((t :: ts).length + 2) - 1) + 1 := by omega
  rw [e, parseProgramLoop]
  simp [isAtEndAt, h]

/-- C19.  For every source made only of whitespace and `//` comments, the empty
source included, tokenizing and then parsing returns a `Program` with no
declarations and reports no error. -/
theorem blank_source_parses (source : List Char) (h : onlyBlank false source = true) :
    parseProgram (tokenize source) = Res.ok ({ declarations := [] }, []) 0 := by
  obtain ⟨t, ts, h1, h2⟩ := tokenize_blank source h
  rw [h1]
  exact parseProgram_at_end t ts h2

theorem blank_source_parses_witness :
    onlyBlank false " // one\n\t//two // three\n\n".toList = true ∧
      parseProgram (tokenize " // one\n\t//two // three\n\n".toList) =
        Res.ok ({ declarations := [] }, []) 0 :=
  ⟨by decide, blank_source_parses " // one\n\t//two // three\n\n".toList (by decide)⟩

theorem lexSteps_ws_word (ws pre : List Char) (a : Char) (name rest : List Char)
    (hws : ∀ c ∈ ws, isSpace c = true) (ha : isAlpha a = true)
    (h : ∀ c ∈ name, isAlphaNumeric c = true)
    (hr : ∀ c ∈ rest.head?, isAlphaNumeric c = false) :
    LexSteps 1 (Lexer.after pre (ws ++ a :: (name ++ rest)))
      [Token.mk (getKeywordType (String.mk (a :: name))) (String.mk (a :: name))
        (lineAfter (pre ++ ws)) (columnAfter (pre ++ ws))]
      (Lexer.after (pre ++ ws ++ a :: name) rest) := by
  have hs := skipWhitespace_span ws pre (a :: (name ++ rest)) hws
    (by simpa using isSpace_of_isAlpha a ha)
  have hne : (Lexer.after pre (ws ++ a :: (name ++ rest))).isAtEnd = false := by
    cases ws <;> exact after_isAtEnd_cons _ _ _
  have hk := getKeywordType_ne (String.mk (a :: name))
  exact lexSteps_token _ _ _ hne (nextToken_word _ a name (pre ++ ws) rest ha h hr hs) hk.1 hk.2.1

theorem lexSteps_ws_symbol (ws pre l rest : List Char) (k : TokenType)
    (hws : ∀ c ∈ ws, isSpace c = true)
    (hx : (l, k) ∈ symbolTable.map (fun x => (x.1.data, x.2)))
    (hr : ∀ c ∈ rest.head?, c = ' ') :
    LexSteps 1 (Lexer.after pre (ws ++ (l ++ rest)))
      [Token.mk k (String.mk l) (lineAfter (pre ++ ws)) (columnAfter (pre ++ ws))]
      (Lexer.after (pre ++ ws ++ l) rest) := by
  obtain ⟨⟨c, cs, hc, hc1⟩, hk1, hk2⟩ := symbol_head l k hx
  have hs := skipWhitespace_span ws pre (l ++ rest) hws (by rw [hc]; simpa using hc1)
  have hne : (Lexer.after pre (ws ++ (l ++ rest))).isAtEnd = false := by
    rw [hc]
    cases ws <;> exact after_isAtEnd_cons _ _ _
  exact lexSteps_token _ _ _ hne (nextToken_symbol _ (pre ++ ws) rest l k hx hr hs) hk1 hk2

theorem parseDeclaration_shader (name v1 v3 v4 v5 v6 v7 : String) (k : TokenType)
    (st : ShaderType)
    (hk : (k, st) ∈ [(TokenType.VERTEX, ShaderType.VERTEX), (TokenType.FRAGMENT, ShaderType.FRAGMENT),
      (TokenType.COMPUTE, ShaderType.COMPUTE)])
    (l1 c1 l2 c2 l3 c3 l4 c4 l5 c5 l6 c6 l7 c7 n : Nat) :
    parseDeclaration (n + 1) [Token.mk .SHADER v1 l1 c1, Token.mk .IDENTIFIER name l2 c2,
      Token.mk .COLON v3 l3 c3, Token.mk k v4 l4 c4, Token.mk .LEFT_BRACE v5 l5 c5,
      Token.mk .RIGHT_BRACE v6 l6 c6, Token.mk .END_OF_FILE v7 l7 c7] 0 =
      Res.ok (Stmt.ShaderDeclaration name st []) 6 := by
  simp only [List.mem_cons, Prod.mk.injEq, List.mem_singleton, List.not_mem_nil, or_false] at hk
  rcases hk with ⟨rfl, rfl⟩ | ⟨rfl, rfl⟩ | ⟨rfl, rfl⟩ <;>
    simp [parseDeclaration, parseShaderDeclaration, parseShaderBody,
      parseShaderType, bind_apply, pure_apply, matchTok, consume, check, sdl.isAtEnd, checkAt,
      isAtEndAt, advanceAt, currentTokenAt]

theorem parseProgram_shader (name v1 v3 v4 v5 v6 v7 : String) (k : TokenType) (st : ShaderType)
    (hk : (k, st) ∈ [(TokenType.VERTEX, ShaderType.VERTEX), (TokenType.FRAGMENT, ShaderType.FRAGMENT),
      (TokenType.COMPUTE, ShaderType.COMPUTE)])
    (l1 c1 l2 c2 l3 c3 l4 c4 l5 c5 l6 c6 l7 c7 : Nat) :
    parseProgram [Token.mk .SHADER v1 l1 c1, Token.mk .IDENTIFIER name l2 c2,
      Token.mk .COLON v3 l3 c3, Token.mk k v4 l4 c4, Token.mk .LEFT_BRACE v5 l5 c5,
      Token.mk .RIGHT_BRACE v6 l6 c6, Token.mk .END_OF_FILE v7 l7 c7] =
      Res.ok ({ declarations := [Stmt.ShaderDeclaration name st []] }, []) 6 := by
  unfold parseProgram parseFuel
  show parseProgramLoop (358 + 1 + 1) _ 0 [] [] = _
  rw [parseProgramLoop, parseDeclaration_shader name v1 v3 v4 v5 v6 v7 k st hk]
  have h0 : isAtEndAt [Token.mk .SHADER v1 l1 c1, Token.mk .IDENTIFIER name l2 c2,
      Token.mk .COLON v3 l3 c3, Token.mk k v4 l4 c4, Token.mk .LEFT_BRACE v5 l5 c5,
      Token.mk .RIGHT_BRACE v6 l6 c6, Token.mk .END_OF_FILE v7 l7 c7] 0 = false := by
    simp [isAtEndAt]
  have h6 : isAtEndAt [Token.mk .SHADER v1 l1 c1, Token.mk .IDENTIFIER name l2 c2,
      Token.mk .COLON v3 l3 c3, Token.mk k v4 l4 c4, Token.mk .LEFT_BRACE v5 l5 c5,
      Token.mk .RIGHT_BRACE v6 l6 c6, Token.mk .END_OF_FILE v7 l7 c7] 6 = true := by
    simp [isAtEndAt]
  simp only [h0, Bool.not_false, if_true]
  rw [parseProgramLoop]
  simp only [h6, Bool.not_true, Bool.false_eq_true, if_false, List.nil_append]

theorem shader_source_parses (a : Char) (cs : List Char) (b : Char) (bs : List Char)
    (k : TokenType) (st : ShaderType) (ha : isAlpha a = true)
    (hcs : ∀ c ∈ cs, isAlphaNumeric c = true)
    (hn : getKeywordType (String.mk (a :: cs)) = TokenType.IDENTIFIER)
    (hb : isAlpha b = true) (hbs : ∀ c ∈ bs, isAlphaNumeric c = true)
    (hk : getKeywordType (String.mk (b :: bs)) = k)
    (hkst : (k, st) ∈ [(TokenType.VERTEX, ShaderType.VERTEX),
      (TokenType.FRAGMENT, ShaderType.FRAGMENT), (TokenType.COMPUTE, ShaderType.COMPUTE)]) :
    parseProgram (tokenize ([] ++ 's' :: (['h', 'a', 'd', 'e', 'r'] ++ ([' '] ++ a :: (cs ++
      ([' '] ++ ([':'] ++ ([' '] ++ b :: (bs ++ ([' '] ++ (['\x7b'] ++ ([' '] ++
        (['\x7d'] ++ []))))))))))))) =
      Res.ok ({ declarations := [Stmt.ShaderDeclaration (String.mk (a :: cs)) st []] }, []) 6 := by
  have hsp : ∀ c ∈ [' '], isSpace c = true := by decide
  have s1 := lexSteps_ws_word [] [] 's' ['h', 'a', 'd', 'e', 'r']
    ([' '] ++ a :: (cs ++ ([' '] ++ ([':'] ++ ([' '] ++ b :: (bs ++ ([' '] ++ (['\x7b'] ++
      ([' '] ++ (['\x7d'] ++ [])))))))))) (by simp) (by decide) (by decide) (by simp; decide)
  have s2 := lexSteps_ws_word [' '] ([] ++ [] ++ 's' :: ['h', 'a', 'd', 'e', 'r']) a cs
    ([' '] ++ ([':'] ++ ([' '] ++ b :: (bs ++ ([' '] ++ (['\x7b'] ++
      ([' '] ++ (['\x7d'] ++ []))))))))  hsp ha hcs (by simp; decide)
  have s3 := lexSteps_ws_symbol [' '] ([] ++ [] ++ 's' :: ['h', 'a', 'd', 'e', 'r'] ++ [' '] ++ a :: cs)
    [':'] ([' '] ++ b :: (bs ++ ([' '] ++ (['\x7b'] ++ ([' '] ++ (['\x7d'] ++ []))))))
    TokenType.COLON hsp (by rw [symbolTable_chars]; simp) (by simp)
  have s4 := lexSteps_ws_word [' ']
    ([] ++ [] ++ 's' :: ['h', 'a', 'd', 'e', 'r'] ++ [' '] ++ a :: cs ++ [' '] ++ [':']) b bs
    ([' '] ++ (['\x7b'] ++ ([' '] ++ (['\x7d'] ++ [])))) hsp hb hbs (by simp; decide)
  have s5 := lexSteps_ws_symbol [' ']
    ([] ++ [] ++ 's' :: ['h', 'a', 'd', 'e', 'r'] ++ [' '] ++ a :: cs ++ [' '] ++ [':'] ++ [' '] ++
      b :: bs)
    ['\x7b'] ([' '] ++ (['\x7d'] ++ [])) TokenType.LEFT_BRACE hsp
    (by rw [symbolTable_chars]; simp) (by simp)
  have s6 := lexSteps_ws_symbol [' ']
    ([] ++ [] ++ 's' :: ['h', 'a', 'd', 'e', 'r'] ++ [' '] ++ a :: cs ++ [' '] ++ [':'] ++ [' '] ++
      b :: bs ++ [' '] ++ ['\x7b'])
    ['\x7d'] [] TokenType.RIGHT_BRACE hsp (by rw [symbolTable_chars]; simp) (by simp)
  have steps := lexSteps_append s1 (lexSteps_append s2 (lexSteps_append s3 (lexSteps_append s4
    (lexSteps_append s5 s6))))
  have e := tokenize_of_lexSteps _ _ _ _ steps (by
    simp only [List.length_append, List.length_cons, List.length_nil]; omega)
  have k1 : getKeywordType (String.mk ['s', 'h', 'a', 'd', 'e', 'r']) = TokenType.SHADER := by decide
  rw [e, k1, hn, hk]
  exact parseProgram_shader _ _ _ _ _ _ _ k st hkst _ _ _ _ _ _ _ _ _ _ _ _ _ _

/-- C20.  For every name `n` that the lexer reads as a non-reserved identifier
and every shader type word `t` among `vertex`, `fragment` and `compute`,
tokenizing and parsing the text `shader n : t` followed by an empty pair of
braces reports no error and returns a `Program` with exactly one declaration, a
`ShaderDeclaration` with name `n`, shader type `t` and an empty body. -/
theorem simple_shader_parses (a : Char) (cs : List Char) (t : String × ShaderType)
    (ha : isAlpha a = true) (hcs : ∀ c ∈ cs, isAlphaNumeric c = true)
    (hn : getKeywordType (String.mk (a :: cs)) = TokenType.IDENTIFIER)
    (ht : t ∈ shaderTypeTable) :
    parseProgram (tokenize ("shader ".toList ++ (a :: cs) ++ " : ".toList ++ t.1.toList ++
        " \x7b \x7d".toList)) =
      Res.ok ({ declarations := [Stmt.ShaderDeclaration (String.mk (a :: cs)) t.2 []] }, []) 6 := by
  simp only [shaderTypeTable, List.mem_cons, List.mem_singleton, List.not_mem_nil, or_false] at ht
  rcases ht with rfl | rfl | rfl
  · have h := shader_source_parses a cs 'v' ['e', 'r', 't', 'e', 'x'] TokenType.VERTEX ShaderType.VERTEX ha hcs hn
      (by decide) (by decide) (by decide) (by simp)
    simpa [String.toList] using h
  · have h := shader_source_parses a cs 'f' ['r', 'a', 'g', 'm', 'e', 'n', 't']
      TokenType.FRAGMENT ShaderType.FRAGMENT ha hcs hn (by decide) (by decide) (by decide) (by simp)
    simpa [String.toList] using h
  · have h := shader_source_parses a cs 'c' ['o', 'm', 'p', 'u', 't', 'e'] TokenType.COMPUTE
      ShaderType.COMPUTE
      ha hcs hn (by decide) (by decide) (by decide) (by simp)
    simpa [String.toList] using h

theorem simple_shader_parses_witness :
    (isAlpha 't' = true ∧ (∀ c ∈ "est".toList, isAlphaNumeric c = true) ∧
      getKeywordType "test" = TokenType.IDENTIFIER ∧
      ("vertex", ShaderType.VERTEX) ∈ shaderTypeTable) ∧
      parseProgram (tokenize "shader test : vertex \x7b \x7d".toList) =
        Res.ok ({ declarations := [Stmt.ShaderDeclaration "test" ShaderType.VERTEX []] }, []) 6 :=
  ⟨⟨by decide, by decide, by decide, by decide⟩,
    simple_shader_parses 't' "est".toList ("vertex", ShaderType.VERTEX) (by decide) (by decide)
      (by decide) (by decide)⟩

theorem glsl_visitStmt_for (init : Option Stmt) (c : Option Expr) (u : Option Stmt) (body : Stmt)
    (g : Generator) :
    GLSLGenerator.visitStmt (Stmt.ForStatement init c u body) g =
      ((GLSLGenerator.visitStmt body
        (((GLSLGenerator.visitForUpdate u
          ((GLSLGenerator.visitForCondition c
            ((GLSLGenerator.visitForInitialization init
              (g.indent.write "for (")).write "; ")).write "; ")).writeLine
                ") \x7b").increaseIndent)).decreaseIndent.indent).writeLine "\x7d" := by
  rcases init with _ | i <;> rcases c with _ | c <;> rcases u with _ | u
  all_goals first | rfl | (cases i <;> first | rfl | (cases u <;> rfl)) | (cases u <;> rfl)

theorem prepend_write (t s : String) (g : Generator) :
    (g.prepend t).write s = (g.write s).prepend t := by
  simp [Generator.prepend, Generator.write, String.append_assoc]

theorem prepend_indent (t : String) (g : Generator) :
    (g.prepend t).indent = g.indent.prepend t := by
  simp [Generator.indent, Generator.prepend, Generator.write, String.append_assoc]

theorem prepend_writeLine (t s : String) (g : Generator) :
    (g.prepend t).writeLine s = (g.writeLine s).prepend t := by
  simp [Generator.writeLine, prepend_indent, prepend_write]

theorem prepend_increaseIndent (t : String) (g : Generator) :
    (g.prepend t).increaseIndent = g.increaseIndent.prepend t := rfl

theorem prepend_decreaseIndent (t : String) (g : Generator) :
    (g.prepend t).decreaseIndent = g.decreaseIndent.prepend t := by
  unfold Generator.decreaseIndent
  by_cases h : g.indentLevel > 0 <;> simp [Generator.prepend, h]

theorem prepend_twice (a b : String) (g : Generator) :
    (g.prepend a).prepend b = g.prepend (b ++ a) := by
  simp [Generator.prepend, String.append_assoc]

theorem prepend_output (t : String) (g : Generator) :
    (g.prepend t).output = t ++ g.output := rfl

theorem prepend_kernel (t : String) (b : Bool) (g : Generator) :
    ({ g with inKernel := b } : Generator).prepend t = g.prepend t := rfl

theorem prepend_empty_of_kernel (g : Generator) (h : g.inKernel = false) :
    g.prepend "" = g := by
  cases g
  simp_all [Generator.prepend]

theorem level_decreaseIndent (g : Generator) :
    g.decreaseIndent.indentLevel = g.indentLevel - 1 := by
  unfold Generator.decreaseIndent
  split_ifs with h
  · rfl
  · omega

theorem level_write (g : Generator) (s : String) : (g.write s).indentLevel = g.indentLevel := rfl

theorem level_indent (g : Generator) : g.indent.indentLevel = g.indentLevel := rfl

theorem level_writeLine (g : Generator) (s : String) :
    (g.writeLine s).indentLevel = g.indentLevel := rfl

theorem level_increaseIndent (g : Generator) :
    g.increaseIndent.indentLevel = g.indentLevel + 1 := rfl

theorem level_prepend (t : String) (g : Generator) :
    (g.prepend t).indentLevel = g.indentLevel := rfl

theorem glsl_visitExpr_prepend (e : Expr) (t : String) (g : Generator) :
    GLSLGenerator.visitExpr e (g.prepend t) = (GLSLGenerator.visitExpr e g).prepend t := by
  rw [glsl_visitExpr_eq e (g.prepend t), glsl_visitExpr_eq e g, prepend_write]

theorem glsl_visitExpr_level (e : Expr) (g : Generator) :
    (GLSLGenerator.visitExpr e g).indentLevel = g.indentLevel := by
  rw [glsl_visitExpr_eq e g, level_write]

theorem glsl_visitHead_prepend (decl : VariableDeclaration) (t : String) (g : Generator) :
    GLSLGenerator.visitVariableDeclarationHead decl (g.prepend t) =
      (GLSLGenerator.visitVariableDeclarationHead decl g).prepend t := by
  unfold GLSLGenerator.visitVariableDeclarationHead
  cases decl.initializer <;> dsimp only <;> split_ifs <;>
    simp only [prepend_write, glsl_visitExpr_prepend]

theorem glsl_visitHead_level (decl : VariableDeclaration) (g : Generator) :
    (GLSLGenerator.visitVariableDeclarationHead decl g).indentLevel = g.indentLevel := by
  unfold GLSLGenerator.visitVariableDeclarationHead
  cases decl.initializer <;> dsimp only <;> split_ifs <;>
    simp only [level_write, glsl_visitExpr_level]

theorem glsl_visitParameters_prepend (t : String) : ∀ (ps : List VariableDeclaration) (i : Nat)
    (g : Generator), GLSLGenerator.visitParameters ps i (g.prepend t) =
      (GLSLGenerator.visitParameters ps i g).prepend t
  | [], _, _ => rfl
  | p :: ps, i, g => by
    simp only [GLSLGenerator.visitParameters]
    split_ifs <;> simp only [prepend_write, glsl_visitParameters_prepend t ps]

theorem glsl_visitParameters_level : ∀ (ps : List VariableDeclaration) (i : Nat)
    (g : Generator), (GLSLGenerator.visitParameters ps i g).indentLevel = g.indentLevel
  | [], _, _ => rfl
  | p :: ps, i, g => by
    simp only [GLSLGenerator.visitParameters]
    split_ifs <;> simp only [level_write, glsl_visitParameters_level ps]

theorem glsl_forCondition_prepend (c : Option Expr) (t : String) (g : Generator) :
    GLSLGenerator.visitForCondition c (g.prepend t) =
      (GLSLGenerator.visitForCondition c g).prepend t := by
  cases c <;> simp only [GLSLGenerator.visitForCondition, glsl_visitExpr_prepend]

theorem glsl_forCondition_level (c : Option Expr) (g : Generator) :
    (GLSLGenerator.visitForCondition c g).indentLevel = g.indentLevel := by
  cases c <;> simp only [GLSLGenerator.visitForCondition, glsl_visitExpr_level]

theorem glsl_forInitialization_prepend (i : Stmt) (t : String)
    (h : ∀ g : Generator, GLSLGenerator.visitStmt i (g.prepend t) =
      (GLSLGenerator.visitStmt i g).prepend t) (g : Generator) :
    GLSLGenerator.visitForInitialization (some i) (g.prepend t) =
      (GLSLGenerator.visitForInitialization (some i) g).prepend t := by
  unfold GLSLGenerator.visitForInitialization
  split
  · exact glsl_visitHead_prepend _ t g
  · rename_i j _ hj
    cases hj
    exact h g
  · rename_i hj
    cases hj

theorem glsl_forUpdate_prepend (u : Stmt) (t : String)
    (h : ∀ g : Generator, GLSLGenerator.visitStmt u (g.prepend t) =
      (GLSLGenerator.visitStmt u g).prepend t) (g : Generator) :
    GLSLGenerator.visitForUpdate (some u) (g.prepend t) =
      (GLSLGenerator.visitForUpdate (some u) g).prepend t := by
  unfold GLSLGenerator.visitForUpdate
  split
  · exact glsl_visitExpr_prepend _ t g
  · rename_i j _ hj
    cases hj
    exact h g
  · rename_i hj
    cases hj

theorem glsl_forInitialization_level (i : Stmt)
    (h : ∀ g : Generator, (GLSLGenerator.visitStmt i g).indentLevel = g.indentLevel)
    (g : Generator) :
    (GLSLGenerator.visitForInitialization (some i) g).indentLevel = g.indentLevel := by
  unfold GLSLGenerator.visitForInitialization
  split
  · exact glsl_visitHead_level _ g
  · rename_i j _ hj
    cases hj
    exact h g
  · rename_i hj
    cases hj

theorem glsl_forUpdate_level (u : Stmt)
    (h : ∀ g : Generator, (GLSLGenerator.visitStmt u g).indentLevel = g.indentLevel)
    (g : Generator) :
    (GLSLGenerator.visitForUpdate (some u) g).indentLevel = g.indentLevel := by
  unfold GLSLGenerator.visitForUpdate
  split
  · exact glsl_visitExpr_level _ g
  · rename_i j _ hj
    cases hj
    exact h g
  · rename_i hj
    cases hj

mutual
theorem glsl_visitStmt_prepend (t : String) : ∀ (s : Stmt) (g : Generator),
    GLSLGenerator.visitStmt s (g.prepend t) = (GLSLGenerator.visitStmt s g).prepend t
  | Stmt.ExpressionStatement e, g => by
    simp only [GLSLGenerator.visitStmt, prepend_indent, prepend_write, prepend_writeLine, prepend_increaseIndent,
      prepend_decreaseIndent, glsl_visitExpr_prepend]
  | Stmt.AssignmentStatement a b, g => by
    simp only [GLSLGenerator.visitStmt, prepend_indent, prepend_write, prepend_writeLine, prepend_increaseIndent,
      prepend_decreaseIndent, glsl_visitExpr_prepend]
  | Stmt.VariableDeclaration d, g => by
    simp only [GLSLGenerator.visitStmt, prepend_indent, prepend_write, prepend_writeLine, prepend_increaseIndent,
      prepend_decreaseIndent, glsl_visitExpr_prepend, glsl_visitHead_prepend]
  | Stmt.FunctionDeclaration name rt ps body, g => by
    simp only [GLSLGenerator.visitStmt]
    cases rt <;>
      simp only [prepend_indent, prepend_write, prepend_writeLine, prepend_increaseIndent,
      prepend_decreaseIndent, glsl_visitExpr_prepend,
        glsl_visitParameters_prepend, glsl_visitStmts_prepend t body]
  | Stmt.ShaderDeclaration name st body, g => by
    simp only [GLSLGenerator.visitStmt, prepend_indent, prepend_write, prepend_writeLine, prepend_increaseIndent,
      prepend_decreaseIndent, glsl_visitExpr_prepend, glsl_visitStmts_prepend t body]
  | Stmt.BlockStatement body, g => by
    simp only [GLSLGenerator.visitStmt, prepend_indent, prepend_write, prepend_writeLine, prepend_increaseIndent,
      prepend_decreaseIndent, glsl_visitExpr_prepend, glsl_visitStmts_prepend t body]
  | Stmt.IfStatement c th none, g => by
    simp only [GLSLGenerator.visitStmt, prepend_indent, prepend_write, prepend_writeLine, prepend_increaseIndent,
      prepend_decreaseIndent, glsl_visitExpr_prepend, glsl_visitStmt_prepend t th]
  | Stmt.IfStatement c th (some el), g => by
    simp only [GLSLGenerator.visitStmt, prepend_indent, prepend_write, prepend_writeLine, prepend_increaseIndent,
      prepend_decreaseIndent, glsl_visitExpr_prepend, glsl_visitStmt_prepend t th,
      glsl_visitStmt_prepend t el]
  | Stmt.ForStatement none c none body, g => by
    rw [glsl_visitStmt_for, glsl_visitStmt_for]
    simp only [prepend_indent, prepend_write, prepend_writeLine, prepend_increaseIndent,
      prepend_decreaseIndent, glsl_visitExpr_prepend,
      glsl_forCondition_prepend,
      glsl_visitStmt_prepend t body,
      GLSLGenerator.visitForInitialization,
      GLSLGenerator.visitForUpdate]
  | Stmt.ForStatement none c (some u) body, g => by
    rw [glsl_visitStmt_for, glsl_visitStmt_for]
    simp only [prepend_indent, prepend_write, prepend_writeLine, prepend_increaseIndent,
      prepend_decreaseIndent, glsl_visitExpr_prepend,
      glsl_forCondition_prepend,
      glsl_visitStmt_prepend t body,
      GLSLGenerator.visitForInitialization,
      glsl_forUpdate_prepend u t (glsl_visitStmt_prepend t u)]
  | Stmt.ForStatement (some i) c none body, g => by
    rw [glsl_visitStmt_for, glsl_visitStmt_for]
    simp only [prepend_indent, prepend_write, prepend_writeLine, prepend_increaseIndent,
      prepend_decreaseIndent, glsl_visitExpr_prepend,
      glsl_forCondition_prepend,
      glsl_visitStmt_prepend t body,
      glsl_forInitialization_prepend i t (glsl_visitStmt_prepend t i),
      GLSLGenerator.visitForUpdate]
  | Stmt.ForStatement (some i) c (some u) body, g => by
    rw [glsl_visitStmt_for, glsl_visitStmt_for]
    simp only [prepend_indent, prepend_write, prepend_writeLine, prepend_increaseIndent,
      prepend_decreaseIndent, glsl_visitExpr_prepend,
      glsl_forCondition_prepend,
      glsl_visitStmt_prepend t body,
      glsl_forInitialization_prepend i t (glsl_visitStmt_prepend t i),
      glsl_forUpdate_prepend u t (glsl_visitStmt_prepend t u)]
  | Stmt.WhileStatement c body, g => by
    simp only [GLSLGenerator.visitStmt, prepend_indent, prepend_write, prepend_writeLine, prepend_increaseIndent,
      prepend_decreaseIndent, glsl_visitExpr_prepend, glsl_visitStmt_prepend t body]
  | Stmt.ReturnStatement none, g => by
    simp only [GLSLGenerator.visitStmt, prepend_indent, prepend_write, prepend_writeLine, prepend_increaseIndent,
      prepend_decreaseIndent, glsl_visitExpr_prepend]
  | Stmt.ReturnStatement (some v), g => by
    simp only [GLSLGenerator.visitStmt, prepend_indent, prepend_write, prepend_writeLine, prepend_increaseIndent,
      prepend_decreaseIndent, glsl_visitExpr_prepend]
theorem glsl_visitStmts_prepend (t : String) : ∀ (l : List Stmt) (g : Generator),
    GLSLGenerator.visitStmts l (g.prepend t) = (GLSLGenerator.visitStmts l g).prepend t
  | [], _ => by simp only [GLSLGenerator.visitStmts]
  | s :: l, g => by
    simp only [GLSLGenerator.visitStmts, glsl_visitStmt_prepend t s, glsl_visitStmts_prepend t l]
end

mutual
theorem glsl_visitStmt_level : ∀ (s : Stmt) (g : Generator),
    (GLSLGenerator.visitStmt s g).indentLevel = g.indentLevel
  | Stmt.ExpressionStatement e, g => by
    simp only [GLSLGenerator.visitStmt, level_indent, level_write, level_writeLine, level_increaseIndent,
      level_decreaseIndent, glsl_visitExpr_level, Nat.add_sub_cancel]
  | Stmt.AssignmentStatement a b, g => by
    simp only [GLSLGenerator.visitStmt, level_indent, level_write, level_writeLine, level_increaseIndent,
      level_decreaseIndent, glsl_visitExpr_level, Nat.add_sub_cancel]
  | Stmt.VariableDeclaration d, g => by
    simp only [GLSLGenerator.visitStmt, level_indent, level_write, level_writeLine, level_increaseIndent,
      level_decreaseIndent, glsl_visitExpr_level, Nat.add_sub_cancel, glsl_visitHead_level]
  | Stmt.FunctionDeclaration name rt ps body, g => by
    simp only [GLSLGenerator.visitStmt]
    cases rt <;>
      simp only [level_indent, level_write, level_writeLine, level_increaseIndent,
      level_decreaseIndent, glsl_visitExpr_level, Nat.add_sub_cancel,
        glsl_visitParameters_level, glsl_visitStmts_level body]
  | Stmt.ShaderDeclaration name st body, g => by
    simp only [GLSLGenerator.visitStmt, level_indent, level_write, level_writeLine, level_increaseIndent,
      level_decreaseIndent, glsl_visitExpr_level, Nat.add_sub_cancel, glsl_visitStmts_level body]
  | Stmt.BlockStatement body, g => by
    simp only [GLSLGenerator.visitStmt, level_indent, level_write, level_writeLine, level_increaseIndent,
      level_decreaseIndent, glsl_visitExpr_level, Nat.add_sub_cancel, glsl_visitStmts_level body]
  | Stmt.IfStatement c th none, g => by
    simp only [GLSLGenerator.visitStmt, level_indent, level_write, level_writeLine, level_increaseIndent,
      level_decreaseIndent, glsl_visitExpr_level, Nat.add_sub_cancel, glsl_visitStmt_level th]
  | Stmt.IfStatement c th (some el), g => by
    simp only [GLSLGenerator.visitStmt, level_indent, level_write, level_writeLine, level_increaseIndent,
      level_decreaseIndent, glsl_visitExpr_level, Nat.add_sub_cancel, glsl_visitStmt_level th,
      glsl_visitStmt_level el]
  | Stmt.ForStatement none c none body, g => by
    rw [glsl_visitStmt_for]
    simp only [level_indent, level_write, level_writeLine, level_increaseIndent,
      level_decreaseIndent, glsl_visitExpr_level, Nat.add_sub_cancel,
      glsl_forCondition_level,
      glsl_visitStmt_level body,
      GLSLGenerator.visitForInitialization,
      GLSLGenerator.visitForUpdate]
  | Stmt.ForStatement none c (some u) body, g => by
    rw [glsl_visitStmt_for]
    simp only [level_indent, level_write, level_writeLine, level_increaseIndent,
      level_decreaseIndent, glsl_visitExpr_level, Nat.add_sub_cancel,
      glsl_forCondition_level,
      glsl_visitStmt_level body,
      GLSLGenerator.visitForInitialization,
      glsl_forUpdate_level u (glsl_visitStmt_level u)]
  | Stmt.ForStatement (some i) c none body, g => by
    rw [glsl_visitStmt_for]
    simp only [level_indent, level_write, level_writeLine, level_increaseIndent,
      level_decreaseIndent, glsl_visitExpr_level, Nat.add_sub_cancel,
      glsl_forCondition_level,
      glsl_visitStmt_level body,
      glsl_forInitialization_level i (glsl_visitStmt_level i),
      GLSLGenerator.visitForUpdate]
  | Stmt.ForStatement (some i) c (some u) body, g => by
    rw [glsl_visitStmt_for]
    simp only [level_indent, level_write, level_writeLine, level_increaseIndent,
      level_decreaseIndent, glsl_visitExpr_level, Nat.add_sub_cancel,
      glsl_forCondition_level,
      glsl_visitStmt_level body,
      glsl_forInitialization_level i (glsl_visitStmt_level i),
      glsl_forUpdate_level u (glsl_visitStmt_level u)]
  | Stmt.WhileStatement c body, g => by
    simp only [GLSLGenerator.visitStmt, level_indent, level_write, level_writeLine, level_increaseIndent,
      level_decreaseIndent, glsl_visitExpr_level, Nat.add_sub_cancel, glsl_visitStmt_level body]
  | Stmt.ReturnStatement none, g => by
    simp only [GLSLGenerator.visitStmt, level_indent, level_write, level_writeLine, level_increaseIndent,
      level_decreaseIndent, glsl_visitExpr_level, Nat.add_sub_cancel]
  | Stmt.ReturnStatement (some v), g => by
    simp only [GLSLGenerator.visitStmt, level_indent, level_write, level_writeLine, level_increaseIndent,
      level_decreaseIndent, glsl_visitExpr_level, Nat.add_sub_cancel]
theorem glsl_visitStmts_level : ∀ (l : List Stmt) (g : Generator),
    (GLSLGenerator.visitStmts l g).indentLevel = g.indentLevel
  | [], _ => by simp only [GLSLGenerator.visitStmts]
  | s :: l, g => by
    simp only [GLSLGenerator.visitStmts, glsl_visitStmt_level s, glsl_visitStmts_level l]
end

theorem cuda_visitExpr_prepend (e : Expr) (t : String) (g : Generator) :
    CUDAGenerator.visitExpr e (g.prepend t) = (CUDAGenerator.visitExpr e g).prepend t := by
  rw [cuda_visitExpr_eq e (g.prepend t), cuda_visitExpr_eq e g, prepend_write]

theorem cuda_visitExpr_level (e : Expr) (g : Generator) :
    (CUDAGenerator.visitExpr e g).indentLevel = g.indentLevel := by
  rw [cuda_visitExpr_eq e g, level_write]

theorem cuda_visitParameters_prepend (t : String) : ∀ (ps : List VariableDeclaration) (i : Nat)
    (g : Generator), CUDAGenerator.visitParameters ps i (g.prepend t) =
      (CUDAGenerator.visitParameters ps i g).prepend t
  | [], _, _ => rfl
  | p :: ps, i, g => by
    simp only [CUDAGenerator.visitParameters]
    split_ifs <;> simp only [prepend_write, cuda_visitParameters_prepend t ps]

theorem cuda_visitParameters_level : ∀ (ps : List VariableDeclaration) (i : Nat)
    (g : Generator), (CUDAGenerator.visitParameters ps i g).indentLevel = g.indentLevel
  | [], _, _ => rfl
  | p :: ps, i, g => by
    simp only [CUDAGenerator.visitParameters]
    split_ifs <;> simp only [level_write, cuda_visitParameters_level ps]

theorem kernel_body_prepend (F : Generator → Generator)
    (hF : ∀ (t : String) (g : Generator), F (g.prepend t) = (F g).prepend t)
    (t : String) (h : Generator) :
    ({ F { h.prepend t with inKernel := true } with inKernel := false } : Generator) =
      ({ F { h with inKernel := true } with inKernel := false } : Generator).prepend t := by
  have e1 : ∀ X : Generator, ({ X with inKernel := false } : Generator) = X.prepend "" := by
    intro X
    simp [Generator.prepend]
  rw [e1, e1, prepend_twice, ← hF, ← hF]
  congr 1
  simp [Generator.prepend]

mutual
theorem cuda_visitStmt_prepend : ∀ (s : Stmt) (t : String) (g : Generator),
    CUDAGenerator.visitStmt s (g.prepend t) = (CUDAGenerator.visitStmt s g).prepend t
  | Stmt.ExpressionStatement e, t, g => by
    simp only [CUDAGenerator.visitStmt, prepend_indent, prepend_write, prepend_writeLine, prepend_increaseIndent,
      prepend_decreaseIndent, cuda_visitExpr_prepend]
  | Stmt.AssignmentStatement a b, t, g => by
    simp only [CUDAGenerator.visitStmt, prepend_indent, prepend_write, prepend_writeLine, prepend_increaseIndent,
      prepend_decreaseIndent, cuda_visitExpr_prepend]
  | Stmt.VariableDeclaration d, t, g => by
    simp only [CUDAGenerator.visitStmt]
    cases d.initializer <;> dsimp only <;> split_ifs <;>
      simp only [prepend_indent, prepend_write, prepend_writeLine, prepend_increaseIndent,
      prepend_decreaseIndent, cuda_visitExpr_prepend]
  | Stmt.FunctionDeclaration name rt ps body, t, g => by
    simp only [CUDAGenerator.visitStmt]
    cases rt <;>
      simp only [prepend_indent, prepend_write, prepend_writeLine, prepend_increaseIndent,
      prepend_decreaseIndent, cuda_visitExpr_prepend,
        cuda_visitParameters_prepend, cuda_visitStmts_prepend body t]
  | Stmt.ShaderDeclaration name st body, t, g => by
    simp only [CUDAGenerator.visitStmt]
    split_ifs <;>
      simp only [prepend_writeLine, prepend_increaseIndent, prepend_decreaseIndent,
        kernel_body_prepend (CUDAGenerator.visitStmts body)
          (fun t g => cuda_visitStmts_prepend body t g)]
  | Stmt.BlockStatement body, t, g => by
    simp only [CUDAGenerator.visitStmt, prepend_indent, prepend_write, prepend_writeLine, prepend_increaseIndent,
      prepend_decreaseIndent, cuda_visitExpr_prepend, cuda_visitStmts_prepend body t]
  | Stmt.IfStatement c th el, t, g => by
    simp only [CUDAGenerator.visitStmt, prepend_indent, prepend_write, prepend_writeLine, prepend_increaseIndent,
      prepend_decreaseIndent, cuda_visitExpr_prepend]
  | Stmt.ForStatement none none none body, t, g => by
    simp only [CUDAGenerator.visitStmt, prepend_indent, prepend_write, prepend_writeLine, prepend_increaseIndent,
      prepend_decreaseIndent, cuda_visitExpr_prepend, cuda_visitStmt_prepend body t]
  | Stmt.ForStatement none none (some u) body, t, g => by
    simp only [CUDAGenerator.visitStmt, prepend_indent, prepend_write, prepend_writeLine, prepend_increaseIndent,
      prepend_decreaseIndent, cuda_visitExpr_prepend, cuda_visitStmt_prepend body t,
      cuda_visitStmt_prepend u t]
  | Stmt.ForStatement none (some c) none body, t, g => by
    simp only [CUDAGenerator.visitStmt, prepend_indent, prepend_write, prepend_writeLine, prepend_increaseIndent,
      prepend_decreaseIndent, cuda_visitExpr_prepend, cuda_visitStmt_prepend body t]
  | Stmt.ForStatement none (some c) (some u) body, t, g => by
    simp only [CUDAGenerator.visitStmt, prepend_indent, prepend_write, prepend_writeLine, prepend_increaseIndent,
      prepend_decreaseIndent, cuda_visitExpr_prepend, cuda_visitStmt_prepend body t,
      cuda_visitStmt_prepend u t]
  | Stmt.ForStatement (some i) none none body, t, g => by
    simp only [CUDAGenerator.visitStmt, prepend_indent, prepend_write, prepend_writeLine, prepend_increaseIndent,
      prepend_decreaseIndent, cuda_visitExpr_prepend, cuda_visitStmt_prepend body t,
      cuda_visitStmt_prepend i t]
  | Stmt.ForStatement (some i) none (some u) body, t, g => by
    simp only [CUDAGenerator.visitStmt, prepend_indent, prepend_write, prepend_writeLine, prepend_increaseIndent,
      prepend_decreaseIndent, cuda_visitExpr_prepend, cuda_visitStmt_prepend body t,
      cuda_visitStmt_prepend i t,
      cuda_visitStmt_prepend u t]
  | Stmt.ForStatement (some i) (some c) none body, t, g => by
    simp only [CUDAGenerator.visitStmt, prepend_indent, prepend_write, prepend_writeLine, prepend_increaseIndent,
      prepend_decreaseIndent, cuda_visitExpr_prepend, cuda_visitStmt_prepend body t,
      cuda_visitStmt_prepend i t]
  | Stmt.ForStatement (some i) (some c) (some u) body, t, g => by
    simp only [CUDAGenerator.visitStmt, prepend_indent, prepend_write, prepend_writeLine, prepend_increaseIndent,
      prepend_decreaseIndent, cuda_visitExpr_prepend, cuda_visitStmt_prepend body t,
      cuda_visitStmt_prepend i t,
      cuda_visitStmt_prepend u t]
  | Stmt.WhileStatement c body, t, g => by
    simp only [CUDAGenerator.visitStmt, prepend_indent, prepend_write, prepend_writeLine, prepend_increaseIndent,
      prepend_decreaseIndent, cuda_visitExpr_prepend, cuda_visitStmt_prepend body t]
  | Stmt.ReturnStatement v, t, g => by
    simp only [CUDAGenerator.visitStmt, prepend_indent, prepend_write, prepend_writeLine, prepend_increaseIndent,
      prepend_decreaseIndent, cuda_visitExpr_prepend]
theorem cuda_visitStmts_prepend : ∀ (l : List Stmt) (t : String) (g : Generator),
    CUDAGenerator.visitStmts l (g.prepend t) = (CUDAGenerator.visitStmts l g).prepend t
  | [], _, _ => by simp only [CUDAGenerator.visitStmts]
  | s :: l, t, g => by
    simp only [CUDAGenerator.visitStmts, cuda_visitStmt_prepend s t, cuda_visitStmts_prepend l t]
end

mutual
theorem cuda_visitStmt_level : ∀ (s : Stmt) (g : Generator),
    (CUDAGenerator.visitStmt s g).indentLevel = g.indentLevel
  | Stmt.ExpressionStatement e, g => by
    simp only [CUDAGenerator.visitStmt, level_indent, level_write, level_writeLine, level_increaseIndent,
      level_decreaseIndent, cuda_visitExpr_level, Nat.add_sub_cancel]
  | Stmt.AssignmentStatement a b, g => by
    simp only [CUDAGenerator.visitStmt, level_indent, level_write, level_writeLine, level_increaseIndent,
      level_decreaseIndent, cuda_visitExpr_level, Nat.add_sub_cancel]
  | Stmt.VariableDeclaration d, g => by
    simp only [CUDAGenerator.visitStmt]
    cases d.initializer <;> dsimp only <;> split_ifs <;>
      simp only [level_indent, level_write, level_writeLine, level_increaseIndent,
      level_decreaseIndent, cuda_visitExpr_level, Nat.add_sub_cancel]
  | Stmt.FunctionDeclaration name rt ps body, g => by
    simp only [CUDAGenerator.visitStmt]
    cases rt <;>
      simp only [level_indent, level_write, level_writeLine, level_increaseIndent,
      level_decreaseIndent, cuda_visitExpr_level, Nat.add_sub_cancel,
        cuda_visitParameters_level, cuda_visitStmts_level body]
  | Stmt.ShaderDeclaration name st body, g => by
    simp only [CUDAGenerator.visitStmt]
    split_ifs <;>
      simp only [level_indent, level_write, level_writeLine, level_increaseIndent,
      level_decreaseIndent, cuda_visitExpr_level, Nat.add_sub_cancel,
        cuda_visitStmts_level body]
  | Stmt.BlockStatement body, g => by
    simp only [CUDAGenerator.visitStmt, level_indent, level_write, level_writeLine, level_increaseIndent,
      level_decreaseIndent, cuda_visitExpr_level, Nat.add_sub_cancel, cuda_visitStmts_level body]
  | Stmt.IfStatement c th el, g => by
    simp only [CUDAGenerator.visitStmt, level_indent, level_write, level_writeLine, level_increaseIndent,
      level_decreaseIndent, cuda_visitExpr_level, Nat.add_sub_cancel]
  | Stmt.ForStatement none none none body, g => by
    simp only [CUDAGenerator.visitStmt, level_indent, level_write, level_writeLine, level_increaseIndent,
      level_decreaseIndent, cuda_visitExpr_level, Nat.add_sub_cancel, cuda_visitStmt_level body]
  | Stmt.ForStatement none none (some u) body, g => by
    simp only [CUDAGenerator.visitStmt, level_indent, level_write, level_writeLine, level_increaseIndent,
      level_decreaseIndent, cuda_visitExpr_level, Nat.add_sub_cancel, cuda_visitStmt_level body,
      cuda_visitStmt_level u]
  | Stmt.ForStatement none (some c) none body, g => by
    simp only [CUDAGenerator.visitStmt, level_indent, level_write, level_writeLine, level_increaseIndent,
      level_decreaseIndent, cuda_visitExpr_level, Nat.add_sub_cancel, cuda_visitStmt_level body]
  | Stmt.ForStatement none (some c) (some u) body, g => by
    simp only [CUDAGenerator.visitStmt, level_indent, level_write, level_writeLine, level_increaseIndent,
      level_decreaseIndent, cuda_visitExpr_level, Nat.add_sub_cancel, cuda_visitStmt_level body,
      cuda_visitStmt_level u]
  | Stmt.ForStatement (some i) none none body, g => by
    simp only [CUDAGenerator.visitStmt, level_indent, level_write, level_writeLine, level_increaseIndent,
      level_decreaseIndent, cuda_visitExpr_level, Nat.add_sub_cancel, cuda_visitStmt_level body,
      cuda_visitStmt_level i]
  | Stmt.ForStatement (some i) none (some u) body, g => by
    simp only [CUDAGenerator.visitStmt, level_indent, level_write, level_writeLine, level_increaseIndent,
      level_decreaseIndent, cuda_visitExpr_level, Nat.add_sub_cancel, cuda_visitStmt_level body,
      cuda_visitStmt_level i,
      cuda_visitStmt_level u]
  | Stmt.ForStatement (some i) (some c) none body, g => by
    simp only [CUDAGenerator.visitStmt, level_indent, level_write, level_writeLine, level_increaseIndent,
      level_decreaseIndent, cuda_visitExpr_level, Nat.add_sub_cancel, cuda_visitStmt_level body,
      cuda_visitStmt_level i]
  | Stmt.ForStatement (some i) (some c) (some u) body, g => by
    simp only [CUDAGenerator.visitStmt, level_indent, level_write, level_writeLine, level_increaseIndent,
      level_decreaseIndent, cuda_visitExpr_level, Nat.add_sub_cancel, cuda_visitStmt_level body,
      cuda_visitStmt_level i,
      cuda_visitStmt_level u]
  | Stmt.WhileStatement c body, g => by
    simp only [CUDAGenerator.visitStmt, level_indent, level_write, level_writeLine, level_increaseIndent,
      level_decreaseIndent, cuda_visitExpr_level, Nat.add_sub_cancel, cuda_visitStmt_level body]
  | Stmt.ReturnStatement v, g => by
    simp only [CUDAGenerator.visitStmt, level_indent, level_write, level_writeLine, level_increaseIndent,
      level_decreaseIndent, cuda_visitExpr_level, Nat.add_sub_cancel]
theorem cuda_visitStmts_level : ∀ (l : List Stmt) (g : Generator),
    (CUDAGenerator.visitStmts l g).indentLevel = g.indentLevel
  | [], _ => by simp only [CUDAGenerator.visitStmts]
  | s :: l, g => by
    simp only [CUDAGenerator.visitStmts, cuda_visitStmt_level s, cuda_visitStmts_level l]
end

theorem glsl_visitStmts_append (a b : List Stmt) (g : Generator) :
    GLSLGenerator.visitStmts (a ++ b) g =
      GLSLGenerator.visitStmts b (GLSLGenerator.visitStmts a g) := by
  induction a generalizing g with
  | nil => simp only [List.nil_append, GLSLGenerator.visitStmts]
  | cons s a ih =>
    simp only [List.cons_append, GLSLGenerator.visitStmts]
    exact ih _

theorem cuda_visitStmts_append (a b : List Stmt) (g : Generator) :
    CUDAGenerator.visitStmts (a ++ b) g =
      CUDAGenerator.visitStmts b (CUDAGenerator.visitStmts a g) := by
  induction a generalizing g with
  | nil => simp only [List.nil_append, CUDAGenerator.visitStmts]
  | cons s a ih =>
    simp only [List.cons_append, CUDAGenerator.visitStmts]
    exact ih _

theorem prepend_of_level (t : String) (g : Generator) (h : g.indentLevel = 0) :
    g.prepend t = ({} : Generator).prepend (t ++ g.output) := by
  cases g
  simp_all [Generator.prepend]

theorem string_drop_append (a b : String) : (a ++ b).drop a.length = b := by
  rw [String.drop_eq]
  show (String.mk ((a ++ b).data.drop a.data.length)) = b
  rw [String.data_append, List.drop_left]

theorem glsl_preamble_of_level (g : Generator) (h : g.indentLevel = 0) :
    (GLSLGenerator.generatePreamble { g with output := "" }).prepend "" =
      ({} : Generator).prepend "#version 330 core\n\n" := by
  cases g
  simp only at h
  subst h
  rfl

theorem cuda_preamble_of_level (g : Generator) (h : g.indentLevel = 0) :
    (CUDAGenerator.generatePreamble { g with output := "" }).prepend "" =
      ({} : Generator).prepend
        "#include <cuda_runtime.h>\n#include <device_launch_parameters.h>\n\n" := by
  cases g
  simp only at h
  subst h
  rfl

theorem output_prepend_empty (g : Generator) : (g.prepend "").output = g.output := by
  simp [Generator.prepend]

theorem glsl_generate_text (g : Generator) (h : g.indentLevel = 0) (p : Program) :
    (GLSLGenerator.generate g p).1 =
      "#version 330 core\n\n" ++ (GLSLGenerator.visitStmts p.declarations {}).output := by
  simp only [GLSLGenerator.generate, GLSLGenerator.generatePostamble, GLSLGenerator.visitProgram]
  rw [← output_prepend_empty, ← glsl_visitStmts_prepend, glsl_preamble_of_level g h,
    glsl_visitStmts_prepend, prepend_output]

theorem cuda_generate_text (g : Generator) (h : g.indentLevel = 0) (p : Program) :
    (CUDAGenerator.generate g p).1 =
      "#include <cuda_runtime.h>\n#include <device_launch_parameters.h>\n\n" ++
        (CUDAGenerator.visitStmts p.declarations {}).output := by
  simp only [CUDAGenerator.generate, CUDAGenerator.generatePostamble, CUDAGenerator.visitProgram]
  rw [← output_prepend_empty, ← cuda_visitStmts_prepend, cuda_preamble_of_level g h,
    cuda_visitStmts_prepend, prepend_output]

theorem glsl_generate_level (g : Generator) (p : Program) :
    (GLSLGenerator.generate g p).2.indentLevel = g.indentLevel := by
  simp only [GLSLGenerator.generate, GLSLGenerator.generatePostamble, GLSLGenerator.visitProgram,
    GLSLGenerator.generatePreamble, glsl_visitStmts_level, level_writeLine]

theorem cuda_generate_level (g : Generator) (p : Program) :
    (CUDAGenerator.generate g p).2.indentLevel = g.indentLevel := by
  simp only [CUDAGenerator.generate, CUDAGenerator.generatePostamble, CUDAGenerator.visitProgram,
    CUDAGenerator.generatePreamble, cuda_visitStmts_level, level_writeLine]

theorem glsl_text_append (ds1 ds2 : List Stmt) :
    (GLSLGenerator.visitStmts (ds1 ++ ds2) {}).output =
      (GLSLGenerator.visitStmts ds1 {}).output ++ (GLSLGenerator.visitStmts ds2 {}).output := by
  have h := glsl_visitStmts_level ds1 {}
  rw [glsl_visitStmts_append, ← output_prepend_empty (GLSLGenerator.visitStmts ds1 {}),
    ← output_prepend_empty, ← glsl_visitStmts_prepend, prepend_of_level _ _ h,
    glsl_visitStmts_prepend, prepend_output, prepend_output]
  simp

theorem cuda_text_append (ds1 ds2 : List Stmt) :
    (CUDAGenerator.visitStmts (ds1 ++ ds2) {}).output =
      (CUDAGenerator.visitStmts ds1 {}).output ++ (CUDAGenerator.visitStmts ds2 {}).output := by
  have h := cuda_visitStmts_level ds1 {}
  rw [cuda_visitStmts_append, ← output_prepend_empty (CUDAGenerator.visitStmts ds1 {}),
    ← output_prepend_empty, ← cuda_visitStmts_prepend, prepend_of_level _ _ h,
    cuda_visitStmts_prepend, prepend_output, prepend_output]
  simp

mutual
theorem cuda_visitStmt_delete : ∀ (s : Stmt) (g : Generator),
    CUDAGenerator.visitStmt (deleteIfReturn s) g = CUDAGenerator.visitStmt s g
  | Stmt.ExpressionStatement e, g => by simp only [deleteIfReturn]
  | Stmt.AssignmentStatement a b, g => by simp only [deleteIfReturn]
  | Stmt.VariableDeclaration d, g => by simp only [deleteIfReturn]
  | Stmt.FunctionDeclaration name rt ps body, g => by
    simp only [deleteIfReturn, CUDAGenerator.visitStmt, cuda_visitStmts_delete body]
  | Stmt.ShaderDeclaration name st body, g => by
    simp only [deleteIfReturn, CUDAGenerator.visitStmt, cuda_visitStmts_delete body]
  | Stmt.BlockStatement body, g => by
    simp only [deleteIfReturn, CUDAGenerator.visitStmt, cuda_visitStmts_delete body]
  | Stmt.IfStatement c th el, g => by simp only [deleteIfReturn]
  | Stmt.ForStatement i c u body, g => by
    rcases i with _ | i <;> rcases c with _ | c <;> rcases u with _ | u <;>
      simp only [deleteIfReturn, CUDAGenerator.visitStmt, cuda_visitStmt_delete body]
  | Stmt.WhileStatement c body, g => by
    simp only [deleteIfReturn, CUDAGenerator.visitStmt, cuda_visitStmt_delete body]
  | Stmt.ReturnStatement v, g => by simp only [deleteIfReturn]
theorem cuda_visitStmts_delete : ∀ (l : List Stmt) (g : Generator),
    CUDAGenerator.visitStmts (deleteIfReturnList l) g = CUDAGenerator.visitStmts l g
  | [], g => by simp only [deleteIfReturnList]
  | Stmt.IfStatement _ _ _ :: rest, g => by
    simp only [deleteIfReturnList, CUDAGenerator.visitStmts, CUDAGenerator.visitStmt,
      cuda_visitStmts_delete rest]
  | Stmt.ReturnStatement _ :: rest, g => by
    simp only [deleteIfReturnList, CUDAGenerator.visitStmts, CUDAGenerator.visitStmt,
      cuda_visitStmts_delete rest]
  | Stmt.ExpressionStatement e :: rest, g => by
    simp only [deleteIfReturnList, CUDAGenerator.visitStmts, cuda_visitStmts_delete rest]
  | Stmt.AssignmentStatement a b :: rest, g => by
    simp only [deleteIfReturnList, CUDAGenerator.visitStmts, cuda_visitStmts_delete rest]
  | Stmt.VariableDeclaration d :: rest, g => by
    simp only [deleteIfReturnList, CUDAGenerator.visitStmts, cuda_visitStmts_delete rest]
  | Stmt.FunctionDeclaration name rt ps body :: rest, g => by
    simp only [deleteIfReturnList, CUDAGenerator.visitStmts, cuda_visitStmts_delete rest,
      CUDAGenerator.visitStmt, cuda_visitStmts_delete body]
  | Stmt.ShaderDeclaration name st body :: rest, g => by
    simp only [deleteIfReturnList, CUDAGenerator.visitStmts, cuda_visitStmts_delete rest,
      CUDAGenerator.visitStmt, cuda_visitStmts_delete body]
  | Stmt.BlockStatement body :: rest, g => by
    simp only [deleteIfReturnList, CUDAGenerator.visitStmts, cuda_visitStmts_delete rest,
      CUDAGenerator.visitStmt, cuda_visitStmts_delete body]
  | Stmt.ForStatement i c u body :: rest, g => by
    have h := cuda_visitStmt_delete (Stmt.ForStatement i c u body)
    simp only [deleteIfReturn] at h
    simp only [deleteIfReturnList, CUDAGenerator.visitStmts, cuda_visitStmts_delete rest, h]
  | Stmt.WhileStatement c body :: rest, g => by
    simp only [deleteIfReturnList, CUDAGenerator.visitStmts, cuda_visitStmts_delete rest,
      CUDAGenerator.visitStmt, cuda_visitStmt_delete body]
end

theorem cuda_shader_text (n : String) (st : ShaderType) :
    (CUDAGenerator.visitStmts [Stmt.ShaderDeclaration n st []] {}).output =
      "// CUDA Kernel: " ++ n ++ "\n" ++ CUDAGenerator.generateKernelSignature n st ++ " \x7b\n" ++
        (if st = ShaderType.COMPUTE then
          "    // Thread indexing\n" ++
          "    int idx = blockIdx.x * blockDim.x + threadIdx.x;\n" ++
          "    int idy = blockIdx.y * blockDim.y + threadIdx.y;\n" ++
          "    \n" else "") ++ "\x7d\n" ++ "\n" := by
  cases st <;>
    simp [CUDAGenerator.visitStmts, CUDAGenerator.visitStmt, Generator.writeLine,
      Generator.indent, Generator.write, Generator.increaseIndent, Generator.decreaseIndent,
      Generator.indentText, String.append_assoc]

/-- C26.  For every program `p`, the text that `generate` of a fresh GLSL
generator returns is the line `#version 330 core`, an empty line, and then the
text that visiting `p` writes; the text of a fresh CUDA generator is the lines
`#include <cuda_runtime.h>` and `#include <device_launch_parameters.h>`, an
empty line, and then the text that visiting `p` writes.  For the program
without declarations the two texts are exactly these preambles. -/
theorem generate_preamble (p : Program) :
    (GLSLGenerator.generate {} p).1 =
      "#version 330 core\n" ++ "\n" ++ (GLSLGenerator.visitProgram p {}).output ∧
    (CUDAGenerator.generate {} p).1 =
      "#include <cuda_runtime.h>\n" ++ "#include <device_launch_parameters.h>\n" ++ "\n" ++
        (CUDAGenerator.visitProgram p {}).output ∧
    (GLSLGenerator.generate {} { declarations := [] }).1 = "#version 330 core\n" ++ "\n" ∧
    (CUDAGenerator.generate {} { declarations := [] }).1 =
      "#include <cuda_runtime.h>\n" ++ "#include <device_launch_parameters.h>\n" ++ "\n" :=
  ⟨glsl_generate_text {} rfl p, cuda_generate_text {} rfl p, rfl, rfl⟩

theorem glsl_text_in_order (ds : List Stmt) :
    (GLSLGenerator.visitStmts ds {}).output =
      ds.foldr (fun d t => (GLSLGenerator.visitStmt d {}).output ++ t) "" := by
  induction ds with
  | nil => rfl
  | cons d ds ih =>
    have h := glsl_text_append [d] ds
    simp only [List.singleton_append] at h
    rw [h, ih]
    simp only [GLSLGenerator.visitStmts, List.foldr_cons]

theorem cuda_text_in_order (ds : List Stmt) :
    (CUDAGenerator.visitStmts ds {}).output =
      ds.foldr (fun d t => (CUDAGenerator.visitStmt d {}).output ++ t) "" := by
  induction ds with
  | nil => rfl
  | cons d ds ih =>
    have h := cuda_text_append [d] ds
    simp only [List.singleton_append] at h
    rw [h, ih]
    simp only [CUDAGenerator.visitStmts, List.foldr_cons]

/-- C27.  For both backends and every declaration list `ds`, the text generated
for the program `ds` is the preamble followed by the texts of the declarations
in list order, where the text of a declaration is what its visit writes in a
fresh generator, independently of the declarations around it.  So two
expression statements `a;` and `b;` are emitted in the order in which the list
holds them.  For all lists `ds1` and `ds2` the text generated for the program
`ds1 ++ ds2` is the text generated for the program `ds1` followed by the text
generated for the program `ds2` without its preamble (the characters of
`#version 330 core` and the empty line for GLSL, those of the two include lines
and the empty line for CUDA). -/
theorem generate_in_list_order (ds ds1 ds2 : List Stmt) :
    (GLSLGenerator.generate {} { declarations := ds }).1 =
      "#version 330 core\n" ++ "\n" ++
        ds.foldr (fun d t => (GLSLGenerator.visitStmt d {}).output ++ t) "" ∧
    (CUDAGenerator.generate {} { declarations := ds }).1 =
      "#include <cuda_runtime.h>\n" ++ "#include <device_launch_parameters.h>\n" ++ "\n" ++
        ds.foldr (fun d t => (CUDAGenerator.visitStmt d {}).output ++ t) "" ∧
    ((GLSLGenerator.generate {} { declarations := [Stmt.ExpressionStatement (Expr.Identifier "a"),
        Stmt.ExpressionStatement (Expr.Identifier "b")] }).1 = "#version 330 core\n\na;\nb;\n" ∧
      (GLSLGenerator.generate {} { declarations := [Stmt.ExpressionStatement (Expr.Identifier "b"),
        Stmt.ExpressionStatement (Expr.Identifier "a")] }).1 = "#version 330 core\n\nb;\na;\n" ∧
      (CUDAGenerator.generate {} { declarations := [Stmt.ExpressionStatement (Expr.Identifier "a"),
        Stmt.ExpressionStatement (Expr.Identifier "b")] }).1 =
        "#include <cuda_runtime.h>\n#include <device_launch_parameters.h>\n\na;\nb;\n" ∧
      (CUDAGenerator.generate {} { declarations := [Stmt.ExpressionStatement (Expr.Identifier "b"),
        Stmt.ExpressionStatement (Expr.Identifier "a")] }).1 =
        "#include <cuda_runtime.h>\n#include <device_launch_parameters.h>\n\nb;\na;\n") ∧
    (GLSLGenerator.generate {} { declarations := ds1 ++ ds2 }).1 =
      (GLSLGenerator.generate {} { declarations := ds1 }).1 ++
        ((GLSLGenerator.generate {} { declarations := ds2 }).1.drop
          ("#version 330 core\n" ++ "\n").length) ∧
    (CUDAGenerator.generate {} { declarations := ds1 ++ ds2 }).1 =
      (CUDAGenerator.generate {} { declarations := ds1 }).1 ++
        ((CUDAGenerator.generate {} { declarations := ds2 }).1.drop
          ("#include <cuda_runtime.h>\n" ++ "#include <device_launch_parameters.h>\n" ++
            "\n").length) := by
  refine ⟨?_, ?_, ⟨rfl, rfl, rfl, rfl⟩, ?_, ?_⟩
  · rw [glsl_generate_text {} rfl, glsl_text_in_order]
    rfl
  · rw [cuda_generate_text {} rfl, cuda_text_in_order]
    rfl
  · rw [glsl_generate_text {} rfl, glsl_generate_text {} rfl, glsl_generate_text {} rfl]
    simp only [glsl_text_append]
    rw [show ("#version 330 core\n" ++ "\n" : String) = "#version 330 core\n\n" from rfl,
      string_drop_append, String.append_assoc]
  · rw [cuda_generate_text {} rfl, cuda_generate_text {} rfl, cuda_generate_text {} rfl]
    simp only [cuda_text_append]
    rw [show ("#include <cuda_runtime.h>\n" ++ "#include <device_launch_parameters.h>\n" ++
        "\n" : String) =
        "#include <cuda_runtime.h>\n#include <device_launch_parameters.h>\n\n" from rfl,
      string_drop_append, String.append_assoc]

/-- C28.  For both backends, every generator `g` whose indentation level is
zero (as it is after construction and after every call of `generate`) and all
programs `p` and `q`: after `generate(q)` the indentation level is zero again,
and `generate(p)` on the generator left by `generate(q)` returns exactly the
text that a fresh generator returns for `p`, whatever `generate(q)` wrote and
whatever text `g` held before. -/
theorem generate_clean_state (g : Generator) (p q : Program) (h : g.indentLevel = 0) :
    ((GLSLGenerator.generate (GLSLGenerator.generate g q).2 p).1 =
        (GLSLGenerator.generate {} p).1 ∧
      (GLSLGenerator.generate g q).2.indentLevel = 0 ∧
      (GLSLGenerator.generate (GLSLGenerator.generate g q).2 p).2.indentLevel = 0) ∧
    ((CUDAGenerator.generate (CUDAGenerator.generate g q).2 p).1 =
        (CUDAGenerator.generate {} p).1 ∧
      (CUDAGenerator.generate g q).2.indentLevel = 0 ∧
      (CUDAGenerator.generate (CUDAGenerator.generate g q).2 p).2.indentLevel = 0) := by
  have h1 : (GLSLGenerator.generate g q).2.indentLevel = 0 := by rw [glsl_generate_level, h]
  have h2 : (CUDAGenerator.generate g q).2.indentLevel = 0 := by rw [cuda_generate_level, h]
  refine ⟨⟨?_, h1, ?_⟩, ?_, h2, ?_⟩
  · rw [glsl_generate_text _ h1, glsl_generate_text {} rfl]
  · rw [glsl_generate_level, h1]
  · rw [cuda_generate_text _ h2, cuda_generate_text {} rfl]
  · rw [cuda_generate_level, h2]

theorem generate_clean_state_witness :
    ({ output := "old", inKernel := true } : Generator).indentLevel = 0 ∧
    ((GLSLGenerator.generate (GLSLGenerator.generate { output := "old", inKernel := true }
          { declarations := [Stmt.ShaderDeclaration "s" ShaderType.COMPUTE []] }).2
        { declarations := [Stmt.ReturnStatement none] }).1 =
        (GLSLGenerator.generate {} { declarations := [Stmt.ReturnStatement none] }).1 ∧
      (GLSLGenerator.generate { output := "old", inKernel := true }
        { declarations := [Stmt.ShaderDeclaration "s" ShaderType.COMPUTE []] }).2.indentLevel = 0 ∧
      (GLSLGenerator.generate (GLSLGenerator.generate { output := "old", inKernel := true }
          { declarations := [Stmt.ShaderDeclaration "s" ShaderType.COMPUTE []] }).2
        { declarations := [Stmt.ReturnStatement none] }).2.indentLevel = 0) ∧
    ((CUDAGenerator.generate (CUDAGenerator.generate { output := "old", inKernel := true }
          { declarations := [Stmt.ShaderDeclaration "s" ShaderType.COMPUTE []] }).2
        { declarations := [Stmt.ReturnStatement none] }).1 =
        (CUDAGenerator.generate {} { declarations := [Stmt.ReturnStatement none] }).1 ∧
      (CUDAGenerator.generate { output := "old", inKernel := true }
        { declarations := [Stmt.ShaderDeclaration "s" ShaderType.COMPUTE []] }).2.indentLevel = 0 ∧
      (CUDAGenerator.generate (CUDAGenerator.generate { output := "old", inKernel := true }
          { declarations := [Stmt.ShaderDeclaration "s" ShaderType.COMPUTE []] }).2
        { declarations := [Stmt.ReturnStatement none] }).2.indentLevel = 0) :=
  ⟨rfl, generate_clean_state { output := "old", inKernel := true }
    { declarations := [Stmt.ReturnStatement none] }
    { declarations := [Stmt.ShaderDeclaration "s" ShaderType.COMPUTE []] } rfl⟩

/-- C29.  For every shader name `n` and all declarations `ds` before it, the
CUDA text of the program `ds` followed by a `ShaderDeclaration` named `n` with
an empty body is the text of the program `ds` followed by the line
`// CUDA Kernel: n`, the line `__global__ void n_kernel(P) {`, for compute the
four lines `    // Thread indexing`,
`    int idx = blockIdx.x * blockDim.x + threadIdx.x;`,
`    int idy = blockIdx.y * blockDim.y + threadIdx.y;` and a line of four
blanks, then the line `}` and an empty line; `P` is
`float* vertices, float* output, int numVertices` for vertex,
`float* pixels, int width, int height` for fragment and
`float* input, float* output, int width, int height` for compute. -/
theorem cuda_empty_shader (n : String) (ds : List Stmt) :
    (CUDAGenerator.generate {}
        { declarations := ds ++ [Stmt.ShaderDeclaration n ShaderType.VERTEX []] }).1 =
      (CUDAGenerator.generate {} { declarations := ds }).1 ++
        ("// CUDA Kernel: " ++ n ++ "\n" ++
          "__global__ void " ++ n ++
            "_kernel(float* vertices, float* output, int numVertices) \x7b\n" ++
          "\x7d\n" ++ "\n") ∧
    (CUDAGenerator.generate {}
        { declarations := ds ++ [Stmt.ShaderDeclaration n ShaderType.FRAGMENT []] }).1 =
      (CUDAGenerator.generate {} { declarations := ds }).1 ++
        ("// CUDA Kernel: " ++ n ++ "\n" ++
          "__global__ void " ++ n ++ "_kernel(float* pixels, int width, int height) \x7b\n" ++
          "\x7d\n" ++ "\n") ∧
    (CUDAGenerator.generate {}
        { declarations := ds ++ [Stmt.ShaderDeclaration n ShaderType.COMPUTE []] }).1 =
      (CUDAGenerator.generate {} { declarations := ds }).1 ++
        ("// CUDA Kernel: " ++ n ++ "\n" ++
          "__global__ void " ++ n ++
            "_kernel(float* input, float* output, int width, int height) \x7b\n" ++
          "    // Thread indexing\n" ++
          "    int idx = blockIdx.x * blockDim.x + threadIdx.x;\n" ++
          "    int idy = blockIdx.y * blockDim.y + threadIdx.y;\n" ++
          "    \n" ++
          "\x7d\n" ++ "\n") := by
  refine ⟨?_, ?_, ?_⟩ <;>
    rw [cuda_generate_text {} rfl, cuda_generate_text {} rfl] <;>
    simp only [cuda_text_append, cuda_shader_text] <;>
    simp [CUDAGenerator.generateKernelSignature, String.append_assoc] <;>
    rfl

/-- C30.  In the CUDA backend the visit of an `IfStatement` and the visit of a
`ReturnStatement` return the generator unchanged (same output, same
indentation level), whatever the condition, the branches or the value; and the
visit of a function or shader declaration whose body has every if and return
statement deleted (`deleteIfReturnList`) leaves the generator in the same state
as the visit of the declaration with its original body, so that the generated
text of a program is unchanged by the deletion. -/
theorem cuda_if_return_silent (g : Generator) (c : Expr) (th : Stmt) (el : Option Stmt)
    (v : Option Expr) (name : String) (rt : Option TypeNode) (ps : List VariableDeclaration)
    (st : ShaderType) (body ds : List Stmt) :
    CUDAGenerator.visitStmt (Stmt.IfStatement c th el) g = g ∧
    CUDAGenerator.visitStmt (Stmt.ReturnStatement v) g = g ∧
    CUDAGenerator.visitStmt (Stmt.FunctionDeclaration name rt ps (deleteIfReturnList body)) g =
      CUDAGenerator.visitStmt (Stmt.FunctionDeclaration name rt ps body) g ∧
    CUDAGenerator.visitStmt (Stmt.ShaderDeclaration name st (deleteIfReturnList body)) g =
      CUDAGenerator.visitStmt (Stmt.ShaderDeclaration name st body) g ∧
    (CUDAGenerator.generate {} { declarations := deleteIfReturnList ds }).1 =
      (CUDAGenerator.generate {} { declarations := ds }).1 := by
  refine ⟨?_, ?_, ?_, ?_, ?_⟩
  · simp only [CUDAGenerator.visitStmt]
  · simp only [CUDAGenerator.visitStmt]
  · simp only [CUDAGenerator.visitStmt, cuda_visitStmts_delete]
  · simp only [CUDAGenerator.visitStmt, cuda_visitStmts_delete]
  · simp only [CUDAGenerator.generate, CUDAGenerator.visitProgram, cuda_visitStmts_delete]

theorem check_eq (ts : List Token) (c : Nat) (t : TokenType) (ht : t ≠ TokenType.END_OF_FILE) :
    check t ts c = Res.ok (decide (typeAt ts c = t)) c := by
  simp [check, checkAt_eq ts c t ht]

theorem matchTok_eq (ts : List Token) (c : Nat) (t : TokenType)
    (ht : t ≠ TokenType.END_OF_FILE) :
    matchTok t ts c = if typeAt ts c = t then Res.ok true (c + 1) else Res.ok false c := by
  by_cases h : typeAt ts c = t
  · rw [if_pos h, matchTok_of_typeAt h ht]
  · rw [if_neg h, matchTok_of_ne h ht]

theorem checkAny_eq (ts : List Token) (c : Nat) (l : List TokenType)
    (hl : TokenType.END_OF_FILE ∉ l) :
    checkAny l ts c = Res.ok (decide (typeAt ts c ∈ l)) c := by
  simp [checkAny, any_checkAt_eq ts c l hl]

theorem currentTokenAt_of_getElem? {ts : List Token} {c : Nat} {tok : Token}
    (h : ts[c]? = some tok) (ht : tok.type ≠ TokenType.END_OF_FILE) :
    currentTokenAt ts c = tok := by
  simp [currentTokenAt, isAtEndAt, h, ht, List.getD_eq_getElem?_getD]

theorem consume_of_getElem? {ts : List Token} {c : Nat} {tok : Token} (t : TokenType)
    (msg : String) (h : ts[c]? = some tok) (ht : tok.type = t)
    (hne : t ≠ TokenType.END_OF_FILE) :
    consume t msg ts c = Res.ok tok (c + 1) := by
  rw [consume_of_typeAt msg (by rw [typeAt_eq_of_getElem? h, ht]) hne,
    currentTokenAt_of_getElem? h (by rw [ht]; exact hne)]

theorem consume_of_ne {ts : List Token} {c : Nat} (t : TokenType) (msg : String)
    (h : typeAt ts c ≠ t) (hne : t ≠ TokenType.END_OF_FILE) :
    consume t msg ts c = Res.err msg c := by
  simp [consume, checkAt_eq ts c t hne, h]

theorem parseType_table (ts : List Token) (c : Nat) :
    ∀ p ∈ typeKeywordKinds, typeAt ts c = p.1 →
      parseType ts c = Res.ok { kind := p.2 } (c + 1) := by
  simp only [typeKeywordKinds, List.forall_mem_cons]
  repeat' apply And.intro
  all_goals first
    | (intro x hx; exact absurd hx (List.not_mem_nil x))
    | (intro h; simp [parseType, bind_apply, matchTok_eq, h, pure_apply])

theorem parseType_of {ts : List Token} {c : Nat} {t : TokenType} {k : TypeKind}
    (h : typeAt ts c = t) (hk : (t, k) ∈ typeKeywordKinds) :
    parseType ts c = Res.ok { kind := k } (c + 1) :=
  parseType_table ts c (t, k) hk h

theorem parseQualifier_table (ts : List Token) (c : Nat) :
    ∀ p ∈ qualifierKinds, typeAt ts c = p.1 → parseQualifier ts c = Res.ok p.2 (c + 1) := by
  simp only [qualifierKinds, List.forall_mem_cons]
  repeat' apply And.intro
  all_goals first
    | (intro x hx; exact absurd hx (List.not_mem_nil x))
    | (intro h
       have hne : typeAt ts c ≠ TokenType.END_OF_FILE := by rw [h]; decide
       simp [parseQualifier, bind_apply, check_eq, h, advance, advanceAt_of_typeAt hne,
         pure_apply])

theorem parseQualifier_of {ts : List Token} {c : Nat} {t : TokenType} {q : Qualifier}
    (h : typeAt ts c = t) (hq : (t, q) ∈ qualifierKinds) :
    parseQualifier ts c = Res.ok q (c + 1) :=
  parseQualifier_table ts c (t, q) hq h

theorem parseQualifier_none {ts : List Token} {c : Nat}
    (h : typeAt ts c ∉ qualifierKeywords) : parseQualifier ts c = Res.ok Qualifier.NONE c := by
  simp only [qualifierKeywords, List.mem_cons, List.mem_singleton, List.not_mem_nil, or_false,
    not_or] at h
  unfold parseQualifier
  simp [bind_apply, check_eq, h, pure_apply]

theorem typeKeywordKinds_facts : ∀ p ∈ typeKeywordKinds,
    p.1 ≠ TokenType.SHADER ∧ p.1 ∈ qualifierKeywords ++ typeKeywords ∧
      p.1 ∉ qualifierKeywords ∧ p.1 ∈ typeKeywords ∧ p.1 ≠ TokenType.END_OF_FILE := by
  decide

theorem qualifierKinds_facts : ∀ p ∈ qualifierKinds,
    p.1 ≠ TokenType.SHADER ∧ p.1 ∈ qualifierKeywords ++ typeKeywords ∧
      p.1 ∈ qualifierKeywords ∧ p.1 ≠ TokenType.END_OF_FILE := by
  decide

theorem matchTok_false {ts : List Token} {c : Nat} (t : TokenType) {u : TokenType}
    (h : typeAt ts c = u)
    (hut : u ≠ t) (ht : t ≠ TokenType.END_OF_FILE) : matchTok t ts c = Res.ok false c :=
  matchTok_of_ne (by rw [h]; exact hut) ht

theorem check_false {ts : List Token} {c : Nat} (t : TokenType) {u : TokenType}
    (h : typeAt ts c = u)
    (hut : u ≠ t) (ht : t ≠ TokenType.END_OF_FILE) : check t ts c = Res.ok false c := by
  rw [check_eq ts c t ht, h]
  simp [hut]

theorem check_true {ts : List Token} {c : Nat} {t : TokenType} (h : typeAt ts c = t)
    (ht : t ≠ TokenType.END_OF_FILE) : check t ts c = Res.ok true c := by
  rw [check_eq ts c t ht, h]
  simp

theorem parseVariableDeclarationRest_semicolon {ts : List Token} {c : Nat}
    (h : typeAt ts c = TokenType.SEMICOLON) (q : Qualifier) (ty : TypeNode) (name : String)
    (n : Nat) :
    parseVariableDeclarationRest (n + 1) q ty name ts c =
      Res.ok (Stmt.VariableDeclaration
        { qualifier := q, type := ty, name := name, initializer := none }) (c + 1) := by
  simp only [parseVariableDeclarationRest, bind_apply,
    matchTok_false .ASSIGN h (by decide) (by decide), consume_of_typeAt _ h (by decide), pure_apply,
    Bool.false_eq_true, ↓reduceIte]

/-- At top level a type keyword, an identifier and `;` make a variable
declaration without qualifier. -/
theorem parseDeclaration_variable {ts : List Token} {c : Nat} {t : TokenType} {k : TypeKind}
    {tn : Token} (hT : typeAt ts c = t) (hk : (t, k) ∈ typeKeywordKinds)
    (hn : ts[c + 1]? = some tn) (hnt : tn.type = TokenType.IDENTIFIER)
    (hs : typeAt ts (c + 2) = TokenType.SEMICOLON) (n : Nat) :
    parseDeclaration (n + 1) ts c =
      Res.ok (Stmt.VariableDeclaration
        { qualifier := Qualifier.NONE, type := { kind := k }, name := tn.value,
          initializer := none }) (c + 3) := by
  obtain ⟨f1, f2, f3, _, f5⟩ := typeKeywordKinds_facts (t, k) hk
  have hn1 : typeAt ts (c + 1) = TokenType.IDENTIFIER := by rw [typeAt_eq_of_getElem? hn, hnt]
  simp only [parseDeclaration, bind_apply, matchTok_false .SHADER hT f1 (by decide),
    checkAny_eq ts c (qualifierKeywords ++ typeKeywords) (by decide), hT, f2, parseQualifier_none (hT ▸ f3), parseType_of hT hk,
    check_true hn1 (by decide), consume_of_getElem? _ _ hn hnt (by decide),
    check_false .LEFT_PAREN hs (by decide) (by decide), parseVariableDeclarationRest_semicolon hs,
    Bool.false_eq_true, ↓reduceIte, decide_True]

/-- At top level a qualifier keyword, a type keyword, an identifier and `;` make
a variable declaration with that qualifier. -/
theorem parseDeclaration_qualified {ts : List Token} {c : Nat} {tq t : TokenType}
    {q : Qualifier} {k : TypeKind} {tn : Token}
    (hQ : typeAt ts c = tq) (hq : (tq, q) ∈ qualifierKinds)
    (hT : typeAt ts (c + 1) = t) (hk : (t, k) ∈ typeKeywordKinds)
    (hn : ts[c + 2]? = some tn) (hnt : tn.type = TokenType.IDENTIFIER)
    (hs : typeAt ts (c + 3) = TokenType.SEMICOLON) (n : Nat) :
    parseDeclaration (n + 1) ts c =
      Res.ok (Stmt.VariableDeclaration
        { qualifier := q, type := { kind := k }, name := tn.value, initializer := none })
        (c + 4) := by
  obtain ⟨f1, f2, _, _⟩ := qualifierKinds_facts (tq, q) hq
  have hn1 : typeAt ts (c + 2) = TokenType.IDENTIFIER := by rw [typeAt_eq_of_getElem? hn, hnt]
  simp only [parseDeclaration, bind_apply, matchTok_false .SHADER hQ f1 (by decide),
    checkAny_eq ts c (qualifierKeywords ++ typeKeywords) (by decide), hQ, f2, parseQualifier_of hQ hq, parseType_of hT hk,
    check_true hn1 (by decide), consume_of_getElem? _ _ hn hnt (by decide),
    check_false .LEFT_PAREN hs (by decide) (by decide), parseVariableDeclarationRest_semicolon hs,
    Bool.false_eq_true, ↓reduceIte, decide_True]

theorem parseStatementList_rightBrace {ts : List Token} {c : Nat}
    (h : typeAt ts c = TokenType.RIGHT_BRACE) (acc : List Stmt) (n : Nat) :
    parseStatementList (n + 1) acc ts c = Res.ok acc c := by
  simp only [parseStatementList, bind_apply, check_true h (by decide), pure_apply, sdl.isAtEnd,
    Bool.not_true, Bool.false_and, Bool.false_eq_true, ↓reduceIte]

/-- At top level a type keyword, an identifier, `( )` and an empty pair of
braces make a function declaration without parameters and with an empty body. -/
theorem parseDeclaration_function {ts : List Token} {c : Nat} {t : TokenType} {k : TypeKind}
    {tn : Token} (hT : typeAt ts c = t) (hk : (t, k) ∈ typeKeywordKinds)
    (hn : ts[c + 1]? = some tn) (hnt : tn.type = TokenType.IDENTIFIER)
    (h2 : typeAt ts (c + 2) = TokenType.LEFT_PAREN)
    (h3 : typeAt ts (c + 3) = TokenType.RIGHT_PAREN)
    (h4 : typeAt ts (c + 4) = TokenType.LEFT_BRACE)
    (h5 : typeAt ts (c + 5) = TokenType.RIGHT_BRACE) (n : Nat) :
    parseDeclaration (n + 1) ts c =
      Res.ok (Stmt.FunctionDeclaration tn.value (some { kind := k }) [] []) (c + 6) := by
  obtain ⟨f1, f2, f3, _, f5⟩ := typeKeywordKinds_facts (t, k) hk
  have hn1 : typeAt ts (c + 1) = TokenType.IDENTIFIER := by rw [typeAt_eq_of_getElem? hn, hnt]
  simp only [parseDeclaration, parseFunctionRest, bind_apply, matchTok_false .SHADER hT f1 (by decide),
    checkAny_eq ts c (qualifierKeywords ++ typeKeywords) (by decide), hT, f2, parseQualifier_none (hT ▸ f3), parseType_of hT hk,
    check_true hn1 (by decide), consume_of_getElem? _ _ hn hnt (by decide),
    check_true h2 (by decide), consume_of_typeAt _ h2 (by decide), check_true h3 (by decide),
    consume_of_typeAt _ h3 (by decide), matchTok_of_typeAt h4 (by decide),
    parseStatementList_rightBrace h5, consume_of_typeAt _ h5 (by decide), pure_apply,
    Bool.false_eq_true, Bool.not_true, ↓reduceIte, decide_True]

theorem isAtEndAt_of_eof {ts : List Token} {c : Nat} {te : Token} (h : ts[c]? = some te)
    (he : te.type = TokenType.END_OF_FILE) : isAtEndAt ts c = true := by
  simp [isAtEndAt, h, he]

/-- A token vector whose first declaration ends at the `END_OF_FILE` token gives
the program with that one declaration. -/
theorem parseProgram_single {ts : List Token} {decl : Stmt} {c1 : Nat}
    (h0 : isAtEndAt ts 0 = false)
    (hd : ∀ n, parseDeclaration (n + 1) ts 0 = Res.ok decl c1)
    (h1 : isAtEndAt ts c1 = true) :
    parseProgram ts = Res.ok ({ declarations := [decl] }, []) c1 := by
  unfold parseProgram parseFuel
  obtain ⟨k, hk⟩ : ∃ k, 40 * (ts.length + 2) = k + 1 + 1 + 1 := ⟨40 * (ts.length + 2) - 3, by omega⟩
  rw [hk, parseProgramLoop]
  simp only [h0, Bool.not_false, ↓reduceIte, hd]
  rw [parseProgramLoop]
  simp only [h1, Bool.not_true, Bool.false_eq_true, ↓reduceIte, List.nil_append]

/-- C22.  At top level, for every qualifier keyword token `q` (in, out, uniform,
const), type keyword token `T`, identifier token `n` and tokens `;`, `(`, `)`,
`\x7b`, `\x7d` and `END_OF_FILE`: the tokens `q T n ;` parse to the program with
the single `VariableDeclaration` with the qualifier of `q`, the type kind of
`T`, the name `n` and no initializer; the tokens `T n ;` parse to the same with
the qualifier `NONE`; and the tokens `T n ( )` followed by an empty pair of
braces parse to the single `FunctionDeclaration` named `n` with return type `T`,
no parameters and an empty body.  No error is reported. -/
theorem top_level_declarations (tq tT tn tsemi tlp trp tlb trb te : Token) (rest : List Token)
    (q : Qualifier) (k : TypeKind)
    (hq : (tq.type, q) ∈ qualifierKinds) (hk : (tT.type, k) ∈ typeKeywordKinds)
    (hn : tn.type = TokenType.IDENTIFIER) (hsemi : tsemi.type = TokenType.SEMICOLON)
    (hlp : tlp.type = TokenType.LEFT_PAREN) (hrp : trp.type = TokenType.RIGHT_PAREN)
    (hlb : tlb.type = TokenType.LEFT_BRACE) (hrb : trb.type = TokenType.RIGHT_BRACE)
    (he : te.type = TokenType.END_OF_FILE) :
    parseProgram (tq :: tT :: tn :: tsemi :: te :: rest) =
      Res.ok ({ declarations := [Stmt.VariableDeclaration
        { qualifier := q, type := { kind := k }, name := tn.value, initializer := none }] },
        []) 4 ∧
    parseProgram (tT :: tn :: tsemi :: te :: rest) =
      Res.ok ({ declarations := [Stmt.VariableDeclaration
        { qualifier := Qualifier.NONE, type := { kind := k }, name := tn.value,
          initializer := none }] }, []) 3 ∧
    parseProgram (tT :: tn :: tlp :: trp :: tlb :: trb :: te :: rest) =
      Res.ok ({ declarations :=
        [Stmt.FunctionDeclaration tn.value (some { kind := k }) [] []] }, []) 6 := by
  have fq := (qualifierKinds_facts _ hq).2.2.2
  have fk := (typeKeywordKinds_facts _ hk).2.2.2.2
  refine ⟨?_, ?_, ?_⟩
  · refine parseProgram_single (isAtEndAt_of_typeAt ?_) (fun n => ?_)
      (@isAtEndAt_of_eof _ 4 te (by simp) he)
    · rw [@typeAt_eq_of_getElem? _ 0 tq rfl]; exact fq
    · exact @parseDeclaration_qualified _ 0 _ _ _ _ tn (@typeAt_eq_of_getElem? _ 0 tq rfl) hq
        (@typeAt_eq_of_getElem? _ 1 tT rfl) hk rfl hn
        ((@typeAt_eq_of_getElem? _ 3 tsemi rfl).trans hsemi) n
  · refine parseProgram_single (isAtEndAt_of_typeAt ?_) (fun n => ?_)
      (@isAtEndAt_of_eof _ 3 te (by simp) he)
    · rw [@typeAt_eq_of_getElem? _ 0 tT rfl]; exact fk
    · exact @parseDeclaration_variable _ 0 _ _ tn (@typeAt_eq_of_getElem? _ 0 tT rfl) hk rfl hn
        ((@typeAt_eq_of_getElem? _ 2 tsemi rfl).trans hsemi) n
  · refine parseProgram_single (isAtEndAt_of_typeAt ?_) (fun n => ?_)
      (@isAtEndAt_of_eof _ 6 te (by simp) he)
    · rw [@typeAt_eq_of_getElem? _ 0 tT rfl]; exact fk
    · exact @parseDeclaration_function _ 0 _ _ tn (@typeAt_eq_of_getElem? _ 0 tT rfl) hk rfl hn
        ((@typeAt_eq_of_getElem? _ 2 tlp rfl).trans hlp)
        ((@typeAt_eq_of_getElem? _ 3 trp rfl).trans hrp)
        ((@typeAt_eq_of_getElem? _ 4 tlb rfl).trans hlb)
        ((@typeAt_eq_of_getElem? _ 5 trb rfl).trans hrb) n

theorem top_level_declarations_witness :
    (((Token.mk .UNIFORM "uniform" 1 1).type, Qualifier.UNIFORM) ∈ qualifierKinds ∧
      ((Token.mk .VEC3 "vec3" 1 9).type, TypeKind.VEC3) ∈ typeKeywordKinds ∧
      (Token.mk .IDENTIFIER "n" 1 14).type = TokenType.IDENTIFIER ∧
      (Token.mk .SEMICOLON ";" 1 16).type = TokenType.SEMICOLON ∧
      (Token.mk .LEFT_PAREN "(" 1 16).type = TokenType.LEFT_PAREN ∧
      (Token.mk .RIGHT_PAREN ")" 1 18).type = TokenType.RIGHT_PAREN ∧
      (Token.mk .LEFT_BRACE "\x7b" 1 20).type = TokenType.LEFT_BRACE ∧
      (Token.mk .RIGHT_BRACE "\x7d" 1 22).type = TokenType.RIGHT_BRACE ∧
      (Token.mk .END_OF_FILE "" 1 24).type = TokenType.END_OF_FILE) ∧
    parseProgram [Token.mk .UNIFORM "uniform" 1 1, Token.mk .VEC3 "vec3" 1 9,
        Token.mk .IDENTIFIER "n" 1 14, Token.mk .SEMICOLON ";" 1 16,
        Token.mk .END_OF_FILE "" 1 24] =
      Res.ok ({ declarations := [Stmt.VariableDeclaration
        { qualifier := Qualifier.UNIFORM, type := { kind := TypeKind.VEC3 }, name := "n",
          initializer := none }] }, []) 4 ∧
    parseProgram [Token.mk .VEC3 "vec3" 1 9, Token.mk .IDENTIFIER "n" 1 14,
        Token.mk .SEMICOLON ";" 1 16, Token.mk .END_OF_FILE "" 1 24] =
      Res.ok ({ declarations := [Stmt.VariableDeclaration
        { qualifier := Qualifier.NONE, type := { kind := TypeKind.VEC3 }, name := "n",
          initializer := none }] }, []) 3 ∧
    parseProgram [Token.mk .VEC3 "vec3" 1 9, Token.mk .IDENTIFIER "n" 1 14,
        Token.mk .LEFT_PAREN "(" 1 16, Token.mk .RIGHT_PAREN ")" 1 18,
        Token.mk .LEFT_BRACE "\x7b" 1 20, Token.mk .RIGHT_BRACE "\x7d" 1 22,
        Token.mk .END_OF_FILE "" 1 24] =
      Res.ok ({ declarations :=
        [Stmt.FunctionDeclaration "n" (some { kind := TypeKind.VEC3 }) [] []] }, []) 6 :=
  ⟨⟨by decide, by decide, rfl, rfl, rfl, rfl, rfl, rfl, rfl⟩,
    top_level_declarations (Token.mk .UNIFORM "uniform" 1 1) (Token.mk .VEC3 "vec3" 1 9)
      (Token.mk .IDENTIFIER "n" 1 14) (Token.mk .SEMICOLON ";" 1 16)
      (Token.mk .LEFT_PAREN "(" 1 16) (Token.mk .RIGHT_PAREN ")" 1 18)
      (Token.mk .LEFT_BRACE "\x7b" 1 20) (Token.mk .RIGHT_BRACE "\x7d" 1 22)
      (Token.mk .END_OF_FILE "" 1 24) [] Qualifier.UNIFORM TypeKind.VEC3
      (by decide) (by decide) rfl rfl rfl rfl rfl rfl rfl⟩

theorem getElem?_of_drop {ts : List Token} {c : Nat} {l : List Token} (h : ts.drop c = l)
    (i : Nat) : ts[c + i]? = l[i]? := by
  rw [← h, List.getElem?_drop]

theorem length_of_drop {ts : List Token} {c : Nat} {t : Token} {l : List Token}
    (h : ts.drop c = t :: l) : c ≤ ts.length := by
  by_contra hc
  rw [List.drop_eq_nil_of_le (by omega)] at h
  cases h

theorem semicolon_ne_operatorToken (op : BinaryOperator) :
    TokenType.SEMICOLON ≠ operatorToken op := by
  cases op <;> simp [operatorToken]

theorem peekTokenAt_type (ts : List Token) (c : Nat) :
    (peekTokenAt ts c).type = typeAt ts (c + 1) := by
  cases h : ts[c + 1]? with
  | none => simp [peekTokenAt, typeAt, currentTokenAt, isAtEndAt, h, eofToken]
  | some tok =>
    rw [typeAt_eq_of_getElem? h]
    simp [peekTokenAt, h]

/-- The lookahead on a type keyword returns its answer with the cursor where it
was. -/
theorem isVariableDeclarationAhead_eq (ts : List Token) (c : Nat) :
    isVariableDeclarationAhead ts c =
      Res.ok (decide (typeAt ts c ∈ typeKeywords) &&
        (decide (typeAt ts (c + 1) = TokenType.IDENTIFIER) &&
          (typeAt ts (c + 2) != TokenType.LEFT_PAREN))) c := by
  unfold isVariableDeclarationAhead
  rw [bind_apply, checkAny_eq ts c typeKeywords (by decide)]
  by_cases h : typeAt ts c ∈ typeKeywords
  · have hne : typeAt ts c ≠ TokenType.END_OF_FILE := by
      intro h1; rw [h1] at h; revert h; decide
    simp [h, bind_apply, getCurrent, advance, advanceAt_of_typeAt hne, check_eq, peekToken,
      peekTokenAt_type, setCurrent, pure_apply]
  · simp [h, pure_apply]

/-- The lookahead on an identifier returns its answer with the cursor where it
was. -/
theorem isAssignmentAhead_eq (ts : List Token) (c : Nat)
    (h : typeAt ts c ≠ TokenType.END_OF_FILE) :
    isAssignmentAhead ts c = Res.ok (decide (typeAt ts (c + 1) = TokenType.ASSIGN)) c := by
  simp [isAssignmentAhead, bind_apply, getCurrent, advance, advanceAt_of_typeAt h, check_eq,
    setCurrent, pure_apply]

/-- An identifier that a semicolon follows is an expression. -/
theorem parseExpression_identifier {ts : List Token} {c : Nat} {tok : Token} {t : TokenType}
    (h : ts[c]? = some tok) (ht : tok.type = TokenType.IDENTIFIER)
    (h1 : typeAt ts (c + 1) = t)
    (hp : t ∉ [TokenType.DOT, TokenType.LEFT_PAREN, TokenType.LEFT_BRACKET])
    (hs : ∀ op, t ≠ operatorToken op) :
    Parses parseExpression ts c (Expr.Identifier tok.value) (c + 1) :=
  levelParser_expression ts c (c + 1) _ 7 (by omega) (le_refl _)
    ( parseUnary_identifier ts c tok h ht (by rw [h1]; exact hp))
    (fun op => by rw [h1]; exact hs op)

/-- The tokens `x == y` before a semicolon. -/
theorem parseExpression_equal {ts : List Token} {c : Nat} {tx ty : Token}
    (hx : ts[c]? = some tx) (hxt : tx.type = TokenType.IDENTIFIER)
    (he : typeAt ts (c + 1) = TokenType.EQUAL)
    (hy : ts[c + 2]? = some ty) (hyt : ty.type = TokenType.IDENTIFIER)
    (hs : typeAt ts (c + 3) = TokenType.SEMICOLON) :
    Parses parseExpression ts c
      (Expr.Binary (Expr.Identifier tx.value) BinaryOperator.EQUAL (Expr.Identifier ty.value))
      (c + 3) := by
  have l1 : Parses (levelParser 4) ts c (Expr.Identifier tx.value) (c + 1) :=
    levelParser_climb ts c (c + 1) _ 7 (le_refl _) 3 4 (by omega) (by omega)
      ( parseUnary_identifier ts c tx hx hxt (by rw [he]; decide))
      (fun op h1 h2 => by
        rw [he]
        cases op <;> simp [precedenceLevel] at h1 h2 <;> simp [operatorToken])
  have l2 : Parses (levelParser 4) ts (c + 1 + 1) (Expr.Identifier ty.value) (c + 1 + 1 + 1) :=
    levelParser_climb ts _ _ _ 7 (le_refl _) 3 4 (by omega) (by omega)
      ( parseUnary_identifier ts (c + 1 + 1) ty hy hyt (by rw [hs]; decide))
      (fun op _ _ => by rw [hs]; exact semicolon_ne_operatorToken op)
  have l3 := levelParser_binary 3 (by omega) ts c (c + 1) (c + 1 + 1 + 1) _ _
    BinaryOperator.EQUAL rfl l1 he l2 (fun op _ => by rw [hs]; exact semicolon_ne_operatorToken op)
  exact levelParser_expression ts c (c + 3) _ 3 (by omega) (by omega) l3
    (fun op => by rw [hs]; exact semicolon_ne_operatorToken op)

theorem rightParen_not_postfix :
    TokenType.RIGHT_PAREN ∉ [TokenType.DOT, TokenType.LEFT_PAREN, TokenType.LEFT_BRACKET] := by
  decide

/-- The postfix loop stops at a token that is not `.`, `(` or `[`. -/
theorem parsePostfixLoop_stop {ts : List Token} {c : Nat} {t : TokenType} (e : Expr)
    (h : typeAt ts c = t)
    (hp : t ∉ [TokenType.DOT, TokenType.LEFT_PAREN, TokenType.LEFT_BRACKET]) (n : Nat) :
    parsePostfixLoop (n + 1) e ts c = Res.ok e c := by
  simp only [List.mem_cons, List.mem_singleton, List.not_mem_nil, or_false, not_or] at hp
  simp only [parsePostfixLoop, bind_apply, matchTok_false .DOT h hp.1 (by decide),
    matchTok_false .LEFT_PAREN h hp.2.1 (by decide),
    matchTok_false .LEFT_BRACKET h hp.2.2 (by decide), pure_apply, Bool.false_eq_true,
    ↓reduceIte]

/-- A call with one argument: a primary expression, `(`, an expression, `)`, and
then a token that continues no postfix expression. -/
theorem parsePostfix_call {ts : List Token} {c c1 c2 : Nat} {e arg : Expr} {t u : TokenType}
    (h1 : Parses parsePrimary ts c e c1)
    (hl : typeAt ts c1 = TokenType.LEFT_PAREN)
    (hf : typeAt ts (c1 + 1) = u) (hu : u ≠ TokenType.RIGHT_PAREN)
    (ha : Parses parseExpression ts (c1 + 1) arg c2)
    (hr : typeAt ts c2 = TokenType.RIGHT_PAREN)
    (hnx : typeAt ts (c2 + 1) = t)
    (hp : t ∉ [TokenType.DOT, TokenType.LEFT_PAREN, TokenType.LEFT_BRACKET]) :
    Parses parsePostfix ts c (Expr.FunctionCall (calleeName e) [arg]) (c2 + 1) := by
  refine parses_chain (g := fun x n => parsePostfixLoop n x) h1 ?_ (fun n => by rw [parsePostfix])
  obtain ⟨N, ha⟩ := ha
  refine ⟨N + 2, fun n hn => ?_⟩
  obtain ⟨m, rfl⟩ : ∃ m, n = m + 1 + 1 := ⟨n - 2, by omega⟩
  show parsePostfixLoop (m + 1 + 1) e ts c1 = _
  rw [parsePostfixLoop]
  simp only [bind_apply, matchTok_false .DOT hl (by decide) (by decide),
    matchTok_of_typeAt hl (by decide), check_false .RIGHT_PAREN hf hu (by decide),
    parseArguments, ha m (by omega), matchTok_false .COMMA hr (by decide) (by decide),
    consume_of_typeAt _ hr (by decide), parsePostfixLoop_stop _ hnx hp, pure_apply,
    Bool.false_eq_true, Bool.not_false, ↓reduceIte, List.nil_append]

/-- A constructor keyword is a primary expression named by its text. -/
theorem parsePrimary_constructor {ts : List Token} {c : Nat} {tok : Token}
    (h : ts[c]? = some tok) (ht : tok.type ∈ constructorKeywords) :
    Parses parsePrimary ts c (Expr.Identifier tok.value) (c + 1) := by
  have h1 : typeAt ts c = tok.type := typeAt_eq_of_getElem? h
  have f : ∀ x ∈ constructorKeywords, x ≠ TokenType.INTEGER_LITERAL ∧
      x ≠ TokenType.FLOAT_LITERAL ∧ x ≠ TokenType.STRING_LITERAL ∧ x ≠ TokenType.IDENTIFIER := by
    decide
  obtain ⟨f1, f2, f3, f4⟩ := f _ ht
  refine ⟨1, fun n hn => ?_⟩
  obtain ⟨m, rfl⟩ : ∃ m, n = m + 1 := ⟨n - 1, by omega⟩
  simp only [parsePrimary, bind_apply, matchTok_false .INTEGER_LITERAL h1 f1 (by decide),
    matchTok_false .FLOAT_LITERAL h1 f2 (by decide),
    matchTok_false .STRING_LITERAL h1 f3 (by decide),
    matchTok_false .IDENTIFIER h1 f4 (by decide),
    matchAny_of_mem (h1 ▸ ht) (by decide), previousToken_succ h, pure_apply,
    Bool.false_eq_true, ↓reduceIte]

/-- The tokens `f ( y )` before a semicolon, for a callee `f` that is an
identifier or a constructor keyword. -/
theorem parseExpression_call {ts : List Token} {c : Nat} {tf ty : Token}
    (hf : ts[c]? = some tf)
    (hft : tf.type = TokenType.IDENTIFIER ∨ tf.type ∈ constructorKeywords)
    (hl : typeAt ts (c + 1) = TokenType.LEFT_PAREN)
    (hy : ts[c + 2]? = some ty) (hyt : ty.type = TokenType.IDENTIFIER)
    (hr : typeAt ts (c + 3) = TokenType.RIGHT_PAREN)
    (hs : typeAt ts (c + 4) = TokenType.SEMICOLON) :
    Parses parseExpression ts c (Expr.FunctionCall tf.value [Expr.Identifier ty.value])
      (c + 4) := by
  have p1 : Parses parsePrimary ts c (Expr.Identifier tf.value) (c + 1) := by
    rcases hft with hft | hft
    · exact parsePrimary_identifier ts c tf hf hft
    · exact parsePrimary_constructor hf hft
  have hfirst : typeAt ts c ∉ [TokenType.LOGICAL_NOT, TokenType.MINUS] := by
    rw [typeAt_eq_of_getElem? hf]
    rcases hft with hft | hft
    · rw [hft]; decide
    · revert hft; generalize tf.type = x; revert x; decide
  have a1 : Parses parseExpression ts (c + 1 + 1) (Expr.Identifier ty.value) (c + 1 + 1 + 1) :=
    parseExpression_identifier hy hyt hr rightParen_not_postfix rightParen_ne_operatorToken
  have p2 := parsePostfix_call p1 hl ((typeAt_eq_of_getElem? hy).trans hyt) (by decide) a1 hr hs
    (by decide)
  exact levelParser_expression ts c (c + 4) _ 7 (by omega) (le_refl _)
    ( parseUnary_of_postfix ts c (c + 4) _ hfirst p2)
    (fun op => by rw [hs]; exact semicolon_ne_operatorToken op)

/-- With enough fuel for the tokens that are left, `parseStatement` returns what
it returns with any sufficient fuel. -/
theorem parseStatement_of_parses {ts : List Token} {c c' : Nat} {s : Stmt}
    (h : Parses parseStatement ts c s c') (hc : c ≤ ts.length) (n : Nat)
    (hn : 16 * (ts.length - c) + 11 ≤ n) : parseStatement n ts c = Res.ok s c' := by
  refine parses_result (fun n => (monoAll n).parseStatement) h n ?_
  intro hf
  have h1 := (runAll n ts).parseStatement c hc
  rw [hf] at h1
  simp only [Run] at h1
  omega

theorem statement_head_facts : ∀ x ∈ TokenType.IDENTIFIER :: typeKeywords,
    x ≠ TokenType.LEFT_BRACE ∧ x ≠ TokenType.IF ∧ x ≠ TokenType.FOR ∧ x ≠ TokenType.WHILE ∧
      x ≠ TokenType.RETURN ∧ x ≠ TokenType.END_OF_FILE := by
  decide

/-- An identifier, `=`, an expression and `;` make an assignment statement. -/
theorem parseStatement_assignment {ts : List Token} {c c1 : Nat} {tx : Token} {e : Expr}
    (hx : ts[c]? = some tx) (hxt : tx.type = TokenType.IDENTIFIER)
    (ha : typeAt ts (c + 1) = TokenType.ASSIGN)
    (he : Parses parseExpression ts (c + 2) e c1)
    (hs : typeAt ts c1 = TokenType.SEMICOLON) :
    Parses parseStatement ts c (Stmt.AssignmentStatement (Expr.Identifier tx.value) e)
      (c1 + 1) := by
  have h0 : typeAt ts c = TokenType.IDENTIFIER := by rw [typeAt_eq_of_getElem? hx, hxt]
  obtain ⟨N, he⟩ := he
  refine ⟨N + 1, fun n hn => ?_⟩
  obtain ⟨m, rfl⟩ : ∃ m, n = m + 1 := ⟨n - 1, by omega⟩
  simp only [parseStatement, bind_apply, matchTok_false .LEFT_BRACE h0 (by decide) (by decide),
    matchTok_false .IF h0 (by decide) (by decide), matchTok_false .FOR h0 (by decide) (by decide),
    matchTok_false .WHILE h0 (by decide) (by decide),
    matchTok_false .RETURN h0 (by decide) (by decide), isVariableDeclarationAhead_eq, h0,
    check_true h0 (by decide), isAssignmentAhead_eq ts c (by rw [h0]; decide), ha,
    consume_of_getElem? _ _ hx hxt (by decide), consume_of_typeAt _ ha (by decide),
    he m (by omega), consume_of_typeAt _ hs (by decide), pure_apply, typeKeywords,
    List.mem_cons, List.mem_singleton, List.not_mem_nil, reduceCtorEq, or_self, decide_False,
    decide_True, Bool.false_and, Bool.false_eq_true, ↓reduceIte]

/-- An expression that starts with an identifier which `=` does not follow, and
`;`, make an expression statement. -/
theorem parseStatement_expression {ts : List Token} {c c1 : Nat} {u : TokenType} {e : Expr}
    (h0 : typeAt ts c = TokenType.IDENTIFIER)
    (h1 : typeAt ts (c + 1) = u) (hu : u ≠ TokenType.ASSIGN)
    (he : Parses parseExpression ts c e c1)
    (hs : typeAt ts c1 = TokenType.SEMICOLON) :
    Parses parseStatement ts c (Stmt.ExpressionStatement e) (c1 + 1) := by
  obtain ⟨N, he⟩ := he
  refine ⟨N + 1, fun n hn => ?_⟩
  obtain ⟨m, rfl⟩ : ∃ m, n = m + 1 := ⟨n - 1, by omega⟩
  simp only [parseStatement, bind_apply, matchTok_false .LEFT_BRACE h0 (by decide) (by decide),
    matchTok_false .IF h0 (by decide) (by decide), matchTok_false .FOR h0 (by decide) (by decide),
    matchTok_false .WHILE h0 (by decide) (by decide),
    matchTok_false .RETURN h0 (by decide) (by decide), isVariableDeclarationAhead_eq, h0,
    check_true h0 (by decide), isAssignmentAhead_eq ts c (by rw [h0]; decide), h1, hu,
    he m (by omega), consume_of_typeAt _ hs (by decide), pure_apply, typeKeywords,
    List.mem_cons, List.mem_singleton, List.not_mem_nil, reduceCtorEq, or_self, decide_False,
    decide_True, Bool.false_and, Bool.false_eq_true, ↓reduceIte]

/-- An expression that starts with a type keyword which `(` follows, and `;`,
make an expression statement. -/
theorem parseStatement_constructor {ts : List Token} {c c1 : Nat} {t : TokenType} {e : Expr}
    (h0 : typeAt ts c = t) (ht : t ∈ typeKeywords)
    (h1 : typeAt ts (c + 1) = TokenType.LEFT_PAREN)
    (he : Parses parseExpression ts c e c1)
    (hs : typeAt ts c1 = TokenType.SEMICOLON) :
    Parses parseStatement ts c (Stmt.ExpressionStatement e) (c1 + 1) := by
  obtain ⟨f1, f2, f3, f4, f5, f6⟩ := statement_head_facts t (List.mem_cons_of_mem _ ht)
  have f7 : t ≠ TokenType.IDENTIFIER := by
    intro h; rw [h] at ht; revert ht; decide
  obtain ⟨N, he⟩ := he
  refine ⟨N + 1, fun n hn => ?_⟩
  obtain ⟨m, rfl⟩ : ∃ m, n = m + 1 := ⟨n - 1, by omega⟩
  simp only [parseStatement, bind_apply, matchTok_false .LEFT_BRACE h0 f1 (by decide),
    matchTok_false .IF h0 f2 (by decide), matchTok_false .FOR h0 f3 (by decide),
    matchTok_false .WHILE h0 f4 (by decide), matchTok_false .RETURN h0 f5 (by decide),
    isVariableDeclarationAhead_eq, h1, check_false .IDENTIFIER h0 f7 (by decide),
    he m (by omega), consume_of_typeAt _ hs (by decide), pure_apply, reduceCtorEq,
    decide_False, Bool.false_and, Bool.and_false, Bool.false_eq_true, ↓reduceIte]

/-- A type keyword, an identifier, `=`, an expression and `;` make a variable
declaration with initializer. -/
theorem parseStatement_variable {ts : List Token} {c c1 : Nat} {t : TokenType} {k : TypeKind}
    {tn : Token} {e : Expr}
    (h0 : typeAt ts c = t) (hk : (t, k) ∈ typeKeywordKinds)
    (hnm : ts[c + 1]? = some tn) (hnt : tn.type = TokenType.IDENTIFIER)
    (ha : typeAt ts (c + 2) = TokenType.ASSIGN)
    (he : Parses parseExpression ts (c + 3) e c1)
    (hs : typeAt ts c1 = TokenType.SEMICOLON) :
    Parses parseStatement ts c (Stmt.VariableDeclaration
      { qualifier := Qualifier.NONE, type := { kind := k }, name := tn.value,
        initializer := some e }) (c1 + 1) := by
  obtain ⟨_, _, g3, g4, _⟩ := typeKeywordKinds_facts (t, k) hk
  obtain ⟨f1, f2, f3, f4, f5, f6⟩ := statement_head_facts t (List.mem_cons_of_mem _ g4)
  have hn1 : typeAt ts (c + 1) = TokenType.IDENTIFIER := by rw [typeAt_eq_of_getElem? hnm, hnt]
  have g4' : t ∈ typeKeywords := g4
  obtain ⟨N, he⟩ := he
  refine ⟨N + 3, fun n hn => ?_⟩
  obtain ⟨m, rfl⟩ : ∃ m, n = m + 1 + 1 + 1 := ⟨n - 3, by omega⟩
  simp only [parseStatement, parseVariableDeclaration, parseVariableDeclarationRest, bind_apply,
    matchTok_false .LEFT_BRACE h0 f1 (by decide),
    matchTok_false .IF h0 f2 (by decide), matchTok_false .FOR h0 f3 (by decide),
    matchTok_false .WHILE h0 f4 (by decide), matchTok_false .RETURN h0 f5 (by decide),
    isVariableDeclarationAhead_eq, h0, g4', hn1, ha, parseQualifier_none (h0 ▸ g3),
    parseType_of h0 hk, consume_of_getElem? _ _ hnm hnt (by decide),
    matchTok_of_typeAt ha (by decide), he m (by omega), consume_of_typeAt _ hs (by decide),
    pure_apply, reduceCtorEq, bne_iff_ne, ne_eq, not_false_eq_true, decide_True, Bool.and_self,
    Bool.true_and, ↓reduceIte]

theorem yields_bind {α : Type} {m : ParserM α} {f : α → ParserM Stmt} {P : Stmt → Prop}
    (h : ∀ a, Yields (f a) P) : Yields (m >>= f) P := by
  intro ts c s c' hr
  rw [bind_apply] at hr
  cases hm : m ts c with
  | ok a c1 => rw [hm] at hr; exact h a ts c1 s c' hr
  | err msg c1 => rw [hm] at hr; cases hr
  | fuel => rw [hm] at hr; cases hr
  | oob => rw [hm] at hr; cases hr

theorem yields_pure {s : Stmt} {P : Stmt → Prop} (h : P s) : Yields (pure s) P := by
  intro ts c s' c' hr
  rw [pure_apply] at hr
  cases hr
  exact h

theorem yields_ite {b : Prop} [Decidable b] {m1 m2 : ParserM Stmt} {P : Stmt → Prop}
    (h1 : Yields m1 P) (h2 : Yields m2 P) : Yields (if b then m1 else m2) P := by
  split_ifs
  · exact h1
  · exact h2

theorem yields_outOfFuel {P : Stmt → Prop} : Yields outOfFuel P := by
  intro ts c s c' hr
  cases hr

theorem yields_parseVariableDeclarationRest (n : Nat) (q : Qualifier) (ty : TypeNode)
    (name : String) :
    Yields (parseVariableDeclarationRest n q ty name) (fun s => s.isAssignment = false) := by
  cases n with
  | zero => rw [parseVariableDeclarationRest]; exact yields_outOfFuel
  | succ n =>
    rw [parseVariableDeclarationRest]
    repeat' first
      | exact yields_pure rfl
      | refine yields_bind fun _ => ?_
      | refine yields_ite ?_ ?_

/-- The branches of `parseStatement` other than the assignment branch return no
`AssignmentStatement`. -/
theorem yields_branches (n : Nat) :
    Yields (parseBlockStatement n) (fun s => s.isAssignment = false) ∧
    Yields (parseIfStatement n) (fun s => s.isAssignment = false) ∧
    Yields (parseForStatement n) (fun s => s.isAssignment = false) ∧
    Yields (parseWhileStatement n) (fun s => s.isAssignment = false) ∧
    Yields (parseReturnStatement n) (fun s => s.isAssignment = false) ∧
    Yields (parseVariableDeclaration n) (fun s => s.isAssignment = false) ∧
    Yields (do
      let expr ← parseExpression n
      let _ ← consume .SEMICOLON "Expected ';' after expression"
      pure (Stmt.ExpressionStatement expr)) (fun s => s.isAssignment = false) := by
  cases n with
  | zero =>
    refine ⟨?_, ?_, ?_, ?_, ?_, ?_, ?_⟩
    · rw [parseBlockStatement]; exact yields_outOfFuel
    · rw [parseIfStatement]; exact yields_outOfFuel
    · rw [parseForStatement]; exact yields_outOfFuel
    · rw [parseWhileStatement]; exact yields_outOfFuel
    · rw [parseReturnStatement]; exact yields_outOfFuel
    · rw [parseVariableDeclaration]; exact yields_outOfFuel
    · exact yields_bind fun _ => yields_bind fun _ => yields_pure rfl
  | succ n =>
    refine ⟨?_, ?_, ?_, ?_, ?_, ?_, ?_⟩
    · rw [parseBlockStatement]
      exact yields_bind fun _ => yields_bind fun _ => yields_pure rfl
    · rw [parseIfStatement]
      repeat' first
        | exact yields_pure rfl
        | exact yields_parseVariableDeclarationRest _ _ _ _
        | refine yields_bind fun _ => ?_
        | refine yields_ite ?_ ?_
    · rw [parseForStatement]
      repeat' first
        | exact yields_pure rfl
        | exact yields_parseVariableDeclarationRest _ _ _ _
        | refine yields_bind fun _ => ?_
    · rw [parseWhileStatement]
      repeat' first
        | exact yields_pure rfl
        | exact yields_parseVariableDeclarationRest _ _ _ _
        | refine yields_bind fun _ => ?_
    · rw [parseReturnStatement]
      repeat' first
        | exact yields_pure rfl
        | exact yields_parseVariableDeclarationRest _ _ _ _
        | refine yields_bind fun _ => ?_
        | refine yields_ite ?_ ?_
    · rw [parseVariableDeclaration]
      repeat' first
        | exact yields_pure rfl
        | exact yields_parseVariableDeclarationRest _ _ _ _
        | refine yields_bind fun _ => ?_
    · exact yields_bind fun _ => yields_bind fun _ => yields_pure rfl

/-- Only an identifier immediately followed by `=` starts an assignment. -/
theorem assignment_head {n : Nat} {ts : List Token} {c c' : Nat} {a b : Expr}
    (h : parseStatement n ts c = Res.ok (Stmt.AssignmentStatement a b) c') :
    typeAt ts c = TokenType.IDENTIFIER ∧ typeAt ts (c + 1) = TokenType.ASSIGN := by
  cases n with
  | zero => rw [parseStatement] at h; cases h
  | succ m =>
    obtain ⟨y1, y2, y3, y4, y5, y6, y7⟩ := yields_branches m
    have no : ∀ {r : ParserM Stmt} {c1 : Nat}, Yields r (fun s => s.isAssignment = false) →
        r ts c1 = Res.ok (Stmt.AssignmentStatement a b) c' → False := by
      intro r c1 hy hr
      have := hy ts c1 _ c' hr
      simp [Stmt.isAssignment] at this
    rw [parseStatement] at h
    by_cases h1 : typeAt ts c = TokenType.LEFT_BRACE
    · simp only [bind_apply, matchTok_eq ts c .LEFT_BRACE (by decide), h1, ↓reduceIte] at h
      exact (no y1 h).elim
    simp only [bind_apply, matchTok_eq ts c .LEFT_BRACE (by decide), h1, ↓reduceIte,
      Bool.false_eq_true] at h
    by_cases h2 : typeAt ts c = TokenType.IF
    · simp only [matchTok_eq ts c .IF (by decide), h2, ↓reduceIte] at h
      exact (no y2 h).elim
    simp only [bind_apply, matchTok_eq ts c .IF (by decide), h2, ↓reduceIte,
      Bool.false_eq_true] at h
    by_cases h3 : typeAt ts c = TokenType.FOR
    · simp only [matchTok_eq ts c .FOR (by decide), h3, ↓reduceIte] at h
      exact (no y3 h).elim
    simp only [bind_apply, matchTok_eq ts c .FOR (by decide), h3, ↓reduceIte,
      Bool.false_eq_true] at h
    by_cases h4 : typeAt ts c = TokenType.WHILE
    · simp only [matchTok_eq ts c .WHILE (by decide), h4, ↓reduceIte] at h
      exact (no y4 h).elim
    simp only [bind_apply, matchTok_eq ts c .WHILE (by decide), h4, ↓reduceIte,
      Bool.false_eq_true] at h
    by_cases h5 : typeAt ts c = TokenType.RETURN
    · simp only [matchTok_eq ts c .RETURN (by decide), h5, ↓reduceIte] at h
      exact (no y5 h).elim
    simp only [bind_apply, matchTok_eq ts c .RETURN (by decide), h5, ↓reduceIte,
      Bool.false_eq_true, isVariableDeclarationAhead_eq] at h
    split_ifs at h with h6
    · exact (no y6 h).elim
    by_cases h7 : typeAt ts c = TokenType.IDENTIFIER
    · simp only [bind_apply, check_eq ts c .IDENTIFIER (by decide), h7, decide_True, ↓reduceIte,
        isAssignmentAhead_eq ts c (by rw [h7]; decide)] at h
      by_cases h8 : typeAt ts (c + 1) = TokenType.ASSIGN
      · exact ⟨h7, h8⟩
      · simp only [h8, decide_False, Bool.false_eq_true, ↓reduceIte] at h
        exact (no y7 (by rw [bind_apply]; exact h)).elim
    · simp only [bind_apply, check_eq ts c .IDENTIFIER (by decide), h7, decide_False,
        Bool.false_eq_true, ↓reduceIte] at h
      exact (no y7 (by rw [bind_apply]; exact h)).elim

/-- C23.  In statement position, for identifier tokens `x`, `y`, `f` and tokens
`=`, `==`, `(`, `)` and `;`, wherever the cursor `c` stands in a token vector and
whatever follows the semicolon: the tokens `x = y ;` parse to
`AssignmentStatement(Identifier x, Identifier y)`, the tokens `x == y ;` parse
to `ExpressionStatement(Binary(x, EQUAL, y))`, and the tokens `f ( y ) ;` parse
to `ExpressionStatement(FunctionCall f [y])`, each time with the cursor behind
the semicolon.  And whenever `parseStatement` returns an `AssignmentStatement`,
the token at the cursor is an identifier and the next token is `=`. -/
theorem assignment_or_expression (tx ty tf tasg teq tlp trp tsemi : Token)
    (hx : tx.type = TokenType.IDENTIFIER) (hy : ty.type = TokenType.IDENTIFIER)
    (hf : tf.type = TokenType.IDENTIFIER) (hasg : tasg.type = TokenType.ASSIGN)
    (heq : teq.type = TokenType.EQUAL) (hlp : tlp.type = TokenType.LEFT_PAREN)
    (hrp : trp.type = TokenType.RIGHT_PAREN) (hsemi : tsemi.type = TokenType.SEMICOLON) :
    (∀ (ts rest : List Token) (c n : Nat), ts.drop c = tx :: tasg :: ty :: tsemi :: rest →
      16 * (ts.length - c) + 11 ≤ n →
      parseStatement n ts c =
        Res.ok (Stmt.AssignmentStatement (Expr.Identifier tx.value) (Expr.Identifier ty.value))
          (c + 4)) ∧
    (∀ (ts rest : List Token) (c n : Nat), ts.drop c = tx :: teq :: ty :: tsemi :: rest →
      16 * (ts.length - c) + 11 ≤ n →
      parseStatement n ts c =
        Res.ok (Stmt.ExpressionStatement (Expr.Binary (Expr.Identifier tx.value)
          BinaryOperator.EQUAL (Expr.Identifier ty.value))) (c + 4)) ∧
    (∀ (ts rest : List Token) (c n : Nat), ts.drop c = tf :: tlp :: ty :: trp :: tsemi :: rest →
      16 * (ts.length - c) + 11 ≤ n →
      parseStatement n ts c =
        Res.ok (Stmt.ExpressionStatement
          (Expr.FunctionCall tf.value [Expr.Identifier ty.value])) (c + 5)) ∧
    (∀ (ts : List Token) (c n c' : Nat) (a b : Expr),
      parseStatement n ts c = Res.ok (Stmt.AssignmentStatement a b) c' →
      typeAt ts c = TokenType.IDENTIFIER ∧ typeAt ts (c + 1) = TokenType.ASSIGN) := by
  refine ⟨?_, ?_, ?_, fun ts c n c' a b h => assignment_head h⟩
  · intro ts rest c n hd hn
    have g := getElem?_of_drop hd
    have g0 : ts[c]? = some tx := by simpa using g 0
    have g1 : ts[c + 1]? = some tasg := by simpa using g 1
    have g2 : ts[c + 2]? = some ty := by simpa using g 2
    have g3 : ts[c + 3]? = some tsemi := by simpa using g 3
    have t3 : typeAt ts (c + 2 + 1) = TokenType.SEMICOLON := by
      rw [typeAt_eq_of_getElem? g3, hsemi]
    exact parseStatement_of_parses
      (parseStatement_assignment g0 hx (by rw [typeAt_eq_of_getElem? g1, hasg])
        (parseExpression_identifier g2 hy t3 (by decide) semicolon_ne_operatorToken) t3)
      (length_of_drop hd) n hn
  · intro ts rest c n hd hn
    have g := getElem?_of_drop hd
    have g0 : ts[c]? = some tx := by simpa using g 0
    have g1 : ts[c + 1]? = some teq := by simpa using g 1
    have g2 : ts[c + 2]? = some ty := by simpa using g 2
    have g3 : ts[c + 3]? = some tsemi := by simpa using g 3
    have t3 : typeAt ts (c + 3) = TokenType.SEMICOLON := by
      rw [typeAt_eq_of_getElem? g3, hsemi]
    have t1 : typeAt ts (c + 1) = TokenType.EQUAL := by rw [typeAt_eq_of_getElem? g1, heq]
    exact parseStatement_of_parses
      (parseStatement_expression (by rw [typeAt_eq_of_getElem? g0, hx]) t1 (by decide)
        (parseExpression_equal g0 hx t1 g2 hy t3) t3)
      (length_of_drop hd) n hn
  · intro ts rest c n hd hn
    have g := getElem?_of_drop hd
    have g0 : ts[c]? = some tf := by simpa using g 0
    have g1 : ts[c + 1]? = some tlp := by simpa using g 1
    have g2 : ts[c + 2]? = some ty := by simpa using g 2
    have g3 : ts[c + 3]? = some trp := by simpa using g 3
    have g4 : ts[c + 4]? = some tsemi := by simpa using g 4
    have t4 : typeAt ts (c + 4) = TokenType.SEMICOLON := by
      rw [typeAt_eq_of_getElem? g4, hsemi]
    have t1 : typeAt ts (c + 1) = TokenType.LEFT_PAREN := by rw [typeAt_eq_of_getElem? g1, hlp]
    exact parseStatement_of_parses
      (parseStatement_expression (by rw [typeAt_eq_of_getElem? g0, hf]) t1 (by decide)
        (parseExpression_call g0 (Or.inl hf) t1 g2 hy (by rw [typeAt_eq_of_getElem? g3, hrp]) t4)
        t4)
      (length_of_drop hd) n hn

theorem assignment_or_expression_witness :
    parseStatement 120 [Token.mk .IDENTIFIER "x" 1 1, Token.mk .ASSIGN "=" 1 3,
        Token.mk .IDENTIFIER "y" 1 5, Token.mk .SEMICOLON ";" 1 7,
        Token.mk .END_OF_FILE "" 1 8] 0 =
      Res.ok (Stmt.AssignmentStatement (Expr.Identifier "x") (Expr.Identifier "y")) 4 ∧
    parseStatement 120 [Token.mk .IDENTIFIER "x" 1 1, Token.mk .EQUAL "==" 1 3,
        Token.mk .IDENTIFIER "y" 1 5, Token.mk .SEMICOLON ";" 1 7,
        Token.mk .END_OF_FILE "" 1 8] 0 =
      Res.ok (Stmt.ExpressionStatement (Expr.Binary (Expr.Identifier "x")
        BinaryOperator.EQUAL (Expr.Identifier "y"))) 4 ∧
    parseStatement 120 [Token.mk .IDENTIFIER "f" 1 1, Token.mk .LEFT_PAREN "(" 1 3,
        Token.mk .IDENTIFIER "y" 1 5, Token.mk .RIGHT_PAREN ")" 1 6, Token.mk .SEMICOLON ";" 1 7,
        Token.mk .END_OF_FILE "" 1 8] 0 =
      Res.ok (Stmt.ExpressionStatement
        (Expr.FunctionCall "f" [Expr.Identifier "y"])) 5 :=
  have h := assignment_or_expression (Token.mk .IDENTIFIER "x" 1 1)
    (Token.mk .IDENTIFIER "y" 1 5) (Token.mk .IDENTIFIER "f" 1 1) (Token.mk .ASSIGN "=" 1 3)
    (Token.mk .EQUAL "==" 1 3) (Token.mk .LEFT_PAREN "(" 1 3) (Token.mk .RIGHT_PAREN ")" 1 6)
    (Token.mk .SEMICOLON ";" 1 7) rfl rfl rfl rfl rfl rfl rfl rfl
  ⟨h.1 _ [Token.mk .END_OF_FILE "" 1 8] 0 120 rfl (by decide),
    h.2.1 _ [Token.mk .END_OF_FILE "" 1 8] 0 120 rfl (by decide),
    h.2.2.1 _ [Token.mk .END_OF_FILE "" 1 8] 0 120 rfl (by decide)⟩

/-- At a closing brace no expression starts: the whole chain of expression
methods passes on the error of `parsePrimary`. -/
theorem parseExpression_rightBrace {ts : List Token} {c : Nat}
    (h : typeAt ts c = TokenType.RIGHT_BRACE) (m : Nat) :
    parseExpression (m + 10) ts c = Res.err "Expected expression" c := by
  have hc : typeAt ts c ∉ constructorKeywords := by rw [h]; decide
  have hu : typeAt ts c ∉ [TokenType.LOGICAL_NOT, TokenType.MINUS] := by rw [h]; decide
  simp only [parseExpression, parseLogicalOr, parseLogicalAnd, parseEquality, parseComparison,
    parseAddition, parseMultiplication, parseUnary, parsePostfix, parsePrimary, bind_apply,
    matchAny_of_not_mem hu (by decide), matchAny_of_not_mem hc (by decide),
    matchTok_false .INTEGER_LITERAL h (by decide) (by decide),
    matchTok_false .FLOAT_LITERAL h (by decide) (by decide),
    matchTok_false .STRING_LITERAL h (by decide) (by decide),
    matchTok_false .IDENTIFIER h (by decide) (by decide),
    matchTok_false .LEFT_PAREN h (by decide) (by decide), throwRuntimeError,
    Bool.false_eq_true, ↓reduceIte]

/-- A closing brace where a declaration should start is parsed as a statement,
then as an expression, and fails there. -/
theorem parseDeclaration_rightBrace {ts : List Token} {c : Nat}
    (h : typeAt ts c = TokenType.RIGHT_BRACE) (m : Nat) :
    parseDeclaration (m + 11) ts c = Res.err "Expected expression" c := by
  simp only [parseDeclaration, parseStatement, bind_apply,
    matchTok_false .SHADER h (by decide) (by decide),
    checkAny_eq ts c (qualifierKeywords ++ typeKeywords) (by decide),
    matchTok_false .LEFT_BRACE h (by decide) (by decide),
    matchTok_false .IF h (by decide) (by decide), matchTok_false .FOR h (by decide) (by decide),
    matchTok_false .WHILE h (by decide) (by decide),
    matchTok_false .RETURN h (by decide) (by decide), isVariableDeclarationAhead_eq, h,
    check_false .IDENTIFIER h (by decide) (by decide), parseExpression_rightBrace h,
    show (TokenType.RIGHT_BRACE ∈ qualifierKeywords ++ typeKeywords) = False from by decide,
    show (TokenType.RIGHT_BRACE ∈ typeKeywords) = False from by decide,
    decide_False, Bool.false_and, Bool.false_eq_true, ↓reduceIte]

theorem synchronizeLoop_at_end {ts : List Token} {c : Nat} (h : isAtEndAt ts c = true) :
    ∀ k, synchronizeLoop k ts c = Res.ok () c
  | 0 => rfl
  | k + 1 => by
    simp only [synchronizeLoop, bind_apply, sdl.isAtEnd, h, pure_apply, Bool.not_true,
      Bool.false_eq_true, ↓reduceIte]

theorem synchronizeLoop_after_semicolon {ts : List Token} {c : Nat} {t : Token}
    (h : ts[c]? = some t) (ht : t.type = TokenType.SEMICOLON) :
    ∀ k, synchronizeLoop k ts (c + 1) = Res.ok () (c + 1)
  | 0 => rfl
  | k + 1 => by
    simp only [synchronizeLoop, bind_apply, sdl.isAtEnd]
    cases isAtEndAt ts (c + 1) <;>
      simp [bind_apply, previousToken_succ h, ht, pure_apply]

theorem synchronizeLoop_step {ts : List Token} {c : Nat} {p : Token} {u : TokenType}
    (h : ts[c]? = some p) (hp : p.type ≠ TokenType.SEMICOLON)
    (hu : typeAt ts (c + 1) = u)
    (hu1 : u ∉ [TokenType.SHADER, TokenType.IF, TokenType.FOR, TokenType.WHILE,
      TokenType.RETURN, TokenType.END_OF_FILE]) (k : Nat) :
    synchronizeLoop (k + 1) ts (c + 1) = synchronizeLoop k ts (c + 1 + 1) := by
  have hne : typeAt ts (c + 1) ≠ TokenType.END_OF_FILE := by
    rw [hu]; intro h1; rw [h1] at hu1; revert hu1; decide
  have hu2 : [TokenType.SHADER, TokenType.IF, TokenType.FOR, TokenType.WHILE,
      TokenType.RETURN].contains u = false := by
    revert hu1; cases u <;> decide
  have hcur : (currentTokenAt ts (c + 1)).type = u := hu
  simp only [synchronizeLoop, bind_apply, sdl.isAtEnd, isAtEndAt_of_typeAt hne,
    previousToken_succ h, hp, currentToken, hcur, hu2, advance, advanceAt_of_typeAt hne,
    Bool.not_false, Bool.false_eq_true, ↓reduceIte]

theorem synchronize_eq {ts : List Token} {c : Nat} (h : typeAt ts c ≠ TokenType.END_OF_FILE) :
    synchronize ts c = synchronizeLoop (ts.length - c) ts (c + 1) := by
  simp only [synchronize, bind_apply, advance, advanceAt_of_typeAt h]

theorem reportError_of_getElem? {ts : List Token} {c : Nat} {tok : Token}
    (h : ts[c]? = some tok) (ht : tok.type ≠ TokenType.END_OF_FILE) (msg : String) :
    reportError ts c msg = { message := msg, position := some (tok.line, tok.column) } := by
  have h1 : isAtEndAt ts c = false := by simp [isAtEndAt, h, ht]
  simp [reportError, h1, currentTokenAt_of_getElem? h ht]

/-- With the fuel that `parseProgram` passes on, `parseDeclaration` returns what
it returns with any sufficient fuel. -/
theorem parseDeclaration_of_eval {ts : List Token} {c : Nat} {r : Res Stmt} (N : Nat)
    (h : ∀ m, parseDeclaration (m + N) ts c = r) (hc : c ≤ ts.length)
    (n : Nat) (hn : 16 * (ts.length - c) + 11 ≤ n) : parseDeclaration n ts c = r := by
  have h1 : parseDeclaration n ts c ≠ Res.fuel := by
    intro hf
    have h2 := run_parseDeclaration ts n c hc
    rw [hf] at h2
    simp only [Run] at h2
    omega
  rw [← fuel_stable parseDeclaration mono_parseDeclaration ts c n h1 N]
  exact h n

/-- A token vector in which two declarations fail one after the other, the
second recovery ending at the `END_OF_FILE` token, gives the program without
declarations and two error lines. -/
theorem parseProgram_two_errors {ts : List Token} {msg1 msg2 : String} {c1 c2 c3 c4 : Nat}
    (h0 : isAtEndAt ts 0 = false)
    (hd1 : ∀ n, 16 * (ts.length - 0) + 11 ≤ n → parseDeclaration n ts 0 = Res.err msg1 c1)
    (hs1 : synchronize ts c1 = Res.ok () c2)
    (h2 : isAtEndAt ts c2 = false)
    (hd2 : ∀ n, 16 * (ts.length - c2) + 11 ≤ n → parseDeclaration n ts c2 = Res.err msg2 c3)
    (hs2 : synchronize ts c3 = Res.ok () c4)
    (h4 : isAtEndAt ts c4 = true) :
    parseProgram ts =
      Res.ok ({ declarations := [] }, [reportError ts c1 msg1, reportError ts c3 msg2]) c4 := by
  unfold parseProgram parseFuel
  obtain ⟨k, hk⟩ : ∃ k, 40 * (ts.length + 2) = k + 1 + 1 + 1 ∧ 16 * ts.length + 11 ≤ k :=
    ⟨40 * (ts.length + 2) - 3, by omega, by omega⟩
  rw [hk.1, parseProgramLoop]
  simp only [h0, Bool.not_false, ↓reduceIte, hd1 (k + 1 + 1) (by omega), hs1]
  rw [parseProgramLoop]
  simp only [h2, Bool.not_false, ↓reduceIte, hd2 (k + 1) (by omega), hs2]
  rw [parseProgramLoop]
  simp only [h4, Bool.not_true, Bool.false_eq_true, ↓reduceIte, List.nil_append,
    List.singleton_append]

theorem parseShaderType_ok {ts : List Token} {c : Nat}
    (h : typeAt ts c ∈ [TokenType.VERTEX, TokenType.FRAGMENT, TokenType.COMPUTE]) :
    ∃ st, parseShaderType ts c = Res.ok st (c + 1) := by
  simp only [List.mem_cons, List.mem_singleton, List.not_mem_nil, or_false] at h
  rcases h with h | h | h
  · exact ⟨ShaderType.VERTEX, by simp [parseShaderType, bind_apply, matchTok_eq, h, pure_apply]⟩
  · exact ⟨ShaderType.FRAGMENT, by
      simp [parseShaderType, bind_apply, matchTok_eq, h, pure_apply]⟩
  · exact ⟨ShaderType.COMPUTE, by simp [parseShaderType, bind_apply, matchTok_eq, h, pure_apply]⟩

/-- A shader declaration whose body starts with a token that is neither a
qualifier keyword, nor a type keyword, nor the closing brace fails at that token
with the message of the guard in the body loop. -/
theorem parseDeclaration_shader_statement {ts : List Token} {c : Nat} {tname tx : Token}
    (h0 : typeAt ts c = TokenType.SHADER)
    (h1 : ts[c + 1]? = some tname) (h1t : tname.type = TokenType.IDENTIFIER)
    (h2 : typeAt ts (c + 2) = TokenType.COLON)
    (h3 : typeAt ts (c + 3) ∈ [TokenType.VERTEX, TokenType.FRAGMENT, TokenType.COMPUTE])
    (h4 : typeAt ts (c + 4) = TokenType.LEFT_BRACE)
    (h5 : ts[c + 5]? = some tx)
    (h5t : tx.type ∉ TokenType.RIGHT_BRACE :: TokenType.END_OF_FILE ::
      (qualifierKeywords ++ typeKeywords)) (m : Nat) :
    parseDeclaration (m + 1) ts c =
      Res.err ("Unexpected token in shader body at line " ++ toString tx.line ++ ", column " ++
        toString tx.column) (c + 5) := by
  obtain ⟨st, hst⟩ := parseShaderType_ok h3
  have f1 : tx.type ≠ TokenType.RIGHT_BRACE := fun h => h5t (h ▸ List.mem_cons_self _ _)
  have f2 : tx.type ≠ TokenType.END_OF_FILE :=
    fun h => h5t (h ▸ List.mem_cons_of_mem _ (List.mem_cons_self _ _))
  have f3 : tx.type ∉ qualifierKeywords :=
    fun h => h5t (List.mem_cons_of_mem _ (List.mem_cons_of_mem _ (List.mem_append_left _ h)))
  have f4 : tx.type ∉ typeKeywords :=
    fun h => h5t (List.mem_cons_of_mem _ (List.mem_cons_of_mem _ (List.mem_append_right _ h)))
  have t5 : typeAt ts (c + 5) = tx.type := typeAt_eq_of_getElem? h5
  have e5 : isAtEndAt ts (c + 5) = false := isAtEndAt_of_typeAt (by rw [t5]; exact f2)
  simp only [parseDeclaration, parseShaderDeclaration, parseShaderBody, bind_apply,
    matchTok_of_typeAt h0 (by decide), consume_of_getElem? _ _ h1 h1t (by decide),
    consume_of_typeAt _ h2 (by decide), hst, consume_of_typeAt _ h4 (by decide),
    check_false .RIGHT_BRACE t5 f1 (by decide), sdl.isAtEnd, e5,
    checkAny_eq ts (c + 5) qualifierKeywords (by decide),
    checkAny_eq ts (c + 5) typeKeywords (by decide), t5, f3, f4, currentToken,
    currentTokenAt_of_getElem? h5 f2, throwRuntimeError, decide_False, Bool.not_false,
    Bool.and_self, Bool.false_eq_true, ↓reduceIte]

/-- A shader declaration whose body starts with a type keyword that no
identifier follows fails behind the keyword with "Expected name". -/
theorem parseDeclaration_shader_type {ts : List Token} {c : Nat} {tname : Token}
    {t u : TokenType}
    (h0 : typeAt ts c = TokenType.SHADER)
    (h1 : ts[c + 1]? = some tname) (h1t : tname.type = TokenType.IDENTIFIER)
    (h2 : typeAt ts (c + 2) = TokenType.COLON)
    (h3 : typeAt ts (c + 3) ∈ [TokenType.VERTEX, TokenType.FRAGMENT, TokenType.COMPUTE])
    (h4 : typeAt ts (c + 4) = TokenType.LEFT_BRACE)
    (h5 : typeAt ts (c + 5) = t) (h5t : t ∈ typeKeywords)
    (h6 : typeAt ts (c + 6) = u) (h6t : u ≠ TokenType.IDENTIFIER) (m : Nat) :
    parseDeclaration (m + 1) ts c = Res.err "Expected name" (c + 6) := by
  obtain ⟨st, hst⟩ := parseShaderType_ok h3
  have f : ∀ x ∈ typeKeywords, x ≠ TokenType.RIGHT_BRACE ∧ x ≠ TokenType.END_OF_FILE ∧
      x ∉ qualifierKeywords ∧ ∃ p ∈ typeKeywordKinds, p.1 = x := by
    decide
  obtain ⟨f1, f2, f3, ⟨t', k⟩, f4, rfl⟩ := f _ h5t
  have e5 : isAtEndAt ts (c + 5) = false := isAtEndAt_of_typeAt (by rw [h5]; exact f2)
  simp only [parseDeclaration, parseShaderDeclaration, parseShaderBody, bind_apply,
    matchTok_of_typeAt h0 (by decide), consume_of_getElem? _ _ h1 h1t (by decide),
    consume_of_typeAt _ h2 (by decide), hst, consume_of_typeAt _ h4 (by decide),
    check_false .RIGHT_BRACE h5 f1 (by decide), sdl.isAtEnd, e5,
    checkAny_eq ts (c + 5) qualifierKeywords (by decide),
    checkAny_eq ts (c + 5) typeKeywords (by decide), h5, f3, h5t, parseType_of h5 f4,
    consume_of_ne .IDENTIFIER _ (by rw [h6]; exact h6t) (by decide), decide_False, decide_True,
    Bool.not_false, Bool.and_self, Bool.false_eq_true, ↓reduceIte]

/-- C25.  For every identifier token `s`, every shader type keyword and every
type keyword in the place of `int`: parsing the tokens `shader s : vertex`, an
opening brace, `int ;` and a closing brace reports the error "Expected name" at
the semicolon and then the error "Expected expression" at the closing brace,
and the resulting `Program` has no declarations, so no `ShaderDeclaration`. -/
theorem body_failure_aborts_declaration (tsh tname tcol tk tlb tint tsemi trb te : Token)
    (rest : List Token)
    (hsh : tsh.type = TokenType.SHADER) (hname : tname.type = TokenType.IDENTIFIER)
    (hcol : tcol.type = TokenType.COLON)
    (hk : tk.type ∈ [TokenType.VERTEX, TokenType.FRAGMENT, TokenType.COMPUTE])
    (hlb : tlb.type = TokenType.LEFT_BRACE) (hint : tint.type ∈ typeKeywords)
    (hsemi : tsemi.type = TokenType.SEMICOLON) (hrb : trb.type = TokenType.RIGHT_BRACE)
    (he : te.type = TokenType.END_OF_FILE) :
    parseProgram (tsh :: tname :: tcol :: tk :: tlb :: tint :: tsemi :: trb :: te :: rest) =
      Res.ok ({ declarations := [] },
        [{ message := "Expected name", position := some (tsemi.line, tsemi.column) },
         { message := "Expected expression", position := some (trb.line, trb.column) }]) 8 := by
  have g : ∀ (i : Nat) (t : Token),
      (tsh :: tname :: tcol :: tk :: tlb :: tint :: tsemi :: trb :: te :: rest)[i]? = some t →
      typeAt (tsh :: tname :: tcol :: tk :: tlb :: tint :: tsemi :: trb :: te :: rest) i =
        t.type := fun i t h => typeAt_eq_of_getElem? h
  have t6 := (g 6 tsemi (by simp)).trans hsemi
  have t7 := (g 7 trb (by simp)).trans hrb
  have r := @parseProgram_two_errors _ "Expected name" "Expected expression" 6 7 7 8
    (isAtEndAt_of_typeAt (by rw [g 0 tsh (by simp), hsh]; decide))
    (parseDeclaration_of_eval 1 (@parseDeclaration_shader_type _ 0 tname _ _
      ((g 0 tsh (by simp)).trans hsh)
      (by simp) hname ((g 2 tcol (by simp)).trans hcol) (by rw [g 3 tk (by simp)]; exact hk)
      ((g 4 tlb (by simp)).trans hlb) (g 5 tint (by simp)) hint t6 (by decide))
      (Nat.zero_le _))
    (by rw [synchronize_eq (by rw [t6]; decide)]
        exact synchronizeLoop_after_semicolon (t := tsemi) (by simp) hsemi _)
    (isAtEndAt_of_typeAt (by rw [t7]; decide))
    (parseDeclaration_of_eval 11 (parseDeclaration_rightBrace t7) (by simp))
    (by rw [synchronize_eq (by rw [t7]; decide)]
        exact synchronizeLoop_at_end (@isAtEndAt_of_eof _ 8 te (by simp) he) _)
    (@isAtEndAt_of_eof _ 8 te (by simp) he)
  rw [r, @reportError_of_getElem? _ 6 tsemi (by simp) (by rw [hsemi]; decide),
    @reportError_of_getElem? _ 7 trb (by simp) (by rw [hrb]; decide)]

theorem body_failure_aborts_declaration_witness :
    parseProgram [Token.mk .SHADER "shader" 1 1, Token.mk .IDENTIFIER "s" 1 8,
        Token.mk .COLON ":" 1 10, Token.mk .VERTEX "vertex" 1 12, Token.mk .LEFT_BRACE "\x7b" 1 19,
        Token.mk .INT "int" 1 21, Token.mk .SEMICOLON ";" 1 25, Token.mk .RIGHT_BRACE "\x7d" 1 27,
        Token.mk .END_OF_FILE "" 1 28] =
      Res.ok ({ declarations := [] },
        [{ message := "Expected name", position := some (1, 25) },
         { message := "Expected expression", position := some (1, 27) }]) 8 :=
  body_failure_aborts_declaration (Token.mk .SHADER "shader" 1 1) (Token.mk .IDENTIFIER "s" 1 8)
    (Token.mk .COLON ":" 1 10) (Token.mk .VERTEX "vertex" 1 12) (Token.mk .LEFT_BRACE "\x7b" 1 19)
    (Token.mk .INT "int" 1 21) (Token.mk .SEMICOLON ";" 1 25) (Token.mk .RIGHT_BRACE "\x7d" 1 27)
    (Token.mk .END_OF_FILE "" 1 28) [] rfl rfl rfl (by decide) rfl (by decide) rfl rfl rfl

/-- A function declaration without parameters whose body is one statement. -/
theorem parseDeclaration_function_statement {ts : List Token} {c c1 : Nat} {t u : TokenType}
    {k : TypeKind} {tn : Token} {s : Stmt}
    (hT : typeAt ts c = t) (hk : (t, k) ∈ typeKeywordKinds)
    (hn : ts[c + 1]? = some tn) (hnt : tn.type = TokenType.IDENTIFIER)
    (h2 : typeAt ts (c + 2) = TokenType.LEFT_PAREN)
    (h3 : typeAt ts (c + 3) = TokenType.RIGHT_PAREN)
    (h4 : typeAt ts (c + 4) = TokenType.LEFT_BRACE)
    (h5 : typeAt ts (c + 5) = u) (hu1 : u ≠ TokenType.RIGHT_BRACE)
    (hu2 : u ≠ TokenType.END_OF_FILE)
    (hs : Parses parseStatement ts (c + 5) s c1)
    (h6 : typeAt ts c1 = TokenType.RIGHT_BRACE) :
    ∃ N, ∀ m, parseDeclaration (m + N) ts c =
      Res.ok (Stmt.FunctionDeclaration tn.value (some { kind := k }) [] [s]) (c1 + 1) := by
  obtain ⟨f1, f2, f3, _, f5⟩ := typeKeywordKinds_facts (t, k) hk
  have hn1 : typeAt ts (c + 1) = TokenType.IDENTIFIER := by rw [typeAt_eq_of_getElem? hn, hnt]
  have e5 : isAtEndAt ts (c + 5) = false := isAtEndAt_of_typeAt (by rw [h5]; exact hu2)
  obtain ⟨N, hs⟩ := hs
  refine ⟨N + 1 + 1, fun m => ?_⟩
  rw [← Nat.add_assoc, ← Nat.add_assoc]
  simp only [parseDeclaration, parseFunctionRest, parseStatementList, bind_apply,
    matchTok_false .SHADER hT f1 (by decide),
    checkAny_eq ts c (qualifierKeywords ++ typeKeywords) (by decide), hT, f2,
    parseQualifier_none (hT ▸ f3), parseType_of hT hk,
    check_true hn1 (by decide), consume_of_getElem? _ _ hn hnt (by decide),
    check_true h2 (by decide), consume_of_typeAt _ h2 (by decide), check_true h3 (by decide),
    consume_of_typeAt _ h3 (by decide), matchTok_of_typeAt h4 (by decide),
    check_false .RIGHT_BRACE h5 hu1 (by decide), sdl.isAtEnd, e5, hs (m + N + 1) (by omega),
    check_true h6 (by decide), consume_of_typeAt _ h6 (by decide), pure_apply,
    Bool.false_eq_true, Bool.not_true, Bool.not_false, Bool.and_self, Bool.false_and,
    List.nil_append, ↓reduceIte, decide_True]

/-- A token vector whose first declaration ends at the `END_OF_FILE` token gives
the program with that one declaration. -/
theorem parseProgram_one {ts : List Token} {decl : Stmt} {c1 : Nat}
    (h0 : isAtEndAt ts 0 = false)
    (hd : ∀ n, 16 * (ts.length - 0) + 11 ≤ n → parseDeclaration n ts 0 = Res.ok decl c1)
    (h1 : isAtEndAt ts c1 = true) :
    parseProgram ts = Res.ok ({ declarations := [decl] }, []) c1 := by
  unfold parseProgram parseFuel
  obtain ⟨k, hk⟩ : ∃ k, 40 * (ts.length + 2) = k + 1 + 1 ∧ 16 * ts.length + 11 ≤ k :=
    ⟨40 * (ts.length + 2) - 2, by omega, by omega⟩
  rw [hk.1, parseProgramLoop]
  simp only [h0, Bool.not_false, ↓reduceIte, hd (k + 1) (by omega)]
  rw [parseProgramLoop]
  simp only [h1, Bool.not_true, Bool.false_eq_true, ↓reduceIte, List.nil_append]

/-- The program that consists of one function without parameters whose body is
one statement. -/
theorem parseProgram_function_statement {ts : List Token} {c1 : Nat} {t u : TokenType}
    {k : TypeKind} {tn te : Token} {s : Stmt}
    (hT : typeAt ts 0 = t) (hk : (t, k) ∈ typeKeywordKinds)
    (hn : ts[1]? = some tn) (hnt : tn.type = TokenType.IDENTIFIER)
    (h2 : typeAt ts 2 = TokenType.LEFT_PAREN)
    (h3 : typeAt ts 3 = TokenType.RIGHT_PAREN)
    (h4 : typeAt ts 4 = TokenType.LEFT_BRACE)
    (h5 : typeAt ts 5 = u) (hu1 : u ≠ TokenType.RIGHT_BRACE)
    (hu2 : u ≠ TokenType.END_OF_FILE)
    (hs : Parses parseStatement ts 5 s c1)
    (h6 : typeAt ts c1 = TokenType.RIGHT_BRACE)
    (h7 : ts[c1 + 1]? = some te) (he : te.type = TokenType.END_OF_FILE) :
    parseProgram ts =
      Res.ok ({ declarations :=
        [Stmt.FunctionDeclaration tn.value (some { kind := k }) [] [s]] }, []) (c1 + 1) := by
  obtain ⟨N, hN⟩ := @parseDeclaration_function_statement ts 0 c1 t u k tn s hT hk hn hnt h2 h3 h4
    h5 hu1 hu2 hs h6
  exact parseProgram_one
    (isAtEndAt_of_typeAt (by rw [hT]; exact (typeKeywordKinds_facts (t, k) hk).2.2.2.2))
    (parseDeclaration_of_eval N hN (Nat.zero_le _)) (isAtEndAt_of_eof h7 he)

/-- C21 at a failing input.  The text `shader s : compute` followed by the body
`x = y ;` in braces does not parse to a `ShaderDeclaration`: the body loop of
`parseShaderDeclaration` throws at `x` (line 1, column 22), the recovery stops
behind the semicolon, the closing brace gives a second error, and the resulting
`Program` has no declarations. -/
theorem shader_body_statement_example :
    parseProgram (tokenize "shader s : compute \x7b x = y ; \x7d".toList) =
      Res.ok ({ declarations := [] },
        [{ message := "Unexpected token in shader body at line 1, column 22",
           position := some (1, 22) },
         { message := "Expected expression", position := some (1, 30) }]) 10 := by
  rfl

/-- C21, amended.  A shader body does not accept the statements a function body
accepts: for identifier tokens `s`, `x`, `y`, every shader type keyword and
every type keyword `T`, parsing the tokens `shader s : compute`, an opening
brace, `x = y ;` and a closing brace reports the error "Unexpected token in
shader body at line L, column C" with the position of `x` and then the error
"Expected expression" at the closing brace, and the resulting `Program` has no
declarations; whereas the tokens `T f ( )`, an opening brace, `x = y ;` and a
closing brace parse without error to one `FunctionDeclaration` whose body is
the single `AssignmentStatement` with target `x` and value `y`. -/
theorem shader_body_rejects_statement
    (tsh tname tcol tk tlb tx tasg ty tsemi trb te tT tf tlp trp : Token) (rest : List Token)
    (k : TypeKind)
    (hsh : tsh.type = TokenType.SHADER) (hname : tname.type = TokenType.IDENTIFIER)
    (hcol : tcol.type = TokenType.COLON)
    (hk : tk.type ∈ [TokenType.VERTEX, TokenType.FRAGMENT, TokenType.COMPUTE])
    (hlb : tlb.type = TokenType.LEFT_BRACE) (hx : tx.type = TokenType.IDENTIFIER)
    (hasg : tasg.type = TokenType.ASSIGN) (hy : ty.type = TokenType.IDENTIFIER)
    (hsemi : tsemi.type = TokenType.SEMICOLON) (hrb : trb.type = TokenType.RIGHT_BRACE)
    (he : te.type = TokenType.END_OF_FILE)
    (hT : (tT.type, k) ∈ typeKeywordKinds) (hf : tf.type = TokenType.IDENTIFIER)
    (hlp : tlp.type = TokenType.LEFT_PAREN) (hrp : trp.type = TokenType.RIGHT_PAREN) :
    parseProgram
        (tsh :: tname :: tcol :: tk :: tlb :: tx :: tasg :: ty :: tsemi :: trb :: te :: rest) =
      Res.ok ({ declarations := [] },
        [{ message := "Unexpected token in shader body at line " ++ toString tx.line ++
             ", column " ++ toString tx.column,
           position := some (tx.line, tx.column) },
         { message := "Expected expression", position := some (trb.line, trb.column) }]) 10 ∧
    parseProgram
        (tT :: tf :: tlp :: trp :: tlb :: tx :: tasg :: ty :: tsemi :: trb :: te :: rest) =
      Res.ok ({ declarations := [Stmt.FunctionDeclaration tf.value (some { kind := k }) []
        [Stmt.AssignmentStatement (Expr.Identifier tx.value) (Expr.Identifier ty.value)]] },
        []) 10 := by
  constructor
  · have g : ∀ (i : Nat) (t : Token),
        (tsh :: tname :: tcol :: tk :: tlb :: tx :: tasg :: ty :: tsemi :: trb :: te ::
          rest)[i]? = some t →
        typeAt (tsh :: tname :: tcol :: tk :: tlb :: tx :: tasg :: ty :: tsemi :: trb :: te ::
          rest) i = t.type := fun i t h => typeAt_eq_of_getElem? h
    have t5 := (g 5 tx (by simp)).trans hx
    have t9 := (g 9 trb (by simp)).trans hrb
    have hlen : (tsh :: tname :: tcol :: tk :: tlb :: tx :: tasg :: ty :: tsemi :: trb :: te ::
        rest).length - 5 = rest.length + 3 + 1 + 1 + 1 := by
      simp only [List.length_cons]; omega
    have r := @parseProgram_two_errors _ _ "Expected expression" 5 9 9 10
      (isAtEndAt_of_typeAt (by rw [g 0 tsh (by simp), hsh]; decide))
      (parseDeclaration_of_eval 1 (@parseDeclaration_shader_statement _ 0 tname tx
        ((g 0 tsh (by simp)).trans hsh) (by simp) hname ((g 2 tcol (by simp)).trans hcol)
        (by rw [g 3 tk (by simp)]; exact hk) ((g 4 tlb (by simp)).trans hlb)
        (by simp) (by rw [hx]; decide)) (Nat.zero_le _))
      (by rw [synchronize_eq (by rw [t5]; decide), hlen,
            synchronizeLoop_step (p := tx) (by simp) (by rw [hx]; decide)
              ((g 6 tasg (by simp)).trans hasg) (by decide),
            synchronizeLoop_step (p := tasg) (by simp) (by rw [hasg]; decide)
              ((g 7 ty (by simp)).trans hy) (by decide),
            synchronizeLoop_step (p := ty) (by simp) (by rw [hy]; decide)
              ((g 8 tsemi (by simp)).trans hsemi) (by decide)]
          exact synchronizeLoop_after_semicolon (t := tsemi) (by simp) hsemi _)
      (isAtEndAt_of_typeAt (by rw [t9]; decide))
      (parseDeclaration_of_eval 11 (parseDeclaration_rightBrace t9) (by simp))
      (by rw [synchronize_eq (by rw [t9]; decide)]
          exact synchronizeLoop_at_end (@isAtEndAt_of_eof _ 10 te (by simp) he) _)
      (@isAtEndAt_of_eof _ 10 te (by simp) he)
    rw [r, @reportError_of_getElem? _ 5 tx (by simp) (by rw [hx]; decide),
      @reportError_of_getElem? _ 9 trb (by simp) (by rw [hrb]; decide)]
  · have g : ∀ (i : Nat) (t : Token),
        (tT :: tf :: tlp :: trp :: tlb :: tx :: tasg :: ty :: tsemi :: trb :: te ::
          rest)[i]? = some t →
        typeAt (tT :: tf :: tlp :: trp :: tlb :: tx :: tasg :: ty :: tsemi :: trb :: te ::
          rest) i = t.type := fun i t h => typeAt_eq_of_getElem? h
    have t8 := (g 8 tsemi (by simp)).trans hsemi
    exact parseProgram_function_statement (g 0 tT (by simp)) hT (by simp) hf
      ((g 2 tlp (by simp)).trans hlp) ((g 3 trp (by simp)).trans hrp)
      ((g 4 tlb (by simp)).trans hlb) ((g 5 tx (by simp)).trans hx) (by decide) (by decide)
      (@parseStatement_assignment _ 5 8 tx _ (by simp) hx ((g 6 tasg (by simp)).trans hasg)
        (@parseExpression_identifier _ 7 ty _ (by simp) hy t8 (by decide)
          semicolon_ne_operatorToken) t8)
      ((g 9 trb (by simp)).trans hrb) (by simp) he

theorem shader_body_rejects_statement_witness :
    parseProgram [Token.mk .SHADER "shader" 1 1, Token.mk .IDENTIFIER "s" 1 8,
        Token.mk .COLON ":" 1 10, Token.mk .COMPUTE "compute" 1 12,
        Token.mk .LEFT_BRACE "\x7b" 1 20, Token.mk .IDENTIFIER "x" 1 22,
        Token.mk .ASSIGN "=" 1 24, Token.mk .IDENTIFIER "y" 1 26, Token.mk .SEMICOLON ";" 1 28,
        Token.mk .RIGHT_BRACE "\x7d" 1 30, Token.mk .END_OF_FILE "" 1 31] =
      Res.ok ({ declarations := [] },
        [{ message := "Unexpected token in shader body at line " ++ toString 1 ++
             ", column " ++ toString 22,
           position := some (1, 22) },
         { message := "Expected expression", position := some (1, 30) }]) 10 ∧
    parseProgram [Token.mk .VOID "void" 1 1, Token.mk .IDENTIFIER "f" 1 6,
        Token.mk .LEFT_PAREN "(" 1 8, Token.mk .RIGHT_PAREN ")" 1 10,
        Token.mk .LEFT_BRACE "\x7b" 1 20, Token.mk .IDENTIFIER "x" 1 22,
        Token.mk .ASSIGN "=" 1 24, Token.mk .IDENTIFIER "y" 1 26, Token.mk .SEMICOLON ";" 1 28,
        Token.mk .RIGHT_BRACE "\x7d" 1 30, Token.mk .END_OF_FILE "" 1 31] =
      Res.ok ({ declarations := [Stmt.FunctionDeclaration "f" (some { kind := TypeKind.VOID }) []
        [Stmt.AssignmentStatement (Expr.Identifier "x") (Expr.Identifier "y")]] }, []) 10 :=
  shader_body_rejects_statement (Token.mk .SHADER "shader" 1 1) (Token.mk .IDENTIFIER "s" 1 8)
    (Token.mk .COLON ":" 1 10) (Token.mk .COMPUTE "compute" 1 12)
    (Token.mk .LEFT_BRACE "\x7b" 1 20) (Token.mk .IDENTIFIER "x" 1 22)
    (Token.mk .ASSIGN "=" 1 24) (Token.mk .IDENTIFIER "y" 1 26) (Token.mk .SEMICOLON ";" 1 28)
    (Token.mk .RIGHT_BRACE "\x7d" 1 30) (Token.mk .END_OF_FILE "" 1 31)
    (Token.mk .VOID "void" 1 1) (Token.mk .IDENTIFIER "f" 1 6) (Token.mk .LEFT_PAREN "(" 1 8)
    (Token.mk .RIGHT_PAREN ")" 1 10) [] TypeKind.VOID
    rfl rfl rfl (by decide) rfl rfl rfl rfl rfl rfl rfl (by decide) rfl rfl rfl

/-- C24.  For identifier tokens `v` and `a`, a `vec3` keyword token and tokens
`=`, `(`, `)` and `;`: in statement position, wherever the cursor stands, the
tokens `vec3 v = a ;` parse to a `VariableDeclaration` with qualifier `NONE`,
type `VEC3`, name `v` and initializer `Identifier a`, and the tokens
`vec3 ( a ) ;` parse to an `ExpressionStatement` holding a `FunctionCall` named
by the text of the keyword token with the single argument `a`, each time with
the cursor behind the semicolon; the lookahead returns with the cursor where it
was, for every token vector and cursor; and as the only statement in the body
of a function `T f ( )` the two token sequences give these statements as the
body of the one `FunctionDeclaration` of the program, without error. -/
theorem declaration_or_constructor (tv tn ta tasg tlp trp tsemi tT tf tlb trb te : Token)
    (k : TypeKind)
    (hv : tv.type = TokenType.VEC3) (hn : tn.type = TokenType.IDENTIFIER)
    (ha : ta.type = TokenType.IDENTIFIER) (hasg : tasg.type = TokenType.ASSIGN)
    (hlp : tlp.type = TokenType.LEFT_PAREN) (hrp : trp.type = TokenType.RIGHT_PAREN)
    (hsemi : tsemi.type = TokenType.SEMICOLON)
    (hT : (tT.type, k) ∈ typeKeywordKinds) (hf : tf.type = TokenType.IDENTIFIER)
    (hlb : tlb.type = TokenType.LEFT_BRACE) (hrb : trb.type = TokenType.RIGHT_BRACE)
    (he : te.type = TokenType.END_OF_FILE) :
    (∀ (ts rest : List Token) (c n : Nat), ts.drop c = tv :: tn :: tasg :: ta :: tsemi :: rest →
      16 * (ts.length - c) + 11 ≤ n →
      parseStatement n ts c =
        Res.ok (Stmt.VariableDeclaration
          { qualifier := Qualifier.NONE, type := { kind := TypeKind.VEC3 }, name := tn.value,
            initializer := some (Expr.Identifier ta.value) }) (c + 5)) ∧
    (∀ (ts rest : List Token) (c n : Nat), ts.drop c = tv :: tlp :: ta :: trp :: tsemi :: rest →
      16 * (ts.length - c) + 11 ≤ n →
      parseStatement n ts c =
        Res.ok (Stmt.ExpressionStatement
          (Expr.FunctionCall tv.value [Expr.Identifier ta.value])) (c + 5)) ∧
    (∀ (ts : List Token) (c : Nat), ∃ b, isVariableDeclarationAhead ts c = Res.ok b c) ∧
    (∀ rest : List Token,
      parseProgram (tT :: tf :: tlp :: trp :: tlb :: tv :: tn :: tasg :: ta :: tsemi :: trb ::
          te :: rest) =
        Res.ok ({ declarations := [Stmt.FunctionDeclaration tf.value (some { kind := k }) []
          [Stmt.VariableDeclaration
            { qualifier := Qualifier.NONE, type := { kind := TypeKind.VEC3 }, name := tn.value,
              initializer := some (Expr.Identifier ta.value) }]] }, []) 11) ∧
    (∀ rest : List Token,
      parseProgram (tT :: tf :: tlp :: trp :: tlb :: tv :: tlp :: ta :: trp :: tsemi :: trb ::
          te :: rest) =
        Res.ok ({ declarations := [Stmt.FunctionDeclaration tf.value (some { kind := k }) []
          [Stmt.ExpressionStatement
            (Expr.FunctionCall tv.value [Expr.Identifier ta.value])]] }, []) 11) := by
  have var : ∀ (ts : List Token) (c : Nat), ts[c]? = some tv → ts[c + 1]? = some tn →
      ts[c + 2]? = some tasg → ts[c + 3]? = some ta → ts[c + 4]? = some tsemi →
      Parses parseStatement ts c (Stmt.VariableDeclaration
        { qualifier := Qualifier.NONE, type := { kind := TypeKind.VEC3 }, name := tn.value,
          initializer := some (Expr.Identifier ta.value) }) (c + 5) := by
    intro ts c g0 g1 g2 g3 g4
    have t4 : typeAt ts (c + 3 + 1) = TokenType.SEMICOLON := by
      rw [typeAt_eq_of_getElem? g4, hsemi]
    exact parseStatement_variable ((typeAt_eq_of_getElem? g0).trans hv) (by decide) g1 hn
      (by rw [typeAt_eq_of_getElem? g2, hasg])
      (parseExpression_identifier g3 ha t4 (by decide) semicolon_ne_operatorToken) t4
  have call : ∀ (ts : List Token) (c : Nat), ts[c]? = some tv → ts[c + 1]? = some tlp →
      ts[c + 2]? = some ta → ts[c + 3]? = some trp → ts[c + 4]? = some tsemi →
      Parses parseStatement ts c (Stmt.ExpressionStatement
        (Expr.FunctionCall tv.value [Expr.Identifier ta.value])) (c + 5) := by
    intro ts c g0 g1 g2 g3 g4
    have t4 : typeAt ts (c + 4) = TokenType.SEMICOLON := by
      rw [typeAt_eq_of_getElem? g4, hsemi]
    have t1 : typeAt ts (c + 1) = TokenType.LEFT_PAREN := by rw [typeAt_eq_of_getElem? g1, hlp]
    exact parseStatement_constructor ((typeAt_eq_of_getElem? g0).trans hv) (by decide) t1
      (parseExpression_call g0 (Or.inr (by rw [hv]; decide)) t1 g2 ha
        (by rw [typeAt_eq_of_getElem? g3, hrp]) t4) t4
  refine ⟨?_, ?_, fun ts c => ⟨_, isVariableDeclarationAhead_eq ts c⟩, ?_, ?_⟩
  · intro ts rest c n hd hfuel
    have g := getElem?_of_drop hd
    exact parseStatement_of_parses
      (var ts c (by simpa using g 0) (by simpa using g 1) (by simpa using g 2)
        (by simpa using g 3) (by simpa using g 4)) (length_of_drop hd) n hfuel
  · intro ts rest c n hd hfuel
    have g := getElem?_of_drop hd
    exact parseStatement_of_parses
      (call ts c (by simpa using g 0) (by simpa using g 1) (by simpa using g 2)
        (by simpa using g 3) (by simpa using g 4)) (length_of_drop hd) n hfuel
  · intro rest
    have g : ∀ (i : Nat) (t : Token),
        (tT :: tf :: tlp :: trp :: tlb :: tv :: tn :: tasg :: ta :: tsemi :: trb :: te ::
          rest)[i]? = some t →
        typeAt (tT :: tf :: tlp :: trp :: tlb :: tv :: tn :: tasg :: ta :: tsemi :: trb :: te ::
          rest) i = t.type := fun i t h => typeAt_eq_of_getElem? h
    exact parseProgram_function_statement (g 0 tT (by simp)) hT (by simp) hf
      ((g 2 tlp (by simp)).trans hlp) ((g 3 trp (by simp)).trans hrp)
      ((g 4 tlb (by simp)).trans hlb) ((g 5 tv (by simp)).trans hv) (by decide) (by decide)
      (var _ 5 (by simp) (by simp) (by simp) (by simp) (by simp))
      ((g 10 trb (by simp)).trans hrb) (by simp) he
  · intro rest
    have g : ∀ (i : Nat) (t : Token),
        (tT :: tf :: tlp :: trp :: tlb :: tv :: tlp :: ta :: trp :: tsemi :: trb :: te ::
          rest)[i]? = some t →
        typeAt (tT :: tf :: tlp :: trp :: tlb :: tv :: tlp :: ta :: trp :: tsemi :: trb :: te ::
          rest) i = t.type := fun i t h => typeAt_eq_of_getElem? h
    exact parseProgram_function_statement (g 0 tT (by simp)) hT (by simp) hf
      ((g 2 tlp (by simp)).trans hlp) ((g 3 trp (by simp)).trans hrp)
      ((g 4 tlb (by simp)).trans hlb) ((g 5 tv (by simp)).trans hv) (by decide) (by decide)
      (call _ 5 (by simp) (by simp) (by simp) (by simp) (by simp))
      ((g 10 trb (by simp)).trans hrb) (by simp) he

theorem declaration_or_constructor_witness :
    parseStatement 120 [Token.mk .VEC3 "vec3" 1 1, Token.mk .IDENTIFIER "v" 1 6,
        Token.mk .ASSIGN "=" 1 8, Token.mk .IDENTIFIER "a" 1 10, Token.mk .SEMICOLON ";" 1 12,
        Token.mk .END_OF_FILE "" 1 13] 0 =
      Res.ok (Stmt.VariableDeclaration
        { qualifier := Qualifier.NONE, type := { kind := TypeKind.VEC3 }, name := "v",
          initializer := some (Expr.Identifier "a") }) 5 ∧
    parseStatement 120 [Token.mk .VEC3 "vec3" 1 1, Token.mk .LEFT_PAREN "(" 1 6,
        Token.mk .IDENTIFIER "a" 1 10, Token.mk .RIGHT_PAREN ")" 1 11,
        Token.mk .SEMICOLON ";" 1 12, Token.mk .END_OF_FILE "" 1 13] 0 =
      Res.ok (Stmt.ExpressionStatement
        (Expr.FunctionCall "vec3" [Expr.Identifier "a"])) 5 ∧
    parseProgram [Token.mk .VOID "void" 0 1, Token.mk .IDENTIFIER "f" 0 6,
        Token.mk .LEFT_PAREN "(" 1 6, Token.mk .RIGHT_PAREN ")" 1 11,
        Token.mk .LEFT_BRACE "\x7b" 0 10, Token.mk .VEC3 "vec3" 1 1,
        Token.mk .LEFT_PAREN "(" 1 6, Token.mk .IDENTIFIER "a" 1 10,
        Token.mk .RIGHT_PAREN ")" 1 11, Token.mk .SEMICOLON ";" 1 12,
        Token.mk .RIGHT_BRACE "\x7d" 2 1, Token.mk .END_OF_FILE "" 2 2] =
      Res.ok ({ declarations := [Stmt.FunctionDeclaration "f" (some { kind := TypeKind.VOID }) []
        [Stmt.ExpressionStatement
          (Expr.FunctionCall "vec3" [Expr.Identifier "a"])]] }, []) 11 :=
  have h := declaration_or_constructor (Token.mk .VEC3 "vec3" 1 1)
    (Token.mk .IDENTIFIER "v" 1 6) (Token.mk .IDENTIFIER "a" 1 10) (Token.mk .ASSIGN "=" 1 8)
    (Token.mk .LEFT_PAREN "(" 1 6) (Token.mk .RIGHT_PAREN ")" 1 11)
    (Token.mk .SEMICOLON ";" 1 12) (Token.mk .VOID "void" 0 1) (Token.mk .IDENTIFIER "f" 0 6)
    (Token.mk .LEFT_BRACE "\x7b" 0 10) (Token.mk .RIGHT_BRACE "\x7d" 2 1)
    (Token.mk .END_OF_FILE "" 2 2) TypeKind.VOID
    rfl rfl rfl rfl rfl rfl rfl (by decide) rfl rfl rfl rfl
  ⟨h.1 _ [Token.mk .END_OF_FILE "" 1 13] 0 120 rfl (by decide),
    h.2.1 _ [Token.mk .END_OF_FILE "" 1 13] 0 120 rfl (by decide),
    h.2.2.2.2 []⟩

/-- C31 at a failing input.  The CUDA visitor of a function call writes the
name stored in the node: the call `texture(s, uv)` is emitted as
`texture(s, uv)`, as the expression and as an expression statement of a
program, whereas `getFunctionCallString`, the only caller of the builtin-name
mapping `getCUDABuiltinFunction`, renders the same call as `tex2D(s, uv)`; a
name without special case, such as `foo`, is emitted under its own name. -/
theorem cuda_call_skips_builtin_mapping :
    (CUDAGenerator.visitExpr
        (Expr.FunctionCall "texture" [Expr.Identifier "s", Expr.Identifier "uv"]) {}).output =
      "texture(s, uv)" ∧
    (CUDAGenerator.generate {} { declarations := [Stmt.ExpressionStatement
        (Expr.FunctionCall "texture" [Expr.Identifier "s", Expr.Identifier "uv"])] }).1 =
      "#include <cuda_runtime.h>\n#include <device_launch_parameters.h>\n\ntexture(s, uv);\n" ∧
    CUDAGenerator.getCUDABuiltinFunction "texture" = "tex2D" ∧
    CUDAGenerator.getFunctionCallString "texture" ["s", "uv"] = "tex2D(s, uv)" ∧
    (CUDAGenerator.visitExpr
        (Expr.FunctionCall "foo" [Expr.Identifier "s", Expr.Identifier "uv"]) {}).output =
      "foo(s, uv)" := by
  refine ⟨rfl, rfl, by decide, by decide, rfl⟩

/-- C32.  The qualifier words of the two backends: GLSL maps `in`, `out`,
`uniform` and `const` to the same words and `NONE` to the empty string; CUDA
maps `uniform` to `__constant__`, `const` to `const`, and `in`, `out` and
`NONE` to the empty string.  For every qualifier `q`, type `T` and name `n`,
the program whose only declaration is the variable `q T n` without initializer
is emitted, after the preamble, as the one line made of the qualifier word and
a blank (both left out when the word is empty), the type word, a blank, the
name and `;`.  So `uniform mat4 mvp;` gives `uniform mat4 mvp;` in GLSL and
`__constant__ float4x4 mvp;` in CUDA, and `in vec3 position;` gives
`in vec3 position;` in GLSL and `float3 position;` in CUDA, also when the
declarations are read from the source text by `compile`. -/
theorem qualifier_mapping (q : Qualifier) (T : TypeNode) (n : String) :
    (GLSLGenerator.getQualifierString .IN = "in" ∧ GLSLGenerator.getQualifierString .OUT = "out" ∧
      GLSLGenerator.getQualifierString .UNIFORM = "uniform" ∧
      GLSLGenerator.getQualifierString .CONST = "const" ∧
      GLSLGenerator.getQualifierString .NONE = "") ∧
    (CUDAGenerator.getQualifierString .UNIFORM = "__constant__" ∧
      CUDAGenerator.getQualifierString .CONST = "const" ∧
      CUDAGenerator.getQualifierString .IN = "" ∧ CUDAGenerator.getQualifierString .OUT = "" ∧
      CUDAGenerator.getQualifierString .NONE = "") ∧
    (GLSLGenerator.generate {} { declarations := [Stmt.VariableDeclaration
        { qualifier := q, type := T, name := n, initializer := none }] }).1 =
      "#version 330 core\n\n" ++
        ((if GLSLGenerator.getQualifierString q = "" then ""
          else GLSLGenerator.getQualifierString q ++ " ") ++
          GLSLGenerator.getTypeString T ++ " " ++ n ++ ";\n") ∧
    (CUDAGenerator.generate {} { declarations := [Stmt.VariableDeclaration
        { qualifier := q, type := T, name := n, initializer := none }] }).1 =
      "#include <cuda_runtime.h>\n#include <device_launch_parameters.h>\n\n" ++
        ((if CUDAGenerator.getQualifierString q = "" then ""
          else CUDAGenerator.getQualifierString q ++ " ") ++
          CUDAGenerator.getTypeString T ++ " " ++ n ++ ";\n") ∧
    compile (fun _ => some "uniform mat4 mvp;".toList)
        { targets := [.GLSL, .CUDA], inputFile := "a.sdl" } {} =
      some (true,
        { glslOutput := "#version 330 core\n\nuniform mat4 mvp;\n",
          cudaOutput := "#include <cuda_runtime.h>\n#include <device_launch_parameters.h>\n\n" ++
            "__constant__ float4x4 mvp;\n" }) ∧
    compile (fun _ => some "in vec3 position;".toList)
        { targets := [.GLSL, .CUDA], inputFile := "a.sdl" } {} =
      some (true,
        { glslOutput := "#version 330 core\n\nin vec3 position;\n",
          cudaOutput := "#include <cuda_runtime.h>\n#include <device_launch_parameters.h>\n\n" ++
            "float3 position;\n" }) := by
  refine ⟨⟨rfl, rfl, rfl, rfl, rfl⟩, ⟨rfl, rfl, rfl, rfl, rfl⟩, ?_, ?_, rfl, rfl⟩
  · simp only [GLSLGenerator.generate, GLSLGenerator.generatePreamble,
      GLSLGenerator.generatePostamble, GLSLGenerator.visitProgram, GLSLGenerator.visitStmts,
      GLSLGenerator.visitStmt, GLSLGenerator.visitVariableDeclarationHead]
    by_cases h : GLSLGenerator.getQualifierString q = "" <;>
      simp [Generator.writeLine, Generator.indent, Generator.write, Generator.indentText, h,
        String.append_assoc]
  · simp only [CUDAGenerator.generate, CUDAGenerator.generatePreamble,
      CUDAGenerator.generatePostamble, CUDAGenerator.visitProgram, CUDAGenerator.visitStmts,
      CUDAGenerator.visitStmt]
    by_cases h : CUDAGenerator.getQualifierString q = "" <;>
      simp [Generator.writeLine, Generator.indent, Generator.write, Generator.indentText, h,
        String.append_assoc]

/-- C35 at a failing input.  For the source `float f() { return x; }` the GLSL
text is the preamble followed by the lines `float f() {`, `    return x    ;`,
`}` and an empty line: `visit(ReturnStatement&)` writes the indentation and
`return x` and then calls `writeLine(";")`, which writes the indentation a
second time in front of the semicolon.  A return without a value gives the line
`    return    ;`.  Expression statements and assignments, which end with
`write(";\n")`, are emitted as the claim says. -/
theorem glsl_return_repeats_indentation :
    compile (fun _ => some "float f() \x7b return x; \x7d".toList)
        { targets := [.GLSL], inputFile := "a.sdl" } {} =
      some (true, { glslOutput := "#version 330 core\n\nfloat f() \x7b\n    return x    ;\n\x7d\n\n" }) ∧
    compile (fun _ => some "void f() \x7b return; \x7d".toList)
        { targets := [.GLSL], inputFile := "a.sdl" } {} =
      some (true, { glslOutput := "#version 330 core\n\nvoid f() \x7b\n    return    ;\n\x7d\n\n" }) ∧
    compile (fun _ => some "void f() \x7b g(); x = y; \x7d".toList)
        { targets := [.GLSL], inputFile := "a.sdl" } {} =
      some (true,
        { glslOutput := "#version 330 core\n\nvoid f() \x7b\n    g();\n    x = y;\n\x7d\n\n" }) :=
  ⟨rfl, rfl, rfl⟩

/-- C36 at a failing input.  For the source `for (i = 0; i < n; f(i)) g();` the
GLSL text after the preamble is `for (i = 0;`, a line break, and
`; (i < n); f(i)) {`, followed by the lines `    g();` and `}`: the initializer
that is not a variable declaration is emitted by its own visit, which ends the
assignment with `;` and a line break, and the separator `; ` follows on the
next line.  For the source `for (int i = 0; i < n; f(i)) g();` the header is
the one line `for (int i = 0; (i < n); f(i)) {`. -/
theorem glsl_for_header_breaks_after_assignment :
    compile (fun _ => some "for (i = 0; i < n; f(i)) g();".toList)
        { targets := [.GLSL], inputFile := "a.sdl" } {} =
      some (true,
        { glslOutput := "#version 330 core\n\nfor (i = 0;\n; (i < n); f(i)) \x7b\n    g();\n\x7d\n" }) ∧
    compile (fun _ => some "for (int i = 0; i < n; f(i)) g();".toList)
        { targets := [.GLSL], inputFile := "a.sdl" } {} =
      some (true,
        { glslOutput :=
            "#version 330 core\n\nfor (int i = 0; (i < n); f(i)) \x7b\n    g();\n\x7d\n" }) :=
  ⟨rfl, rfl⟩

theorem not_continuation {t : TokenType} (h : t ∉ expressionContinuations) :
    t ∉ [TokenType.DOT, TokenType.LEFT_PAREN, TokenType.LEFT_BRACKET] ∧
      ∀ op, 1 ≤ precedenceLevel op → t ≠ operatorToken op := by
  constructor
  · intro h1
    apply h
    simp only [List.mem_cons, List.mem_singleton, List.not_mem_nil, or_false] at h1
    rcases h1 with rfl | rfl | rfl <;> decide
  · intro op hop heq
    apply h
    rw [heq]
    cases op <;> first | decide | (simp [precedenceLevel] at hop)

/-- The result of a precedence level at or below the unary level is the result
of `parseExpression` when no binary operator follows. -/
theorem parseExpression_of_unary {ts : List Token} {c c1 : Nat} {e : Expr} {t : TokenType}
    (h : Parses (levelParser 7) ts c e c1) (ht : typeAt ts c1 = t)
    (hc : ∀ op, 1 ≤ precedenceLevel op → t ≠ operatorToken op) :
    Parses parseExpression ts c e c1 :=
  parseExpression_of_level ts c c1 e
    (levelParser_climb ts c c1 e 7 (le_refl _) 6 1 (le_refl _) (by omega) h
      (fun op h1 _ => by rw [ht]; exact hc op h1))

theorem parseUnary_of_primary {ts : List Token} {c c1 : Nat} {e : Expr} {t : TokenType}
    (h : Parses parsePrimary ts c e c1)
    (hfirst : typeAt ts c ∉ [TokenType.LOGICAL_NOT, TokenType.MINUS])
    (ht : typeAt ts c1 = t)
    (hp : t ∉ [TokenType.DOT, TokenType.LEFT_PAREN, TokenType.LEFT_BRACKET]) :
    Parses (levelParser 7) ts c e c1 :=
  parseUnary_of_postfix ts c c1 e hfirst
    (parsePostfix_of_primary ts c c1 e h (by rw [ht]; exact hp))

theorem parsePrimary_integer {ts : List Token} {c : Nat} {tok : Token}
    (h : ts[c]? = some tok) (ht : tok.type = TokenType.INTEGER_LITERAL) :
    Parses parsePrimary ts c (Expr.Literal LiteralType.INT tok.value) (c + 1) := by
  have h1 : typeAt ts c = TokenType.INTEGER_LITERAL := by rw [typeAt_eq_of_getElem? h, ht]
  refine ⟨1, fun n hn => ?_⟩
  obtain ⟨m, rfl⟩ : ∃ m, n = m + 1 := ⟨n - 1, by omega⟩
  simp only [parsePrimary, bind_apply, matchTok_of_typeAt h1 (by decide), previousToken_succ h,
    pure_apply, ↓reduceIte]

/-- An identifier or an integer literal that no postfix opener follows, as an
operand. -/
theorem parseUnary_atom {ts : List Token} {c : Nat} {tok : Token} {t : TokenType}
    (h : ts[c]? = some tok) (ht : typeAt ts (c + 1) = t)
    (hp : t ∉ [TokenType.DOT, TokenType.LEFT_PAREN, TokenType.LEFT_BRACKET]) :
    (tok.type = TokenType.IDENTIFIER →
      Parses (levelParser 7) ts c (Expr.Identifier tok.value) (c + 1)) ∧
    (tok.type = TokenType.INTEGER_LITERAL →
      Parses (levelParser 7) ts c (Expr.Literal LiteralType.INT tok.value) (c + 1)) := by
  constructor
  · intro hk
    exact parseUnary_of_primary (parsePrimary_identifier ts c tok h hk)
      (by rw [typeAt_eq_of_getElem? h, hk]; decide) ht hp
  · intro hk
    exact parseUnary_of_primary (parsePrimary_integer h hk)
      (by rw [typeAt_eq_of_getElem? h, hk]; decide) ht hp

/-- Two operands with a binary operator between them, and then a token that
continues no expression. -/
theorem parseExpression_binary {ts : List Token} {c c1 c2 : Nat} {l r : Expr}
    {op : BinaryOperator} {t : TokenType}
    (hl : Parses (levelParser 7) ts c l c1)
    (hop : typeAt ts c1 = operatorToken op) (hk : 1 ≤ precedenceLevel op)
    (hr : Parses (levelParser 7) ts (c1 + 1) r c2)
    (ht : typeAt ts c2 = t) (hc : ∀ op, 1 ≤ precedenceLevel op → t ≠ operatorToken op) :
    Parses parseExpression ts c (Expr.Binary l op r) c2 := by
  have k6 := precedenceLevel_le op
  have l1 : Parses (levelParser (precedenceLevel op + 1)) ts c l c1 :=
    levelParser_climb ts c c1 l 7 (le_refl _) (6 - precedenceLevel op) _ (by omega) (by omega) hl
      (fun op' h1 h2 heq => by
        rw [hop] at heq
        have := operatorToken_injective heq
        subst this
        omega)
  have l2 : Parses (levelParser (precedenceLevel op + 1)) ts (c1 + 1) r c2 :=
    levelParser_climb ts _ c2 r 7 (le_refl _) (6 - precedenceLevel op) _ (by omega) (by omega) hr
      (fun op' h1 _ => by rw [ht]; exact hc op' (by omega))
  have l3 := levelParser_binary (precedenceLevel op) ⟨hk, k6⟩ ts c c1 c2 l r op rfl l1 hop l2
    (fun op' h1 => by rw [ht]; exact hc op' (by omega))
  exact parseExpression_of_level ts c c2 _
    (levelParser_climb ts c c2 _ (precedenceLevel op) (by omega) (precedenceLevel op - 1) 1
      (le_refl _) (by omega) l3 (fun op' h1 _ => by rw [ht]; exact hc op' h1))

/-- A call without arguments. -/
theorem parsePostfix_call_empty {ts : List Token} {c c1 : Nat} {e : Expr} {t : TokenType}
    (h1 : Parses parsePrimary ts c e c1)
    (hl : typeAt ts c1 = TokenType.LEFT_PAREN)
    (hr : typeAt ts (c1 + 1) = TokenType.RIGHT_PAREN)
    (hnx : typeAt ts (c1 + 1 + 1) = t)
    (hp : t ∉ [TokenType.DOT, TokenType.LEFT_PAREN, TokenType.LEFT_BRACKET]) :
    Parses parsePostfix ts c (Expr.FunctionCall (calleeName e) []) (c1 + 1 + 1) := by
  refine parses_chain (g := fun x n => parsePostfixLoop n x) h1 ?_ (fun n => by rw [parsePostfix])
  refine ⟨2, fun n hn => ?_⟩
  obtain ⟨m, rfl⟩ : ∃ m, n = m + 1 + 1 := ⟨n - 2, by omega⟩
  show parsePostfixLoop (m + 1 + 1) e ts c1 = _
  rw [parsePostfixLoop]
  simp only [bind_apply, matchTok_false .DOT hl (by decide) (by decide),
    matchTok_of_typeAt hl (by decide), check_true hr (by decide),
    consume_of_typeAt _ hr (by decide), parsePostfixLoop_stop _ hnx hp,
    Bool.false_eq_true, Bool.not_true, ↓reduceIte]

/-- An index in brackets: the index expression is parsed and dropped, and the
member text is `[0]`. -/
theorem parsePostfix_index {ts : List Token} {c c1 c2 : Nat} {e idx : Expr} {t : TokenType}
    (h1 : Parses parsePrimary ts c e c1)
    (hl : typeAt ts c1 = TokenType.LEFT_BRACKET)
    (hi : Parses parseExpression ts (c1 + 1) idx c2)
    (hr : typeAt ts c2 = TokenType.RIGHT_BRACKET)
    (hnx : typeAt ts (c2 + 1) = t)
    (hp : t ∉ [TokenType.DOT, TokenType.LEFT_PAREN, TokenType.LEFT_BRACKET]) :
    Parses parsePostfix ts c (Expr.MemberAccess e "[0]") (c2 + 1) := by
  refine parses_chain (g := fun x n => parsePostfixLoop n x) h1 ?_ (fun n => by rw [parsePostfix])
  obtain ⟨N, hi⟩ := hi
  refine ⟨N + 2, fun n hn => ?_⟩
  obtain ⟨m, rfl⟩ : ∃ m, n = m + 1 + 1 := ⟨n - 2, by omega⟩
  show parsePostfixLoop (m + 1 + 1) e ts c1 = _
  rw [parsePostfixLoop]
  simp only [bind_apply, matchTok_false .DOT hl (by decide) (by decide),
    matchTok_false .LEFT_PAREN hl (by decide) (by decide),
    matchTok_of_typeAt hl (by decide), hi (m + 1) (by omega),
    consume_of_typeAt _ hr (by decide), parsePostfixLoop_stop _ hnx hp,
    Bool.false_eq_true, ↓reduceIte]
  rfl

/-- C37.  For every identifier token `a` followed by `[`, every index
expression `e` that the parser accepts between the brackets, and `]` followed
by a token that continues no expression: `parseExpression` returns
`MemberAccess(Identifier a, "[0]")` with the cursor behind the `]`, whatever
`e` is; and GLSL emits that expression as `a.[0]`. -/
theorem index_is_dropped (ts : List Token) (c c1 n0 : Nat) (ta : Token) (e : Expr)
    (t : TokenType)
    (ha : ts[c]? = some ta) (hat : ta.type = TokenType.IDENTIFIER)
    (hl : typeAt ts (c + 1) = TokenType.LEFT_BRACKET)
    (he : parseExpression n0 ts (c + 2) = Res.ok e c1)
    (hr : typeAt ts c1 = TokenType.RIGHT_BRACKET)
    (ht : typeAt ts (c1 + 1) = t) (hend : t ∉ expressionContinuations) :
    (∀ n, 16 * (ts.length - c) + 10 ≤ n →
      parseExpression n ts c =
        Res.ok (Expr.MemberAccess (Expr.Identifier ta.value) "[0]") (c1 + 1)) ∧
    (GLSLGenerator.visitExpr (Expr.MemberAccess (Expr.Identifier ta.value) "[0]") {}).output =
      ta.value ++ ".[0]" := by
  obtain ⟨hp, hc⟩ := not_continuation hend
  have hlen : c ≤ ts.length := by
    by_contra hlt
    rw [List.getElem?_eq_none (by omega)] at ha
    cases ha
  constructor
  · intro n hn
    have p1 := parsePostfix_index (parsePrimary_identifier ts c ta ha hat) hl
      (parses_of_eval (fun n => (monoAll n).parseExpression) n0 he) hr ht hp
    exact parseExpression_of_parses
      (parseExpression_of_unary
        ( parseUnary_of_postfix ts c (c1 + 1) _ (by rw [typeAt_eq_of_getElem? ha, hat]; decide) p1)
        ht hc) hlen n hn
  · simp [GLSLGenerator.visitExpr, Generator.write]

theorem index_is_dropped_witness :
    parseExpression 200 [Token.mk .IDENTIFIER "a" 1 1, Token.mk .LEFT_BRACKET "[" 1 2,
        Token.mk .INTEGER_LITERAL "1" 1 3, Token.mk .PLUS "+" 1 4,
        Token.mk .INTEGER_LITERAL "2" 1 5, Token.mk .RIGHT_BRACKET "]" 1 6,
        Token.mk .SEMICOLON ";" 1 7, Token.mk .END_OF_FILE "" 1 8] 0 =
      Res.ok (Expr.MemberAccess (Expr.Identifier "a") "[0]") 6 ∧
    (GLSLGenerator.visitExpr (Expr.MemberAccess (Expr.Identifier "a") "[0]") {}).output =
      "a" ++ ".[0]" :=
  have h := index_is_dropped [Token.mk .IDENTIFIER "a" 1 1, Token.mk .LEFT_BRACKET "[" 1 2,
        Token.mk .INTEGER_LITERAL "1" 1 3, Token.mk .PLUS "+" 1 4,
        Token.mk .INTEGER_LITERAL "2" 1 5, Token.mk .RIGHT_BRACKET "]" 1 6,
        Token.mk .SEMICOLON ";" 1 7, Token.mk .END_OF_FILE "" 1 8] 0 5 40
      (Token.mk .IDENTIFIER "a" 1 1)
      (Expr.Binary (Expr.Literal .INT "1") .ADD (Expr.Literal .INT "2")) TokenType.SEMICOLON
      rfl rfl rfl rfl rfl rfl (by decide)
  ⟨h.1 200 (by decide), h.2⟩

theorem parseForInit_declaration {ts : List Token} {c c1 : Nat} {t : TokenType} {k : TypeKind}
    {tn : Token} {e : Expr}
    (h0 : typeAt ts c = t) (ht : t ∈ forInitTypeKeywords) (hk : (t, k) ∈ typeKeywordKinds)
    (hn : ts[c + 1]? = some tn) (hnt : tn.type = TokenType.IDENTIFIER)
    (ha : typeAt ts (c + 2) = TokenType.ASSIGN)
    (he : Parses parseExpression ts (c + 3) e c1) :
    Parses parseForInit ts c (some (Stmt.VariableDeclaration
      { qualifier := Qualifier.NONE, type := { kind := k }, name := tn.value,
        initializer := some e })) c1 := by
  have f : ∀ x ∈ forInitTypeKeywords, x ≠ TokenType.SEMICOLON := by decide
  obtain ⟨N, he⟩ := he
  refine ⟨N + 1, fun n hm => ?_⟩
  obtain ⟨m, rfl⟩ : ∃ m, n = m + 1 := ⟨n - 1, by omega⟩
  simp only [parseForInit, bind_apply, check_false .SEMICOLON h0 (f t ht) (by decide),
    checkAny_eq ts c forInitTypeKeywords (by decide), h0, ht, parseType_of h0 hk,
    consume_of_getElem? _ _ hn hnt (by decide), matchTok_of_typeAt ha (by decide),
    he m (by omega), pure_apply, decide_True, Bool.not_false, ↓reduceIte]

theorem parseForInit_statement {ts : List Token} {c c1 : Nat} {t : TokenType} {s : Stmt}
    (h0 : typeAt ts c = t) (ht : t ∉ TokenType.SEMICOLON :: forInitTypeKeywords)
    (hs : Parses parseStatement ts c s (c1 + 1)) :
    Parses parseForInit ts c (some s) c1 := by
  have f1 : t ≠ TokenType.SEMICOLON := fun h => ht (h ▸ List.mem_cons_self _ _)
  have f2 : t ∉ forInitTypeKeywords := fun h => ht (List.mem_cons_of_mem _ h)
  obtain ⟨N, hs⟩ := hs
  refine ⟨N + 1, fun n hm => ?_⟩
  obtain ⟨m, rfl⟩ : ∃ m, n = m + 1 := ⟨n - 1, by omega⟩
  simp only [parseForInit, bind_apply, check_false .SEMICOLON h0 f1 (by decide),
    checkAny_eq ts c forInitTypeKeywords (by decide), h0, f2, hs m (by omega),
    decrementCurrent, pure_apply, decide_False, Bool.not_false, Bool.false_eq_true, ↓reduceIte,
    Nat.add_one_ne_zero, Nat.add_sub_cancel]

theorem parseForInit_none {ts : List Token} {c : Nat}
    (h0 : typeAt ts c = TokenType.SEMICOLON) :
    Parses parseForInit ts c none c := by
  refine ⟨1, fun n hm => ?_⟩
  obtain ⟨m, rfl⟩ : ∃ m, n = m + 1 := ⟨n - 1, by omega⟩
  simp only [parseForInit, bind_apply, check_true h0 (by decide), pure_apply, Bool.not_true,
    Bool.false_eq_true, ↓reduceIte]

/-- A `for` statement with a condition and an update clause. -/
theorem parseStatement_for {ts : List Token} {c c1 c2 c3 c4 : Nat} {init : Option Stmt}
    {cond upd : Expr} {body : Stmt} {u v : TokenType}
    (h0 : typeAt ts c = TokenType.FOR) (h1 : typeAt ts (c + 1) = TokenType.LEFT_PAREN)
    (hi : Parses parseForInit ts (c + 2) init c1)
    (h2 : typeAt ts c1 = TokenType.SEMICOLON)
    (hu : typeAt ts (c1 + 1) = u) (hu1 : u ≠ TokenType.SEMICOLON)
    (hc : Parses parseExpression ts (c1 + 1) cond c2)
    (h3 : typeAt ts c2 = TokenType.SEMICOLON)
    (hv : typeAt ts (c2 + 1) = v) (hv1 : v ≠ TokenType.RIGHT_PAREN)
    (hup : Parses parseExpression ts (c2 + 1) upd c3)
    (h4 : typeAt ts c3 = TokenType.RIGHT_PAREN)
    (hb : Parses parseStatement ts (c3 + 1) body c4) :
    Parses parseStatement ts c
      (Stmt.ForStatement init (some cond) (some (Stmt.ExpressionStatement upd)) body) c4 := by
  obtain ⟨N1, hi⟩ := hi
  obtain ⟨N2, hc⟩ := hc
  obtain ⟨N3, hup⟩ := hup
  obtain ⟨N4, hb⟩ := hb
  refine ⟨N1 + N2 + N3 + N4 + 2, fun n hm => ?_⟩
  obtain ⟨m, rfl⟩ : ∃ m, n = m + 1 + 1 := ⟨n - 2, by omega⟩
  simp only [parseStatement, parseForStatement, bind_apply,
    matchTok_false .LEFT_BRACE h0 (by decide) (by decide),
    matchTok_false .IF h0 (by decide) (by decide), matchTok_of_typeAt h0 (by decide),
    consume_of_typeAt _ h1 (by decide), hi m (by omega), consume_of_typeAt _ h2 (by decide),
    check_false .SEMICOLON hu hu1 (by decide), hc m (by omega),
    consume_of_typeAt _ h3 (by decide), check_false .RIGHT_PAREN hv hv1 (by decide),
    hup m (by omega), consume_of_typeAt _ h4 (by decide), hb m (by omega), pure_apply,
    Bool.not_false, Bool.false_eq_true, ↓reduceIte]

/-- A `for` statement without initializer, condition and update. -/
theorem parseStatement_for_empty {ts : List Token} {c c4 : Nat} {body : Stmt}
    (h0 : typeAt ts c = TokenType.FOR) (h1 : typeAt ts (c + 1) = TokenType.LEFT_PAREN)
    (h2 : typeAt ts (c + 2) = TokenType.SEMICOLON)
    (h3 : typeAt ts (c + 3) = TokenType.SEMICOLON)
    (h4 : typeAt ts (c + 4) = TokenType.RIGHT_PAREN)
    (hb : Parses parseStatement ts (c + 5) body c4) :
    Parses parseStatement ts c (Stmt.ForStatement none none none body) c4 := by
  obtain ⟨N4, hb⟩ := hb
  obtain ⟨N1, hi⟩ := @parseForInit_none ts (c + 2) h2
  refine ⟨N1 + N4 + 2, fun n hm => ?_⟩
  obtain ⟨m, rfl⟩ : ∃ m, n = m + 1 + 1 := ⟨n - 2, by omega⟩
  simp only [parseStatement, parseForStatement, bind_apply,
    matchTok_false .LEFT_BRACE h0 (by decide) (by decide),
    matchTok_false .IF h0 (by decide) (by decide), matchTok_of_typeAt h0 (by decide),
    consume_of_typeAt _ h1 (by decide), hi m (by omega),
    consume_of_typeAt _ h2 (by decide), check_true h3 (by decide),
    consume_of_typeAt _ h3 (by decide), check_true h4 (by decide),
    consume_of_typeAt _ h4 (by decide), hb m (by omega), pure_apply,
    Bool.not_true, Bool.false_eq_true, ↓reduceIte]

theorem tokensAt_get {ts : List Token} {c m : Nat} {L : List (TokenType × String)}
    (h : tokensAt ts c m = L) (k : Nat) (t : TokenType) (v : String)
    (hk : L[k]? = some (t, v)) :
    ∃ tok, ts[c + k]? = some tok ∧ tok.type = t ∧ tok.value = v ∧ typeAt ts (c + k) = t := by
  subst h
  simp only [tokensAt, List.getElem?_map, List.getElem?_take, List.getElem?_drop] at hk
  split at hk
  · cases hx : ts[c + k]? with
    | none => rw [hx] at hk; cases hk
    | some tok =>
      rw [hx] at hk
      cases hk
      exact ⟨tok, rfl, rfl, rfl, typeAt_eq_of_getElem? hx⟩
  · cases hk

theorem tokensAt_le {ts : List Token} {c m : Nat} {L : List (TokenType × String)}
    (h : tokensAt ts c m = L) (t : TokenType) (v : String) (hk : L[0]? = some (t, v)) :
    c ≤ ts.length := by
  obtain ⟨tok, h0, -⟩ := tokensAt_get h 0 t v hk
  by_contra hlt
  rw [List.getElem?_eq_none (by omega)] at h0
  cases h0

/-- A call with one identifier argument, followed by any token that continues
no expression. -/
theorem parseExpression_call_one {ts : List Token} {c : Nat} {tf ty : Token} {t : TokenType}
    (hf : ts[c]? = some tf) (hft : tf.type = TokenType.IDENTIFIER)
    (hl : typeAt ts (c + 1) = TokenType.LEFT_PAREN)
    (hy : ts[c + 2]? = some ty) (hyt : ty.type = TokenType.IDENTIFIER)
    (hr : typeAt ts (c + 3) = TokenType.RIGHT_PAREN)
    (ht : typeAt ts (c + 4) = t) (hend : t ∉ expressionContinuations) :
    Parses parseExpression ts c (Expr.FunctionCall tf.value [Expr.Identifier ty.value])
      (c + 4) := by
  obtain ⟨hp, hc⟩ := not_continuation hend
  have harg : Parses parseExpression ts (c + 1 + 1) (Expr.Identifier ty.value) (c + 3) :=
    parseExpression_identifier hy hyt hr (by decide)
      (fun op => by cases op <;> decide)
  have p1 := parsePostfix_call (parsePrimary_identifier ts c tf hf hft) hl
    (typeAt_eq_of_getElem? hy) (by rw [hyt]; decide) harg hr ht hp
  exact parseExpression_of_unary
    ( parseUnary_of_postfix ts c (c + 4) _ (by rw [typeAt_eq_of_getElem? hf, hft]; decide) p1)
    ht hc

/-- A call without arguments, followed by any token that continues no
expression. -/
theorem parseExpression_call_none {ts : List Token} {c : Nat} {tf : Token} {t : TokenType}
    (hf : ts[c]? = some tf) (hft : tf.type = TokenType.IDENTIFIER)
    (hl : typeAt ts (c + 1) = TokenType.LEFT_PAREN)
    (hr : typeAt ts (c + 2) = TokenType.RIGHT_PAREN)
    (ht : typeAt ts (c + 3) = t) (hend : t ∉ expressionContinuations) :
    Parses parseExpression ts c (Expr.FunctionCall tf.value []) (c + 3) := by
  obtain ⟨hp, hc⟩ := not_continuation hend
  have p1 := parsePostfix_call_empty (parsePrimary_identifier ts c tf hf hft) hl hr ht hp
  exact parseExpression_of_unary
    ( parseUnary_of_postfix ts c (c + 3) _ (by rw [typeAt_eq_of_getElem? hf, hft]; decide) p1)
    ht hc

/-- An identifier or integer literal followed by a token that continues no
expression. -/
theorem parseExpression_atom {ts : List Token} {c : Nat} {tok : Token} {t : TokenType}
    (h : ts[c]? = some tok) (ht : typeAt ts (c + 1) = t) (hend : t ∉ expressionContinuations) :
    (tok.type = TokenType.IDENTIFIER →
      Parses parseExpression ts c (Expr.Identifier tok.value) (c + 1)) ∧
    (tok.type = TokenType.INTEGER_LITERAL →
      Parses parseExpression ts c (Expr.Literal LiteralType.INT tok.value) (c + 1)) := by
  obtain ⟨hp, hc⟩ := not_continuation hend
  exact ⟨fun hk => parseExpression_of_unary ((parseUnary_atom h ht hp).1 hk) ht hc,
    fun hk => parseExpression_of_unary ((parseUnary_atom h ht hp).2 hk) ht hc⟩

/-- The statement `g();`. -/
theorem parseStatement_call_none {ts : List Token} {c : Nat} {tf : Token}
    (hf : ts[c]? = some tf) (hft : tf.type = TokenType.IDENTIFIER)
    (hl : typeAt ts (c + 1) = TokenType.LEFT_PAREN)
    (hr : typeAt ts (c + 2) = TokenType.RIGHT_PAREN)
    (hs : typeAt ts (c + 3) = TokenType.SEMICOLON) :
    Parses parseStatement ts c (Stmt.ExpressionStatement (Expr.FunctionCall tf.value []))
      (c + 3 + 1) :=
  parseStatement_expression (by rw [typeAt_eq_of_getElem? hf, hft]) hl (by decide)
    (parseExpression_call_none hf hft hl hr hs (by decide)) hs

/-- The clauses `i < n; f(i))` of a `for` header, from the first token of the
condition to the closing parenthesis. -/
theorem for_condition_update {ts : List Token} {c : Nat} {i n f : String}
    (h : tokensAt ts c 9 = [(.IDENTIFIER, i), (.LESS_THAN, "<"), (.IDENTIFIER, n),
      (.SEMICOLON, ";"), (.IDENTIFIER, f), (.LEFT_PAREN, "("), (.IDENTIFIER, i),
      (.RIGHT_PAREN, ")"), (.RIGHT_PAREN, ")")]) :
    Parses parseExpression ts c
        (Expr.Binary (Expr.Identifier i) BinaryOperator.LESS_THAN (Expr.Identifier n)) (c + 3) ∧
      typeAt ts (c + 3) = TokenType.SEMICOLON ∧
      Parses parseExpression ts (c + 3 + 1)
        (Expr.FunctionCall f [Expr.Identifier i]) (c + 8) ∧
      typeAt ts (c + 8) = TokenType.RIGHT_PAREN ∧
      typeAt ts c = TokenType.IDENTIFIER ∧ typeAt ts (c + 3 + 1) = TokenType.IDENTIFIER := by
  obtain ⟨t0, g0, k0, v0, y0⟩ := tokensAt_get h 0 .IDENTIFIER i rfl
  obtain ⟨t1, g1, k1, v1, y1⟩ := tokensAt_get h 1 .LESS_THAN "<" rfl
  obtain ⟨t2, g2, k2, v2, y2⟩ := tokensAt_get h 2 .IDENTIFIER n rfl
  obtain ⟨t3, g3, k3, v3, y3⟩ := tokensAt_get h 3 .SEMICOLON ";" rfl
  obtain ⟨t4, g4, k4, v4, y4⟩ := tokensAt_get h 4 .IDENTIFIER f rfl
  obtain ⟨t5, g5, k5, v5, y5⟩ := tokensAt_get h 5 .LEFT_PAREN "(" rfl
  obtain ⟨t6, g6, k6, v6, y6⟩ := tokensAt_get h 6 .IDENTIFIER i rfl
  obtain ⟨t7, g7, k7, v7, y7⟩ := tokensAt_get h 7 .RIGHT_PAREN ")" rfl
  obtain ⟨t8, g8, k8, v8, y8⟩ := tokensAt_get h 8 .RIGHT_PAREN ")" rfl
  have e1 := parseExpression_binary ((parseUnary_atom g0 y1 (by decide)).1 k0)
    (show typeAt ts (c + 1) = operatorToken BinaryOperator.LESS_THAN from y1) (by decide)
    ((parseUnary_atom g2 y3 (by decide)).1 k2) y3 (fun op => by cases op <;> decide)
  have e2 := parseExpression_call_one (c := c + 4) g4 k4 y5 g6 k6 y7 y8 (by decide)
  rw [v0, v2] at e1
  rw [v4, v6] at e2
  exact ⟨e1, y3, e2, y8, y0, y4⟩

theorem tokensAt_sub {ts : List Token} {c m : Nat} {L : List (TokenType × String)}
    (h : tokensAt ts c m = L) (a b : Nat) (hab : a + b ≤ m) :
    tokensAt ts (c + a) b = (L.drop a).take b := by
  subst h
  simp only [tokensAt, List.map_drop, List.map_take, List.drop_take, List.take_take,
    List.drop_drop]
  rw [Nat.min_eq_left (by omega)]

/-- C34.  At any cursor `c` and with enough fuel, for all names `i`, `n`, `f`,
`g` and every integer literal `z`: the tokens of `for (int i = 0; i < n; f(i))
g();` parse to a ForStatement whose initializer is the VariableDeclaration
(NONE, INT, i, Literal z), whose condition is Binary(i, LESS_THAN, n), whose
update is ExpressionStatement(FunctionCall f(i)) and whose body is
ExpressionStatement(FunctionCall g()); with `i = 0` as first clause the
initializer is AssignmentStatement(i, Literal z); and `for (;;) g();` has all
three clauses absent.  The three source texts of the specification parse to
exactly these programs. -/
theorem for_statement_clauses (ts : List Token) (c nf : Nat) (i z n f g : String)
    (hfuel : 16 * (ts.length - c) + 11 ≤ nf) :
    (tokensAt ts c 20 = [(.FOR, "for"), (.LEFT_PAREN, "("), (.INT, "int"), (.IDENTIFIER, i),
        (.ASSIGN, "="), (.INTEGER_LITERAL, z), (.SEMICOLON, ";"), (.IDENTIFIER, i),
        (.LESS_THAN, "<"), (.IDENTIFIER, n), (.SEMICOLON, ";"), (.IDENTIFIER, f),
        (.LEFT_PAREN, "("), (.IDENTIFIER, i), (.RIGHT_PAREN, ")"), (.RIGHT_PAREN, ")"),
        (.IDENTIFIER, g), (.LEFT_PAREN, "("), (.RIGHT_PAREN, ")"), (.SEMICOLON, ";")] →
      parseStatement nf ts c = Res.ok (Stmt.ForStatement
        (some (Stmt.VariableDeclaration
          { qualifier := Qualifier.NONE, type := { kind := TypeKind.INT }, name := i,
            initializer := some (Expr.Literal LiteralType.INT z) }))
        (some (Expr.Binary (Expr.Identifier i) BinaryOperator.LESS_THAN (Expr.Identifier n)))
        (some (Stmt.ExpressionStatement (Expr.FunctionCall f [Expr.Identifier i])))
        (Stmt.ExpressionStatement (Expr.FunctionCall g []))) (c + 20)) ∧
    (tokensAt ts c 19 = [(.FOR, "for"), (.LEFT_PAREN, "("), (.IDENTIFIER, i),
        (.ASSIGN, "="), (.INTEGER_LITERAL, z), (.SEMICOLON, ";"), (.IDENTIFIER, i),
        (.LESS_THAN, "<"), (.IDENTIFIER, n), (.SEMICOLON, ";"), (.IDENTIFIER, f),
        (.LEFT_PAREN, "("), (.IDENTIFIER, i), (.RIGHT_PAREN, ")"), (.RIGHT_PAREN, ")"),
        (.IDENTIFIER, g), (.LEFT_PAREN, "("), (.RIGHT_PAREN, ")"), (.SEMICOLON, ";")] →
      parseStatement nf ts c = Res.ok (Stmt.ForStatement
        (some (Stmt.AssignmentStatement (Expr.Identifier i) (Expr.Literal LiteralType.INT z)))
        (some (Expr.Binary (Expr.Identifier i) BinaryOperator.LESS_THAN (Expr.Identifier n)))
        (some (Stmt.ExpressionStatement (Expr.FunctionCall f [Expr.Identifier i])))
        (Stmt.ExpressionStatement (Expr.FunctionCall g []))) (c + 19)) ∧
    (tokensAt ts c 9 = [(.FOR, "for"), (.LEFT_PAREN, "("), (.SEMICOLON, ";"),
        (.SEMICOLON, ";"), (.RIGHT_PAREN, ")"),
        (.IDENTIFIER, g), (.LEFT_PAREN, "("), (.RIGHT_PAREN, ")"), (.SEMICOLON, ";")] →
      parseStatement nf ts c = Res.ok (Stmt.ForStatement none none none
        (Stmt.ExpressionStatement (Expr.FunctionCall g []))) (c + 9)) ∧
    parseProgram (tokenize "for (int i = 0; i < n; f(i)) g();".toList) =
      Res.ok ({ declarations := [Stmt.ForStatement
        (some (Stmt.VariableDeclaration
          { qualifier := Qualifier.NONE, type := { kind := TypeKind.INT }, name := "i",
            initializer := some (Expr.Literal LiteralType.INT "0") }))
        (some (Expr.Binary (Expr.Identifier "i") BinaryOperator.LESS_THAN
          (Expr.Identifier "n")))
        (some (Stmt.ExpressionStatement (Expr.FunctionCall "f" [Expr.Identifier "i"])))
        (Stmt.ExpressionStatement (Expr.FunctionCall "g" []))] }, []) 20 ∧
    parseProgram (tokenize "for (i = 0; i < n; f(i)) g();".toList) =
      Res.ok ({ declarations := [Stmt.ForStatement
        (some (Stmt.AssignmentStatement (Expr.Identifier "i")
          (Expr.Literal LiteralType.INT "0")))
        (some (Expr.Binary (Expr.Identifier "i") BinaryOperator.LESS_THAN
          (Expr.Identifier "n")))
        (some (Stmt.ExpressionStatement (Expr.FunctionCall "f" [Expr.Identifier "i"])))
        (Stmt.ExpressionStatement (Expr.FunctionCall "g" []))] }, []) 19 ∧
    parseProgram (tokenize "for (;;) g();".toList) =
      Res.ok ({ declarations := [Stmt.ForStatement none none none
        (Stmt.ExpressionStatement (Expr.FunctionCall "g" []))] }, []) 9 := by
  refine ⟨fun h => ?_, fun h => ?_, fun h => ?_, rfl, rfl, rfl⟩
  · obtain ⟨t0, g0, k0, v0, y0⟩ := tokensAt_get h 0 .FOR "for" rfl
    obtain ⟨t1, g1, k1, v1, y1⟩ := tokensAt_get h 1 .LEFT_PAREN "(" rfl
    obtain ⟨t2, g2, k2, v2, y2⟩ := tokensAt_get h 2 .INT "int" rfl
    obtain ⟨t3, g3, k3, v3, y3⟩ := tokensAt_get h 3 .IDENTIFIER i rfl
    obtain ⟨t4, g4, k4, v4, y4⟩ := tokensAt_get h 4 .ASSIGN "=" rfl
    obtain ⟨t5, g5, k5, v5, y5⟩ := tokensAt_get h 5 .INTEGER_LITERAL z rfl
    obtain ⟨t6, g6, k6, v6, y6⟩ := tokensAt_get h 6 .SEMICOLON ";" rfl
    obtain ⟨t16, g16, k16, v16, y16⟩ := tokensAt_get h 16 .IDENTIFIER g rfl
    obtain ⟨t17, g17, k17, v17, y17⟩ := tokensAt_get h 17 .LEFT_PAREN "(" rfl
    obtain ⟨t18, g18, k18, v18, y18⟩ := tokensAt_get h 18 .RIGHT_PAREN ")" rfl
    obtain ⟨t19, g19, k19, v19, y19⟩ := tokensAt_get h 19 .SEMICOLON ";" rfl
    obtain ⟨e1, s1, e2, s2, b1, b2⟩ := for_condition_update (tokensAt_sub h 7 9 (by decide))
    have init := parseForInit_declaration (c := c + 2) (k := TypeKind.INT) y2 (by decide)
      (by decide) g3 k3 y4 ((parseExpression_atom (c := c + 5) g5 y6 (by decide)).2 k5)
    have body := parseStatement_call_none (c := c + 16) g16 k16 y17 y18 y19
    have all := parseStatement_for y0 y1 init y6 b1 (by decide) e1 s1 b2 (by decide) e2 s2 body
    rw [v3, v5, v16] at all
    exact parseStatement_of_parses all (tokensAt_le h .FOR "for" rfl) nf hfuel
  · obtain ⟨t0, g0, k0, v0, y0⟩ := tokensAt_get h 0 .FOR "for" rfl
    obtain ⟨t1, g1, k1, v1, y1⟩ := tokensAt_get h 1 .LEFT_PAREN "(" rfl
    obtain ⟨t2, g2, k2, v2, y2⟩ := tokensAt_get h 2 .IDENTIFIER i rfl
    obtain ⟨t3, g3, k3, v3, y3⟩ := tokensAt_get h 3 .ASSIGN "=" rfl
    obtain ⟨t4, g4, k4, v4, y4⟩ := tokensAt_get h 4 .INTEGER_LITERAL z rfl
    obtain ⟨t5, g5, k5, v5, y5⟩ := tokensAt_get h 5 .SEMICOLON ";" rfl
    obtain ⟨t15, g15, k15, v15, y15⟩ := tokensAt_get h 15 .IDENTIFIER g rfl
    obtain ⟨t16, g16, k16, v16, y16⟩ := tokensAt_get h 16 .LEFT_PAREN "(" rfl
    obtain ⟨t17, g17, k17, v17, y17⟩ := tokensAt_get h 17 .RIGHT_PAREN ")" rfl
    obtain ⟨t18, g18, k18, v18, y18⟩ := tokensAt_get h 18 .SEMICOLON ";" rfl
    obtain ⟨e1, s1, e2, s2, b1, b2⟩ := for_condition_update (tokensAt_sub h 6 9 (by decide))
    have init := parseForInit_statement (c := c + 2) y2 (by decide)
      (show Parses parseStatement ts (c + 2) _ (c + 5 + 1) from parseStatement_assignment g2 k2
        y3 ((parseExpression_atom (c := c + 4) g4 y5 (by decide)).2 k4) y5)
    have body := parseStatement_call_none (c := c + 15) g15 k15 y16 y17 y18
    have all := parseStatement_for y0 y1 init y5 b1 (by decide) e1 s1 b2 (by decide) e2 s2 body
    rw [v2, v4, v15] at all
    exact parseStatement_of_parses all (tokensAt_le h .FOR "for" rfl) nf hfuel
  · obtain ⟨t0, g0, k0, v0, y0⟩ := tokensAt_get h 0 .FOR "for" rfl
    obtain ⟨t1, g1, k1, v1, y1⟩ := tokensAt_get h 1 .LEFT_PAREN "(" rfl
    obtain ⟨t2, g2, k2, v2, y2⟩ := tokensAt_get h 2 .SEMICOLON ";" rfl
    obtain ⟨t3, g3, k3, v3, y3⟩ := tokensAt_get h 3 .SEMICOLON ";" rfl
    obtain ⟨t4, g4, k4, v4, y4⟩ := tokensAt_get h 4 .RIGHT_PAREN ")" rfl
    obtain ⟨t5, g5, k5, v5, y5⟩ := tokensAt_get h 5 .IDENTIFIER g rfl
    obtain ⟨t6, g6, k6, v6, y6⟩ := tokensAt_get h 6 .LEFT_PAREN "(" rfl
    obtain ⟨t7, g7, k7, v7, y7⟩ := tokensAt_get h 7 .RIGHT_PAREN ")" rfl
    obtain ⟨t8, g8, k8, v8, y8⟩ := tokensAt_get h 8 .SEMICOLON ";" rfl
    have body := parseStatement_call_none (c := c + 5) g5 k5 y6 y7 y8
    have all := parseStatement_for_empty y0 y1 y2 y3 y4 body
    rw [v5] at all
    exact parseStatement_of_parses all (tokensAt_le h .FOR "for" rfl) nf hfuel

theorem for_statement_clauses_witness :
    parseStatement 400 (tokenize "for (int k = 7; k < m; step(k)) run();".toList) 0 =
      Res.ok (Stmt.ForStatement
        (some (Stmt.VariableDeclaration
          { qualifier := Qualifier.NONE, type := { kind := TypeKind.INT }, name := "k",
            initializer := some (Expr.Literal LiteralType.INT "7") }))
        (some (Expr.Binary (Expr.Identifier "k") BinaryOperator.LESS_THAN
          (Expr.Identifier "m")))
        (some (Stmt.ExpressionStatement (Expr.FunctionCall "step" [Expr.Identifier "k"])))
        (Stmt.ExpressionStatement (Expr.FunctionCall "run" []))) (0 + 20) ∧
    parseStatement 400 (tokenize "for (k = 7; k < m; step(k)) run();".toList) 0 =
      Res.ok (Stmt.ForStatement
        (some (Stmt.AssignmentStatement (Expr.Identifier "k")
          (Expr.Literal LiteralType.INT "7")))
        (some (Expr.Binary (Expr.Identifier "k") BinaryOperator.LESS_THAN
          (Expr.Identifier "m")))
        (some (Stmt.ExpressionStatement (Expr.FunctionCall "step" [Expr.Identifier "k"])))
        (Stmt.ExpressionStatement (Expr.FunctionCall "run" []))) (0 + 19) ∧
    parseStatement 400 (tokenize "for (;;) run();".toList) 0 =
      Res.ok (Stmt.ForStatement none none none
        (Stmt.ExpressionStatement (Expr.FunctionCall "run" []))) (0 + 9) :=
  ⟨(for_statement_clauses (tokenize "for (int k = 7; k < m; step(k)) run();".toList) 0 400
      "k" "7" "m" "step" "run" (by decide)).1 rfl,
   (for_statement_clauses (tokenize "for (k = 7; k < m; step(k)) run();".toList) 0 400
      "k" "7" "m" "step" "run" (by decide)).2.1 rfl,
   (for_statement_clauses (tokenize "for (;;) run();".toList) 0 400
      "k" "7" "m" "step" "run" (by decide)).2.2.1 rfl⟩

theorem synchronizeLoop_first (ts : List Token) :
    ∀ (b j : Nat), 1 ≤ j → ts.length - j < b →
      ∃ c', synchronizeLoop b ts j = Res.ok () c' ∧ j ≤ c' ∧
        synchronizationPoint ts c' = true ∧
        ∀ i, j ≤ i → i < c' → synchronizationPoint ts i = false := by
  intro b
  induction b with
  | zero => intro j _ hb; omega
  | succ b ih =>
    intro j hj hb
    cases hE : isAtEndAt ts j with
    | true =>
      refine ⟨j, ?_, Nat.le_refl j, ?_, fun i h1 h2 => by omega⟩
      · simp [synchronizeLoop, bind_apply, isAtEnd, hE, pure_apply]
      · simp [synchronizationPoint, hE]
    | false =>
      have hlt := isAtEndAt_false hE
      obtain ⟨t, ht⟩ : ∃ t, ts[j - 1]? = some t :=
        ⟨ts[j - 1], List.getElem?_eq_getElem (by omega)⟩
      have hprev : previousToken ts j = Res.ok t j := by
        simp only [previousToken, ht, Nat.ne_of_gt hj, ↓reduceIte]
      by_cases hs : t.type = TokenType.SEMICOLON
      · refine ⟨j, ?_, Nat.le_refl j, ?_, fun i h1 h2 => by omega⟩
        · simp [synchronizeLoop, bind_apply, isAtEnd, hE, hprev, hs, pure_apply]
        · simp [synchronizationPoint, ht, hs]
      · by_cases hk : [TokenType.SHADER, .IF, .FOR, .WHILE, .RETURN].contains
            (currentTokenAt ts j).type = true
        · refine ⟨j, ?_, Nat.le_refl j, ?_, fun i h1 h2 => by omega⟩
          · simp only [synchronizeLoop, bind_apply, isAtEnd, hE, hprev, hs, currentToken, hk,
              pure_apply, Bool.not_false, ↓reduceIte]
          · simp only [synchronizationPoint, hk, Bool.or_true]
        · obtain ⟨c', h1, h2, h3, h4⟩ := ih (j + 1) (by omega) (by omega)
          refine ⟨c', ?_, by omega, h3, fun i hi1 hi2 => ?_⟩
          · simp only [synchronizeLoop, bind_apply, isAtEnd, hE, hprev, hs, currentToken, hk,
              advance, advanceAt, pure_apply, Bool.not_false, Bool.false_eq_true, ↓reduceIte, h1]
          · by_cases hij : i = j
            · subst hij
              simp only [Bool.not_eq_true] at hk
              simp only [synchronizationPoint, hE, ht, hs, hk, decide_False, Bool.or_false]
            · exact h4 i (by omega) hi2

/-- C33.  In every parser state that is not at end of input, `synchronize`
returns with the cursor moved forward by at least one token, at a position after
the skipped token at which the cursor is at end of input, or the token just
before the cursor is a semicolon, or the token at the cursor is one of `shader`,
`if`, `for`, `while`, `return`; and no position between the skipped token and
that cursor is such a position. -/
theorem synchronize_first_point (ts : List Token) (c : Nat) (h : isAtEndAt ts c = false) :
    ∃ c', synchronize ts c = Res.ok () c' ∧ c + 1 ≤ c' ∧
      synchronizationPoint ts c' = true ∧
      ∀ j, c + 1 ≤ j → j < c' → synchronizationPoint ts j = false := by
  have hlt := isAtEndAt_false h
  obtain ⟨c', h1, h2, h3, h4⟩ := synchronizeLoop_first ts (ts.length - c) (c + 1) (by omega)
    (by omega)
  refine ⟨c', ?_, h2, h3, h4⟩
  simp only [synchronize, bind_apply, advance, advanceAt, h, Bool.not_false, ↓reduceIte, h1]

theorem synchronize_first_point_witness :
    ∃ c', synchronize (tokenize "a b ; c d if e".toList) 0 = Res.ok () c' ∧ 0 + 1 ≤ c' ∧
      synchronizationPoint (tokenize "a b ; c d if e".toList) c' = true ∧
      ∀ j, 0 + 1 ≤ j → j < c' →
        synchronizationPoint (tokenize "a b ; c d if e".toList) j = false :=
  synchronize_first_point (tokenize "a b ; c d if e".toList) 0 rfl

theorem returns_bind {α β : Type} {m : ParserM α} {f : α → ParserM β} {Q : α → Prop}
    {P : β → Prop} (h1 : Returns m Q) (h2 : ∀ a, Q a → Returns (f a) P) :
    Returns (m >>= f) P := by
  intro ts c b c' hr
  rw [bind_apply] at hr
  cases hm : m ts c with
  | ok a c1 => rw [hm] at hr; exact h2 a (h1 ts c a c1 hm) ts c1 b c' hr
  | err msg c1 => rw [hm] at hr; cases hr
  | fuel => rw [hm] at hr; cases hr
  | oob => rw [hm] at hr; cases hr

theorem returns_pure {α : Type} {a : α} {P : α → Prop} (h : P a) : Returns (pure a) P := by
  intro ts c b c' hr
  rw [pure_apply] at hr
  cases hr
  exact h

theorem returns_ite {α : Type} {b : Prop} [Decidable b] {m1 m2 : ParserM α} {P : α → Prop}
    (h1 : Returns m1 P) (h2 : Returns m2 P) : Returns (if b then m1 else m2) P := by
  split_ifs
  · exact h1
  · exact h2

theorem returns_outOfFuel {α : Type} {P : α → Prop} : Returns (outOfFuel : ParserM α) P := by
  intro ts c s c' hr
  cases hr

theorem returns_throw {α : Type} {P : α → Prop} (msg : String) :
    Returns (throwRuntimeError msg : ParserM α) P := by
  intro ts c s c' hr
  cases hr

theorem returns_any {α : Type} (m : ParserM α) : Returns m (fun _ => True) :=
  fun _ _ _ _ _ => trivial

theorem plainList_append (a b : List Expr) :
    plainList (a ++ b) = (plainList a && plainList b) := by
  induction a with
  | nil => simp [plainList]
  | cons x rest ih => simp [plainList, ih, Bool.and_assoc]

theorem plainAll_zero : PlainAll 0 := by
  constructor <;> intros <;>
    simp only [parseExpression, parseLogicalOr, parseLogicalOrLoop, parseLogicalAnd,
      parseLogicalAndLoop, parseEquality, parseEqualityLoop, parseComparison,
      parseComparisonLoop, parseAddition, parseAdditionLoop, parseMultiplication,
      parseMultiplicationLoop, parseUnary, parsePrimary, parsePostfix, parsePostfixLoop,
      parseArguments] <;>
    exact returns_outOfFuel

theorem plainAll_succ {n : Nat} (IH : PlainAll n) : PlainAll (n + 1) := by
  constructor
  · rw [parseExpression]; exact IH.parseLogicalOr
  · rw [parseLogicalOr]
    exact returns_bind IH.parseLogicalAnd fun x hx => IH.parseLogicalOrLoop x hx
  · intro x hx
    rw [parseLogicalOrLoop]
    refine returns_bind (returns_any _) fun _ _ => returns_ite ?_ (returns_pure hx)
    exact returns_bind IH.parseLogicalAnd fun r hr =>
      IH.parseLogicalOrLoop _ (by simp [Expr.plain, hx, hr])
  · rw [parseLogicalAnd]
    exact returns_bind IH.parseEquality fun x hx => IH.parseLogicalAndLoop x hx
  · intro x hx
    rw [parseLogicalAndLoop]
    refine returns_bind (returns_any _) fun _ _ => returns_ite ?_ (returns_pure hx)
    exact returns_bind IH.parseEquality fun r hr =>
      IH.parseLogicalAndLoop _ (by simp [Expr.plain, hx, hr])
  · rw [parseEquality]
    exact returns_bind IH.parseComparison fun x hx => IH.parseEqualityLoop x hx
  · intro x hx
    rw [parseEqualityLoop]
    refine returns_bind (returns_any _) fun _ _ => returns_ite ?_ (returns_pure hx)
    refine returns_bind (returns_any _) fun t _ => ?_
    exact returns_bind IH.parseComparison fun r hr =>
      IH.parseEqualityLoop _ (by simp only [Expr.plain, hx, hr]; split_ifs <;> rfl)
  · rw [parseComparison]
    exact returns_bind IH.parseAddition fun x hx => IH.parseComparisonLoop x hx
  · intro x hx
    rw [parseComparisonLoop]
    refine returns_bind (returns_any _) fun _ _ => returns_ite ?_ (returns_pure hx)
    refine returns_bind (returns_any _) fun t _ => ?_
    refine returns_bind (Q := fun op => op ≠ BinaryOperator.ASSIGN) ?_ fun op hop => ?_
    · split <;> first | exact returns_pure (by decide) | exact returns_throw _
    · exact returns_bind IH.parseAddition fun r hr =>
        IH.parseComparisonLoop _ (by simp [Expr.plain, hx, hr, hop])
  · rw [parseAddition]
    exact returns_bind IH.parseMultiplication fun x hx => IH.parseAdditionLoop x hx
  · intro x hx
    rw [parseAdditionLoop]
    refine returns_bind (returns_any _) fun _ _ => returns_ite ?_ (returns_pure hx)
    refine returns_bind (returns_any _) fun t _ => ?_
    exact returns_bind IH.parseMultiplication fun r hr =>
      IH.parseAdditionLoop _ (by simp only [Expr.plain, hx, hr]; split_ifs <;> rfl)
  · rw [parseMultiplication]
    exact returns_bind IH.parseUnary fun x hx => IH.parseMultiplicationLoop x hx
  · intro x hx
    rw [parseMultiplicationLoop]
    refine returns_bind (returns_any _) fun _ _ => returns_ite ?_ (returns_pure hx)
    refine returns_bind (returns_any _) fun t _ => ?_
    refine returns_bind (Q := fun op => op ≠ BinaryOperator.ASSIGN) ?_ fun op hop => ?_
    · split <;> first | exact returns_pure (by decide) | exact returns_throw _
    · exact returns_bind IH.parseUnary fun r hr =>
        IH.parseMultiplicationLoop _ (by simp [Expr.plain, hx, hr, hop])
  · rw [parseUnary]
    refine returns_bind (returns_any _) fun _ _ => returns_ite ?_ IH.parsePostfix
    refine returns_bind (returns_any _) fun t _ => ?_
    exact returns_bind IH.parseUnary fun r hr => returns_pure (by simp [Expr.plain, hr])
  · rw [parsePrimary]
    repeat' first
      | exact returns_pure rfl
      | exact returns_throw _
      | refine returns_ite ?_ ?_
      | exact returns_bind IH.parseExpression fun r hr =>
          returns_bind (returns_any _) fun _ _ => returns_pure hr
      | refine returns_bind (returns_any _) fun _ _ => ?_
  · rw [parsePostfix]
    exact returns_bind IH.parsePrimary fun x hx => IH.parsePostfixLoop x hx
  · intro x hx
    rw [parsePostfixLoop]
    refine returns_bind (returns_any _) fun _ _ => returns_ite ?_ ?_
    · exact returns_bind (returns_any _) fun _ _ =>
        IH.parsePostfixLoop _ (by simp [Expr.plain, hx])
    refine returns_bind (returns_any _) fun _ _ => returns_ite ?_ ?_
    · refine returns_bind (returns_any _) fun _ _ => returns_ite ?_ ?_
      · exact returns_bind (IH.parseArguments [] rfl) fun l hl =>
          returns_bind (returns_any _) fun _ _ =>
            IH.parsePostfixLoop _ (by simp [Expr.plain, hl])
      · exact returns_bind (returns_any _) fun _ _ =>
          IH.parsePostfixLoop _ (by simp [Expr.plain, plainList])
    refine returns_bind (returns_any _) fun _ _ => returns_ite ?_ (returns_pure hx)
    exact returns_bind (returns_any _) fun _ _ => returns_bind (returns_any _) fun _ _ =>
      IH.parsePostfixLoop _ (by simp [Expr.plain, hx])
  · intro l hl
    rw [parseArguments]
    refine returns_bind IH.parseExpression fun a ha => ?_
    refine returns_bind (returns_any _) fun _ _ => returns_ite ?_ ?_
    · exact IH.parseArguments _ (by simp [plainList_append, plainList, hl, ha])
    · exact returns_pure (by simp [plainList_append, plainList, hl, ha])

theorem plainAll : ∀ n, PlainAll n
  | 0 => plainAll_zero
  | n + 1 => plainAll_succ (plainAll n)

theorem everyList_append (pe pa : Expr → Bool) (a b : List Stmt) :
    everyList pe pa (a ++ b) = (everyList pe pa a && everyList pe pa b) := by
  induction a with
  | nil => simp [everyList]
  | cons x rest ih => simp [everyList, ih, Bool.and_assoc]

theorem everyList_snoc {pe pa : Expr → Bool} {a : List Stmt} {s : Stmt}
    (ha : everyList pe pa a = true) (hs : s.every pe pa = true) :
    everyList pe pa (a ++ [s]) = true := by
  simp [everyList_append, everyList, ha, hs]

theorem every_for {pe pa : Expr → Bool} {i u : Option Stmt} {c : Option Expr} {b : Stmt}
    (hi : ∀ s, i = some s → s.every pe pa = true) (hc : everyOptional pe c = true)
    (hu : ∀ s, u = some s → s.every pe pa = true) (hb : b.every pe pa = true) :
    (Stmt.ForStatement i c u b).every pe pa = true := by
  cases i <;> cases u <;> simp [Stmt.every, hc, hb, hi, hu]

theorem everyAll_zero (pe pa : Expr → Bool) : EveryAll pe pa 0 := by
  constructor <;> intros <;>
    simp only [parseStatement, parseStatementList, parseBlockStatement,
      parseVariableDeclarationRest, parseVariableDeclaration, parseIfStatement, parseForInit,
      parseForStatement, parseWhileStatement, parseReturnStatement] <;>
    exact returns_outOfFuel

theorem everyAll_succ {pe pa : Expr → Bool} {n : Nat}
    (hE : Returns (parseExpression n) (fun e => pe e = true))
    (hI : ∀ name, pa (Expr.Identifier name) = true ∧ pe (Expr.Identifier name) = true)
    (IH : EveryAll pe pa n) : EveryAll pe pa (n + 1) := by
  constructor
  · rw [parseStatement]
    repeat' first
      | exact IH.parseBlockStatement
      | exact IH.parseIfStatement
      | exact IH.parseForStatement
      | exact IH.parseWhileStatement
      | exact IH.parseReturnStatement
      | exact IH.parseVariableDeclaration
      | refine returns_ite ?_ ?_
      | exact returns_bind hE fun e he => returns_bind (returns_any _) fun _ _ =>
          returns_pure (by simp [Stmt.every, he])
      | exact returns_bind (returns_any _) fun t _ => returns_bind (returns_any _) fun _ _ =>
          returns_bind hE fun e he => returns_bind (returns_any _) fun _ _ =>
            returns_pure (by simp [Stmt.every, he, hI])
      | refine returns_bind (returns_any _) fun _ _ => ?_
  · intro l hl
    rw [parseStatementList]
    refine returns_bind (returns_any _) fun _ _ => returns_bind (returns_any _) fun _ _ =>
      returns_ite ?_ (returns_pure hl)
    exact returns_bind IH.parseStatement fun s hs =>
      IH.parseStatementList _ (everyList_snoc hl hs)
  · rw [parseBlockStatement]
    exact returns_bind (IH.parseStatementList [] rfl) fun l hl =>
      returns_bind (returns_any _) fun _ _ => returns_pure (by simp [Stmt.every, hl])
  · intro q t name
    rw [parseVariableDeclarationRest]
    refine returns_bind (returns_any _) fun _ _ => returns_ite ?_ ?_
    · exact returns_bind hE fun e he => returns_bind (returns_any _) fun _ _ =>
        returns_pure (by simp [Stmt.every, everyOptional, he])
    · exact returns_bind (returns_any _) fun _ _ =>
        returns_pure (by simp [Stmt.every, everyOptional])
  · rw [parseVariableDeclaration]
    exact returns_bind (returns_any _) fun _ _ => returns_bind (returns_any _) fun _ _ =>
      returns_bind (returns_any _) fun _ _ => IH.parseVariableDeclarationRest _ _ _
  · rw [parseIfStatement]
    refine returns_bind (returns_any _) fun _ _ => returns_bind hE fun e he =>
      returns_bind (returns_any _) fun _ _ => returns_bind IH.parseStatement fun t ht =>
        returns_bind (returns_any _) fun _ _ => returns_ite ?_ ?_
    · exact returns_bind IH.parseStatement fun s hs =>
        returns_pure (by simp [Stmt.every, he, ht, hs])
    · exact returns_pure (by simp [Stmt.every, he, ht])
  · rw [parseForInit]
    refine returns_bind (returns_any _) fun _ _ => returns_ite ?_ (returns_pure (by simp))
    refine returns_bind (returns_any _) fun _ _ => returns_ite ?_ ?_
    · refine returns_bind (returns_any _) fun _ _ => returns_bind (returns_any _) fun _ _ =>
        returns_bind (returns_any _) fun _ _ => returns_ite ?_ ?_
      · exact returns_bind hE fun e he =>
          returns_pure (by simp [Stmt.every, everyOptional, he])
      · exact returns_pure (by simp [Stmt.every, everyOptional])
    · exact returns_bind IH.parseStatement fun s hs => returns_bind (returns_any _) fun _ _ =>
        returns_pure (by simp [hs])
  · rw [parseForStatement]
    refine returns_bind (returns_any _) fun _ _ => returns_bind IH.parseForInit fun i hi =>
      returns_bind (returns_any _) fun _ _ =>
        returns_bind (Q := fun c => everyOptional pe c = true) ?_ fun c hc =>
          returns_bind (returns_any _) fun _ _ =>
            returns_bind (Q := fun u => ∀ s, u = some s → s.every pe pa = true) ?_ fun u hu =>
              returns_bind (returns_any _) fun _ _ => returns_bind IH.parseStatement fun b hb =>
                returns_pure (every_for hi hc hu hb)
    · refine returns_bind (returns_any _) fun _ _ => returns_ite ?_ (returns_pure rfl)
      exact returns_bind hE fun e he => returns_pure (by simp [everyOptional, he])
    · refine returns_bind (returns_any _) fun _ _ => returns_ite ?_ (returns_pure (by simp))
      exact returns_bind hE fun e he => returns_pure (by simp [Stmt.every, he])
  · rw [parseWhileStatement]
    exact returns_bind (returns_any _) fun _ _ => returns_bind hE fun e he =>
      returns_bind (returns_any _) fun _ _ => returns_bind IH.parseStatement fun b hb =>
        returns_pure (by simp [Stmt.every, he, hb])
  · rw [parseReturnStatement]
    refine returns_bind (returns_any _) fun _ _ => returns_ite ?_ ?_
    · exact returns_bind hE fun e he => returns_bind (returns_any _) fun _ _ =>
        returns_pure (by simp [Stmt.every, everyOptional, he])
    · exact returns_bind (returns_any _) fun _ _ =>
        returns_pure (by simp [Stmt.every, everyOptional])

theorem everyAll {pe pa : Expr → Bool}
    (hE : ∀ n, Returns (parseExpression n) (fun e => pe e = true))
    (hI : ∀ name, pa (Expr.Identifier name) = true ∧ pe (Expr.Identifier name) = true) :
    ∀ n, EveryAll pe pa n
  | 0 => everyAll_zero pe pa
  | n + 1 => everyAll_succ (hE n) hI (everyAll hE hI n)

theorem every_parseParameters (pe : Expr → Bool) :
    ∀ (n : Nat) (l : List VariableDeclaration),
      l.all (fun p => everyOptional pe p.initializer) = true →
      Returns (parseParameters n l)
        (fun r => r.all (fun p => everyOptional pe p.initializer) = true) := by
  intro n
  induction n with
  | zero => intro l _; rw [parseParameters]; exact returns_outOfFuel
  | succ n ih =>
    intro l hl
    rw [parseParameters]
    refine returns_bind (returns_any _) fun _ _ => returns_bind (returns_any _) fun _ _ =>
      returns_bind (returns_any _) fun _ _ => returns_bind (returns_any _) fun _ _ =>
        returns_ite ?_ ?_
    · exact ih _ (by simpa [everyOptional] using hl)
    · exact returns_pure (by simpa [everyOptional] using hl)

theorem every_parseFunctionRest {pe pa : Expr → Bool} {n : Nat} (IH : EveryAll pe pa n)
    (name : String) (t : TypeNode) :
    Returns (parseFunctionRest n name t) (fun s => s.every pe pa = true) := by
  unfold parseFunctionRest
  refine returns_bind (returns_any _) fun _ _ =>
    returns_bind (Q := fun r => r.all (fun p => everyOptional pe p.initializer) = true) ?_
      fun ps hps => returns_bind (returns_any _) fun _ _ =>
        returns_bind (returns_any _) fun _ _ => returns_ite ?_ ?_
  · refine returns_bind (returns_any _) fun _ _ => returns_ite ?_ (returns_pure rfl)
    exact every_parseParameters pe n [] rfl
  · exact returns_bind (IH.parseStatementList [] rfl) fun body hb =>
      returns_bind (returns_any _) fun _ _ =>
        returns_pure (by simp only [Stmt.every, hps, hb, Bool.and_self])
  · exact returns_bind (returns_any _) fun _ _ =>
      returns_pure (by simp only [Stmt.every, hps, everyList, Bool.and_self])

theorem every_parseShaderBody {pe pa : Expr → Bool} (hall : ∀ n, EveryAll pe pa n) :
    ∀ (n : Nat) (l : List Stmt), everyList pe pa l = true →
      Returns (parseShaderBody n l) (fun r => everyList pe pa r = true) := by
  intro n
  induction n with
  | zero => intro l _; rw [parseShaderBody]; exact returns_outOfFuel
  | succ n ih =>
    intro l hl
    rw [parseShaderBody]
    refine returns_bind (returns_any _) fun _ _ => returns_bind (returns_any _) fun _ _ =>
      returns_ite ?_ (returns_pure hl)
    refine returns_bind (returns_any _) fun _ _ => returns_ite ?_ ?_
    · exact returns_bind (returns_any _) fun _ _ => returns_bind (returns_any _) fun _ _ =>
        returns_bind (returns_any _) fun _ _ =>
          returns_bind ((hall n).parseVariableDeclarationRest _ _ _) fun s hs =>
            ih _ (everyList_snoc hl hs)
    refine returns_bind (returns_any _) fun _ _ => returns_ite ?_ ?_
    · refine returns_bind (returns_any _) fun _ _ => returns_bind (returns_any _) fun _ _ =>
        returns_bind (returns_any _) fun _ _ => returns_ite ?_ ?_
      · exact returns_bind (every_parseFunctionRest (hall n) _ _) fun s hs =>
          ih _ (everyList_snoc hl hs)
      · exact returns_bind ((hall n).parseVariableDeclarationRest _ _ _) fun s hs =>
          ih _ (everyList_snoc hl hs)
    · exact returns_bind (returns_any _) fun _ _ => returns_bind (returns_any _) fun _ _ =>
        returns_throw _

theorem every_parseDeclaration {pe pa : Expr → Bool} (hall : ∀ n, EveryAll pe pa n) (n : Nat) :
    Returns (parseDeclaration n) (fun s => s.every pe pa = true) := by
  unfold parseDeclaration
  refine returns_bind (returns_any _) fun _ _ => returns_ite ?_ ?_
  · unfold parseShaderDeclaration
    exact returns_bind (returns_any _) fun _ _ => returns_bind (returns_any _) fun _ _ =>
      returns_bind (returns_any _) fun _ _ => returns_bind (returns_any _) fun _ _ =>
        returns_bind (every_parseShaderBody hall n [] rfl) fun body hb =>
          returns_bind (returns_any _) fun _ _ =>
            returns_pure (by simp only [Stmt.every, hb])
  refine returns_bind (returns_any _) fun _ _ => returns_ite ?_ (hall n).parseStatement
  refine returns_bind (returns_any _) fun _ _ => returns_bind (returns_any _) fun _ _ =>
    returns_bind (returns_any _) fun _ _ => returns_ite ?_ (returns_throw _)
  refine returns_bind (returns_any _) fun _ _ => returns_bind (returns_any _) fun _ _ =>
    returns_ite ?_ ?_
  · exact every_parseFunctionRest (hall n) _ _
  · exact (hall n).parseVariableDeclarationRest _ _ _

theorem every_parseProgramLoop {pe pa : Expr → Bool} (hall : ∀ n, EveryAll pe pa n)
    (ts : List Token) :
    ∀ (n c : Nat) (decls : List Stmt) (errs : List ErrorReport) (p : Program)
      (e : List ErrorReport) (c' : Nat), everyList pe pa decls = true →
      parseProgramLoop n ts c decls errs = Res.ok (p, e) c' →
      everyList pe pa p.declarations = true := by
  intro n
  induction n with
  | zero => intro c decls errs p e c' _ h; rw [parseProgramLoop] at h; cases h
  | succ n ih =>
    intro c decls errs p e c' hd h
    rw [parseProgramLoop] at h
    cases hb : isAtEndAt ts c
    · simp only [hb, Bool.not_false, ↓reduceIte] at h
      cases hr : parseDeclaration n ts c with
      | ok d c1 =>
        rw [hr] at h
        exact ih c1 _ _ p e c' (everyList_snoc hd (every_parseDeclaration hall n ts c d c1 hr)) h
      | err msg c1 =>
        rw [hr] at h
        dsimp only at h
        cases hsy : synchronize ts c1 with
        | ok u c2 => rw [hsy] at h; exact ih c2 _ _ p e c' hd h
        | err msg2 c2 => rw [hsy] at h; cases h
        | fuel => rw [hsy] at h; cases h
        | oob => rw [hsy] at h; cases h
      | fuel => rw [hr] at h; cases h
      | oob => rw [hr] at h; cases h
    · simp only [hb, Bool.not_true, Bool.false_eq_true, ↓reduceIte] at h
      cases h
      exact hd

theorem every_parseProgram {pe pa : Expr → Bool} (hall : ∀ n, EveryAll pe pa n)
    {ts : List Token} {p : Program} {e : List ErrorReport} {c' : Nat}
    (h : parseProgram ts = Res.ok (p, e) c') : everyList pe pa p.declarations = true :=
  every_parseProgramLoop hall ts _ 0 [] [] p e c' rfl h

theorem parseStatement_of_eval {ts : List Token} {c : Nat} {r : Res Stmt} (N : Nat)
    (h : ∀ m, parseStatement (m + N) ts c = r) (hc : c ≤ ts.length)
    (n : Nat) (hn : 16 * (ts.length - c) + 11 ≤ n) : parseStatement n ts c = r := by
  have h1 : parseStatement n ts c ≠ Res.fuel := by
    intro hf
    have h2 := (runAll n ts).parseStatement c hc
    rw [hf] at h2
    simp only [Run] at h2
    omega
  rw [← fuel_stable parseStatement (fun n => (monoAll n).parseStatement) ts c n h1 N]
  exact h n

/-- An expression statement that starts with an identifier and whose expression
is not followed by a semicolon. -/
theorem parseStatement_missing_semicolon {ts : List Token} {c c1 : Nat} {u t : TokenType}
    {e : Expr} (h0 : typeAt ts c = TokenType.IDENTIFIER)
    (h1 : typeAt ts (c + 1) = u) (hu : u ≠ TokenType.ASSIGN)
    (he : Parses parseExpression ts c e c1)
    (hs : typeAt ts c1 = t) (ht : t ≠ TokenType.SEMICOLON) :
    ∃ N, ∀ m, parseStatement (m + N) ts c = Res.err "Expected ';' after expression" c1 := by
  obtain ⟨N, he⟩ := he
  refine ⟨N + 1, fun m => ?_⟩
  rw [← Nat.add_assoc]
  simp only [parseStatement, bind_apply, matchTok_false .LEFT_BRACE h0 (by decide) (by decide),
    matchTok_false .IF h0 (by decide) (by decide), matchTok_false .FOR h0 (by decide) (by decide),
    matchTok_false .WHILE h0 (by decide) (by decide),
    matchTok_false .RETURN h0 (by decide) (by decide), isVariableDeclarationAhead_eq, h0,
    check_true h0 (by decide), isAssignmentAhead_eq ts c (by rw [h0]; decide), h1, hu,
    he (m + N) (by omega), consume_of_ne .SEMICOLON _ (by rw [hs]; exact ht) (by decide),
    pure_apply, typeKeywords,
    List.mem_cons, List.mem_singleton, List.not_mem_nil, reduceCtorEq, or_self, decide_False,
    decide_True, Bool.false_and, Bool.false_eq_true, ↓reduceIte]

/-- A `for` statement whose update expression is not followed by `)`. -/
theorem parseStatement_for_unclosed {ts : List Token} {c c1 c2 c3 : Nat} {init : Option Stmt}
    {cond upd : Expr} {u v t : TokenType}
    (h0 : typeAt ts c = TokenType.FOR) (h1 : typeAt ts (c + 1) = TokenType.LEFT_PAREN)
    (hi : Parses parseForInit ts (c + 2) init c1)
    (h2 : typeAt ts c1 = TokenType.SEMICOLON)
    (hu : typeAt ts (c1 + 1) = u) (hu1 : u ≠ TokenType.SEMICOLON)
    (hc : Parses parseExpression ts (c1 + 1) cond c2)
    (h3 : typeAt ts c2 = TokenType.SEMICOLON)
    (hv : typeAt ts (c2 + 1) = v) (hv1 : v ≠ TokenType.RIGHT_PAREN)
    (hup : Parses parseExpression ts (c2 + 1) upd c3)
    (h4 : typeAt ts c3 = t) (ht : t ≠ TokenType.RIGHT_PAREN) :
    ∃ N, ∀ m, parseStatement (m + N) ts c = Res.err "Expected ')' after for clauses" c3 := by
  obtain ⟨N1, hi⟩ := hi
  obtain ⟨N2, hc⟩ := hc
  obtain ⟨N3, hup⟩ := hup
  refine ⟨N1 + N2 + N3 + 1 + 1, fun m => ?_⟩
  rw [← Nat.add_assoc, ← Nat.add_assoc]
  simp only [parseStatement, parseForStatement, bind_apply,
    matchTok_false .LEFT_BRACE h0 (by decide) (by decide),
    matchTok_false .IF h0 (by decide) (by decide), matchTok_of_typeAt h0 (by decide),
    consume_of_typeAt _ h1 (by decide), hi (m + (N1 + N2 + N3)) (by omega),
    consume_of_typeAt _ h2 (by decide),
    check_false .SEMICOLON hu hu1 (by decide), hc (m + (N1 + N2 + N3)) (by omega),
    consume_of_typeAt _ h3 (by decide), check_false .RIGHT_PAREN hv hv1 (by decide),
    hup (m + (N1 + N2 + N3)) (by omega),
    consume_of_ne .RIGHT_PAREN _ (by rw [h4]; exact ht) (by decide), pure_apply,
    Bool.not_false, Bool.false_eq_true, ↓reduceIte]

/-- C38.  Every AssignmentStatement in a program that `parseProgram` returns,
and in a statement that `parseStatement` returns, at any depth, has an
IdentifierExpression as target (a member-access target does not pass that
check); and for all names `a` and `x` the tokens `a . x =` make `parseStatement`
fail with `Expected ';' after expression` at the `=`, as the source text
`a.x = b;` does. -/
theorem assignment_target_is_identifier (ts : List Token) (c n : Nat) (a x : String) :
    (∀ p errs c', parseProgram ts = Res.ok (p, errs) c' →
      everyList (fun _ => true) Expr.isIdentifier p.declarations = true) ∧
    (∀ s c', parseStatement n ts c = Res.ok s c' →
      s.every (fun _ => true) Expr.isIdentifier = true) ∧
    (Stmt.AssignmentStatement (Expr.MemberAccess (Expr.Identifier a) x)
      (Expr.Identifier a)).every (fun _ => true) Expr.isIdentifier = false ∧
    (tokensAt ts c 4 = [(.IDENTIFIER, a), (.DOT, "."), (.IDENTIFIER, x), (.ASSIGN, "=")] →
      16 * (ts.length - c) + 11 ≤ n →
      parseStatement n ts c = Res.err "Expected ';' after expression" (c + 3)) ∧
    parseProgram (tokenize "a.x = b;".toList) =
      Res.ok ({ declarations := [] },
        [{ message := "Expected ';' after expression", position := some (1, 5) }]) 6 := by
  have hall : ∀ n, EveryAll (fun _ => true) Expr.isIdentifier n :=
    everyAll (fun _ _ _ _ _ _ => rfl) (fun _ => ⟨rfl, rfl⟩)
  refine ⟨fun p errs c' h => every_parseProgram hall h,
    fun s c' h => (hall n).parseStatement ts c s c' h, rfl, fun h hn => ?_, rfl⟩
  obtain ⟨t0, g0, k0, v0, y0⟩ := tokensAt_get h 0 .IDENTIFIER a rfl
  obtain ⟨t1, g1, k1, v1, y1⟩ := tokensAt_get h 1 .DOT "." rfl
  obtain ⟨t2, g2, k2, v2, y2⟩ := tokensAt_get h 2 .IDENTIFIER x rfl
  obtain ⟨t3, g3, k3, v3, y3⟩ := tokensAt_get h 3 .ASSIGN "=" rfl
  obtain ⟨hp, hc⟩ := @not_continuation TokenType.ASSIGN (by decide)
  have p1 := parsePostfix_member ts c (c + 1) _ t2 (parsePrimary_identifier ts c t0 g0 k0) y1
    g2 k2 (by rw [show c + 1 + 2 = c + 3 from rfl, y3]; decide)
  have p2 := parseExpression_of_unary
    ( parseUnary_of_postfix ts c (c + 3) _ (by rw [show typeAt ts c = TokenType.IDENTIFIER from y0]; decide) p1) y3 hc
  obtain ⟨N, hN⟩ := parseStatement_missing_semicolon y0 y1 (by decide) p2 y3 (by decide)
  exact parseStatement_of_eval N hN (tokensAt_le h .IDENTIFIER a rfl) n hn

theorem assignment_target_is_identifier_witness :
    everyList (fun _ => true) Expr.isIdentifier
        [Stmt.AssignmentStatement (Expr.Identifier "x") (Expr.Identifier "y")] = true ∧
      (Stmt.AssignmentStatement (Expr.Identifier "x") (Expr.Identifier "y")).every
        (fun _ => true) Expr.isIdentifier = true ∧
      parseStatement 200 (tokenize "p.q = b;".toList) 0 =
        Res.err "Expected ';' after expression" (0 + 3) :=
  ⟨(assignment_target_is_identifier (tokenize "x = y;".toList) 0 0 "a" "x").1
      { declarations := [Stmt.AssignmentStatement (Expr.Identifier "x") (Expr.Identifier "y")] }
      [] 4 rfl,
    (assignment_target_is_identifier (tokenize "x = y;".toList) 0 100 "a" "x").2.1
      (Stmt.AssignmentStatement (Expr.Identifier "x") (Expr.Identifier "y")) 4 rfl,
    (assignment_target_is_identifier (tokenize "p.q = b;".toList) 0 200 "p" "q").2.2.2.1 rfl
      (by decide)⟩

/-- C39.  No expression that `parseExpression` returns, and no expression in a
program that `parseProgram` returns, contains a BinaryExpression with the
operator ASSIGN or a LiteralExpression of type BOOL (expressions with either do
not pass that check); and for all names `i`, `m` and every integer literal `z`
the tokens `for ( int i = z ; i < m ; i =` make `parseStatement` fail with
`Expected ')' after for clauses` at the second `=`, as the source text
`for (int i = 0; i < n; i = i + 1) g();` does. -/
theorem no_assign_no_bool (ts : List Token) (c n : Nat) (i z m : String) :
    (∀ e c', parseExpression n ts c = Res.ok e c' → e.plain = true) ∧
    (∀ p errs c', parseProgram ts = Res.ok (p, errs) c' →
      everyList Expr.plain (fun _ => true) p.declarations = true) ∧
    ((Expr.Binary (Expr.Identifier i) BinaryOperator.ASSIGN (Expr.Identifier m)).plain = false ∧
      (Expr.Literal LiteralType.BOOL z).plain = false) ∧
    (tokensAt ts c 13 = [(.FOR, "for"), (.LEFT_PAREN, "("), (.INT, "int"), (.IDENTIFIER, i),
        (.ASSIGN, "="), (.INTEGER_LITERAL, z), (.SEMICOLON, ";"), (.IDENTIFIER, i),
        (.LESS_THAN, "<"), (.IDENTIFIER, m), (.SEMICOLON, ";"), (.IDENTIFIER, i),
        (.ASSIGN, "=")] →
      16 * (ts.length - c) + 11 ≤ n →
      parseStatement n ts c = Res.err "Expected ')' after for clauses" (c + 12)) ∧
    parseProgram (tokenize "for (int i = 0; i < n; i = i + 1) g();".toList) =
      Res.ok ({ declarations := [] },
        [{ message := "Expected ')' after for clauses", position := some (1, 26) }]) 21 := by
  have hall : ∀ n, EveryAll Expr.plain (fun _ => true) n :=
    everyAll (fun n => (plainAll n).parseExpression) (fun _ => ⟨rfl, rfl⟩)
  refine ⟨fun e c' h => (plainAll n).parseExpression ts c e c' h,
    fun p errs c' h => every_parseProgram hall h, ⟨rfl, rfl⟩, fun h hn => ?_, rfl⟩
  obtain ⟨t0, g0, k0, v0, y0⟩ := tokensAt_get h 0 .FOR "for" rfl
  obtain ⟨t1, g1, k1, v1, y1⟩ := tokensAt_get h 1 .LEFT_PAREN "(" rfl
  obtain ⟨t2, g2, k2, v2, y2⟩ := tokensAt_get h 2 .INT "int" rfl
  obtain ⟨t3, g3, k3, v3, y3⟩ := tokensAt_get h 3 .IDENTIFIER i rfl
  obtain ⟨t4, g4, k4, v4, y4⟩ := tokensAt_get h 4 .ASSIGN "=" rfl
  obtain ⟨t5, g5, k5, v5, y5⟩ := tokensAt_get h 5 .INTEGER_LITERAL z rfl
  obtain ⟨t6, g6, k6, v6, y6⟩ := tokensAt_get h 6 .SEMICOLON ";" rfl
  obtain ⟨t7, g7, k7, v7, y7⟩ := tokensAt_get h 7 .IDENTIFIER i rfl
  obtain ⟨t8, g8, k8, v8, y8⟩ := tokensAt_get h 8 .LESS_THAN "<" rfl
  obtain ⟨t9, g9, k9, v9, y9⟩ := tokensAt_get h 9 .IDENTIFIER m rfl
  obtain ⟨t10, g10, k10, v10, y10⟩ := tokensAt_get h 10 .SEMICOLON ";" rfl
  obtain ⟨t11, g11, k11, v11, y11⟩ := tokensAt_get h 11 .IDENTIFIER i rfl
  obtain ⟨t12, g12, k12, v12, y12⟩ := tokensAt_get h 12 .ASSIGN "=" rfl
  have init := parseForInit_declaration (c := c + 2) (k := TypeKind.INT) y2 (by decide)
    (by decide) g3 k3 y4 ((parseExpression_atom (c := c + 5) g5 y6 (by decide)).2 k5)
  have cond := parseExpression_binary ((parseUnary_atom (c := c + 7) g7 y8 (by decide)).1 k7)
    (show typeAt ts (c + 8) = operatorToken BinaryOperator.LESS_THAN from y8) (by decide)
    ((parseUnary_atom (c := c + 9) g9 y10 (by decide)).1 k9) y10
    (fun op => by cases op <;> decide)
  have upd := (parseExpression_atom (c := c + 11) g11 y12 (by decide)).1 k11
  obtain ⟨N, hN⟩ := parseStatement_for_unclosed y0 y1 init y6 y7 (by decide) cond y10 y11
    (by decide) upd y12 (by decide)
  exact parseStatement_of_eval N hN (tokensAt_le h .FOR "for" rfl) n hn

theorem no_assign_no_bool_witness :
    (Expr.Binary (Expr.Identifier "a") BinaryOperator.ADD (Expr.Literal LiteralType.INT "1")).plain
        = true ∧
      everyList Expr.plain (fun _ => true)
        [Stmt.AssignmentStatement (Expr.Identifier "x") (Expr.Identifier "y")] = true ∧
      parseStatement 400 (tokenize "for (int k = 0; k < n; k = k + 1) g();".toList) 0 =
        Res.err "Expected ')' after for clauses" (0 + 12) :=
  ⟨(no_assign_no_bool (tokenize "a + 1;".toList) 0 100 "i" "z" "m").1
      (Expr.Binary (Expr.Identifier "a") BinaryOperator.ADD (Expr.Literal LiteralType.INT "1"))
      3 rfl,
    (no_assign_no_bool (tokenize "x = y;".toList) 0 0 "i" "z" "m").2.1
      { declarations := [Stmt.AssignmentStatement (Expr.Identifier "x") (Expr.Identifier "y")] }
      [] 4 rfl,
    (no_assign_no_bool (tokenize "for (int k = 0; k < n; k = k + 1) g();".toList) 0 400
      "k" "0" "n").2.2.2.1 rfl (by decide)⟩

theorem within_of_run {α : Type} {L c0 : Nat} {F : Prop} {r : Res α} {Q : α → Nat → Prop}
    (h : Run L c0 F r Q) (hQ : ∀ a c, Q a c → c0 ≤ c ∧ c ≤ L) : r.within c0 L = true := by
  cases r with
  | ok a c => simpa [Res.within] using hQ a c h
  | err msg c => simpa [Res.within, Run] using h
  | fuel => rfl
  | oob => exact h.elim

theorem parseProgramLoop_within (ts : List Token) :
    ∀ (n c : Nat) (decls : List Stmt) (errs : List ErrorReport), c ≤ ts.length →
      16 * (ts.length - c) + 12 ≤ n →
      ∃ p e c', parseProgramLoop n ts c decls errs = Res.ok (p, e) c' ∧ c ≤ c' ∧
        c' ≤ ts.length := by
  intro n
  induction n with
  | zero => intro c _ _ _ h; omega
  | succ n IH =>
    intro c decls errs hc hn
    rw [parseProgramLoop]
    cases hb : isAtEndAt ts c
    · simp only [Bool.not_false, ↓reduceIte]
      have h3 := isAtEndAt_false hb
      have h := run_parseDeclaration ts n c hc
      cases hd : parseDeclaration n ts c with
      | ok d c1 =>
        rw [hd] at h
        simp only [Run] at h
        obtain ⟨p, e, c', h1, h2, h4⟩ := IH c1 (decls ++ [d]) errs h.2 (by omega)
        exact ⟨p, e, c', h1, by omega, h4⟩
      | err msg c1 =>
        rw [hd] at h
        simp only [Run] at h
        obtain ⟨c2, h5, h6, h7⟩ := synchronize_ok ts c1 h.2
        simp only [h5]
        have h8 := advanceAt_le ts c1
        have h9 : c + 1 ≤ c2 := by
          by_cases hcc : c1 = c
          · subst hcc
            simp only [advanceAt, hb, Bool.not_false, ↓reduceIte] at h6
            exact h6
          · omega
        obtain ⟨p, e, c', h1, h2, h4⟩ := IH c2 decls (errs ++ [reportError ts c1 msg]) h7
          (by omega)
        exact ⟨p, e, c', h1, by omega, h4⟩
      | fuel =>
        rw [hd] at h
        simp only [Run] at h
        omega
      | oob =>
        rw [hd] at h
        exact h.elim
    · simp only [Bool.not_true, Bool.false_eq_true, ↓reduceIte]
      exact ⟨_, _, _, rfl, Nat.le_refl c, hc⟩

/-- C40.  On every token sequence `parseProgram` returns a program with the
cursor at most the length of the vector, and not the result that stands for a
read of `tokens_[current_ - 1]` or a decrement outside the vector.  From every
cursor `c` within the vector, each of `parseDeclaration`, `parseStatement`,
`parseExpression`, the initializer clause of `parseForStatement` and
`synchronize` ends, with a result or an error, with the cursor between `c` and
the length, and makes no such access either.  The token at the cursor is read
only below the length: where `isAtEnd` is false the cursor is below the length,
and from the length on `currentToken` is the static end-of-file token.  A read
of `tokens_[current_ - 1]` is in bounds exactly when the cursor is at least 1
and at most the length.  The decrement in `parseForStatement` follows a
statement that has moved the cursor forward, so it stays at or after the
position behind the opening parenthesis. -/
theorem token_accesses_in_bounds (ts : List Token) (n c : Nat) (hc : c ≤ ts.length) :
    (∃ p e c', parseProgram ts = Res.ok (p, e) c' ∧ c' ≤ ts.length) ∧
    ((parseDeclaration n ts c).within c ts.length = true ∧
      (parseStatement n ts c).within c ts.length = true ∧
      (parseExpression n ts c).within c ts.length = true ∧
      (parseForInit n ts c).within c ts.length = true ∧
      (synchronize ts c).within c ts.length = true) ∧
    ((isAtEndAt ts c = false → c < ts.length) ∧
      ∀ j, ts.length ≤ j → isAtEndAt ts j = true ∧ currentTokenAt ts j = eofToken) ∧
    (∀ j, (previousToken ts j ≠ Res.oob ↔ 1 ≤ j ∧ j ≤ ts.length) ∧
      (decrementCurrent ts j ≠ Res.oob ↔ 1 ≤ j)) ∧
    (∀ s c1, parseStatement n ts c = Res.ok s c1 →
      decrementCurrent ts c1 = Res.ok () (c1 - 1) ∧ c ≤ c1 - 1 ∧ c1 - 1 < ts.length) := by
  refine ⟨?_, ⟨?_, ?_, ?_, ?_, ?_⟩, ⟨isAtEndAt_false, fun j hj => ?_⟩, fun j => ⟨?_, ?_⟩,
    fun s c1 h => ?_⟩
  · obtain ⟨p, e, c', h1, _, h3⟩ := parseProgramLoop_within ts (parseFuel ts) 0 [] []
      (Nat.zero_le _) (by unfold parseFuel; omega)
    exact ⟨p, e, c', h1, h3⟩
  · exact within_of_run (run_parseDeclaration ts n c hc) fun _ _ h => ⟨by omega, h.2⟩
  · exact within_of_run ((runAll n ts).parseStatement c hc) fun _ _ h => ⟨by omega, h.2⟩
  · exact within_of_run ((runAll n ts).parseExpression c hc) fun _ _ h => ⟨by omega, h.2⟩
  · exact within_of_run ((runAll n ts).parseForInit c hc) fun _ _ h => ⟨by omega, h.2⟩
  · obtain ⟨c', h1, h2, h3⟩ := synchronize_ok ts c hc
    have h4 := (advanceAt_le ts c).1
    simp only [h1, Res.within, Bool.and_eq_true, decide_eq_true_eq]
    omega
  · have h1 : isAtEndAt ts j = true := by
      simp only [isAtEndAt, List.getElem?_eq_none hj]
    exact ⟨h1, by simp only [currentTokenAt, h1, ↓reduceIte]⟩
  · simp only [previousToken]
    by_cases h0 : j = 0
    · simp [h0]
    · by_cases h1 : j - 1 < ts.length
      · simp only [h0, ↓reduceIte, List.getElem?_eq_getElem h1, ne_eq, reduceCtorEq,
          not_false_eq_true, true_iff]
        omega
      · simp only [h0, ↓reduceIte, List.getElem?_eq_none (Nat.le_of_not_lt h1), ne_eq,
          not_true_eq_false, false_iff]
        omega
  · simp only [decrementCurrent]
    by_cases h0 : j = 0
    · simp [h0]
    · simp only [h0, ↓reduceIte, ne_eq, reduceCtorEq, not_false_eq_true, true_iff]
      omega
  · have h1 := (runAll n ts).parseStatement c hc
    rw [h] at h1
    simp only [Run] at h1
    refine ⟨?_, by omega, by omega⟩
    simp only [decrementCurrent, show c1 ≠ 0 by omega, ↓reduceIte]

theorem token_accesses_in_bounds_witness :
    (∃ p e c', parseProgram (tokenize "for (i = 0; ; ) ; x".toList) = Res.ok (p, e) c' ∧
      c' ≤ (tokenize "for (i = 0; ; ) ; x".toList).length) ∧
    (parseForInit 100 (tokenize "for (i = 0; ; ) ; x".toList) 2).within 2
      (tokenize "for (i = 0; ; ) ; x".toList).length = true :=
  ⟨(token_accesses_in_bounds (tokenize "for (i = 0; ; ) ; x".toList) 100 2 (by decide)).1,
    (token_accesses_in_bounds (tokenize "for (i = 0; ; ) ; x".toList) 100 2
      (by decide)).2.1.2.2.2.1⟩

end sdl
